import Mathlib

/-! Static binary translator for OpenISA: register numbering and instruction lowering.

A shallow embedding of `tools/interpreter/InterpUtils.cpp` (register conversion
helpers) and `tools/static-bt/OiInstTranslate.cpp` (operand resolvers and opcode
handlers), together with the properties established about them.
-/

set_option maxRecDepth 100000
set_option maxHeartbeats 4000000

namespace Mips

/-- Register identifiers of the `Mips::` enumeration that the translator names.  The
numeric values of the enumerators come from a generated header that is not part of the
sources; only their distinctness matters.  Every enumerator the translator does not name
is `other n`. -/
inductive Reg where
  | ZERO | AT | V0 | V1 | A0 | A1 | A2 | A3 | T0 | T1 | T2 | T3 | T4 | T5 | T6 | T7 | S0 | S1
  | S2 | S3 | S4 | S5 | S6 | S7 | T8 | T9 | K0 | K1 | GP | SP | FP | RA | ZERO_64 | AT_64
  | V0_64 | V1_64 | A0_64 | A1_64 | A2_64 | A3_64 | T0_64 | T1_64 | T2_64 | T3_64 | T4_64
  | T5_64 | T6_64 | T7_64 | S0_64 | S1_64 | S2_64 | S3_64 | S4_64 | S5_64 | S6_64 | S7_64
  | T8_64 | T9_64 | K0_64 | K1_64 | GP_64 | SP_64 | FP_64 | RA_64 | R32 | R33 | R34 | R35 | R36
  | R37 | R38 | R39 | R40 | R41 | R42 | R43 | R44 | R45 | R46 | R47 | R48 | R49 | R50 | R51
  | R52 | R53 | R54 | R55 | R56 | R57 | R58 | R59 | R60 | R61 | R62 | R63 | D0 | F0 | F1 | D1
  | F2 | F3 | D2 | F4 | F5 | D3 | F6 | F7 | D4 | F8 | F9 | D5 | F10 | F11 | D6 | F12 | F13 | D7
  | F14 | F15 | D8 | F16 | F17 | D9 | F18 | F19 | D10 | F20 | F21 | D11 | F22 | F23 | D12 | F24
  | F25 | D13 | F26 | F27 | D14 | F28 | F29 | D15 | F30 | F31 | D16 | F32 | F33 | D17 | F34
  | F35 | D18 | F36 | F37 | D19 | F38 | F39 | D20 | F40 | F41 | D21 | F42 | F43 | D22 | F44
  | F45 | D23 | F46 | F47 | D24 | F48 | F49 | D25 | F50 | F51 | D26 | F52 | F53 | D27 | F54
  | F55 | D28 | F56 | F57 | D29 | F58 | F59 | D30 | F60 | F61 | D31 | F62 | F63
  | other (n : Nat)

end Mips

/-- Source: `conv32` of InterpUtils.cpp: maps each 64-bit alias to its 32-bit register and is
the `return regnum` fall-through everywhere else. -/
def conv32 (regnum : Mips.Reg) : Mips.Reg :=
  match regnum with
  | .AT_64 => .AT
  | .FP_64 => .FP
  | .SP_64 => .SP
  | .RA_64 => .RA
  | .ZERO_64 => .ZERO
  | .GP_64 => .GP
  | .A0_64 => .A0
  | .A1_64 => .A1
  | .A2_64 => .A2
  | .A3_64 => .A3
  | .V0_64 => .V0
  | .V1_64 => .V1
  | .S0_64 => .S0
  | .S1_64 => .S1
  | .S2_64 => .S2
  | .S3_64 => .S3
  | .S4_64 => .S4
  | .S5_64 => .S5
  | .S6_64 => .S6
  | .S7_64 => .S7
  | .K0_64 => .K0
  | .K1_64 => .K1
  | .T0_64 => .T0
  | .T1_64 => .T1
  | .T2_64 => .T2
  | .T3_64 => .T3
  | .T4_64 => .T4
  | .T5_64 => .T5
  | .T6_64 => .T6
  | .T7_64 => .T7
  | .T8_64 => .T8
  | .T9_64 => .T9
  | r => r

/-- Source: `ConvFromDirective` of InterpUtils.cpp; `none` is the `llvm_unreachable` arm. -/
def ConvFromDirective (regnum : Nat) : Option Mips.Reg :=
  match regnum with
  | 0 => some .ZERO
  | 1 => some .AT
  | 4 => some .A0
  | 5 => some .A1
  | 6 => some .A2
  | 7 => some .A3
  | 2 => some .V0
  | 3 => some .V1
  | 16 => some .S0
  | 17 => some .S1
  | 18 => some .S2
  | 19 => some .S3
  | 20 => some .S4
  | 21 => some .S5
  | 22 => some .S6
  | 23 => some .S7
  | 26 => some .K0
  | 27 => some .K1
  | 29 => some .SP
  | 30 => some .FP
  | 28 => some .GP
  | 31 => some .RA
  | 8 => some .T0
  | 9 => some .T1
  | 10 => some .T2
  | 11 => some .T3
  | 12 => some .T4
  | 13 => some .T5
  | 14 => some .T6
  | 15 => some .T7
  | 24 => some .T8
  | 25 => some .T9
  | _ => none

/-- Source: `ConvToDirective` of InterpUtils.cpp; `none` is the `llvm_unreachable("Invalid
register")` arm reached when no `case` matches. -/
def ConvToDirective (regnum : Mips.Reg) : Option Nat :=
  match regnum with
  | .ZERO => some 0
  | .AT => some 1
  | .A0 => some 4
  | .A1 => some 5
  | .A2 => some 6
  | .A3 => some 7
  | .V0 => some 2
  | .V1 => some 3
  | .S0 => some 16
  | .S1 => some 17
  | .S2 => some 18
  | .S3 => some 19
  | .S4 => some 20
  | .S5 => some 21
  | .S6 => some 22
  | .S7 => some 23
  | .K0 => some 26
  | .K1 => some 27
  | .SP => some 29
  | .FP => some 30
  | .GP => some 28
  | .RA => some 31
  | .T0 => some 8
  | .T1 => some 9
  | .T2 => some 10
  | .T3 => some 11
  | .T4 => some 12
  | .T5 => some 13
  | .T6 => some 14
  | .T7 => some 15
  | .T8 => some 24
  | .T9 => some 25
  | .R32 => some 32
  | .R33 => some 33
  | .R34 => some 34
  | .R35 => some 35
  | .R36 => some 36
  | .R37 => some 37
  | .R38 => some 38
  | .R39 => some 39
  | .R40 => some 40
  | .R41 => some 41
  | .R42 => some 42
  | .R43 => some 43
  | .R44 => some 44
  | .R45 => some 45
  | .R46 => some 46
  | .R47 => some 47
  | .R48 => some 48
  | .R49 => some 49
  | .R50 => some 50
  | .R51 => some 51
  | .R52 => some 52
  | .R53 => some 53
  | .R54 => some 54
  | .R55 => some 55
  | .R56 => some 56
  | .R57 => some 57
  | .R58 => some 58
  | .R59 => some 59
  | .R60 => some 60
  | .R61 => some 61
  | .R62 => some 62
  | .R63 => some 63
  | .D0 | .F0 => some 34
  | .F1 => some 35
  | .D1 | .F2 => some 36
  | .F3 => some 37
  | .D2 | .F4 => some 38
  | .F5 => some 39
  | .D3 | .F6 => some 40
  | .F7 => some 41
  | .D4 | .F8 => some 42
  | .F9 => some 43
  | .D5 | .F10 => some 44
  | .F11 => some 45
  | .D6 | .F12 => some 46
  | .F13 => some 47
  | .D7 | .F14 => some 48
  | .F15 => some 49
  | .D8 | .F16 => some 50
  | .F17 => some 51
  | .D9 | .F18 => some 52
  | .F19 => some 53
  | .D10 | .F20 => some 54
  | .F21 => some 55
  | .D11 | .F22 => some 56
  | .F23 => some 57
  | .D12 | .F24 => some 58
  | .F25 => some 59
  | .D13 | .F26 => some 60
  | .F27 => some 61
  | .D14 | .F28 => some 62
  | .F29 => some 63
  | .D15 | .F30 => some 64
  | .F31 => some 65
  | .D16 | .F32 => some 66
  | .F33 => some 67
  | .D17 | .F34 => some 68
  | .F35 => some 69
  | .D18 | .F36 => some 70
  | .F37 => some 71
  | .D19 | .F38 => some 72
  | .F39 => some 73
  | .D20 | .F40 => some 74
  | .F41 => some 75
  | .D21 | .F42 => some 76
  | .F43 => some 77
  | .D22 | .F44 => some 78
  | .F45 => some 79
  | .D23 | .F46 => some 80
  | .F47 => some 81
  | .D24 | .F48 => some 82
  | .F49 => some 83
  | .D25 | .F50 => some 84
  | .F51 => some 85
  | .D26 | .F52 => some 86
  | .F53 => some 87
  | .D27 | .F54 => some 88
  | .F55 => some 89
  | .D28 | .F56 => some 90
  | .F57 => some 91
  | .D29 | .F58 => some 92
  | .F59 => some 93
  | .D30 | .F60 => some 94
  | .F61 => some 95
  | .D31 | .F62 => some 96
  | .F63 => some 97
  | _ => none

/-- Source: `ConvToDirectiveDbl` of InterpUtils.cpp: `(ConvToDirective(regnum) - 34) >> 1` in
`unsigned` (32-bit, wrapping) arithmetic. -/
def ConvToDirectiveDbl (regnum : Mips.Reg) : Option Nat :=
  (ConvToDirective regnum).map fun d => ((d + 2 ^ 32 - 34) % 2 ^ 32) >>> 1

/-- Source: `GetInstructionSize` of InterpUtils.cpp. -/
def GetInstructionSize : Nat := 8

/-- The specification's directive numbering, read as a table from number to register:
0=ZERO, 1=AT, 2-3=V0-V1, 4-7=A0-A3, 8-15=T0-T7, 16-23=S0-S7, 24-25=T8-T9, 26-27=K0-K1,
28=GP, 29=SP, 30=FP, 31=RA. -/
def gpr (k : Fin 32) : Mips.Reg :=
  match k.val with
  | 0 => .ZERO
  | 1 => .AT
  | 2 => .V0
  | 3 => .V1
  | 4 => .A0
  | 5 => .A1
  | 6 => .A2
  | 7 => .A3
  | 8 => .T0
  | 9 => .T1
  | 10 => .T2
  | 11 => .T3
  | 12 => .T4
  | 13 => .T5
  | 14 => .T6
  | 15 => .T7
  | 16 => .S0
  | 17 => .S1
  | 18 => .S2
  | 19 => .S3
  | 20 => .S4
  | 21 => .S5
  | 22 => .S6
  | 23 => .S7
  | 24 => .T8
  | 25 => .T9
  | 26 => .K0
  | 27 => .K1
  | 28 => .GP
  | 29 => .SP
  | 30 => .FP
  | _ => .RA

/-- The specification's `alias_64`: the 64-bit alias `r_64` of a general-purpose
register `r`. -/
def alias_64 (r : Mips.Reg) : Mips.Reg :=
  match r with
  | .ZERO => .ZERO_64
  | .AT => .AT_64
  | .V0 => .V0_64
  | .V1 => .V1_64
  | .A0 => .A0_64
  | .A1 => .A1_64
  | .A2 => .A2_64
  | .A3 => .A3_64
  | .T0 => .T0_64
  | .T1 => .T1_64
  | .T2 => .T2_64
  | .T3 => .T3_64
  | .T4 => .T4_64
  | .T5 => .T5_64
  | .T6 => .T6_64
  | .T7 => .T7_64
  | .S0 => .S0_64
  | .S1 => .S1_64
  | .S2 => .S2_64
  | .S3 => .S3_64
  | .S4 => .S4_64
  | .S5 => .S5_64
  | .S6 => .S6_64
  | .S7 => .S7_64
  | .T8 => .T8_64
  | .T9 => .T9_64
  | .K0 => .K0_64
  | .K1 => .K1_64
  | .GP => .GP_64
  | .SP => .SP_64
  | .FP => .FP_64
  | .RA => .RA_64
  | r => r

/-! The IR the translator emits -/

namespace ELF

/-- Relocation type numbers from `llvm/Support/ELF.h` (the values of the MIPS ELF ABI). -/
def R_MIPS_HI16 : Nat := 5

/-- See `R_MIPS_HI16`. -/
def R_MIPS_LO16 : Nat := 6

/-- See `R_MIPS_HI16`. -/
def R_MICROMIPS_HI16 : Nat := 134

/-- See `R_MIPS_HI16`. -/
def R_MICROMIPS_LO16 : Nat := 135

end ELF

/-- IR types that occur in the modelled handlers. -/
inductive Ty where
  | int (bits : Nat)
  | float
  | double
  | ptrTo (t : Ty)
  deriving DecidableEq, Repr

/-- Binary operators of the IR builder. -/
inductive BinOp where
  | add | sub | mul | shl | lshr | ashr | and | or | xor
  | sdiv | srem | udiv | urem
  deriving DecidableEq, Repr

/-- Cast operators of the IR builder. -/
inductive CastOp where
  | trunc | sext | zext | bitcast | ptrtoint | inttoptr
  deriving DecidableEq, Repr

/-- Floating-point comparison predicates used by the compare handlers. -/
inductive FCmpPred where
  | uno | oeq | ueq | olt | ult | ole | ule
  deriving DecidableEq, Repr

/-- Integer comparison predicates. -/
inductive ICmpPred where
  | eq | ne | slt | sle | sgt | sge | ult
  deriving DecidableEq, Repr

/-- LLVM `Constant`s.  `int bits v` is a `ConstantInt` (with `v < 2 ^ bits`), `fp` a
`ConstantFP` given by its bit pattern, `shadowBase` is
`ptrtoint (IREmitter.ShadowImageValue) to i32` (the specification calls the shadow image
pointer a constant), `sym n` is any other opaque constant, `funcAddr a` is the address of
the translated function for guest address `a` that `IREmitter.HandleGetFunctionAddr(a)`
returns, and `binop`/`cast`/`icmp` are
constant expressions that are not folded to a number (`fcmp` and `select` likewise). -/
inductive Const where
  | int (bits : Nat) (v : Nat)
  | fp (pattern : Nat)
  | shadowBase
  | sym (n : Nat)
  | funcAddr (a : Nat)
  | binop (op : BinOp) (a b : Const)
  | cast (op : CastOp) (a : Const) (ty : Ty)
  | icmp (p : ICmpPred) (a b : Const)
  | fcmp (p : FCmpPred) (a b : Const)
  | select (c a b : Const)
  deriving DecidableEq, Repr

/-- Two's-complement reading of a `bits`-wide pattern. -/
def toSigned (bits : Nat) (v : Nat) : Int :=
  if v < 2 ^ (bits - 1) then (v : Int) else (v : Int) - (2 : Int) ^ bits

/-- Wrap an integer to a `bits`-wide pattern. -/
def ofSigned (bits : Nat) (i : Int) : Nat :=
  (i % (2 : Int) ^ bits).toNat

/-- Numeric result of a binary operator on two `bits`-wide patterns, where the constant
folder produces a number (`none`: the folder yields `undef` or a poison-like value, kept
symbolic here). -/
def evalBinOp (op : BinOp) (bits x y : Nat) : Option Nat :=
  match op with
  | .add => some ((x + y) % 2 ^ bits)
  | .sub => some ((x + 2 ^ bits - y % 2 ^ bits) % 2 ^ bits)
  | .mul => some ((x * y) % 2 ^ bits)
  | .and => some (x &&& y)
  | .or => some (x ||| y)
  | .xor => some (x ^^^ y)
  | .shl => if y < bits then some ((x <<< y) % 2 ^ bits) else none
  | .lshr => if y < bits then some (x >>> y) else none
  | .ashr => if y < bits then some (ofSigned bits (toSigned bits x >>> y)) else none
  | .udiv => if y = 0 then none else some (x / y)
  | .urem => if y = 0 then none else some (x % y)
  | .sdiv =>
      if y = 0 ∨ (x = 2 ^ (bits - 1) ∧ y = 2 ^ bits - 1) then none
      else some (ofSigned bits (Int.tdiv (toSigned bits x) (toSigned bits y)))
  | .srem =>
      if y = 0 ∨ (x = 2 ^ (bits - 1) ∧ y = 2 ^ bits - 1) then none
      else some (ofSigned bits (Int.tmod (toSigned bits x) (toSigned bits y)))

/-- Source: `ConstantExpr::get<Op>` / the builder's constant folder on two constants. -/
def Const.fold (op : BinOp) (a b : Const) : Const :=
  match a, b with
  | .int w x, .int _ y =>
      match evalBinOp op w x y with
      | some v => .int w v
      | none => .binop op a b
  | _, _ => .binop op a b

/-- The outcome of an `icmp` on two `bits`-wide patterns. -/
def evalICmp (p : ICmpPred) (bits x y : Nat) : Bool :=
  match p with
  | .eq => decide (x = y)
  | .ne => decide (x ≠ y)
  | .slt => decide (toSigned bits x < toSigned bits y)
  | .sle => decide (toSigned bits x ≤ toSigned bits y)
  | .sgt => decide (toSigned bits x > toSigned bits y)
  | .sge => decide (toSigned bits x ≥ toSigned bits y)
  | .ult => decide (x < y)

/-- Source: `ConstantExpr::getICmp` / the builder's constant folder on a comparison of two
constants: an `i1` constant when both are numbers, kept symbolic otherwise. -/
def Const.foldICmp (p : ICmpPred) (a b : Const) : Const :=
  match a, b with
  | .int w x, .int _ y => .int 1 (if evalICmp p w x y then 1 else 0)
  | _, _ => .icmp p a b

/-- The constant folder on a cast of a constant. -/
def Const.foldCast (op : CastOp) (a : Const) (ty : Ty) : Const :=
  match op, a, ty with
  | .trunc, .int _ x, .int n => .int n (x % 2 ^ n)
  | .zext, .int _ x, .int n => .int n x
  | .sext, .int w x, .int n => .int n (ofSigned n (toSigned w x))
  | _, _, _ => .cast op a ty

/-- Basic blocks the translator refers to: the block `IREmitter.CreateBB(a)` returns for
guest address `a`, the block `IREmitter.HandleBackEdge(a, Target)` hands back, and blocks
made directly with `BasicBlock::Create`. -/
inductive BasicBlock where
  | atAddr (a : Nat)
  | backEdge (a : Nat)
  | fresh (n : Nat)
  deriving DecidableEq, Repr

/-- IR values (`Value *`, non-null).  `inst id` is the instruction emitted as number `id`;
`reg n` and `dblReg n` are the register cells `IREmitter.Regs[n]` and
`IREmitter.DblRegs[n]`; `spillSlot i` is the pointer to spill-arena slot `i`. -/
inductive Value where
  | const (c : Const)
  | inst (id : Nat)
  | reg (n : Nat)
  | dblReg (n : Nat)
  | spillSlot (idx : Nat)
  deriving DecidableEq, Repr

/-- Instructions placed by the `Builder.Create*` calls, with their operands.  The pointer
of a store is kept as the caller passes it, so a null pointer is `none`.  The last two
stand for IR placed by the emitter: `shadowAccess` for what
`IREmitter.AccessShadowMemory(addr, IsLoad, width, isFloat, First)` builds, and
`exitCheckpoint` for an instruction of a `HandleFunctionExitPoint` checkpoint, and
`entryCheckpoint` for one of a `HandleFunctionEntryPoint` checkpoint. -/
inductive Instr where
  | load (ptr : Value)
  | store (val : Value) (ptr : Option Value)
  | binop (op : BinOp) (l r : Value)
  | cast (op : CastOp) (v : Value) (ty : Ty)
  | icmp (p : ICmpPred) (l r : Value)
  | condBr (c : Value) (t f : BasicBlock)
  | br (t : BasicBlock)
  | unreachable
  | fcmp (p : FCmpPred) (l r : Value)
  | select (c a b : Value)
  | retVoid
  | shadowAccess (addr : Value) (IsLoad : Bool) (width : Nat) (isFloat : Bool)
  | exitCheckpoint (Count : Nat)
  | entryCheckpoint
  deriving DecidableEq, Repr

/-- Whether an emitted instruction is a store. -/
def Instr.isStore : Instr → Bool
  | .store _ _ => true
  | _ => false

/-- Whether an emitted instruction is a load. -/
def Instr.isLoad : Instr → Bool
  | .load _ => true
  | _ => false

/-- Source: `isa<Constant>(v)`. -/
def Value.isConstant : Value → Bool
  | .const _ => true
  | _ => false

/-- Source: `p && isa<Instruction>(p)` for a possibly-null `Value *`. -/
def isaInstruction : Option Value → Bool
  | some (.inst _) => true
  | _ => false

/-- Source: `GetFirstInstruction(o0, o1)` of InterpUtils.cpp. -/
def GetFirstInstruction2 (o0 o1 : Option Value) : Option Value :=
  if isaInstruction o0 then o0 else o1

/-- Source: `GetFirstInstruction(o0, o1, o2)`. -/
def GetFirstInstruction3 (o0 o1 o2 : Option Value) : Option Value :=
  if isaInstruction o0 then o0 else if isaInstruction o1 then o1 else o2

/-- Source: `GetFirstInstruction(o0, o1, o2, o3)`. -/
def GetFirstInstruction4 (o0 o1 o2 o3 : Option Value) : Option Value :=
  if isaInstruction o0 then o0 else if isaInstruction o1 then o1
  else if isaInstruction o2 then o2 else o3

/-- Source: `GetFirstInstruction(o0, o1, o2, o3, o4)`. -/
def GetFirstInstruction5 (o0 o1 o2 o3 o4 : Option Value) : Option Value :=
  if isaInstruction o0 then o0 else if isaInstruction o1 then o1
  else if isaInstruction o2 then o2 else if isaInstruction o3 then o3 else o4

/-! Decoded instructions, translator state and collaborators -/

/-- Decoded operands (`MCOperand`): a register, a 64-bit signed immediate, a
floating-point immediate (by bit pattern), an expression, or an invalid operand. -/
inductive MCOperand where
  | reg (r : Mips.Reg)
  | imm (i : Int)
  | fpImm (pattern : Nat)
  | expr
  | invalid

/-- The opcodes whose `case` arms of `printInstruction` are embedded below. -/
inductive Opcode where
  | ADDiu | ADDu | SUBu | BREAK | MUL_OI | MULU_OI | DIV_OI | DIVU_OI | TEQ
  | BC1T | BC1F | J | SLL | SLLV | LDI | LDIHI | IJMPHI | NOP
  | C_UN_D32 | C_EQ_D32 | C_UEQ_D32 | C_OLT_D32 | C_ULT_D32 | C_OLE_D32 | C_ULE_D32
  | C_UN_S | C_EQ_S | C_UEQ_S | C_OLT_S | C_ULT_S | C_OLE_S | C_ULE_S
  | MOVN_I_I | MOVZ_I_I | MOVN_I_D32 | MOVZ_I_D32 | MOVN_I_S | MOVZ_I_S
  | SLT | SLTi | SLTu | SLTiu | LW | JR
  | JALR | MFLC1_D32 | MFHC1_D32 | MTHC1_D32 | MTLC1_D32 | LWL | LWR | SWL | SWR
  deriving DecidableEq, Repr

/-- A decoded instruction (`MCInst`). -/
structure MCInst where
  Opcode : Opcode
  Operands : List MCOperand

/-- Source: `MI->getOperand(i)`; an index past the operand list reads as an invalid operand. -/
def MCInst.getOperand (MI : MCInst) (i : Nat) : MCOperand :=
  MI.Operands.getD i MCOperand.invalid

/-- The ways translation aborts: `llvm_unreachable` arms and failed `assert`s of the
translator, each named after its message. -/
inductive Err where
  | invalidRegister
  | invalidSrcOperand
  | invalidDstOperand
  | notAConstant
  | funcAddrNotConstantInt
  | unrecognizedBranchTarget
  | unrecognizedFunctionCall
  | invalidCallCount
  | ldihiNotFused
  | invalidLDISrcOperand
  | invalidLDIHIOperand
  | needToReworkMapLogic
  | nullConstantOperand
  | nullPointerOperand
  | unsupportedRelocation
  | invalidSpilledOperand
  | notARegister
  | unimplementedFCmpOperand
  | unrecognizedFCmpOperand
  | processIndirectJumpsFailed
  | comdatSymbolMissing
  | relocationTypeError
  | shadowImageOutOfBounds
  deriving DecidableEq, Repr

/-- The out-parameters and return value of
`RelocReader.ResolveRelocation(Value *&V0, uint64_t *reltype, bool *UndefinedSymbol,
bool *IsFuncAddr, bool)`.  The reader used by the translator is not among the sources,
so its answer for the current address is taken as given. -/
structure RelocValue where
  found : Bool
  V0 : Option Value
  reltype : Nat
  UndefinedSymbol : Bool
  IsFuncAddr : Bool

/-- Mode flags and the collaborators of the translator whose code is not among the
sources, each taken as a function of the current decode address:
`ResolveRelocationValue a` is the value-returning `ResolveRelocation` overload,
`ResolveRelocationAddr a f` the address-returning overload called with final argument
`f` (`none` when it returns false), `CheckRelocation a` the symbol name found by
`CheckRelocation(ri, val)`, and `HandleBackEdge t` the boolean
`IREmitter.HandleBackEdge(t, Target)` returns.  `ResolveRelocationMem a` is the
value-returning overload as the memory resolvers call it, with three arguments (its
`IsFuncAddr` component is not read); `RegTy n` is the IR type of the value held in cell
`IREmitter.Regs[n]`; `ExitCheckpointSize` is the number of IR instructions one
`IREmitter.HandleFunctionExitPoint` checkpoint places, and `EntryCheckpointSize` the
number one `IREmitter.HandleFunctionEntryPoint` checkpoint places. -/
structure Env where
  NoShadow : Bool
  NoLocals : Bool
  OneRegion : Bool
  OptimizeStack : Bool
  AggrOptimizeStack : Bool
  ResolveRelocationValue : Nat → RelocValue
  ResolveRelocationAddr : Nat → Bool → Option Nat
  CheckRelocation : Nat → Option String
  HandleBackEdge : Nat → Bool
  ResolveRelocationMem : Nat → RelocValue
  RegTy : Nat → Ty
  ExitCheckpointSize : Nat
  EntryCheckpointSize : Nat

/-- The function-local `static LastLDIData LDIData` of `printInstruction`. -/
structure LastLDIData where
  DstOperand : Option Value
  SrcOperand : Option Const
  Addr : Nat

/-- Mutable state of the translator and its emitter: the current decode address, the
instructions emitted so far (instruction `id` is entry `id` of `insts`), the read and
write marks, `InsMap`, the LDI record, and the addresses for which `CreateBB` and
`HandleBackEdge` were called.  Further: the read and write marks of the double bank; the
insertion points set with `Builder.SetInsertPoint` (`(k, b)`: from instruction number `k`
on, the builder appends to block `b`); the number of blocks made with
`BasicBlock::Create`; `CurBlockAddr`, `CurFunAddr` and the name of the current function;
`FunctionRetMap`; the pending indirect jumps registered with
`AddIndirectJump(Dummy, src)` as pairs of the dummy's instruction number and `src`; and
the `Count` arguments of the `HandleFunctionExitPoint` calls.  Last: the pending indirect
calls registered with `AddIndirectCall(Dummy, src)`, as pairs of the dummy's instruction
number (none for a null `Instruction *`) and `src`, and the number of instructions emitted
before each `HandleFunctionEntryPoint` call. -/
structure TState where
  CurAddr : Nat
  insts : List Instr
  ReadMap : Nat → Bool
  WriteMap : Nat → Bool
  InsMap : Nat → Option Nat
  LDIData : LastLDIData
  CreatedBBs : List Nat
  BackEdges : List Nat
  DblReadMap : Nat → Bool
  DblWriteMap : Nat → Bool
  InsertPoints : List (Nat × BasicBlock)
  FreshBlocks : Nat
  CurBlockAddr : Nat
  CurFunAddr : Nat
  CurFunName : String
  FunctionRetMap : Nat → Option Nat
  IndirectJumps : List (Option Nat × Value)
  ExitPointCalls : List Nat
  IndirectCalls : List (Option Nat × Value)
  EntryPointCalls : List Nat

/-- The state before anything is translated: nothing emitted, no marks, empty maps and
lists, and `LDIData` with its default member initialisers. -/
def TState.init : TState :=
  { CurAddr := 0, insts := [], ReadMap := fun _ => false, WriteMap := fun _ => false,
    InsMap := fun _ => none, LDIData := { DstOperand := none, SrcOperand := none, Addr := 0 },
    CreatedBBs := [], BackEdges := [],
    DblReadMap := fun _ => false, DblWriteMap := fun _ => false, InsertPoints := [],
    FreshBlocks := 0, CurBlockAddr := 0, CurFunAddr := 0, CurFunName := "",
    FunctionRetMap := fun _ => none, IndirectJumps := [], ExitPointCalls := [],
    IndirectCalls := [], EntryPointCalls := [] }

/-- Instructions emitted between state `s` and a later state `t`. -/
def emittedSince (s t : TState) : List Instr :=
  t.insts.drop s.insts.length

/-- Source: `int64_t` to `uint32_t`. -/
def toU32 (i : Int) : Nat := (i % (2 : Int) ^ 32).toNat

/-- Source: `int64_t` to `uint64_t`. -/
def toU64 (i : Int) : Nat := (i % (2 : Int) ^ 64).toNat

/-- Source: `Builder.getInt32(i)` / `ConstantInt::get(Int32Ty, i)`. -/
def getInt32 (i : Int) : Const := Const.int 32 (toU32 i)

/-- Source: `std::map::operator[]` assignment on a map kept as a function. -/
def setAt {α : Type} (m : Nat → α) (k : Nat) (v : α) : Nat → α :=
  fun j => if j = k then v else m j

/-- Insert an instruction at the builder's cursor; its value is its position. -/
def emit (i : Instr) (s : TState) : Value × TState :=
  (Value.inst s.insts.length, { s with insts := s.insts ++ [i] })

/-- Source: `Builder.CreateLoad(ptr)`. -/
def CreateLoad (ptr : Value) (s : TState) : Value × TState :=
  emit (Instr.load ptr) s

/-- Source: `Builder.CreateStore(val, ptr)`; the pointer is recorded as passed (possibly null). -/
def CreateStore (val : Value) (ptr : Option Value) (s : TState) : Value × TState :=
  emit (Instr.store val ptr) s

/-- Source: `Builder.CreateAdd`, `CreateSub`, `CreateMul`, ... : folded when both operands are
constants, an instruction otherwise. -/
def CreateBinOp (op : BinOp) (l r : Value) (s : TState) : Value × TState :=
  match l, r with
  | .const a, .const b => (Value.const (Const.fold op a b), s)
  | _, _ => emit (Instr.binop op l r) s

/-- Source: `Builder.CreateSExt`, `CreateZExt`, `CreateTrunc`, `CreatePtrToInt`, ... to a type
different from the operand's: folded on a constant, an instruction otherwise. -/
def CreateCast (op : CastOp) (v : Value) (ty : Ty) (s : TState) : Value × TState :=
  match v with
  | .const c => (Value.const (Const.foldCast op c ty), s)
  | _ => emit (Instr.cast op v ty) s

/-- Source: `Builder.CreateICmp*`: folded on two constants, an instruction otherwise. -/
def CreateICmp (p : ICmpPred) (l r : Value) (s : TState) : Value × TState :=
  match l, r with
  | .const a, .const b => (Value.const (Const.foldICmp p a b), s)
  | _, _ => emit (Instr.icmp p l r) s

/-- Source: `IREmitter.CreateBB(a)`: the block for guest address `a`; the call is logged. -/
def CreateBB (a : Nat) (s : TState) : BasicBlock × TState :=
  (BasicBlock.atAddr a, { s with CreatedBBs := s.CreatedBBs ++ [a] })

/-- Modelled from the spec: `IREmitter.AccessSpillMemory(Idx, IsLoad)` is not among the
sources.  The specification describes a spill-arena access for a load as "a load from the
spill-arena slot"; for `IsLoad = false` the slot pointer itself is handed back. -/
def AccessSpillMemory (Idx : Nat) (IsLoad : Bool) (s : TState) : Value × TState :=
  if IsLoad then CreateLoad (Value.spillSlot Idx) s else (Value.spillSlot Idx, s)

/-- Source: `ConvToDirective(conv32(r))`, aborting on an invalid register. -/
def directiveOf (r : Mips.Reg) : Except Err Nat :=
  match ConvToDirective (conv32 r) with
  | some n => .ok n
  | none => .error Err.invalidRegister

/-- Source: `cast<Constant>(V0)` on a possibly-null value. -/
def castConstant (v : Option Value) : Except Err Const :=
  match v with
  | some (.const c) => .ok c
  | _ => .error Err.notAConstant

/-! Operand resolvers -/

/-- Source: `OiInstTranslate::HandleAluSrcOperand(o, V, First)`.  `First` is `none` when the
caller passes a null `Value **`, and `some f` when it points at the `Value *` `f`.
Returns `V`, the updated `*First` and the new state. -/
def HandleAluSrcOperand (env : Env) (o : MCOperand) (First : Option (Option Value))
    (s : TState) : Except Err (Value × Option (Option Value) × TState) :=
  match o with
  | .reg r => do
      let reg ← directiveOf r
      if reg = 0 then
        return (Value.const (Const.int 32 0), First, s)
      else
        let (V, s1) := CreateLoad (Value.reg reg) s
        let s2 := { s1 with ReadMap := setAt s1.ReadMap reg true }
        return (V, First.map (fun f => GetFirstInstruction2 f (some V)), s2)
  | .imm myimm =>
      let rel := env.ResolveRelocationValue s.CurAddr
      if rel.found ∧ (rel.reltype = ELF.R_MIPS_LO16 ∨ rel.reltype = ELF.R_MIPS_HI16 ∨
          rel.reltype = ELF.R_MICROMIPS_LO16 ∨ rel.reltype = ELF.R_MICROMIPS_HI16) then do
        let c ← castConstant rel.V0
        let V0 := Const.fold BinOp.add c (getInt32 myimm)
        let V1 :=
          if env.NoShadow then Const.fold BinOp.add V0 Const.shadowBase
          else if rel.UndefinedSymbol then Const.fold BinOp.sub V0 Const.shadowBase
          else V0
        if rel.reltype = ELF.R_MIPS_LO16 ∨ rel.reltype = ELF.R_MICROMIPS_LO16 then
          return (Value.const V1, First, s)
        else
          return (Value.const (getInt32 0), First, s)
      else if rel.IsFuncAddr then
        match rel.V0 with
        | some (.const (.int _ a)) =>
            if rel.reltype ≠ ELF.R_MIPS_LO16 then
              .ok (Value.const (getInt32 0), First, s)
            else
              .ok (Value.const (Const.funcAddr a), First, s)
        | _ => .error Err.funcAddrNotConstantInt
      else
        .ok (Value.const (getInt32 myimm), First, s)
  | .fpImm p => .ok (Value.const (Const.fp p), First, s)
  | _ => .error Err.invalidSrcOperand

/-- Source: `OiInstTranslate::HandleAluDstOperand(o, V)`; the returned pointer is `none` for the
null pointer. -/
def HandleAluDstOperand (o : MCOperand) (s : TState) : Except Err (Option Value × TState) :=
  match o with
  | .reg r => do
      let reg ← directiveOf r
      if reg = 0 then
        return (none, s)
      else
        return (some (Value.reg reg), { s with WriteMap := setAt s.WriteMap reg true })
  | _ => .error Err.invalidDstOperand

/-- Source: `OiInstTranslate::HandleGetSpilledAddress(o, o2, dst, V, First)`: `none` when it
returns false, otherwise the updated `*First` and state. -/
def HandleGetSpilledAddress (env : Env) (o o2 dst : MCOperand) (First : Option Value)
    (s : TState) : Except Err (Option (Option Value × TState)) :=
  if ¬ (env.OptimizeStack ∨ env.AggrOptimizeStack) then .ok none
  else
    match o, o2, dst with
    | .reg ro, .imm i, .reg rd => do
        let r1 ← directiveOf ro
        let dstReg ← directiveOf rd
        let imm := toU32 i
        if dstReg = 29 ∨ dstReg = 30 then return none
        else if r1 ≠ 29 ∧ r1 ≠ 30 then return none
        else
          let imm := if r1 = 30 then (imm + 100000) % 2 ^ 32 else imm
          let (ptr, s1) := AccessSpillMemory imm false s
          let (castptr, s2) := CreateCast CastOp.ptrtoint ptr (Ty.int 32) s1
          if ¬ env.NoShadow then
            let shadow := Value.const Const.shadowBase
            let (fixed, s3) := CreateBinOp BinOp.sub castptr shadow s2
            let (V, s4) := CreateStore fixed (some (Value.reg dstReg)) s3
            return some (GetFirstInstruction4 First (some ptr) (some castptr) (some V), s4)
          else
            let (V, s3) := CreateStore castptr (some (Value.reg dstReg)) s2
            return some (GetFirstInstruction4 First (some ptr) (some castptr) (some V), s3)
    | _, _, _ => .ok none

/-- The block handed back by a resolved branch target together with the boolean
`HandleBranchTarget` returns. -/
structure BranchTarget where
  ok : Bool
  Target : BasicBlock
  deriving DecidableEq, Repr

/-- The target address `tgtaddr` computed by `HandleBranchTarget` for immediate `imm`:
`uint64_t` arithmetic on `CurAddr + imm` masked to 32 bits for a relative branch, the
immediate itself for an absolute one, plus the relocation value when one resolves. -/
def branchTargetAddr (env : Env) (CurAddr : Nat) (imm : Int) (IsRelative : Bool) : Nat :=
  let tgtaddr :=
    if IsRelative then toU64 ((CurAddr : Int) + imm) &&& 0xFFFFFFFF else toU64 imm
  match env.ResolveRelocationAddr CurAddr false with
  | some rel => (tgtaddr + rel) % 2 ^ 64
  | none => tgtaddr

/-- Source: `OiInstTranslate::HandleBranchTarget(o, Target, IsRelative)`. -/
def HandleBranchTarget (env : Env) (o : MCOperand) (IsRelative : Bool) (s : TState) :
    Except Err (BranchTarget × TState) :=
  match o with
  | .imm i =>
      let tgtaddr := branchTargetAddr env s.CurAddr i IsRelative
      if tgtaddr ≤ s.CurAddr then
        .ok ({ ok := env.HandleBackEdge tgtaddr, Target := BasicBlock.backEdge tgtaddr },
             { s with BackEdges := s.BackEdges ++ [tgtaddr] })
      else
        let (bb, s1) := CreateBB tgtaddr s
        .ok ({ ok := true, Target := bb }, s1)
  | _ => .error Err.unrecognizedBranchTarget

/-! Opcode handlers -/

/-- The closing lines of a handler:
`assert(isa<Instruction>(first) && "Need to rework map logic")` followed by
`IREmitter.InsMap[IREmitter.CurAddr] = dyn_cast<Instruction>(first)`. -/
def recordInsMap (first : Option Value) (s : TState) : Except Err TState :=
  match first with
  | some (.inst id) => .ok { s with InsMap := setAt s.InsMap s.CurAddr (some id) }
  | _ => .error Err.needToReworkMapLogic

/-- The shared shape of the three-operand integer arms (`SUBu`, `SLL`/`SLLV` past the NOP
test, and `ADDiu`/`ADDu` past the spill test): two ALU sources, the ALU destination, one
builder operation, one `CreateStore(v, o0)`. -/
def printAlu3 (env : Env) (op : BinOp) (MI : MCInst) (s : TState) : Except Err TState := do
  let (o1, first, s1) ← HandleAluSrcOperand env (MI.getOperand 1) (some none) s
  let (o2, first, s2) ← HandleAluSrcOperand env (MI.getOperand 2) first s1
  let (o0, s3) ← HandleAluDstOperand (MI.getOperand 0) s2
  let (v, s4) := CreateBinOp op o1 o2 s3
  let (v2, s5) := CreateStore v o0 s4
  recordInsMap (GetFirstInstruction5 first.join (some o1) (some o2) (some v) (some v2)) s5

/-- The `case Mips::ADDiu: case Mips::ADDu:` arm. -/
def printADD (env : Env) (MI : MCInst) (s : TState) : Except Err TState := do
  match ← HandleGetSpilledAddress env (MI.getOperand 1) (MI.getOperand 2) (MI.getOperand 0)
      none s with
  | some (first, s1) => recordInsMap first s1
  | none => printAlu3 env BinOp.add MI s

/-- The `case Mips::MUL_OI: case Mips::MULU_OI:` arm (`signed` for `MUL_OI`). -/
def printMUL (env : Env) (signed : Bool) (MI : MCInst) (s : TState) : Except Err TState := do
  let (o0, first, s1) ← HandleAluSrcOperand env (MI.getOperand 2) (some none) s
  let (o1, first, s2) ← HandleAluSrcOperand env (MI.getOperand 3) first s1
  let (dst1, s3) ← HandleAluDstOperand (MI.getOperand 0) s2
  let (dst2, s4) ← HandleAluDstOperand (MI.getOperand 1) s3
  let ext := if signed then CastOp.sext else CastOp.zext
  let (o0e, s5) := CreateCast ext o0 (Ty.int 64) s4
  let (o1e, s6) := CreateCast ext o1 (Ty.int 64) s5
  let (v, s7) := CreateBinOp BinOp.mul o0e o1e s6
  let (V1, s8) := CreateBinOp BinOp.lshr v (Value.const (Const.int 64 32)) s7
  let (V2, s9) := CreateCast CastOp.trunc V1 (Ty.int 32) s8
  let (V3, s10) := CreateCast CastOp.trunc v (Ty.int 32) s9
  let s11 := match dst2 with
    | some p => (CreateStore V3 (some p) s10).2
    | none => s10
  let s12 := match dst1 with
    | some p => (CreateStore V2 (some p) s11).2
    | none => s11
  recordInsMap (GetFirstInstruction5 first.join (some o0) (some o1) (some o0e) (some o1e)) s12

/-- The `case Mips::DIV_OI: case Mips::DIVU_OI:` arm (`signed` for `DIV_OI`). -/
def printDIV (env : Env) (signed : Bool) (MI : MCInst) (s : TState) : Except Err TState := do
  let (o0, first, s1) ← HandleAluSrcOperand env (MI.getOperand 2) (some none) s
  let (o1, first, s2) ← HandleAluSrcOperand env (MI.getOperand 3) first s1
  let (dst1, s3) ← HandleAluDstOperand (MI.getOperand 0) s2
  let (dst2, s4) ← HandleAluDstOperand (MI.getOperand 1) s3
  let (vmod, s5) := match dst1 with
    | some _ =>
        let (v, t) := CreateBinOp (if signed then BinOp.srem else BinOp.urem) o0 o1 s4
        (some v, t)
    | none => (none, s4)
  let (vdiv, s6) := match dst2 with
    | some _ =>
        let (v, t) := CreateBinOp (if signed then BinOp.sdiv else BinOp.udiv) o0 o1 s5
        (some v, t)
    | none => (none, s5)
  let s7 := match vdiv with
    | some v => (CreateStore v dst2 s6).2
    | none => s6
  let s8 := match vmod with
    | some v => (CreateStore v dst1 s7).2
    | none => s7
  recordInsMap (GetFirstInstruction5 first.join (some o0) (some o1) vmod vdiv) s8

/-- The `case Mips::SLL: case Mips::SLLV:` arm, with its leading test for the canonical
NOP `sll $zero, $zero, 0`. -/
def printSLL (env : Env) (MI : MCInst) (s : TState) : Except Err TState :=
  match MI.getOperand 1 with
  | .reg r1 => do
      let d1 ← directiveOf r1
      match MI.getOperand 2, MI.getOperand 0 with
      | .imm i, .reg r0 =>
          if d1 = 0 ∧ i = 0 then do
            let d0 ← directiveOf r0
            if d0 = 0 then return s else printAlu3 env BinOp.shl MI s
          else printAlu3 env BinOp.shl MI s
      | _, _ => printAlu3 env BinOp.shl MI s
  | _ => printAlu3 env BinOp.shl MI s

/-- The `case Mips::BC1T: case Mips::BC1F:` arm (`isT` for `BC1T`).  The branch target is
resolved with the default `IsRelative` argument of `HandleBranchTarget`, a relative
branch. -/
def printBC1 (env : Env) (isT : Bool) (MI : MCInst) (s : TState) : Except Err TState := do
  let (bt, s1) ← HandleBranchTarget env (MI.getOperand 0) true s
  if bt.ok then
    let s2 := { s1 with ReadMap := setAt s1.ReadMap 258 true }
    let (ld, s3) := CreateLoad (Value.reg 258) s2
    let (cmp, s4) :=
      if isT then CreateCast CastOp.trunc ld (Ty.int 1) s3
      else CreateICmp ICmpPred.eq ld (Value.const (Const.int 32 0)) s3
    let (ft, s5) := CreateBB (s4.CurAddr + GetInstructionSize) s4
    let (_, s6) := emit (Instr.condBr cmp bt.Target ft) s5
    recordInsMap (some cmp) s6
  else
    return s1

/-- The `case Mips::J:` arm. -/
def printJ (env : Env) (MI : MCInst) (s : TState) : Except Err TState := do
  let (bt, s1) ← HandleBranchTarget env (MI.getOperand 0) false s
  if bt.ok then
    let (v, s2) := emit (Instr.br bt.Target) s1
    let s3 ← recordInsMap (some v) s2
    return (CreateBB (s3.CurAddr + GetInstructionSize) s3).2
  else
    return s1

/-- The `case Mips::LDI:` arm: resolve source and destination, then record them with the
current address; nothing is emitted for a constant source. -/
def printLDI (env : Env) (MI : MCInst) (s : TState) : Except Err TState := do
  let (o1, _, s1) ← HandleAluSrcOperand env (MI.getOperand 1) (some none) s
  let (o0, s2) ← HandleAluDstOperand (MI.getOperand 0) s1
  match o1 with
  | .const c =>
      return { s2 with LDIData := { DstOperand := o0, SrcOperand := some c, Addr := s2.CurAddr } }
  | _ => throw Err.invalidLDISrcOperand

/-- The `case Mips::LDIHI:` arm: the adjacency assertion, then one store of
`SrcOperand | (o0 << 14)` to the recorded destination. -/
def printLDIHI (env : Env) (MI : MCInst) (s : TState) : Except Err TState := do
  let (o0, first, s1) ← HandleAluSrcOperand env (MI.getOperand 0) (some none) s
  if s1.LDIData.Addr + 4 ≠ s1.CurAddr then throw Err.ldihiNotFused
  match o0 with
  | .const c =>
      match s1.LDIData.SrcOperand with
      | some lo =>
          let stored := Const.fold BinOp.or lo (Const.fold BinOp.shl c (getInt32 14))
          let (v, s2) := CreateStore (Value.const stored) s1.LDIData.DstOperand s1
          match GetFirstInstruction2 first.join (some v) with
          | some (.inst id) =>
              return { s2 with
                InsMap := setAt (setAt s2.InsMap s2.LDIData.Addr (some id)) s2.CurAddr (some id) }
          | _ => throw Err.needToReworkMapLogic
      | none => throw Err.nullConstantOperand
  | _ => throw Err.invalidLDIHIOperand

/-! Floating-point operands, memory operands and further opcode handlers -/

/-- Source: `Builder.CreateFCmp*`: folded on two constants, an instruction otherwise. -/
def CreateFCmp (p : FCmpPred) (l r : Value) (s : TState) : Value × TState :=
  match l, r with
  | .const a, .const b => (Value.const (Const.fcmp p a b), s)
  | _, _ => emit (Instr.fcmp p l r) s

/-- Source: `Builder.CreateSelect(C, True, False)`: folded when all three are constants, an
instruction otherwise. -/
def CreateSelect (c a b : Value) (s : TState) : Value × TState :=
  match c, a, b with
  | .const cc, .const ca, .const cb => (Value.const (Const.select cc ca cb), s)
  | _, _, _ => emit (Instr.select c a b) s

/-- Source: `Builder.SetInsertPoint(b)`: from the next instruction on the builder appends
to block `b`. -/
def SetInsertPoint (b : BasicBlock) (s : TState) : TState :=
  { s with InsertPoints := s.InsertPoints ++ [(s.insts.length, b)] }

/-- Source: `BasicBlock::Create(getGlobalContext(), "", F)`: a block that did not exist
before. -/
def BasicBlockCreate (s : TState) : BasicBlock × TState :=
  (BasicBlock.fresh s.FreshBlocks, { s with FreshBlocks := s.FreshBlocks + 1 })

/-- Modelled from the spec: `IREmitter.AccessShadowMemory(addr, IsLoad, width, isFloat,
First)` is not among the sources.  The specification describes it as building the host
pointer for guest address `addr` and returning a typed access of the requested width; it
is recorded as one step of the emitted stream, whose value is the loaded value (for a
load) or the typed pointer (for a store), and `*First` is set to it when nothing was
pinned before. -/
def AccessShadowMemory (addr : Value) (IsLoad : Bool) (width : Nat) (isFloat : Bool)
    (First : Option (Option Value)) (s : TState) : Value × Option (Option Value) × TState :=
  let (V, s1) := emit (Instr.shadowAccess addr IsLoad width isFloat) s
  (V, First.map (fun f => GetFirstInstruction2 f (some V)), s1)

/-- Modelled from the spec: `IREmitter.HandleFunctionExitPoint(Count, First)` is not among
the sources.  The specification describes it as the checkpoint that flushes the register
mirrors back to the global register file; the call is logged, `ExitCheckpointSize`
instructions are placed, and `*First` is set to the first of them when there is one and
nothing was pinned before. -/
def HandleFunctionExitPoint (env : Env) (Count : Nat) (First : Option Value) (s : TState) :
    Option Value × TState :=
  let s1 := { s with ExitPointCalls := s.ExitPointCalls ++ [Count] }
  if env.ExitCheckpointSize = 0 then (First, s1)
  else
    (GetFirstInstruction2 First (some (Value.inst s1.insts.length)),
     { s1 with
       insts := s1.insts ++ List.replicate env.ExitCheckpointSize (Instr.exitCheckpoint Count) })

/-- Source: `ConvToDirectiveDbl(conv32(r))`, aborting on an invalid register. -/
def directiveDblOf (r : Mips.Reg) : Except Err Nat :=
  match ConvToDirectiveDbl (conv32 r) with
  | some n => .ok n
  | none => .error Err.invalidRegister

/-- Source: `OiInstTranslate::HandleDoubleSrcOperand(o, V, First)`. -/
def HandleDoubleSrcOperand (o : MCOperand) (First : Option (Option Value)) (s : TState) :
    Except Err (Value × Option (Option Value) × TState) :=
  match o with
  | .reg r => do
      let reg ← directiveDblOf r
      let (V, s1) := CreateLoad (Value.dblReg reg) s
      return (V, First.map (fun f => GetFirstInstruction2 f (some V)),
              { s1 with DblReadMap := setAt s1.DblReadMap reg true })
  | _ => .error Err.invalidSrcOperand

/-- Source: `OiInstTranslate::HandleFloatSrcOperand(o, V, First)`.  The
`CreateBitCast(v, FloatTy)` returns `v` itself when the cell already holds a float and is
a cast instruction otherwise. -/
def HandleFloatSrcOperand (env : Env) (o : MCOperand) (First : Option (Option Value))
    (s : TState) : Except Err (Value × Option (Option Value) × TState) :=
  match o with
  | .reg r => do
      let reg ← directiveOf r
      let (v, s1) := CreateLoad (Value.reg reg) s
      let (V, s2) :=
        if env.RegTy reg = Ty.float then (v, s1) else CreateCast CastOp.bitcast v Ty.float s1
      return (V, First.map (fun f => GetFirstInstruction2 f (some V)),
              { s2 with ReadMap := setAt s2.ReadMap reg true })
  | _ => .error Err.invalidSrcOperand

/-- Source: `OiInstTranslate::HandleDoubleDstOperand(o, V)`. -/
def HandleDoubleDstOperand (o : MCOperand) (s : TState) : Except Err (Value × TState) :=
  match o with
  | .reg r => do
      let reg ← directiveDblOf r
      return (Value.dblReg reg, { s with DblWriteMap := setAt s.DblWriteMap reg true })
  | _ => .error Err.invalidDstOperand

/-- Source: `OiInstTranslate::HandleFloatDstOperand(o, V)`. -/
def HandleFloatDstOperand (o : MCOperand) (s : TState) : Except Err (Value × TState) :=
  match o with
  | .reg r => do
      let reg ← directiveOf r
      return (Value.reg reg, { s with WriteMap := setAt s.WriteMap reg true })
  | _ => .error Err.invalidDstOperand

/-- The base of a memory operand: the constant 0 for register 0, otherwise a load of the
register cell with its read mark (the `if (reg == 0) ... else ...` block that every
memory resolver repeats). -/
def loadBase (reg : Nat) (s : TState) : Value × TState :=
  if reg = 0 then (Value.const (Const.int 32 0), s)
  else
    let (base, s1) := CreateLoad (Value.reg reg) s
    (base, { s1 with ReadMap := setAt s1.ReadMap reg true })

/-- The index constant a memory resolver forms from a LO16-class relocation target `c` and
the immediate: `c + imm`, plus the shadow base under `NoShadow`, minus it for an undefined
symbol otherwise. -/
def relocIndex (env : Env) (c : Const) (imm : Int) (UndefinedSymbol : Bool) : Const :=
  let V0 := Const.fold BinOp.add c (getInt32 imm)
  if env.NoShadow then Const.fold BinOp.add V0 Const.shadowBase
  else if UndefinedSymbol then Const.fold BinOp.sub V0 Const.shadowBase
  else V0

/-- The body of `OiInstTranslate::HandleMemOperand` after its spill redirect, for base
register index `reg` and immediate `imm`. -/
def HandleMemOperandShadow (env : Env) (reg : Nat) (imm : Int)
    (First : Option (Option Value)) (IsLoad : Bool) (width : Nat) (offset : Int) (s : TState) :
    Except Err (Value × Option (Option Value) × TState) :=
  let rel := env.ResolveRelocationMem s.CurAddr
  if rel.found then
    if rel.reltype = ELF.R_MIPS_LO16 ∨ rel.reltype = ELF.R_MICROMIPS_LO16 then do
      let c ← castConstant rel.V0
      let V1 := Value.const (relocIndex env c imm rel.UndefinedSymbol)
      let First1 := First.map (fun f => GetFirstInstruction3 f (some V1) (some V1))
      let (base, s1) := loadBase reg s
      match First1 with
      | none => throw Err.nullPointerOperand
      | some f1 =>
          let f2 := if isaInstruction f1 then f1 else some base
          let (addr, s2) := CreateBinOp BinOp.add base V1 s1
          let f3 := if isaInstruction f2 then f2 else some addr
          return AccessShadowMemory addr IsLoad width false (some f3) s2
    else .error Err.unsupportedRelocation
  else
    let idx := Value.const (getInt32 (imm + offset))
    let (base, s1) := loadBase reg s
    let (addr, s2) := CreateBinOp BinOp.add base idx s1
    let First1 := First.map (fun f => GetFirstInstruction3 f (some base) (some addr))
    .ok (AccessShadowMemory addr IsLoad width false First1 s2)

/-- Source: `OiInstTranslate::HandleMemOperand` without its spill redirect: the operand
shape test, the register index, then the body. -/
def HandleMemOperandNoRedirect (env : Env) (o o2 : MCOperand)
    (First : Option (Option Value)) (IsLoad : Bool) (width : Nat) (offset : Int) (s : TState) :
    Except Err (Value × Option (Option Value) × TState) :=
  match o, o2 with
  | .reg r0, .imm i => do
      let r ← directiveOf r0
      HandleMemOperandShadow env r i First IsLoad width offset s
  | _, _ => .error Err.invalidSrcOperand

/-- The spill-arena index `Idx` of `HandleSpilledOperand` for base register index `reg` and
immediate `imm` at decode address `CurAddr`: the immediate as a `uint64_t`, plus 1000000
for the frame pointer, replaced by the relocation value when one resolves. -/
def spilledIndex (env : Env) (CurAddr : Nat) (reg : Nat) (imm : Int) : Nat :=
  let Idx := if reg = 30 then (toU64 imm + 1000000) % 2 ^ 64 else toU64 imm
  match env.ResolveRelocationAddr CurAddr false with
  | some res => res
  | none => Idx

/-- Source: `OiInstTranslate::HandleSpilledOperand(o, o2, V, First, IsLoad)`.  Its opening
`return HandleMemOperand(o, o2, V, First, IsLoad)` is taken only when `NoLocals` is set or
neither stack flag is, and then the redirect of `HandleMemOperand` is off, so the call is
the resolver without the redirect (default width 32, offset 0). -/
def HandleSpilledOperand (env : Env) (o o2 : MCOperand) (First : Option (Option Value))
    (IsLoad : Bool) (s : TState) : Except Err (Value × Option (Option Value) × TState) :=
  if env.NoLocals ∨ ¬ (env.OptimizeStack ∨ env.AggrOptimizeStack) then
    HandleMemOperandNoRedirect env o o2 First IsLoad 32 0 s
  else
    match o, o2 with
    | .reg r0, .imm i => do
        let reg ← directiveOf r0
        if reg ≠ 29 ∧ reg ≠ 30 then throw Err.invalidSpilledOperand
        let (V, s1) := AccessSpillMemory (spilledIndex env s.CurAddr reg i) IsLoad s
        return (V, First.map (fun f => GetFirstInstruction2 f (some V)), s1)
    | _, _ => .error Err.invalidSpilledOperand

/-- Source: `OiInstTranslate::HandleMemOperand(o, o2, V, First, IsLoad, width, offset)`. -/
def HandleMemOperand (env : Env) (o o2 : MCOperand) (First : Option (Option Value))
    (IsLoad : Bool) (width : Nat) (offset : Int) (s : TState) :
    Except Err (Value × Option (Option Value) × TState) :=
  match o, o2 with
  | .reg r0, .imm i => do
      let r ← directiveOf r0
      if ¬ env.NoLocals ∧ env.AggrOptimizeStack ∧ (r = 29 ∨ r = 30) ∧ width = 32 then
        HandleSpilledOperand env o o2 First IsLoad s
      else
        HandleMemOperandShadow env r i First IsLoad width offset s
  | _, _ => .error Err.invalidSrcOperand

/-- The common text of `OiInstTranslate::HandleDoubleMemOperand` and
`OiInstTranslate::HandleFloatMemOperand`, which differ only in the access they end in
(`width` 64, not float, and `width` 32, float). -/
def HandleFPMemOperand (env : Env) (width : Nat) (isFloat : Bool) (o o2 : MCOperand)
    (First : Option (Option Value)) (IsLoad : Bool) (s : TState) :
    Except Err (Value × Option (Option Value) × TState) :=
  match o, o2 with
  | .reg r0, .imm i =>
      let rel := env.ResolveRelocationMem s.CurAddr
      if rel.found then
        if rel.reltype = ELF.R_MIPS_LO16 then do
          let c ← castConstant rel.V0
          let V1 := Value.const (relocIndex env c i rel.UndefinedSymbol)
          let fixedV0 : Option Value := if env.NoShadow then some V1 else none
          let reg ← directiveOf r0
          let (base, s1) := loadBase reg s
          let (addr, s2) := CreateBinOp BinOp.add base V1 s1
          let First1 := First.map
            (fun f => GetFirstInstruction5 f fixedV0 (some V1) (some base) (some addr))
          return AccessShadowMemory addr IsLoad width isFloat First1 s2
        else .error Err.unsupportedRelocation
      else do
        let idx := Value.const (getInt32 i)
        let reg ← directiveOf r0
        let (base, s1) := loadBase reg s
        let (addr, s2) := CreateBinOp BinOp.add base idx s1
        let First1 := First.map (fun f => GetFirstInstruction3 f (some base) (some addr))
        return AccessShadowMemory addr IsLoad width isFloat First1 s2
  | .reg r0, .reg r2 => do
      let reg ← directiveOf r0
      let reg2 ← directiveOf r2
      let (base, s1) := loadBase reg s
      let (idx, s2) := loadBase reg2 s1
      let (addr, s3) := CreateBinOp BinOp.add base idx s2
      let First1 := First.map
        (fun f => GetFirstInstruction4 f (some base) (some idx) (some addr))
      return AccessShadowMemory addr IsLoad width isFloat First1 s3
  | _, _ => .error Err.invalidSrcOperand

/-- Source: `OiInstTranslate::HandleDoubleMemOperand(o, o2, Low, First, IsLoad)`. -/
def HandleDoubleMemOperand (env : Env) (o o2 : MCOperand) (First : Option (Option Value))
    (IsLoad : Bool) (s : TState) : Except Err (Value × Option (Option Value) × TState) :=
  HandleFPMemOperand env 64 false o o2 First IsLoad s

/-- Source: `OiInstTranslate::HandleFloatMemOperand(o, o2, V, First, IsLoad)`. -/
def HandleFloatMemOperand (env : Env) (o o2 : MCOperand) (First : Option (Option Value))
    (IsLoad : Bool) (s : TState) : Except Err (Value × Option (Option Value) × TState) :=
  HandleFPMemOperand env 32 true o o2 First IsLoad s

/-- The `case Mips::C_UN_D32: ... case Mips::C_ULE_D32:` arm, with `p` the predicate the
inner `switch` picks for the opcode (`C_UN`: UNO, `C_EQ`: OEQ, `C_UEQ`: UEQ, `C_OLT`: OLT,
`C_ULT`: ULT, `C_OLE`: OLE, `C_ULE`: ULE; its `default` label is not among the outer
labels). -/
def printFCMP_D32 (p : FCmpPred) (MI : MCInst) (s : TState) : Except Err TState := do
  let (o0, first, s1) ← HandleDoubleSrcOperand (MI.getOperand 0) (some none) s
  let (o1, _, s2) ← HandleDoubleSrcOperand (MI.getOperand 1) none s1
  let (cmp, s3) := CreateFCmp p o0 o1 s2
  let one := Value.const (Const.int 32 1)
  let zero := Value.const (Const.int 32 0)
  let (select, s4) := CreateSelect cmp one zero s3
  let s5 := { s4 with WriteMap := setAt s4.WriteMap 258 true }
  let (_, s6) := CreateStore select (some (Value.reg 258)) s5
  recordInsMap first.join s6

/-- The `case Mips::C_UN_S: ... case Mips::C_ULE_S:` arm, with `p` the predicate of the
opcode as for the double form. -/
def printFCMP_S (env : Env) (p : FCmpPred) (MI : MCInst) (s : TState) : Except Err TState := do
  let (o0, first, s1) ← HandleFloatSrcOperand env (MI.getOperand 0) (some none) s
  let (o1, _, s2) ← HandleFloatSrcOperand env (MI.getOperand 1) none s1
  let (cmp, s3) := CreateFCmp p o0 o1 s2
  let one := Value.const (Const.int 32 1)
  let zero := Value.const (Const.int 32 0)
  let (select, s4) := CreateSelect cmp one zero s3
  let s5 := { s4 with WriteMap := setAt s4.WriteMap 258 true }
  let (_, s6) := CreateStore select (some (Value.reg 258)) s5
  recordInsMap first.join s6

/-- The tail shared by the three conditional-move arms once the operands are resolved:
`loaddst = CreateLoad(o0)`, `select = CreateSelect(cmp, o1, loaddst)`,
`CreateStore(select, o0)`, then the pinning of the first instruction.  A null `o0` is
dereferenced by `CreateLoad`. -/
def movSelectStore (first : Option (Option Value)) (o0 : Option Value) (o1 o2 cmp : Value)
    (s : TState) : Except Err TState :=
  match o0 with
  | none => .error Err.nullPointerOperand
  | some p =>
      let (loaddst, s1) := CreateLoad p s
      let (select, s2) := CreateSelect cmp o1 loaddst s1
      let (_, s3) := CreateStore select (some p) s2
      recordInsMap
        (GetFirstInstruction5 first.join (some o1) (some o2) (some cmp) (some loaddst)) s3

/-- The `case Mips::MOVN_I_I: case Mips::MOVZ_I_I:` arm. -/
def printMOVNZ_I (env : Env) (MI : MCInst) (s : TState) : Except Err TState := do
  let (o1, first, s1) ← HandleAluSrcOperand env (MI.getOperand 1) (some none) s
  let (o2, first, s2) ← HandleAluSrcOperand env (MI.getOperand 2) first s1
  let (o0, s3) ← HandleAluDstOperand (MI.getOperand 0) s2
  let zero := Value.const (Const.int 32 0)
  let (cmp, s4) :=
    if MI.Opcode = Opcode.MOVN_I_I then CreateICmp ICmpPred.ne o2 zero s3
    else CreateICmp ICmpPred.eq o2 zero s3
  movSelectStore first o0 o1 o2 cmp s4

/-- The `case Mips::MOVN_I_D32: case Mips::MOVZ_I_D32:` arm. -/
def printMOVNZ_D32 (env : Env) (MI : MCInst) (s : TState) : Except Err TState := do
  let (o1, first, s1) ← HandleDoubleSrcOperand (MI.getOperand 1) (some none) s
  let (o2, _, s2) ← HandleAluSrcOperand env (MI.getOperand 2) none s1
  let (o0, s3) ← HandleDoubleDstOperand (MI.getOperand 0) s2
  let zero := Value.const (Const.int 32 0)
  let (cmp, s4) :=
    if MI.Opcode = Opcode.MOVN_I_D32 then CreateICmp ICmpPred.ne o2 zero s3
    else CreateICmp ICmpPred.eq o2 zero s3
  movSelectStore first (some o0) o1 o2 cmp s4

/-- The `case Mips::MOVN_I_S: case Mips::MOVZ_I_S:` arm.  As in the source, the test that
chooses between `ICmpNE` and `ICmpEQ` compares the opcode with `Mips::MOVN_I_D32`. -/
def printMOVNZ_S (env : Env) (MI : MCInst) (s : TState) : Except Err TState := do
  let (o1, first, s1) ← HandleFloatSrcOperand env (MI.getOperand 1) (some none) s
  let (o2, _, s2) ← HandleAluSrcOperand env (MI.getOperand 2) none s1
  let (o0, s3) ← HandleFloatDstOperand (MI.getOperand 0) s2
  let zero := Value.const (Const.int 32 0)
  let (cmp, s4) :=
    if MI.Opcode = Opcode.MOVN_I_D32 then CreateICmp ICmpPred.ne o2 zero s3
    else CreateICmp ICmpPred.eq o2 zero s3
  movSelectStore first (some o0) o1 o2 cmp s4

/-- The `case Mips::SLTiu: case Mips::SLTu: case Mips::SLTi: case Mips::SLT:` arm. -/
def printSLT (env : Env) (MI : MCInst) (s : TState) : Except Err TState := do
  let (o1, first, s1) ← HandleAluSrcOperand env (MI.getOperand 1) (some none) s
  let (o2, first, s2) ← HandleAluSrcOperand env (MI.getOperand 2) first s1
  let (o0, s3) ← HandleAluDstOperand (MI.getOperand 0) s2
  let (BB1, s4) := BasicBlockCreate s3
  let (BB2, s5) := BasicBlockCreate s4
  let (FT, s6) := CreateBB (s5.CurAddr + GetInstructionSize) s5
  let (cmp, s7) :=
    if MI.Opcode = Opcode.SLTiu ∨ MI.Opcode = Opcode.SLTu then CreateICmp ICmpPred.ult o1 o2 s6
    else CreateICmp ICmpPred.slt o1 o2 s6
  let (_, s8) := emit (Instr.condBr cmp BB1 BB2) s7
  let one := Value.const (Const.int 32 1)
  let zero := Value.const (Const.int 32 0)
  let s9 := SetInsertPoint BB1 s8
  let (_, s10) := CreateStore one o0 s9
  let (_, s11) := emit (Instr.br FT) s10
  let s12 := SetInsertPoint BB2 s11
  let (_, s13) := CreateStore zero o0 s12
  let (_, s14) := emit (Instr.br FT) s13
  let s15 := SetInsertPoint FT s14
  let s16 := { s15 with CurBlockAddr := s15.CurAddr + GetInstructionSize }
  recordInsMap (GetFirstInstruction2 first.join (some cmp)) s16

/-- The `case Mips::LW:` arm; the memory operand is resolved with the default width 32 and
offset 0. -/
def printLW (env : Env) (MI : MCInst) (s : TState) : Except Err TState := do
  let (dst, s1) ← HandleAluDstOperand (MI.getOperand 0) s
  let (src, first, s2) ←
    HandleMemOperand env (MI.getOperand 1) (MI.getOperand 2) (some none) true 32 0 s1
  let (_, s3) := CreateStore src dst s2
  recordInsMap first.join s3

/-- The closing lines of both branches of the `JR` arm: the assertion on `first`, the
`CreateBB` for the next address, and the `InsMap` entry. -/
def finishJR (first : Option Value) (s : TState) : Except Err TState :=
  match first with
  | some (.inst id) =>
      let (_, s1) := CreateBB (s.CurAddr + GetInstructionSize) s
      .ok { s1 with InsMap := setAt s1.InsMap s1.CurAddr (some id) }
  | _ => .error Err.needToReworkMapLogic

/-- The `case Mips::JR:` arm.  `getReg()` on an operand that is not a register aborts. -/
def printJR (env : Env) (MI : MCInst) (s : TState) : Except Err TState :=
  match MI.getOperand 0 with
  | .reg r =>
      match r with
      | .RA | .RA_64 => do
          let (first, s1) :=
            if ¬ env.NoLocals ∧ ¬ env.OneRegion ∧ s.CurFunName ≠ "main" then
              HandleFunctionExitPoint env 0 none s
            else (none, s)
          let (v, s2) := emit Instr.retVoid s1
          let first := match first with
            | none => some v
            | some f => some f
          let s3 ← finishJR first s2
          return { s3 with FunctionRetMap := setAt s3.FunctionRetMap s3.CurAddr (some s3.CurFunAddr) }
      | _ => do
          let (src, _, s1) ← HandleAluSrcOperand env (MCOperand.reg r) (some none) s
          let (Dummy, s2) := emit Instr.retVoid s1
          let s3 := { s2 with IndirectJumps := s2.IndirectJumps ++ [(some s1.insts.length, src)] }
          finishJR (GetFirstInstruction2 (some src) (some Dummy)) s3
  | _ => .error Err.notARegister
/-! Indirect calls, moves between the register banks, unaligned accesses and the generic
floating-point condition -/

/-- Modelled from the spec: `IREmitter.HandleFunctionEntryPoint()` is not among the
sources.  The specification describes it as the half of the register-mirror checkpoint
that restores state after a call; the call is logged with the number of instructions
emitted before it, and `EntryCheckpointSize` instructions are placed. -/
def HandleFunctionEntryPoint (env : Env) (s : TState) : TState :=
  { s with
    EntryPointCalls := s.EntryPointCalls ++ [s.insts.length],
    insts := s.insts ++ List.replicate env.EntryCheckpointSize Instr.entryCheckpoint }

/-- Source: `Builder.CreateNeg(v)`, the subtraction of `v` from zero: folded on a constant,
an instruction otherwise. -/
def CreateNeg (v : Value) (s : TState) : Value × TState :=
  CreateBinOp BinOp.sub (Value.const (Const.int 32 0)) v s

/-- Source: `dyn_cast<Instruction>(v)` as an instruction number, `none` for null. -/
def dynCastInstruction : Value → Option Nat
  | .inst id => some id
  | _ => none

/-- The `case Mips::JALR:` arm.  Its closing lines (the assertion on `first`, `CreateBB`
for the next address, the `InsMap` entry) are those of the `JR` arm. -/
def printJALR (env : Env) (MI : MCInst) (s : TState) : Except Err TState := do
  let (src, first, s1) ← HandleAluSrcOperand env (MI.getOperand 0) (some none) s
  if ¬ env.OneRegion then
    match MI.getOperand 1 with
    | .imm cnt =>
        let Count := toU32 cnt
        let (first1, s2) := HandleFunctionExitPoint env Count first.join s1
        let (Dummy, s3) := CreateNeg src s2
        let s4 := HandleFunctionEntryPoint env s3
        let first2 := GetFirstInstruction3 first1 (some src) (some Dummy)
        let s5 := { s4 with
          IndirectCalls := s4.IndirectCalls ++ [(dynCastInstruction Dummy, src)] }
        finishJR first2 s5
    | _ => .error Err.invalidCallCount
  else
    let (Dummy, s2) := emit Instr.retVoid s1
    let first1 := GetFirstInstruction3 first.join (some src) (some Dummy)
    let s3 := { s2 with
      IndirectCalls := s2.IndirectCalls ++ [(dynCastInstruction Dummy, src)] }
    finishJR first1 s3

/-- Source: `OiInstTranslate::HandleSaveDouble(In, Low, High)`; returns `Low`, `High` and
the new state. -/
def HandleSaveDouble (In : Value) (s : TState) : Value × Value × TState :=
  let (v1, s1) := CreateCast CastOp.bitcast In (Ty.int 64) s
  let (v2, s2) := CreateBinOp BinOp.lshr v1 (Value.const (Const.int 64 32)) s1
  let (High, s3) := CreateCast CastOp.trunc v2 (Ty.int 32) s2
  let (Low, s4) := CreateCast CastOp.trunc v1 (Ty.int 32) s3
  (Low, High, s4)

/-- The `case Mips::MFLC1_D32: case Mips::MFHC1_D32:` arm. -/
def printMFC1_D32 (MI : MCInst) (s : TState) : Except Err TState := do
  let (o1, _, s1) ← HandleDoubleSrcOperand (MI.getOperand 1) none s
  let (o0, s2) ← HandleAluDstOperand (MI.getOperand 0) s1
  let (lo, hi, s3) := HandleSaveDouble o1 s2
  let V := if MI.Opcode = Opcode.MFHC1_D32 then hi else lo
  let (v, s4) := CreateStore V o0 s3
  recordInsMap (GetFirstInstruction2 (some o1) (some v)) s4

/-- The `case Mips::MTHC1_D32: case Mips::MTLC1_D32:` arm.  The double destination is
operand 1 and the integer source operand 2; `CreateZExtOrTrunc` of a 32-bit value to 64
bits is a zero extension. -/
def printMTC1_D32 (env : Env) (MI : MCInst) (s : TState) : Except Err TState := do
  let (o1, first, s1) ← HandleAluSrcOperand env (MI.getOperand 2) (some none) s
  let (o0, s2) ← HandleDoubleDstOperand (MI.getOperand 1) s1
  let (previousVal, s3) := CreateLoad o0 s2
  let (lo0, hi0, s4) := HandleSaveDouble previousVal s3
  let hi := if MI.Opcode = Opcode.MTHC1_D32 then o1 else hi0
  let lo := if MI.Opcode = Opcode.MTHC1_D32 then lo0 else o1
  let (v3, s5) := CreateCast CastOp.zext hi (Ty.int 64) s4
  let (v4, s6) := CreateCast CastOp.zext lo (Ty.int 64) s5
  let (v5, s7) := CreateBinOp BinOp.shl v3 (Value.const (Const.int 64 32)) s6
  let (v6, s8) := CreateBinOp BinOp.or v5 v4 s7
  let (dblSrc, s9) := CreateCast CastOp.bitcast v6 Ty.double s8
  let (_, s10) := CreateStore dblSrc (some o0) s9
  recordInsMap (GetFirstInstruction3 first.join (some o1) (some previousVal)) s10

/-- The `case Mips::LWL:` arm: the memory operand is resolved with width 16 and offset -1.
A null destination is dereferenced by `CreatePtrToInt`. -/
def printLWL (env : Env) (MI : MCInst) (s : TState) : Except Err TState := do
  let (dst, s1) ← HandleAluDstOperand (MI.getOperand 0) s
  let (src, first, s2) ←
    HandleMemOperand env (MI.getOperand 1) (MI.getOperand 2) (some none) true 16 (-1) s1
  match dst with
  | none => .error Err.nullPointerOperand
  | some d =>
      let (p, s3) := CreateCast CastOp.ptrtoint d (Ty.int 32) s2
      let (a, s4) := CreateBinOp BinOp.add p (Value.const (Const.int 32 2)) s3
      let (v, s5) := CreateCast CastOp.inttoptr a (Ty.ptrTo (Ty.int 16)) s4
      let (_, s6) := CreateStore src (some v) s5
      recordInsMap first.join s6

/-- The `case Mips::LWR:` arm: the memory operand is resolved with width 16 and the
default offset 0.  A null destination is dereferenced by `CreateBitCast`. -/
def printLWR (env : Env) (MI : MCInst) (s : TState) : Except Err TState := do
  let (dst, s1) ← HandleAluDstOperand (MI.getOperand 0) s
  let (src, first, s2) ←
    HandleMemOperand env (MI.getOperand 1) (MI.getOperand 2) (some none) true 16 0 s1
  match dst with
  | none => .error Err.nullPointerOperand
  | some d =>
      let (v, s3) := CreateCast CastOp.bitcast d (Ty.ptrTo (Ty.int 16)) s2
      let (_, s4) := CreateStore src (some v) s3
      recordInsMap first.join s4

/-- The `case Mips::SWL:` arm: the memory operand is resolved with width 16 and offset
-1. -/
def printSWL (env : Env) (MI : MCInst) (s : TState) : Except Err TState := do
  let (src, first1, s1) ← HandleAluSrcOperand env (MI.getOperand 0) (some none) s
  let (dst, first2, s2) ←
    HandleMemOperand env (MI.getOperand 1) (MI.getOperand 2) (some none) false 16 (-1) s1
  let (sh, s3) := CreateBinOp BinOp.lshr src (Value.const (Const.int 32 16)) s2
  let (tr, s4) := CreateCast CastOp.trunc sh (Ty.int 16) s3
  let (_, s5) := CreateStore tr (some dst) s4
  recordInsMap (GetFirstInstruction4 first1.join (some src) (some tr) first2.join) s5

/-- The `case Mips::SWR:` arm: the memory operand is resolved with width 16 and the
default offset 0. -/
def printSWR (env : Env) (MI : MCInst) (s : TState) : Except Err TState := do
  let (src, first1, s1) ← HandleAluSrcOperand env (MI.getOperand 0) (some none) s
  let (dst, first2, s2) ←
    HandleMemOperand env (MI.getOperand 1) (MI.getOperand 2) (some none) false 16 0 s1
  let (tr, s3) := CreateCast CastOp.trunc src (Ty.int 16) s2
  let (_, s4) := CreateStore tr (some dst) s3
  recordInsMap (GetFirstInstruction4 first1.join (some src) (some tr) first2.join) s4

/-- Source: `OiInstTranslate::HandleFCmpOperand(o, o0, o1, V)`.  The result is `V`, `none`
for the null pointer the `switch` leaves behind when no label matches.  The arms for the
conditions 8 to 15 end in `llvm_unreachable`, whatever they built before. -/
def HandleFCmpOperand (o : MCOperand) (o0 o1 : Value) (s : TState) :
    Except Err (Option Value × TState) :=
  match o with
  | .imm i =>
      match toU64 i with
      | 0 => .ok (some (Value.const (Const.int 1 0)), s)
      | 1 => let (c, s1) := CreateFCmp FCmpPred.uno o0 o1 s; .ok (some c, s1)
      | 2 => let (c, s1) := CreateFCmp FCmpPred.oeq o0 o1 s; .ok (some c, s1)
      | 3 => let (c, s1) := CreateFCmp FCmpPred.ueq o0 o1 s; .ok (some c, s1)
      | 4 => let (c, s1) := CreateFCmp FCmpPred.olt o0 o1 s; .ok (some c, s1)
      | 5 => let (c, s1) := CreateFCmp FCmpPred.ult o0 o1 s; .ok (some c, s1)
      | 6 => let (c, s1) := CreateFCmp FCmpPred.ole o0 o1 s; .ok (some c, s1)
      | 7 => let (c, s1) := CreateFCmp FCmpPred.ule o0 o1 s; .ok (some c, s1)
      | 8 | 9 | 10 | 11 | 12 | 13 | 14 | 15 => .error Err.unimplementedFCmpOperand
      | _ => .ok (none, s)
  | _ => .error Err.unrecognizedFCmpOperand
/-- Source: `OiInstTranslate::printInstruction`, on the embedded opcodes. -/
def printInstruction (env : Env) (MI : MCInst) (s : TState) : Except Err TState :=
  match MI.Opcode with
  | .ADDiu | .ADDu => printADD env MI s
  | .SUBu => printAlu3 env BinOp.sub MI s
  | .BREAK =>
      let (v, s1) := emit Instr.unreachable s
      recordInsMap (some v) s1
  | .MUL_OI => printMUL env true MI s
  | .MULU_OI => printMUL env false MI s
  | .DIV_OI => printDIV env true MI s
  | .DIVU_OI => printDIV env false MI s
  | .TEQ => .ok s
  | .BC1T => printBC1 env true MI s
  | .BC1F => printBC1 env false MI s
  | .J => printJ env MI s
  | .SLL | .SLLV => printSLL env MI s
  | .LDI => printLDI env MI s
  | .LDIHI => printLDIHI env MI s
  | .IJMPHI => .ok s
  | .NOP => .ok s
  | .C_UN_D32 => printFCMP_D32 FCmpPred.uno MI s
  | .C_EQ_D32 => printFCMP_D32 FCmpPred.oeq MI s
  | .C_UEQ_D32 => printFCMP_D32 FCmpPred.ueq MI s
  | .C_OLT_D32 => printFCMP_D32 FCmpPred.olt MI s
  | .C_ULT_D32 => printFCMP_D32 FCmpPred.ult MI s
  | .C_OLE_D32 => printFCMP_D32 FCmpPred.ole MI s
  | .C_ULE_D32 => printFCMP_D32 FCmpPred.ule MI s
  | .C_UN_S => printFCMP_S env FCmpPred.uno MI s
  | .C_EQ_S => printFCMP_S env FCmpPred.oeq MI s
  | .C_UEQ_S => printFCMP_S env FCmpPred.ueq MI s
  | .C_OLT_S => printFCMP_S env FCmpPred.olt MI s
  | .C_ULT_S => printFCMP_S env FCmpPred.ult MI s
  | .C_OLE_S => printFCMP_S env FCmpPred.ole MI s
  | .C_ULE_S => printFCMP_S env FCmpPred.ule MI s
  | .MOVN_I_I | .MOVZ_I_I => printMOVNZ_I env MI s
  | .MOVN_I_D32 | .MOVZ_I_D32 => printMOVNZ_D32 env MI s
  | .MOVN_I_S | .MOVZ_I_S => printMOVNZ_S env MI s
  | .SLT | .SLTi | .SLTu | .SLTiu => printSLT env MI s
  | .LW => printLW env MI s
  | .JR => printJR env MI s
  | .JALR => printJALR env MI s
  | .MFLC1_D32 | .MFHC1_D32 => printMFC1_D32 MI s
  | .MTHC1_D32 | .MTLC1_D32 => printMTC1_D32 env MI s
  | .LWL => printLWL env MI s
  | .LWR => printLWR env MI s
  | .SWL => printSWL env MI s
  | .SWR => printSWR env MI s

/-- The driver loop of `staticbt.cpp` on decoded instructions: for each instruction,
`UpdateCurAddr(address)` and then `printInst`. -/
def translateInsts (env : Env) : List (Nat × MCInst) → TState → Except Err TState
  | [], s => .ok s
  | (a, MI) :: rest, s =>
      match printInstruction env MI { s with CurAddr := a } with
      | .ok s1 => translateInsts env rest s1
      | .error e => .error e

/-! Call targets and the libc dispatch chain -/

/-- Source: `SyscallsIface::ArgType`. -/
inductive ArgType where
  | AT_Int32 | AT_Ptr | AT_Float | AT_Double
  deriving DecidableEq, Repr

/-- The dedicated lowering routines of the syscall interface that `HandleCallTarget`
calls as `Syscalls.<routine>(V, First)`. -/
inductive SyscallRoutine where
  | HandleSyscallWrite
  | HandleLibcAtoi
  | HandleLibcMalloc
  | HandleLibcCalloc
  | HandleLibcFree
  | HandleLibcExit
  | HandleLibcPuts
  | HandleLibcMemset
  | HandleLibcPrintf
  | HandleLibcFprintf
  | HandleLibcScanf
  | HandleXstat
  | HandleLibcAtof
  | HandleCTypeToUpperLoc
  | HandleCTypeToLowerLoc
  | HandleCTypeBLoc
  | HandleLibcLseek
  deriving DecidableEq, Repr

/-- What a matching arm of the dispatch chain returns: a dedicated routine, or
`Syscalls.HandleGenericInt(V, name, numargs, retcount, ArgTypes, First)`, or
`Syscalls.HandleGenericDouble` with the same arguments. -/
inductive Lowering where
  | bespoke (routine : SyscallRoutine)
  | genericInt (name : String) (numargs retcount : Nat) (ArgTypes : List ArgType)
  | genericDouble (name : String) (numargs retcount : Nat) (ArgTypes : List ArgType)
  deriving DecidableEq, Repr

/-- The chain of `if (val == "...") return Syscalls....;` statements of
`HandleCallTarget`, in source order, one row per compared name. -/
def libcDispatch : List (String × Lowering) :=
  [ ("write", .bespoke .HandleSyscallWrite),
    ("atoi", .bespoke .HandleLibcAtoi),
    ("malloc", .bespoke .HandleLibcMalloc),
    ("calloc", .bespoke .HandleLibcCalloc),
    ("free", .bespoke .HandleLibcFree),
    ("exit", .bespoke .HandleLibcExit),
    ("puts", .bespoke .HandleLibcPuts),
    ("memset", .bespoke .HandleLibcMemset),
    ("printf", .bespoke .HandleLibcPrintf),
    ("fprintf", .bespoke .HandleLibcFprintf),
    ("__isoc99_scanf", .bespoke .HandleLibcScanf),
    ("__xstat", .bespoke .HandleXstat),
    ("close", .genericInt "close" 1 1 [.AT_Int32, .AT_Int32]),
    ("access", .genericInt "access" 2 1 [.AT_Ptr, .AT_Int32, .AT_Int32]),
    ("chmod", .genericInt "chmod" 2 1 [.AT_Ptr, .AT_Int32, .AT_Int32]),
    ("clock", .genericInt "clock" 0 1 [.AT_Int32]),
    ("sprintf", .genericInt "sprintf" 4 1 [.AT_Ptr, .AT_Ptr, .AT_Int32, .AT_Int32, .AT_Int32]),
    ("snprintf", .genericInt "snprintf" 4 1 [.AT_Ptr, .AT_Int32, .AT_Ptr, .AT_Int32, .AT_Int32]),
    ("vsprintf", .genericInt "vsprintf" 3 1 [.AT_Ptr, .AT_Ptr, .AT_Ptr, .AT_Int32]),
    ("vfprintf", .genericInt "vfprintf" 3 1 [.AT_Int32, .AT_Ptr, .AT_Ptr, .AT_Int32]),
    ("fputs", .genericInt "fputs" 2 1 [.AT_Ptr, .AT_Int32, .AT_Int32]),
    ("atan", .genericDouble "atan" 1 1 [.AT_Double, .AT_Double]),
    ("ceil", .genericDouble "ceil" 1 1 [.AT_Double, .AT_Double]),
    ("fmod", .genericDouble "fmod" 2 1 [.AT_Double, .AT_Double, .AT_Double]),
    ("modf", .genericDouble "modf" 2 1 [.AT_Double, .AT_Ptr, .AT_Double]),
    ("atan2", .genericDouble "atan2" 2 1 [.AT_Double, .AT_Double, .AT_Double]),
    ("__isnan", .genericDouble "__isnan" 1 1 [.AT_Double, .AT_Int32]),
    ("sin", .genericDouble "sin" 1 1 [.AT_Double, .AT_Double]),
    ("cos", .genericDouble "cos" 1 1 [.AT_Double, .AT_Double]),
    ("acos", .genericDouble "acos" 1 1 [.AT_Double, .AT_Double]),
    ("pow", .genericDouble "pow" 2 1 [.AT_Double, .AT_Double, .AT_Double]),
    ("sqrt", .genericDouble "sqrt" 1 1 [.AT_Double, .AT_Double]),
    ("sqrtf", .genericDouble "sqrtf" 1 1 [.AT_Float, .AT_Float]),
    ("logb", .genericDouble "logb" 1 1 [.AT_Double, .AT_Double]),
    ("logbf", .genericDouble "logbf" 1 1 [.AT_Float, .AT_Float]),
    ("fmax", .genericDouble "fmax" 2 1 [.AT_Double, .AT_Double, .AT_Double]),
    ("fmaxf", .genericDouble "fmaxf" 2 1 [.AT_Float, .AT_Float, .AT_Float]),
    ("scalbn", .genericDouble "scalbn" 2 1 [.AT_Double, .AT_Int32, .AT_Double]),
    ("scalbnf", .genericDouble "scalbnf" 2 1 [.AT_Float, .AT_Int32, .AT_Float]),
    ("log10", .genericDouble "log10" 1 1 [.AT_Double, .AT_Double]),
    ("exp", .genericDouble "exp" 1 1 [.AT_Double, .AT_Double]),
    ("ldexp", .genericDouble "ldexp" 2 1 [.AT_Double, .AT_Int32, .AT_Double]),
    ("exp2", .genericDouble "exp2" 1 1 [.AT_Double, .AT_Double]),
    ("tan", .genericDouble "tan" 1 1 [.AT_Double, .AT_Double]),
    ("frexp", .genericDouble "frexp" 2 1 [.AT_Double, .AT_Ptr, .AT_Double]),
    ("floor", .genericDouble "floor" 1 1 [.AT_Double, .AT_Double]) ] ++
  [ ("floorf", .genericDouble "floorf" 1 1 [.AT_Float, .AT_Float]),
    ("log", .genericDouble "log" 1 1 [.AT_Double, .AT_Double]),
    ("atof", .bespoke .HandleLibcAtof),
    ("abort", .genericInt "abort" 0 0 [.AT_Int32]),
    ("time", .genericInt "time" 1 1 [.AT_Ptr, .AT_Int32]),
    ("rand", .genericInt "rand" 0 1 [.AT_Int32]),
    ("srand", .genericInt "srand" 1 1 [.AT_Int32, .AT_Int32]),
    ("clock", .genericInt "clock" 0 1 [.AT_Int32]),
    ("fclose", .genericInt "fclose" 1 1 [.AT_Int32, .AT_Int32]),
    ("pclose", .genericInt "pclose" 1 1 [.AT_Int32, .AT_Int32]),
    ("rewind", .genericInt "rewind" 1 1 [.AT_Int32, .AT_Int32]),
    ("fopen", .genericInt "fopen" 2 1 [.AT_Ptr, .AT_Ptr, .AT_Int32]),
    ("popen", .genericInt "popen" 2 1 [.AT_Ptr, .AT_Ptr, .AT_Int32]),
    ("fgetc", .genericInt "fgetc" 1 1 [.AT_Int32, .AT_Int32]),
    ("fputc", .genericInt "fputc" 2 1 [.AT_Int32, .AT_Int32, .AT_Int32]),
    ("strcmp", .genericInt "strcmp" 2 1 [.AT_Ptr, .AT_Ptr, .AT_Int32]),
    ("memcmp", .genericInt "memcmp" 3 1 [.AT_Ptr, .AT_Ptr, .AT_Int32, .AT_Int32]),
    ("strcoll", .genericInt "strcoll" 2 1 [.AT_Ptr, .AT_Ptr, .AT_Int32]),
    ("getcwd", .genericInt "getcwd" 2 1 [.AT_Ptr, .AT_Int32, .AT_Ptr]),
    ("chdir", .genericInt "chdir" 1 1 [.AT_Ptr, .AT_Int32]),
    ("strncmp", .genericInt "strncmp" 3 1 [.AT_Ptr, .AT_Ptr, .AT_Int32, .AT_Int32]),
    ("strcpy", .genericInt "strcpy" 2 1 [.AT_Ptr, .AT_Ptr, .AT_Ptr]),
    ("strncpy", .genericInt "strncpy" 3 1 [.AT_Ptr, .AT_Ptr, .AT_Int32, .AT_Ptr]),
    ("strcat", .genericInt "strcat" 2 1 [.AT_Ptr, .AT_Ptr, .AT_Ptr]),
    ("open", .genericInt "open" 2 1 [.AT_Ptr, .AT_Int32, .AT_Int32]),
    ("rename", .genericInt "rename" 2 1 [.AT_Ptr, .AT_Ptr, .AT_Int32]),
    ("pathconf", .genericInt "pathconf" 2 1 [.AT_Ptr, .AT_Int32, .AT_Int32]),
    ("strncat", .genericInt "strncat" 3 1 [.AT_Ptr, .AT_Ptr, .AT_Int32, .AT_Ptr]),
    ("strlen", .genericInt "strlen" 1 1 [.AT_Ptr, .AT_Int32]),
    ("strspn", .genericInt "strspn" 2 1 [.AT_Ptr, .AT_Ptr, .AT_Int32]),
    ("_IO_getc", .genericInt "_IO_getc" 1 1 [.AT_Int32, .AT_Int32]),
    ("ungetc", .genericInt "ungetc" 2 1 [.AT_Int32, .AT_Int32, .AT_Int32]),
    ("getenv", .genericInt "getenv" 1 1 [.AT_Ptr, .AT_Ptr]),
    ("fgets", .genericInt "fgets" 3 1 [.AT_Ptr, .AT_Int32, .AT_Int32, .AT_Int32]),
    ("abs", .genericInt "abs" 1 1 [.AT_Int32, .AT_Int32]),
    ("fread", .genericInt "fread" 4 1 [.AT_Ptr, .AT_Int32, .AT_Int32, .AT_Int32, .AT_Int32]),
    ("fwrite", .genericInt "fwrite" 4 1 [.AT_Ptr, .AT_Int32, .AT_Int32, .AT_Int32, .AT_Int32]),
    ("memcpy", .genericInt "memcpy" 3 1 [.AT_Ptr, .AT_Ptr, .AT_Int32, .AT_Ptr]),
    ("memmove", .genericInt "memmove" 3 1 [.AT_Ptr, .AT_Ptr, .AT_Int32, .AT_Ptr]),
    ("bcopy", .genericInt "bcopy" 3 0 [.AT_Ptr, .AT_Ptr, .AT_Int32, .AT_Int32]),
    ("htonl", .genericInt "htonl" 1 1 [.AT_Int32, .AT_Int32]),
    ("perror", .genericInt "perror" 1 0 [.AT_Ptr, .AT_Int32]),
    ("getopt", .genericInt "getopt" 3 1 [.AT_Int32, .AT_Ptr, .AT_Ptr, .AT_Int32]),
    ("__errno_location", .genericInt "__errno_location" 0 1 [.AT_Ptr]),
    ("strerror", .genericInt "strerror" 1 1 [.AT_Int32, .AT_Ptr]),
    ("__isoc99_sscanf", .genericInt "sscanf" 4 1 [.AT_Ptr, .AT_Ptr, .AT_Ptr, .AT_Ptr, .AT_Int32]) ] ++
  [ ("sscanf", .genericInt "sscanf" 4 1 [.AT_Ptr, .AT_Ptr, .AT_Ptr, .AT_Ptr, .AT_Int32]),
    ("__isoc99_fscanf", .genericInt "fscanf" 4 1 [.AT_Int32, .AT_Ptr, .AT_Ptr, .AT_Ptr, .AT_Int32]),
    ("fscanf", .genericInt "fscanf" 4 1 [.AT_Int32, .AT_Ptr, .AT_Ptr, .AT_Ptr, .AT_Int32]),
    ("fflush", .genericInt "fflush" 1 1 [.AT_Int32, .AT_Int32]),
    ("feof", .genericInt "feof" 1 1 [.AT_Int32, .AT_Int32]),
    ("fgetpos", .genericInt "fgetpos" 2 1 [.AT_Int32, .AT_Ptr, .AT_Int32]),
    ("fsetpos", .genericInt "fsetpos" 2 1 [.AT_Int32, .AT_Ptr, .AT_Int32]),
    ("ftell", .genericInt "ftell" 1 1 [.AT_Int32, .AT_Int32]),
    ("fseek", .genericInt "fseek" 3 1 [.AT_Int32, .AT_Int32, .AT_Int32, .AT_Int32]),
    ("strchr", .genericInt "strchr" 2 1 [.AT_Ptr, .AT_Int32, .AT_Ptr]),
    ("strrchr", .genericInt "strrchr" 2 1 [.AT_Ptr, .AT_Int32, .AT_Ptr]),
    ("toupper", .genericInt "toupper" 1 1 [.AT_Int32, .AT_Int32]),
    ("tolower", .genericInt "tolower" 1 1 [.AT_Int32, .AT_Int32]),
    ("putchar", .genericInt "putchar" 1 1 [.AT_Int32, .AT_Int32]),
    ("_IO_putc", .genericInt "_IO_putc" 2 1 [.AT_Int32, .AT_Int32, .AT_Int32]),
    ("putc", .genericInt "putc" 2 1 [.AT_Int32, .AT_Int32, .AT_Int32]),
    ("memchr", .genericInt "memchr" 3 1 [.AT_Ptr, .AT_Int32, .AT_Int32, .AT_Ptr]),
    ("strtol", .genericInt "strtol" 3 1 [.AT_Ptr, .AT_Ptr, .AT_Int32, .AT_Int32]),
    ("strtod", .genericDouble "strtod" 2 1 [.AT_Ptr, .AT_Ptr, .AT_Double]),
    ("read", .genericInt "read" 3 1 [.AT_Int32, .AT_Ptr, .AT_Int32, .AT_Int32]),
    ("isatty", .genericInt "isatty" 1 1 [.AT_Int32, .AT_Int32]),
    ("ioctl", .genericInt "ioctl" 3 1 [.AT_Int32, .AT_Int32, .AT_Ptr, .AT_Int32]),
    ("tcsetattr", .genericInt "tcsetattr" 3 1 [.AT_Int32, .AT_Int32, .AT_Ptr, .AT_Int32]),
    ("ferror", .genericInt "ferror" 1 1 [.AT_Int32, .AT_Int32]),
    ("fileno", .genericInt "fileno" 1 1 [.AT_Int32, .AT_Int32]),
    ("realloc", .genericInt "realloc" 2 1 [.AT_Ptr, .AT_Int32, .AT_Ptr]),
    ("system", .genericInt "system" 1 1 [.AT_Ptr, .AT_Int32]),
    ("remove", .genericInt "remove" 1 1 [.AT_Ptr, .AT_Int32]),
    ("difftime", .genericDouble "difftime" 2 1 [.AT_Int32, .AT_Int32, .AT_Double]),
    ("__assert_fail", .genericInt "__assert_fail" 4 1 [.AT_Ptr, .AT_Ptr, .AT_Int32, .AT_Ptr, .AT_Int32]),
    ("localtime", .genericInt "localtime" 1 1 [.AT_Ptr, .AT_Ptr]),
    ("strftime", .genericInt "strftime" 4 1 [.AT_Ptr, .AT_Int32, .AT_Ptr, .AT_Ptr, .AT_Int32]),
    ("gettimeofday", .genericInt "gettimeofday" 2 1 [.AT_Ptr, .AT_Ptr, .AT_Int32]),
    ("getrlimit", .genericInt "getrlimit" 2 1 [.AT_Int32, .AT_Ptr, .AT_Int32]),
    ("setrlimit", .genericInt "setrlimit" 2 1 [.AT_Int32, .AT_Ptr, .AT_Int32]),
    ("tmpfile", .genericInt "tmpfile" 0 1 [.AT_Int32]),
    ("fdopen", .genericInt "fdopen" 2 1 [.AT_Int32, .AT_Ptr, .AT_Int32]),
    ("gmtime", .genericInt "gmtime" 1 1 [.AT_Ptr, .AT_Ptr]),
    ("__ctype_toupper_loc", .bespoke .HandleCTypeToUpperLoc),
    ("__ctype_tolower_loc", .bespoke .HandleCTypeToLowerLoc),
    ("__ctype_b_loc", .bespoke .HandleCTypeBLoc),
    ("sleep", .genericInt "sleep" 1 1 [.AT_Int32, .AT_Int32]),
    ("select", .genericInt "select" 4 1 [.AT_Int32, .AT_Ptr, .AT_Ptr, .AT_Ptr, .AT_Int32]),
    ("obstack_free", .genericInt "obstack_free" 2 1 [.AT_Ptr, .AT_Ptr, .AT_Int32]),
    ("fcntl", .genericInt "fcntl" 2 1 [.AT_Int32, .AT_Int32, .AT_Int32]),
    ("dup", .genericInt "dup" 1 1 [.AT_Int32, .AT_Int32]) ] ++
  [ ("__fxstat", .genericInt "__fxstat" 3 1 [.AT_Int32, .AT_Int32, .AT_Ptr, .AT_Int32]),
    ("unlink", .genericInt "unlink" 1 1 [.AT_Ptr, .AT_Int32]),
    ("link", .genericInt "link" 2 1 [.AT_Ptr, .AT_Ptr, .AT_Int32]),
    ("execvp", .genericInt "execvp" 2 1 [.AT_Ptr, .AT_Ptr, .AT_Int32]),
    ("execv", .genericInt "execv" 2 1 [.AT_Ptr, .AT_Ptr, .AT_Int32]),
    ("execl", .genericInt "execl" 2 1 [.AT_Ptr, .AT_Ptr, .AT_Int32]),
    ("signal", .genericInt "signal" 2 1 [.AT_Int32, .AT_Ptr, .AT_Ptr]),
    ("__rawmemchr", .genericInt "__rawmemchr" 2 1 [.AT_Ptr, .AT_Int32, .AT_Ptr]),
    ("getpid", .genericInt "getpid" 0 1 [.AT_Int32]),
    ("getgid", .genericInt "getgid" 0 1 [.AT_Int32]),
    ("getegid", .genericInt "getegid" 0 1 [.AT_Int32]),
    ("setgid", .genericInt "setgid" 1 1 [.AT_Int32, .AT_Int32]),
    ("getuid", .genericInt "getuid" 0 1 [.AT_Int32]),
    ("geteuid", .genericInt "geteuid" 0 1 [.AT_Int32]),
    ("setuid", .genericInt "setuid" 1 1 [.AT_Int32, .AT_Int32]),
    ("kill", .genericInt "kill" 2 1 [.AT_Int32, .AT_Int32, .AT_Int32]),
    ("lseek", .bespoke .HandleLibcLseek),
    ("ctime", .genericInt "ctime" 1 1 [.AT_Ptr, .AT_Ptr]),
    ("strtok", .genericInt "strtok" 2 1 [.AT_Ptr, .AT_Ptr, .AT_Ptr]),
    ("__strdup", .genericInt "__strdup" 1 1 [.AT_Ptr, .AT_Ptr]),
    ("setbuf", .genericInt "setbuf" 2 1 [.AT_Int32, .AT_Ptr, .AT_Int32]),
    ("closedir", .genericInt "closedir" 1 1 [.AT_Ptr, .AT_Int32]),
    ("clearerr", .genericInt "clearerr" 1 1 [.AT_Int32, .AT_Int32]),
    ("_exit", .genericInt "_exit" 1 1 [.AT_Int32, .AT_Int32]),
    ("fork", .genericInt "fork" 0 1 [.AT_Int32]),
    ("waitpid", .genericInt "waitpid" 3 1 [.AT_Int32, .AT_Ptr, .AT_Int32, .AT_Int32]),
    ("freopen", .genericInt "freopen" 3 1 [.AT_Ptr, .AT_Ptr, .AT_Int32, .AT_Int32]),
    ("ftruncate", .genericInt "ftruncate" 2 1 [.AT_Int32, .AT_Int32, .AT_Int32]),
    ("mkdir", .genericInt "mkdir" 2 1 [.AT_Ptr, .AT_Int32, .AT_Int32]),
    ("opendir", .genericInt "opendir" 1 1 [.AT_Ptr, .AT_Ptr]),
    ("readdir", .genericInt "readdir" 1 1 [.AT_Ptr, .AT_Ptr]),
    ("pipe", .genericInt "pipe" 1 1 [.AT_Ptr, .AT_Int32]),
    ("putenv", .genericInt "putenv" 1 1 [.AT_Ptr, .AT_Int32]),
    ("qsort", .genericInt "qsort" 4 1 [.AT_Ptr, .AT_Int32, .AT_Int32, .AT_Ptr, .AT_Int32]),
    ("rmdir", .genericInt "rmdir" 1 1 [.AT_Ptr, .AT_Int32]),
    ("setvbuf", .genericInt "setvbuf" 4 1 [.AT_Int32, .AT_Ptr, .AT_Int32, .AT_Int32, .AT_Int32]),
    ("siglongjmp", .genericInt "siglongjmp" 2 1 [.AT_Ptr, .AT_Int32, .AT_Int32]),
    ("__sigsetjmp", .genericInt "__sigsetjmp" 2 1 [.AT_Ptr, .AT_Int32, .AT_Int32]),
    ("truncate", .genericInt "truncate" 2 1 [.AT_Ptr, .AT_Int32, .AT_Int32]),
    ("gcvt", .genericDouble "gcvt" 3 1 [.AT_Double, .AT_Int32, .AT_Ptr, .AT_Ptr]),
    ("strstr", .genericInt "strstr" 2 1 [.AT_Ptr, .AT_Ptr, .AT_Ptr]),
    ("strcspn", .genericInt "strcspn" 2 1 [.AT_Ptr, .AT_Ptr, .AT_Int32]),
    ("strtoul", .genericInt "strtoul" 3 1 [.AT_Ptr, .AT_Ptr, .AT_Int32, .AT_Int32]) ]

/-- The arm of the chain that fires for symbol name `val`: the first row whose name
equals `val`. -/
def libcLookup (val : String) : Option Lowering :=
  (libcDispatch.find? (fun row => row.1 == val)).map (fun row => row.2)

/-- The call `HandleCallTarget` ends in: a routine of the syscall interface, or
`IREmitter.HandleLocalCall(Addr, Count, V, First)`. -/
inductive CallAction where
  | libc (l : Lowering)
  | localCall (Addr : Nat) (Count : Nat)
  deriving DecidableEq, Repr

/-- Source: `OiInstTranslate::HandleCallTarget(o, o2, V, First)`, as the call it dispatches to.
`.ok none` is the final `return false` taken for a non-immediate target; `.error` is an
abort. -/
def HandleCallTarget (env : Env) (o o2 : MCOperand) (s : TState) :
    Except Err (Option CallAction) :=
  match o2 with
  | .imm cnt =>
      let Count := toU32 cnt
      match o with
      | .imm i =>
          if i ≠ 0 then
            match env.ResolveRelocationAddr s.CurAddr true with
            | some targetaddr =>
                .ok (some (CallAction.localCall ((toU64 i + targetaddr) % 2 ^ 64) Count))
            | none => .ok (some (CallAction.localCall (toU64 i) Count))
          else
            match (env.CheckRelocation s.CurAddr).bind libcLookup with
            | some l => .ok (some (CallAction.libc l))
            | none =>
                match env.ResolveRelocationAddr s.CurAddr true with
                | some targetaddr => .ok (some (CallAction.localCall targetaddr Count))
                | none => .error Err.unrecognizedFunctionCall
      | _ => .ok none
  | _ => .error Err.invalidCallCount

/-- An environment with every mode flag off, in which no relocation is pending at any
address and every back-edge is accepted; the cells of the single-precision registers
(directive numbers 34 to 97) hold floats and every other cell an `i32`, and an exit
checkpoint and an entry checkpoint are one instruction long each. -/
def Env.plain : Env :=
  { NoShadow := false, NoLocals := false, OneRegion := false, OptimizeStack := false,
    AggrOptimizeStack := false,
    ResolveRelocationValue := fun _ =>
      { found := false, V0 := none, reltype := 0, UndefinedSymbol := false,
        IsFuncAddr := false },
    ResolveRelocationAddr := fun _ _ => none,
    CheckRelocation := fun _ => none,
    HandleBackEdge := fun _ => true,
    ResolveRelocationMem := fun _ =>
      { found := false, V0 := none, reltype := 0, UndefinedSymbol := false,
        IsFuncAddr := false },
    RegTy := fun n => if 34 ≤ n ∧ n ≤ 97 then Ty.float else Ty.int 32,
    ExitCheckpointSize := 1,
    EntryCheckpointSize := 1 }

/-! Auxiliary notions used to state the properties -/

/-- Replace the pending LDI record of a state, leaving everything else as it is. -/
def withLDI (d : LastLDIData) (s : TState) : TState := { s with LDIData := d }

/-- Apply `withLDI` to the state component of a source-operand result. -/
def liftSrc (d : LastLDIData) :
    Value × Option (Option Value) × TState → Value × Option (Option Value) × TState :=
  fun r => (r.1, r.2.1, withLDI d r.2.2)

/-- The branch target as the specification words it: `(CurAddr + imm) mod 2^32` for a
relative branch, the immediate (read as an unsigned 64-bit number) for an absolute one,
plus the relocation value, when one resolves at `CurAddr`, in 64-bit arithmetic. -/
def specBranchTarget (env : Env) (CurAddr : Nat) (imm : Int) (IsRelative : Bool) : Nat :=
  let base : Nat :=
    if IsRelative then (((CurAddr : Int) + imm) % (2 : Int) ^ 32).toNat
    else (imm % (2 : Int) ^ 64).toNat
  match env.ResolveRelocationAddr CurAddr false with
  | some rel => (base + rel) % 2 ^ 64
  | none => base

/-- The symbol at the current address is not in the dispatch table: either no symbol name
is found there, or the name differs from every name the chain compares against. -/
def nameNotInTable (env : Env) (s : TState) : Prop :=
  ∀ val, env.CheckRelocation s.CurAddr = some val → ∀ row ∈ libcDispatch, row.1 ≠ val

/-- An environment like `Env.plain` in which the relocation at every address names the
symbol `name`. -/
def Env.withSymbol (name : String) : Env :=
  { Env.plain with CheckRelocation := fun _ => some name }

/-- The symbols of the specification's list of dedicated lowerings that the dispatch chain
does send to a dedicated routine, each with that routine (`scanf` under the name the
chain compares against, `__isoc99_scanf`). -/
def bespokeSymbols : List (String × SyscallRoutine) :=
  [ ("write", .HandleSyscallWrite),
    ("atoi", .HandleLibcAtoi),
    ("atof", .HandleLibcAtof),
    ("malloc", .HandleLibcMalloc),
    ("calloc", .HandleLibcCalloc),
    ("free", .HandleLibcFree),
    ("exit", .HandleLibcExit),
    ("puts", .HandleLibcPuts),
    ("memset", .HandleLibcMemset),
    ("printf", .HandleLibcPrintf),
    ("fprintf", .HandleLibcFprintf),
    ("__isoc99_scanf", .HandleLibcScanf),
    ("__xstat", .HandleXstat),
    ("lseek", .HandleLibcLseek),
    ("__ctype_b_loc", .HandleCTypeBLoc),
    ("__ctype_toupper_loc", .HandleCTypeToUpperLoc),
    ("__ctype_tolower_loc", .HandleCTypeToLowerLoc) ]

/-- The symbols of the specification's list of dedicated lowerings that the dispatch chain
sends to `HandleGenericInt`, each with the arguments of that call. -/
def genericSymbols : List (String × Lowering) :=
  [ ("sprintf", .genericInt "sprintf" 4 1 [.AT_Ptr, .AT_Ptr, .AT_Int32, .AT_Int32, .AT_Int32]),
    ("snprintf", .genericInt "snprintf" 4 1 [.AT_Ptr, .AT_Int32, .AT_Ptr, .AT_Int32, .AT_Int32]),
    ("vsprintf", .genericInt "vsprintf" 3 1 [.AT_Ptr, .AT_Ptr, .AT_Ptr, .AT_Int32]),
    ("vfprintf", .genericInt "vfprintf" 3 1 [.AT_Int32, .AT_Ptr, .AT_Ptr, .AT_Int32]),
    ("sscanf", .genericInt "sscanf" 4 1 [.AT_Ptr, .AT_Ptr, .AT_Ptr, .AT_Ptr, .AT_Int32]),
    ("__isoc99_sscanf", .genericInt "sscanf" 4 1 [.AT_Ptr, .AT_Ptr, .AT_Ptr, .AT_Ptr, .AT_Int32]),
    ("fscanf", .genericInt "fscanf" 4 1 [.AT_Int32, .AT_Ptr, .AT_Ptr, .AT_Ptr, .AT_Int32]),
    ("__isoc99_fscanf", .genericInt "fscanf" 4 1 [.AT_Int32, .AT_Ptr, .AT_Ptr, .AT_Ptr, .AT_Int32]),
    ("realloc", .genericInt "realloc" 2 1 [.AT_Ptr, .AT_Int32, .AT_Ptr]) ]

/-! Meaning of the emitted IR: a small evaluator for the instructions of one guest
instruction, used to state what the emitted code computes -/

/-- A run-time value: its width in bits and its bit pattern. -/
structure RVal where
  bits : Nat
  val : Nat
  deriving DecidableEq, Repr

/-- The guest register file at run time: the 32-bit cells `Regs[n]` and the 64-bit cells
`DblRegs[n]`, as bit patterns. -/
structure Mach where
  Regs : Nat → Nat
  DblRegs : Nat → Nat

/-- The run-time value of a constant, where it is a number. -/
def evalConst : Const → Option RVal
  | .int b v => some ⟨b, v⟩
  | .fp p => some ⟨64, p⟩
  | _ => none

/-- The run-time value of an operand, given the values of the instructions executed so
far. -/
def evalValue (vals : Nat → Option RVal) : Value → Option RVal
  | .const c => evalConst c
  | .inst id => vals id
  | _ => none

/-- What executing one instruction does: produce a value (or none, for a store) and a new
register file, transfer control to a block, or return. -/
inductive StepResult where
  | value (v : Option RVal) (m : Mach)
  | jump (b : BasicBlock)
  | ret

/-- Execute one instruction.  `fc` gives the outcome of each floating-point comparison on
two bit patterns, so that no floating-point arithmetic is needed; `none` is undefined
behaviour or an instruction outside the evaluated fragment. -/
def step (fc : FCmpPred → Nat → Nat → Bool) (vals : Nat → Option RVal) (m : Mach) :
    Instr → Option StepResult
  | .load (.reg n) => some (.value (some ⟨32, m.Regs n⟩) m)
  | .load (.dblReg n) => some (.value (some ⟨64, m.DblRegs n⟩) m)
  | .load _ => none
  | .store v (some (.reg n)) =>
      (evalValue vals v).map fun x => .value none { m with Regs := setAt m.Regs n x.val }
  | .store v (some (.dblReg n)) =>
      (evalValue vals v).map fun x => .value none { m with DblRegs := setAt m.DblRegs n x.val }
  | .store _ _ => none
  | .binop op l r =>
      (evalValue vals l).bind fun x => (evalValue vals r).bind fun y =>
        (evalBinOp op x.bits x.val y.val).map fun v => .value (some ⟨x.bits, v⟩) m
  | .cast op v ty =>
      (evalValue vals v).bind fun x =>
        match op, ty with
        | .trunc, .int n => some (.value (some ⟨n, x.val % 2 ^ n⟩) m)
        | .zext, .int n => some (.value (some ⟨n, x.val⟩) m)
        | .sext, .int n => some (.value (some ⟨n, ofSigned n (toSigned x.bits x.val)⟩) m)
        | .bitcast, _ => some (.value (some x) m)
        | _, _ => none
  | .icmp p l r =>
      (evalValue vals l).bind fun x => (evalValue vals r).map fun y =>
        .value (some ⟨1, if evalICmp p x.bits x.val y.val then 1 else 0⟩) m
  | .fcmp p l r =>
      (evalValue vals l).bind fun x => (evalValue vals r).map fun y =>
        .value (some ⟨1, if fc p x.val y.val then 1 else 0⟩) m
  | .select c a b =>
      (evalValue vals c).bind fun vc => (evalValue vals a).bind fun va =>
        (evalValue vals b).map fun vb => .value (some (if vc.val = 1 then va else vb)) m
  | .condBr c t f => (evalValue vals c).map fun vc => .jump (if vc.val = 1 then t else f)
  | .br t => some (.jump t)
  | .retVoid => some .ret
  | .unreachable => none
  | .shadowAccess _ _ _ _ => none
  | .exitCheckpoint _ => none
  | .entryCheckpoint => none

/-- The code emitted for one guest instruction: the number of its first instruction, the
instructions, and the insertion points set while emitting, as positions in `code`. -/
structure Prog where
  base : Nat
  code : List Instr
  marks : List (Nat × BasicBlock)

/-- The code emitted between state `s` and a later state `t`. -/
def progSince (s t : TState) : Prog :=
  { base := s.insts.length,
    code := emittedSince s t,
    marks := (t.InsertPoints.drop s.InsertPoints.length).map
      (fun p => (p.1 - s.insts.length, p.2)) }

/-- How a run of the code of one guest instruction ends: past its last instruction, by a
branch to a block whose body is not part of the code, or by a return. -/
inductive Exit where
  | fellThrough
  | toBlock (b : BasicBlock)
  | returned
  deriving DecidableEq, Repr

/-- Where the body of block `b` starts in the code, when an insertion point was set for
it. -/
def Prog.start (P : Prog) (b : BasicBlock) : Option Nat :=
  (P.marks.find? (fun p => decide (p.2 = b))).map (fun p => p.1)

/-- Run the code from position `pc` with at most `fuel` steps. -/
def exec (fc : FCmpPred → Nat → Nat → Bool) (P : Prog) :
    Nat → Nat → (Nat → Option RVal) → Mach → Option (Mach × Exit)
  | 0, _, _, _ => none
  | fuel + 1, pc, vals, m =>
      match P.code[pc]? with
      | none => some (m, Exit.fellThrough)
      | some i =>
          match step fc vals m i with
          | none => none
          | some (.value v m1) => exec fc P fuel (pc + 1) (setAt vals (P.base + pc) v) m1
          | some (.jump b) =>
              match P.start b with
              | some k =>
                  if k < P.code.length then exec fc P fuel k vals m
                  else some (m, Exit.toBlock b)
              | none => some (m, Exit.toBlock b)
          | some .ret => some (m, Exit.returned)

/-- Run the code of one guest instruction from its first instruction; the handlers only
branch forwards, so one step per instruction and one more is enough fuel. -/
def run (fc : FCmpPred → Nat → Nat → Bool) (P : Prog) (m : Mach) : Option (Mach × Exit) :=
  exec fc P (P.code.length + 1) 0 (fun _ => none) m

/-! Vocabulary for stating what the emitted code contains -/

/-- The values stored to register cell `Regs[n]` by a list of instructions, in order. -/
def storesToReg (n : Nat) (l : List Instr) : List Value :=
  l.filterMap fun i =>
    match i with
    | .store v (some (.reg k)) => if k = n then some v else none
    | _ => none

/-- The number of loads of register cell `Regs[n]` in a list of instructions. -/
def loadsOfReg (n : Nat) (l : List Instr) : Nat :=
  (l.filter fun i => decide (i = Instr.load (Value.reg n))).length

/-- The predicate the inner `switch` of the `C_*_D32` arm picks for each of its opcodes. -/
def condD32 : Opcode → Option FCmpPred
  | .C_UN_D32 => some .uno
  | .C_EQ_D32 => some .oeq
  | .C_UEQ_D32 => some .ueq
  | .C_OLT_D32 => some .olt
  | .C_ULT_D32 => some .ult
  | .C_OLE_D32 => some .ole
  | .C_ULE_D32 => some .ule
  | _ => none

/-- The predicate the inner `switch` of the `C_*_S` arm picks for each of its opcodes. -/
def condS : Opcode → Option FCmpPred
  | .C_UN_S => some .uno
  | .C_EQ_S => some .oeq
  | .C_UEQ_S => some .ueq
  | .C_OLT_S => some .olt
  | .C_ULT_S => some .ult
  | .C_OLE_S => some .ole
  | .C_ULE_S => some .ule
  | _ => none

/-- Whether `x` is less than `y`, both 32-bit patterns read as unsigned or both as signed
numbers. -/
def lessThan32 (unsigned : Bool) (x y : Nat) : Bool :=
  if unsigned then decide (x < y) else decide (toSigned 32 x < toSigned 32 y)

/-- Whether an emitted instruction is a shadow-memory access. -/
def Instr.isShadowAccess : Instr → Bool
  | .shadowAccess _ _ _ _ => true
  | _ => false

/-- The run-time value of a constant expression when the shadow image sits at host address
`B`: `shadowBase` is the low 32 bits of `B`, and a binary expression is computed at the
width of its left operand. -/
def evalConstAt (B : Nat) : Const → Option RVal
  | .int b v => some ⟨b, v⟩
  | .shadowBase => some ⟨32, B % 2 ^ 32⟩
  | .binop op a b =>
      (evalConstAt B a).bind fun x => (evalConstAt B b).bind fun y =>
        (evalBinOp op x.bits x.val y.val).map fun v => ⟨x.bits, v⟩
  | _ => none

/-- The comparison each condition code from 1 to 7 names in the comments of
`HandleFCmpOperand` (`OI_FCOND_UN`, `OEQ`, `UEQ`, `OLT`, `ULT`, `OLE`, `ULE`). -/
def fcondPredicate : Nat → Option FCmpPred
  | 1 => some .uno
  | 2 => some .oeq
  | 3 => some .ueq
  | 4 => some .olt
  | 5 => some .ult
  | 6 => some .ole
  | 7 => some .ule
  | _ => none

/-! Register names by index -/

/-- The single-precision register `F_k` of the Mips register enumeration, for `k` from 0
to 63. -/
def fpr (k : Fin 64) : Mips.Reg :=
  match k.val with
  | 0 => .F0
  | 1 => .F1
  | 2 => .F2
  | 3 => .F3
  | 4 => .F4
  | 5 => .F5
  | 6 => .F6
  | 7 => .F7
  | 8 => .F8
  | 9 => .F9
  | 10 => .F10
  | 11 => .F11
  | 12 => .F12
  | 13 => .F13
  | 14 => .F14
  | 15 => .F15
  | 16 => .F16
  | 17 => .F17
  | 18 => .F18
  | 19 => .F19
  | 20 => .F20
  | 21 => .F21
  | 22 => .F22
  | 23 => .F23
  | 24 => .F24
  | 25 => .F25
  | 26 => .F26
  | 27 => .F27
  | 28 => .F28
  | 29 => .F29
  | 30 => .F30
  | 31 => .F31
  | 32 => .F32
  | 33 => .F33
  | 34 => .F34
  | 35 => .F35
  | 36 => .F36
  | 37 => .F37
  | 38 => .F38
  | 39 => .F39
  | 40 => .F40
  | 41 => .F41
  | 42 => .F42
  | 43 => .F43
  | 44 => .F44
  | 45 => .F45
  | 46 => .F46
  | 47 => .F47
  | 48 => .F48
  | 49 => .F49
  | 50 => .F50
  | 51 => .F51
  | 52 => .F52
  | 53 => .F53
  | 54 => .F54
  | 55 => .F55
  | 56 => .F56
  | 57 => .F57
  | 58 => .F58
  | 59 => .F59
  | 60 => .F60
  | 61 => .F61
  | 62 => .F62
  | _ => .F63

/-- The double-precision register `D_k` of the Mips register enumeration, for `k` from 0
to 31. -/
def dpr (k : Fin 32) : Mips.Reg :=
  match k.val with
  | 0 => .D0
  | 1 => .D1
  | 2 => .D2
  | 3 => .D3
  | 4 => .D4
  | 5 => .D5
  | 6 => .D6
  | 7 => .D7
  | 8 => .D8
  | 9 => .D9
  | 10 => .D10
  | 11 => .D11
  | 12 => .D12
  | 13 => .D13
  | 14 => .D14
  | 15 => .D15
  | 16 => .D16
  | 17 => .D17
  | 18 => .D18
  | 19 => .D19
  | 20 => .D20
  | 21 => .D21
  | 22 => .D22
  | 23 => .D23
  | 24 => .D24
  | 25 => .D25
  | 26 => .D26
  | 27 => .D27
  | 28 => .D28
  | 29 => .D29
  | 30 => .D30
  | _ => .D31

/-- Bits 63..32 of a 64-bit pattern. -/
def high32 (p : Nat) : Nat := (p >>> 32) % 2 ^ 32

/-- Bits 31..0 of a pattern. -/
def low32 (p : Nat) : Nat := p % 2 ^ 32

/-- The 64-bit pattern whose bits 63..32 are `x` and whose bits 31..0 are those of `p`. -/
def withHigh32 (p x : Nat) : Nat := 2 ^ 32 * x + low32 p

/-- The 64-bit pattern whose bits 31..0 are `x` and whose bits 63..32 are those of `p`. -/
def withLow32 (p x : Nat) : Nat := 2 ^ 32 * high32 p + x

/-! Finalisation (`FinishFunction`, `FinishModule`) -/

/-- The calls the finalisation makes on the emitter, whose code is not among the sources;
`dump` is the debug print made under `DebugIR`. -/
inductive EmitterCall where
  | ProcessIndirectJumps
  | UpdateShadowImage
  | FixEntryPoint
  | CleanRegs
  | FixBBTerminators
  | BuildReturns
  | FixEntryBB
  | dump
  deriving DecidableEq, Repr

/-- Source: `OiInstTranslate::FinishFunction()`, as the emitter calls it makes, in order. -/
def FinishFunction (OneRegion DebugIR : Bool) : List EmitterCall :=
  if ¬ OneRegion then
    [EmitterCall.CleanRegs, EmitterCall.FixEntryBB, EmitterCall.FixBBTerminators]
      ++ (if DebugIR then [EmitterCall.dump] else [])
  else []

/-- Source: `OiInstTranslate::FinishModule()`, as the emitter calls it makes, in order, and
the abort it ends in, if any.  `ProcessIndirectJumps` is the boolean
`IREmitter.ProcessIndirectJumps()` returns. -/
def FinishModule (OneRegion DebugIR : Bool) (ProcessIndirectJumps : Bool) :
    List EmitterCall × Option Err :=
  if ¬ ProcessIndirectJumps then
    ([EmitterCall.ProcessIndirectJumps], some Err.processIndirectJumpsFailed)
  else
    ([EmitterCall.ProcessIndirectJumps, EmitterCall.UpdateShadowImage]
      ++ (if DebugIR ∧ ¬ OneRegion then [EmitterCall.dump] else [])
      ++ (if OneRegion then
            [EmitterCall.FixEntryPoint, EmitterCall.CleanRegs, EmitterCall.FixBBTerminators,
             EmitterCall.BuildReturns] ++ (if DebugIR then [EmitterCall.dump] else [])
          else []),
     none)

/-- The finalisation steps in the order the specification lists them for a mode: steps 1
to 3, step 4 in one-region mode only, step 5 last. -/
def specFinishOrder (OneRegion : Bool) : List EmitterCall :=
  [EmitterCall.ProcessIndirectJumps, EmitterCall.UpdateShadowImage,
   EmitterCall.FixBBTerminators]
    ++ (if OneRegion then [EmitterCall.FixEntryPoint, EmitterCall.BuildReturns] else [])
    ++ [EmitterCall.CleanRegs]

/-! The relocation reader (`RelocationReader.cpp`) over an object file given as data -/

/-- Source: `llvm::object::UnknownAddressOrSize`, the all-ones 64-bit value. -/
def UnknownAddressOrSize : Nat := 2 ^ 64 - 1

/-- What the reader asks of a section: `getName` (`none` when the call reports an error),
`getAddress`, `GetELFOffset` (the `sh_offset` field of its header), `isData` and
`isText`. -/
structure SectionRef where
  Name : Option String
  Address : Nat
  ELFOffset : Nat
  isData : Bool
  isText : Bool
  deriving DecidableEq, Repr

/-- What the reader asks of a symbol: `getName` and `getAddress` (`none` when the call
reports an error), `getSection` (`none` when the call reports an error or hands back
`section_end()`), and the `SF_Common` bit of `getFlags`. -/
structure SymbolRef where
  Name : Option String
  Address : Option Nat
  Section : Option SectionRef
  Common : Bool
  deriving DecidableEq, Repr

/-- What the reader asks of a relocation: `getOffset` and `getType` (`none` when the call
reports an error; `RelType` is the relocation type) and the symbol `*getSymbol()`. -/
structure RelocationRef where
  Offset : Option Nat
  Symbol : SymbolRef
  RelType : Option Nat
  deriving DecidableEq, Repr

/-- The members of `RelocationReader` its methods read: the sections and symbols of `Obj`
in iteration order, `SectionRelocMap` as its entries in iteration order (a section and,
for each of its relocation sections, the relocations in order), `ComdatSymbols` as its
`find`, the current section and `CurAddr`. -/
structure RelocationReader where
  sections : List SectionRef
  symbols : List SymbolRef
  SectionRelocMap : List (SectionRef × List (List RelocationRef))
  ComdatSymbols : String → Option Nat
  CurSection : SectionRef
  CurAddr : Nat

/-- Source: `SectionRelocMap[sec]`, empty for a section that is no key.  Sections are told
apart by what the reader asks of them. -/
def RelocationReader.relocSections (rd : RelocationReader) (sec : SectionRef) :
    List (List RelocationRef) :=
  match rd.SectionRelocMap.find? (fun e => decide (e.1 = sec)) with
  | some e => e.2
  | none => []

/-- The base both methods add for a section ("Relocatable file"): its address, or its ELF
offset when the address is 0. -/
def sectionBase (sec : SectionRef) : Nat :=
  if sec.Address = 0 then sec.ELFOffset else sec.Address

/-- The inner loop of `RelocationReader::CheckRelocation` over the relocations of one
relocation section: the first relocation at `CurAddr` whose symbol name can be read, with
that name and its `SF_Common` bit; an unreadable offset ends the loop. -/
def RelocationReader.checkSection (rd : RelocationReader) :
    List RelocationRef → Option (RelocationRef × String × Bool)
  | [] => none
  | Reloc :: rest =>
      match Reloc.Offset with
      | none => none
      | some addr =>
          if (rd.CurSection.ELFOffset + addr) % 2 ^ 64 ≠ rd.CurAddr then rd.checkSection rest
          else
            match Reloc.Symbol.Name with
            | some Name => some (Reloc, Name, Reloc.Symbol.Common)
            | none => rd.checkSection rest

/-- Source: `RelocationReader::CheckRelocation(Rel, Name, Comdat)`; `none` when it returns
false. -/
def RelocationReader.CheckRelocation (rd : RelocationReader) :
    Option (RelocationRef × String × Bool) :=
  (rd.relocSections rd.CurSection).findSome? rd.checkSection

/-- The loop of `ResolveRelocation` over `Obj->sections()`: the base of the first section
named `Name`; an unreadable section name ends the loop. -/
def sectionLoop (Name : String) : List SectionRef → Option Nat
  | [] => none
  | i :: rest =>
      match i.Name with
      | none => none
      | some SecName => if SecName ≠ Name then sectionLoop Name rest else some (sectionBase i)

/-- The loop of `ResolveRelocation` over `Obj->symbols()`: for the first symbol named
`Name` whose address is known, that address, plus the base of its section when it has one
(in 64-bit arithmetic); an unreadable name or address ends the loop. -/
def symbolLoop (Name : String) : List SymbolRef → Option Nat
  | [] => none
  | si :: rest =>
      match si.Name with
      | none => none
      | some SName =>
          if Name ≠ SName then symbolLoop Name rest
          else
            match si.Address with
            | none => none
            | some Address =>
                if Address = UnknownAddressOrSize then symbolLoop Name rest
                else
                  match si.Section with
                  | some sec => some ((Address + sectionBase sec) % 2 ^ 64)
                  | none => some Address

/-- The `if (Type) { ... Rel->getType(*Type) ... }` block: a null `Type` stays null, and an
unreadable relocation type aborts. -/
def storeType (Rel : RelocationRef) (Ty : Option Nat) : Except Err (Option Nat) :=
  match Ty with
  | none => .ok none
  | some _ =>
      match Rel.RelType with
      | some ty => .ok (some ty)
      | none => .error Err.relocationTypeError

/-- Source: `RelocationReader::ResolveRelocation(Res, Type)`.  `Res` is the value the
caller's variable holds, `Ty` stands for the pointer `Type`: `none` for a null pointer and the pointed-to value
otherwise; the result is the returned boolean with the final `Res` and `*Type`. -/
def RelocationReader.ResolveRelocation (rd : RelocationReader) (Res : Nat)
    (Ty : Option Nat) : Except Err (Bool × Nat × Option Nat) :=
  match rd.CheckRelocation with
  | none => .ok (false, Res, Ty)
  | some (Rel, Name, Comdat) =>
      if Comdat then
        match rd.ComdatSymbols Name with
        | none => .error Err.comdatSymbolMissing
        | some v => (storeType Rel Ty).map fun T => (true, v, T)
      else
        match sectionLoop Name rd.sections with
        | some SectionAddr => (storeType Rel Ty).map fun T => (true, SectionAddr, T)
        | none =>
            match symbolLoop Name rd.symbols with
            | some Address => (storeType Rel Ty).map fun T => (true, Address, T)
            | none => .ok (false, Res, Ty)

/-- The four bytes of the low 32 bits of `v` in memory order, for a little-endian or a
big-endian host. -/
def bytes32 (bigEndian : Bool) (v : Nat) : List Nat :=
  let b := [v % 256, v / 256 % 256, v / 65536 % 256, v / 16777216 % 256]
  if bigEndian then b.reverse else b

/-- Source: `*(int *)(&ShadowImage[P]) = v`: the bytes at `P` to `P + 3` are replaced by
those of the low 32 bits of `v` in the host's byte order.  A write that does not lie
inside the vector is undefined behaviour and is taken as an abort. -/
def patch32 (bigEndian : Bool) (P v : Nat) (ShadowImage : List Nat) : Except Err (List Nat) :=
  if P + 4 ≤ ShadowImage.length then
    .ok (ShadowImage.take P ++ bytes32 bigEndian v ++ ShadowImage.drop (P + 4))
  else .error Err.shadowImageOutOfBounds

/-- The loop of `ResolveAllDataRelocations` over `Obj->symbols()`: the target for the
first symbol named `Name` with a known address that does not lie in a text section; an
unreadable name or address ends the loop. -/
def dataSymbolLoop (Name : String) : List SymbolRef → Option Nat
  | [] => none
  | si :: rest =>
      match si.Name with
      | none => none
      | some SName =>
          if Name ≠ SName then dataSymbolLoop Name rest
          else
            match si.Address with
            | none => none
            | some TargetAddress =>
                if TargetAddress = UnknownAddressOrSize then dataSymbolLoop Name rest
                else
                  match si.Section with
                  | some sec =>
                      if sec.isText then dataSymbolLoop Name rest
                      else some ((TargetAddress + sectionBase sec) % 2 ^ 64)
                  | none => some TargetAddress

/-- How the body of the relocation loop of `ResolveAllDataRelocations` is left: on to the
next relocation, out of the loop (`break`), or out of the method (`return`). -/
inductive LoopExit where
  | next
  | leaveLoop
  | leaveMethod
  deriving DecidableEq, Repr

/-- The body of the innermost relocation loop of `ResolveAllDataRelocations` for one
relocation of a section whose ELF offset is `offset`. -/
def RelocationReader.patchRelocation (rd : RelocationReader) (bigEndian : Bool)
    (offset : Nat) (Reloc : RelocationRef) (ShadowImage : List Nat) :
    Except Err (LoopExit × List Nat) :=
  match Reloc.Offset with
  | none => .ok (LoopExit.leaveLoop, ShadowImage)
  | some addr =>
      let PatchAddress := (addr + offset) % 2 ^ 64
      match Reloc.Symbol.Name with
      | none => .ok (LoopExit.leaveMethod, ShadowImage)
      | some Name =>
          if Reloc.Symbol.Common then
            match rd.ComdatSymbols Name with
            | none => .error Err.comdatSymbolMissing
            | some v =>
                (patch32 bigEndian PatchAddress v ShadowImage).map fun img =>
                  (LoopExit.next, img)
          else
            match dataSymbolLoop Name rd.symbols with
            | some TargetAddress =>
                (patch32 bigEndian PatchAddress TargetAddress ShadowImage).map fun img =>
                  (LoopExit.next, img)
            | none => .ok (LoopExit.next, ShadowImage)

/-- The relocation loop over one relocation section; the boolean tells whether the method
was left by `return`. -/
def RelocationReader.patchRelocations (rd : RelocationReader) (bigEndian : Bool)
    (offset : Nat) : List RelocationRef → List Nat → Except Err (Bool × List Nat)
  | [], img => .ok (false, img)
  | Reloc :: rest, img =>
      match rd.patchRelocation bigEndian offset Reloc img with
      | .error e => .error e
      | .ok (LoopExit.next, img1) => rd.patchRelocations bigEndian offset rest img1
      | .ok (LoopExit.leaveLoop, img1) => .ok (false, img1)
      | .ok (LoopExit.leaveMethod, img1) => .ok (true, img1)

/-- The loop over the relocation sections of one data section. -/
def RelocationReader.patchRelocSections (rd : RelocationReader) (bigEndian : Bool)
    (offset : Nat) : List (List RelocationRef) → List Nat → Except Err (Bool × List Nat)
  | [], img => .ok (false, img)
  | RelocSec :: rest, img =>
      match rd.patchRelocations bigEndian offset RelocSec img with
      | .error e => .error e
      | .ok (true, img1) => .ok (true, img1)
      | .ok (false, img1) => rd.patchRelocSections bigEndian offset rest img1

/-- The outer loop of `ResolveAllDataRelocations` over the entries of `SectionRelocMap`. -/
def RelocationReader.patchEntries (rd : RelocationReader) (bigEndian : Bool) :
    List (SectionRef × List (List RelocationRef)) → List Nat → Except Err (Bool × List Nat)
  | [], img => .ok (false, img)
  | MapEntry :: rest, img =>
      if ¬ MapEntry.1.isData ∨ MapEntry.1.isText then rd.patchEntries bigEndian rest img
      else
        match rd.patchRelocSections bigEndian MapEntry.1.ELFOffset MapEntry.2 img with
        | .error e => .error e
        | .ok (true, img1) => .ok (true, img1)
        | .ok (false, img1) => rd.patchEntries bigEndian rest img1

/-- Source: `RelocationReader::ResolveAllDataRelocations(ShadowImage)`: the shadow image
when the method is done. -/
def RelocationReader.ResolveAllDataRelocations (rd : RelocationReader) (bigEndian : Bool)
    (ShadowImage : List Nat) : Except Err (List Nat) :=
  (rd.patchEntries bigEndian rd.SectionRelocMap ShadowImage).map fun r => r.2

/-! Shape of the generic rows of the libc dispatch chain -/

/-- Whether an argument type is `AT_Float` or `AT_Double`. -/
def ArgType.isFP : ArgType → Bool
  | .AT_Float => true
  | .AT_Double => true
  | _ => false

/-- For a generic row: the `ArgTypes` array has `numargs + 1` elements, `numargs` is at
most 4, and the row goes to `HandleGenericDouble` exactly when some element is `AT_Float`
or `AT_Double`.  Rows with a dedicated routine pass no array. -/
def Lowering.genericArgsOk : Lowering → Bool
  | .bespoke _ => true
  | .genericInt _ numargs _ ArgTypes =>
      decide (ArgTypes.length = numargs + 1) && decide (numargs ≤ 4)
        && !ArgTypes.any ArgType.isFP
  | .genericDouble _ numargs _ ArgTypes =>
      decide (ArgTypes.length = numargs + 1) && decide (numargs ≤ 4)
        && ArgTypes.any ArgType.isFP

/-! The specification's reading of relocation resolution -/

/-- The address the specification gives for a symbol: nothing when the address is unknown,
else the address plus the base of its containing section, if it has one. -/
def specSymbolAddress (si : SymbolRef) : Option Nat :=
  match si.Address with
  | none => none
  | some a =>
      if a = UnknownAddressOrSize then none
      else
        match si.Section with
        | some sec => some ((a + sectionBase sec) % 2 ^ 64)
        | none => some a

/-- The target in the specification's priority order for a relocation against the symbol
named `Name`: the `ComdatSymbols` value for a common symbol; otherwise the base of the
first section of that name; otherwise the address of the first symbol of that name with a
known address. -/
def specTarget (rd : RelocationReader) (Name : String) (Comdat : Bool) : Option Nat :=
  if Comdat then rd.ComdatSymbols Name
  else
    match rd.sections.find? (fun sec => decide (sec.Name = some Name)) with
    | some sec => some (sectionBase sec)
    | none =>
        (rd.symbols.find? (fun si =>
          decide (si.Name = some Name) && (specSymbolAddress si).isSome)).bind
          specSymbolAddress

/-- A text section at file offset 64 of a relocatable object. -/
def sampleText : SectionRef :=
  { Name := some ".text", Address := 0, ELFOffset := 64, isData := false, isText := true }

/-- A data section at file offset 4096 of a relocatable object. -/
def sampleData : SectionRef :=
  { Name := some ".data", Address := 0, ELFOffset := 4096, isData := true, isText := false }

/-- A symbol `x` at address 16 of the data section. -/
def sampleSymbol : SymbolRef :=
  { Name := some "x", Address := some 16, Section := some sampleData, Common := false }

/-- A relocation of type 5 against `x` at offset 8 of its section. -/
def sampleRelocation : RelocationRef :=
  { Offset := some 8, Symbol := sampleSymbol, RelType := some 5 }

/-- A relocatable object with the two sample sections, the symbol `x`, and the sample
relocation in the text section; the reader stands at the relocated word. -/
def RelocationReader.sample : RelocationReader :=
  { sections := [sampleText, sampleData]
    symbols := [sampleSymbol]
    SectionRelocMap := [(sampleText, [[sampleRelocation]])]
    ComdatSymbols := fun _ => none
    CurSection := sampleText
    CurAddr := 72 }

/-- Two images of the same length that agree at every index outside `W`. -/
def sameOutside (W : Nat → Prop) (img img1 : List Nat) : Prop :=
  img1.length = img.length ∧ ∀ i, ¬ W i → img1[i]? = img[i]?

/-- The four-byte window starting at `P`. -/
def inWindow (P i : Nat) : Prop := P ≤ i ∧ i < P + 4

/-- The index constant `idx` that `HandleMemOperand` adds to the base register, for the
immediate `imm` and the caller's `offset` at decode address `CurAddr`: formed from the
relocation target `c` and the immediate when a relocation resolves there (`relocIndex`),
and from the immediate plus the offset otherwise. -/
def memIndex (env : Env) (CurAddr : Nat) (c : Const) (imm offset : Int) : Const :=
  if (env.ResolveRelocationMem CurAddr).found then
    relocIndex env c imm (env.ResolveRelocationMem CurAddr).UndefinedSymbol
  else getInt32 (imm + offset)

/-! The specification's reading of data-relocation patching -/

/-- Whether a symbol lies in a text section. -/
def SymbolRef.inText (si : SymbolRef) : Bool :=
  match si.Section with
  | some sec => sec.isText
  | none => false

/-- The target the specification gives for a data relocation: the `ComdatSymbols` value
for a common symbol, otherwise the address (plus the base of its section) of the first
symbol of the relocation's name that has a known address and lies outside the text
sections; nothing when there is no such symbol. -/
def specDataTarget (rd : RelocationReader) (R : RelocationRef) : Option Nat :=
  match R.Symbol.Name with
  | none => none
  | some Name =>
      if R.Symbol.Common then rd.ComdatSymbols Name
      else
        (rd.symbols.find? (fun si =>
          decide (si.Name = some Name) && (specSymbolAddress si).isSome && !si.inText)).bind
          specSymbolAddress

/-- The patch the specification gives for a relocation of a section at ELF offset
`offset`: the patch address `P` and the target, when the relocation has a target. -/
def specPatch (rd : RelocationReader) (offset : Nat) (R : RelocationRef) :
    Option (Nat × Nat) :=
  match R.Offset, specDataTarget rd R with
  | some a, some v => some ((a + offset) % 2 ^ 64, v)
  | _, _ => none

/-- The patches of one entry of `SectionRelocMap`: those of all its relocations in order
for a data, non-text section, none for any other section. -/
def specPatchesOfEntry (rd : RelocationReader)
    (e : SectionRef × List (List RelocationRef)) : List (Nat × Nat) :=
  if e.1.isData && !e.1.isText then e.2.flatten.filterMap (specPatch rd e.1.ELFOffset)
  else []

/-- All patches of the object file, in the order of `SectionRelocMap`. -/
def RelocationReader.specPatches (rd : RelocationReader) : List (Nat × Nat) :=
  rd.SectionRelocMap.flatMap (specPatchesOfEntry rd)

/-- The image with the four bytes at `P` replaced by those of the low 32 bits of `v`, for
the patch `(P, v)`. -/
def writeLow32 (bigEndian : Bool) (img : List Nat) (pv : Nat × Nat) : List Nat :=
  img.take pv.1 ++ bytes32 bigEndian pv.2 ++ img.drop (pv.1 + 4)

/-- A data section at file offset 8 of a relocatable object. -/
def sampleSmallData : SectionRef :=
  { Name := some ".sdata", Address := 0, ELFOffset := 8, isData := true, isText := false }

/-- A symbol `y` at address 16909052 of the small data section. -/
def sampleDataSymbol : SymbolRef :=
  { Name := some "y", Address := some 16909052, Section := some sampleSmallData,
    Common := false }

/-- A symbol `f` at address 32 of the text section. -/
def sampleTextSymbol : SymbolRef :=
  { Name := some "f", Address := some 32, Section := some sampleText, Common := false }

/-- A relocatable object whose small data section has two relocations: one against the
data symbol `y` at offset 4 and one against the function `f` at offset 0. -/
def RelocationReader.dataSample : RelocationReader :=
  { sections := [sampleText, sampleSmallData]
    symbols := [sampleTextSymbol, sampleDataSymbol]
    SectionRelocMap :=
      [(sampleSmallData,
        [[{ Offset := some 0, Symbol := sampleTextSymbol, RelType := some 2 },
          { Offset := some 4, Symbol := sampleDataSymbol, RelType := some 2 }]])]
    ComdatSymbols := fun _ => none
    CurSection := sampleSmallData
    CurAddr := 8 }

/-! Properties -/

/-- Every register is either fixed by `conv32` or is the 64-bit alias of a general-purpose
register. -/
theorem conv32_fixed_or_alias (r : Mips.Reg) :
    conv32 r = r ∨ ∃ k : Fin 32, r = alias_64 (gpr k) := by
  cases r <;> first | exact Or.inl rfl | exact Or.inr ⟨0, rfl⟩ | exact Or.inr ⟨1, rfl⟩ | exact Or.inr ⟨2, rfl⟩ | exact Or.inr ⟨3, rfl⟩ | exact Or.inr ⟨4, rfl⟩ | exact Or.inr ⟨5, rfl⟩ | exact Or.inr ⟨6, rfl⟩ | exact Or.inr ⟨7, rfl⟩ | exact Or.inr ⟨8, rfl⟩ | exact Or.inr ⟨9, rfl⟩ | exact Or.inr ⟨10, rfl⟩ | exact Or.inr ⟨11, rfl⟩ | exact Or.inr ⟨12, rfl⟩ | exact Or.inr ⟨13, rfl⟩ | exact Or.inr ⟨14, rfl⟩ | exact Or.inr ⟨15, rfl⟩ | exact Or.inr ⟨16, rfl⟩ | exact Or.inr ⟨17, rfl⟩ | exact Or.inr ⟨18, rfl⟩ | exact Or.inr ⟨19, rfl⟩ | exact Or.inr ⟨20, rfl⟩ | exact Or.inr ⟨21, rfl⟩ | exact Or.inr ⟨22, rfl⟩ | exact Or.inr ⟨23, rfl⟩ | exact Or.inr ⟨24, rfl⟩ | exact Or.inr ⟨25, rfl⟩ | exact Or.inr ⟨26, rfl⟩ | exact Or.inr ⟨27, rfl⟩ | exact Or.inr ⟨28, rfl⟩ | exact Or.inr ⟨29, rfl⟩ | exact Or.inr ⟨30, rfl⟩ | exact Or.inr ⟨31, rfl⟩

/-- C1: for each of the 32 general-purpose registers, taken by its directive number `k`,
both the register and its 64-bit alias are sent by `ConvToDirective ∘ conv32` to `k`; and
`conv32` is the identity on every register that is not one of the 32 64-bit aliases. -/
theorem conv32_directive_roundtrip :
    (∀ k : Fin 32,
        ConvToDirective (conv32 (alias_64 (gpr k))) = some k.val ∧
        ConvToDirective (conv32 (gpr k)) = some k.val) ∧
    (∀ r : Mips.Reg, (∀ k : Fin 32, r ≠ alias_64 (gpr k)) → conv32 r = r) := by
  refine ⟨?_, ?_⟩
  · intro k
    fin_cases k <;> exact ⟨rfl, rfl⟩
  · intro r h
    rcases conv32_fixed_or_alias r with h1 | ⟨k, hk⟩
    · exact h1
    · exact absurd hk (h k)

/-- C1 at a concrete input: the single-precision register `F0` is no 64-bit alias, so
`conv32` leaves it alone. -/
theorem conv32_directive_roundtrip_witness :
    (∀ k : Fin 32, Mips.Reg.F0 ≠ alias_64 (gpr k)) ∧ conv32 Mips.Reg.F0 = Mips.Reg.F0 :=
  have h : ∀ k : Fin 32, Mips.Reg.F0 ≠ alias_64 (gpr k) := by
    intro k
    fin_cases k <;> (intro h; cases h)
  ⟨h, conv32_directive_roundtrip.2 Mips.Reg.F0 h⟩

/-- C2: register 0 is hard-wired in the integer operand resolvers.  For a register operand
whose canonical index is `n`: when `n = 0`, `HandleAluSrcOperand` yields the constant
`i32 0` and returns the state untouched (no load, no read mark) and `HandleAluDstOperand`
returns the null pointer with the state untouched (no write mark); when `n ≠ 0`,
`HandleAluSrcOperand` appends exactly one load from cell `Regs[n]`, yields that load and
sets `ReadMap[n]`, and `HandleAluDstOperand` returns the cell `Regs[n]` and sets
`WriteMap[n]`. -/
theorem alu_operand_register_zero_hardwired (env : Env) (s : TState)
    (First : Option (Option Value)) (r : Mips.Reg) (n : Nat)
    (hn : ConvToDirective (conv32 r) = some n) :
    (n = 0 →
      HandleAluSrcOperand env (MCOperand.reg r) First s
        = .ok (Value.const (Const.int 32 0), First, s) ∧
      HandleAluDstOperand (MCOperand.reg r) s = .ok (none, s)) ∧
    (n ≠ 0 →
      HandleAluSrcOperand env (MCOperand.reg r) First s
        = .ok (Value.inst s.insts.length,
               First.map (fun f => GetFirstInstruction2 f (some (Value.inst s.insts.length))),
               { s with insts := s.insts ++ [Instr.load (Value.reg n)],
                        ReadMap := setAt s.ReadMap n true }) ∧
      HandleAluDstOperand (MCOperand.reg r) s
        = .ok (some (Value.reg n), { s with WriteMap := setAt s.WriteMap n true })) := by
  refine ⟨?_, ?_⟩
  · intro h0
    subst h0
    simp [HandleAluSrcOperand, HandleAluDstOperand, directiveOf, hn, bind, Except.bind, pure,
      Except.pure]
  · intro h0
    simp [HandleAluSrcOperand, HandleAluDstOperand, directiveOf, hn, bind, Except.bind, pure,
      Except.pure, h0, CreateLoad, emit]

/-- C2 at concrete inputs: the alias `ZERO_64` (index 0) reads as the constant and writes
to nothing. -/
theorem alu_operand_register_zero_hardwired_witness :
    HandleAluSrcOperand Env.plain (MCOperand.reg Mips.Reg.ZERO_64) (some none) TState.init
      = .ok (Value.const (Const.int 32 0), some none, TState.init) ∧
    HandleAluDstOperand (MCOperand.reg Mips.Reg.ZERO_64) TState.init
      = .ok (none, TState.init) :=
  (alu_operand_register_zero_hardwired Env.plain TState.init (some none) Mips.Reg.ZERO_64 0
    rfl).1 rfl

/-- C3 (the code departs from the claim): `addu $zero, $v0, $v1` makes the handler call
`Builder.CreateStore(v, o0)` with the null pointer that `HandleAluDstOperand` returned for
register 0, so the emitted stream ends in a store whose destination is null; the sibling
arm `MUL_OI`, which tests `if (dst1)` / `if (dst2)`, emits no store when both destinations
are register 0. -/
theorem addu_zero_destination_stores_through_null :
    (∃ t, printInstruction Env.plain
        { Opcode := Opcode.ADDu,
          Operands := [MCOperand.reg Mips.Reg.ZERO, MCOperand.reg Mips.Reg.V0,
                       MCOperand.reg Mips.Reg.V1] } TState.init = .ok t ∧
      t.insts = [Instr.load (Value.reg 2), Instr.load (Value.reg 3),
                 Instr.binop BinOp.add (Value.inst 0) (Value.inst 1),
                 Instr.store (Value.inst 2) none] ∧
      t.insts.any Instr.isStore = true) ∧
    (∃ t, printInstruction Env.plain
        { Opcode := Opcode.MUL_OI,
          Operands := [MCOperand.reg Mips.Reg.ZERO, MCOperand.reg Mips.Reg.ZERO,
                       MCOperand.reg Mips.Reg.V0, MCOperand.reg Mips.Reg.V1] }
        TState.init = .ok t ∧
      t.insts.any Instr.isStore = false) :=
  ⟨⟨_, rfl, rfl, rfl⟩, ⟨_, rfl, rfl⟩⟩

theorem toU32_natCast (k : Nat) (h : k < 2 ^ 32) : toU32 (k : Int) = k := by
  unfold toU32
  have h1 : ((k : Int) % (2 : Int) ^ 32) = (k : Int) := by
    apply Int.emod_eq_of_lt
    · exact Int.ofNat_nonneg k
    · exact_mod_cast h
  rw [h1]
  exact Int.toNat_ofNat k

theorem toU64_natCast (k : Nat) (h : k < 2 ^ 64) : toU64 (k : Int) = k := by
  unfold toU64
  have h1 : ((k : Int) % (2 : Int) ^ 64) = (k : Int) := by
    apply Int.emod_eq_of_lt
    · exact Int.ofNat_nonneg k
    · exact_mod_cast h
  rw [h1]
  exact Int.toNat_ofNat k

/-- OR-ing a 32-bit low half into a shifted high half commutes with truncation to 32 bits. -/
theorem or_shl_mod (lo hi : Nat) (h : lo < 2 ^ 32) :
    lo ||| (hi <<< 14) % 2 ^ 32 = ((hi <<< 14) ||| lo) % 2 ^ 32 := by
  apply Nat.eq_of_testBit_eq
  intro i
  simp only [Nat.testBit_or, Nat.testBit_mod_two_pow]
  by_cases hi32 : i < 32
  · simp [hi32, Bool.or_comm]
  · have : lo.testBit i = false := by
      apply Nat.testBit_lt_two_pow
      exact lt_of_lt_of_le h (Nat.pow_le_pow_right (by decide) (by omega))
    simp [hi32, this]

/-- With no relocation pending, an immediate ALU source resolves to the 32-bit constant
of the immediate and leaves the state alone. -/
theorem HandleAluSrcOperand_imm_plain (env : Env) (s : TState) (i : Int)
    (First : Option (Option Value))
    (h1 : (env.ResolveRelocationValue s.CurAddr).found = false)
    (h2 : (env.ResolveRelocationValue s.CurAddr).IsFuncAddr = false) :
    HandleAluSrcOperand env (MCOperand.imm i) First s
      = .ok (Value.const (getInt32 i), First, s) := by
  simp [HandleAluSrcOperand, h1, h2]

/-- A non-zero register destination resolves to its cell and is marked written. -/
theorem HandleAluDstOperand_nonzero (s : TState) (r : Mips.Reg) (n : Nat)
    (hdst : ConvToDirective (conv32 r) = some n) (hn : n ≠ 0) :
    HandleAluDstOperand (MCOperand.reg r) s
      = .ok (some (Value.reg n), { s with WriteMap := setAt s.WriteMap n true }) := by
  simp [HandleAluDstOperand, directiveOf, hdst, hn, bind, Except.bind, pure, Except.pure]

/-- Whenever an ALU source resolves to a constant, nothing was emitted or marked: the
`First` slot and the state come back unchanged. -/
theorem HandleAluSrcOperand_const_result (env : Env) (o : MCOperand)
    (F F' : Option (Option Value)) (s s' : TState) (c : Const)
    (h : HandleAluSrcOperand env o F s = .ok (Value.const c, F', s')) :
    F' = F ∧ s' = s := by
  cases o with
  | reg rg =>
      simp only [HandleAluSrcOperand, bind, Except.bind] at h
      cases hd : directiveOf rg with
      | error e => simp [hd] at h
      | ok n =>
          simp only [hd] at h
          by_cases h0 : n = 0
          · simp only [h0, reduceIte, pure, Except.pure, Except.ok.injEq, Prod.mk.injEq] at h
            exact ⟨h.2.1.symm, h.2.2.symm⟩
          · simp [h0, pure, Except.pure, CreateLoad, emit] at h
  | imm i =>
      simp only [HandleAluSrcOperand] at h
      split at h
      · simp only [bind, Except.bind] at h
        cases hc : castConstant (env.ResolveRelocationValue s.CurAddr).V0 with
        | error e => simp [hc] at h
        | ok c0 =>
            simp only [hc] at h
            split at h <;>
              (simp only [pure, Except.pure, Except.ok.injEq, Prod.mk.injEq] at h
               exact ⟨h.2.1.symm, h.2.2.symm⟩)
      · split at h
        · split at h
          · split at h <;>
              (simp only [Except.ok.injEq, Prod.mk.injEq] at h
               exact ⟨h.2.1.symm, h.2.2.symm⟩)
          · simp at h
        · simp only [Except.ok.injEq, Prod.mk.injEq] at h
          exact ⟨h.2.1.symm, h.2.2.symm⟩
  | fpImm p =>
      simp only [HandleAluSrcOperand, Except.ok.injEq, Prod.mk.injEq] at h
      exact ⟨h.2.1.symm, h.2.2.symm⟩
  | expr => simp [HandleAluSrcOperand] at h
  | invalid => simp [HandleAluSrcOperand] at h

/-- The LDI/LDIHI pair for operands that resolve to arbitrary constants. -/
theorem ldi_ldihi_fusion_resolved (env : Env) (s : TState) (A n : Nat) (dst : Mips.Reg)
    (o_lo o_hi : MCOperand) (c_lo c_hi : Const)
    (hdst : ConvToDirective (conv32 dst) = some n) (hn : n ≠ 0)
    (hlo : ∃ f t, HandleAluSrcOperand env o_lo (some none) { s with CurAddr := A }
      = .ok (Value.const c_lo, f, t))
    (hhi : ∃ f t, HandleAluSrcOperand env o_hi (some none)
        { s with CurAddr := A + 4, WriteMap := setAt s.WriteMap n true,
                 LDIData := { DstOperand := some (Value.reg n), SrcOperand := some c_lo,
                              Addr := A } }
      = .ok (Value.const c_hi, f, t)) :
    translateInsts env
        [(A, { Opcode := Opcode.LDI, Operands := [MCOperand.reg dst, o_lo] }),
         (A + 4, { Opcode := Opcode.LDIHI, Operands := [o_hi] })] s
      = .ok { s with
          CurAddr := A + 4, WriteMap := setAt s.WriteMap n true,
          LDIData := { DstOperand := some (Value.reg n), SrcOperand := some c_lo, Addr := A },
          insts := s.insts ++
            [Instr.store
              (Value.const (Const.fold BinOp.or c_lo (Const.fold BinOp.shl c_hi (Const.int 32 14))))
              (some (Value.reg n))],
          InsMap := setAt (setAt s.InsMap A (some s.insts.length)) (A + 4)
            (some s.insts.length) } := by
  obtain ⟨f1, t1, h1⟩ := hlo
  obtain ⟨f2, t2, h2⟩ := hhi
  obtain ⟨hf1, ht1⟩ := HandleAluSrcOperand_const_result env _ _ _ _ _ _ h1
  obtain ⟨hf2, ht2⟩ := HandleAluSrcOperand_const_result env _ _ _ _ _ _ h2
  subst hf1 ht1 hf2 ht2
  have hldi : printInstruction env
        { Opcode := Opcode.LDI, Operands := [MCOperand.reg dst, o_lo] }
        { s with CurAddr := A }
      = .ok { s with
          CurAddr := A, WriteMap := setAt s.WriteMap n true,
          LDIData := { DstOperand := some (Value.reg n), SrcOperand := some c_lo,
                       Addr := A } } := by
    simp only [printInstruction, printLDI, MCInst.getOperand, List.getD_cons_succ,
      List.getD_cons_zero, bind, Except.bind, h1]
    simp only [HandleAluDstOperand_nonzero _ dst n hdst hn]
    rfl
  simp only [translateInsts, hldi]
  simp only [printInstruction, printLDIHI, MCInst.getOperand, List.getD_cons_zero, bind,
    Except.bind, h2]
  have h14 : getInt32 14 = Const.int 32 14 := by decide
  simp [CreateStore, emit, GetFirstInstruction2, isaInstruction, Option.join, pure,
    Except.pure, h14]

/-- C4: for 32-bit constants `k_lo`, `k_hi` given as plain immediates (no relocation is
pending at `A` or at `A + 4`) and a destination register of non-zero canonical index `n`:
translating `LDI dst, k_lo` at `A` alone emits nothing (the instruction list is unchanged;
only the destination, the constant and `A` are recorded), and translating it followed by
`LDIHI k_hi` at `A + 4` appends exactly one instruction, the store of the 32-bit constant
`((k_hi << 14) | k_lo) mod 2^32` into the cell `Regs[n]` recorded by the LDI, pinned in
`InsMap` at both addresses.  For `k_lo = 0x1234`, `k_hi = 0x5` the stored constant is
`0x15234`.  More generally, whatever relocations are pending, if the LDI source resolves
to a constant `c_lo` and the LDIHI operand to a constant `c_hi`, the pair appends exactly
one store, of the constant `c_lo | (c_hi << 14)`, into that cell. -/
theorem ldi_ldihi_fusion (env : Env) (s : TState) (A k_lo k_hi n : Nat) (dst : Mips.Reg)
    (hlo : k_lo < 2 ^ 32) (hhi : k_hi < 2 ^ 32)
    (hdst : ConvToDirective (conv32 dst) = some n) (hn : n ≠ 0)
    (hA : (env.ResolveRelocationValue A).found = false ∧
          (env.ResolveRelocationValue A).IsFuncAddr = false)
    (hA4 : (env.ResolveRelocationValue (A + 4)).found = false ∧
           (env.ResolveRelocationValue (A + 4)).IsFuncAddr = false) :
    translateInsts env
        [(A, { Opcode := Opcode.LDI, Operands := [MCOperand.reg dst, MCOperand.imm k_lo] })] s
      = .ok { s with
          CurAddr := A, WriteMap := setAt s.WriteMap n true,
          LDIData := { DstOperand := some (Value.reg n), SrcOperand := some (Const.int 32 k_lo),
                       Addr := A } } ∧
    translateInsts env
        [(A, { Opcode := Opcode.LDI, Operands := [MCOperand.reg dst, MCOperand.imm k_lo] }),
         (A + 4, { Opcode := Opcode.LDIHI, Operands := [MCOperand.imm k_hi] })] s
      = .ok { s with
          CurAddr := A + 4, WriteMap := setAt s.WriteMap n true,
          LDIData := { DstOperand := some (Value.reg n), SrcOperand := some (Const.int 32 k_lo),
                       Addr := A },
          insts := s.insts ++
            [Instr.store (Value.const (Const.int 32 (((k_hi <<< 14) ||| k_lo) % 2 ^ 32)))
              (some (Value.reg n))],
          InsMap := setAt (setAt s.InsMap A (some s.insts.length)) (A + 4)
            (some s.insts.length) } ∧
    Except.map TState.insts (translateInsts Env.plain
        [(0, { Opcode := Opcode.LDI,
               Operands := [MCOperand.reg Mips.Reg.V0, MCOperand.imm 0x1234] }),
         (4, { Opcode := Opcode.LDIHI, Operands := [MCOperand.imm 0x5] })] TState.init)
      = .ok [Instr.store (Value.const (Const.int 32 0x15234)) (some (Value.reg 2))] ∧
    (∀ (o_lo o_hi : MCOperand) (c_lo c_hi : Const),
      (∃ f t, HandleAluSrcOperand env o_lo (some none) { s with CurAddr := A }
        = .ok (Value.const c_lo, f, t)) →
      (∃ f t, HandleAluSrcOperand env o_hi (some none)
          { s with CurAddr := A + 4, WriteMap := setAt s.WriteMap n true,
                   LDIData := { DstOperand := some (Value.reg n), SrcOperand := some c_lo,
                                Addr := A } }
        = .ok (Value.const c_hi, f, t)) →
      translateInsts env
          [(A, { Opcode := Opcode.LDI, Operands := [MCOperand.reg dst, o_lo] }),
           (A + 4, { Opcode := Opcode.LDIHI, Operands := [o_hi] })] s
        = .ok { s with
            CurAddr := A + 4, WriteMap := setAt s.WriteMap n true,
            LDIData := { DstOperand := some (Value.reg n), SrcOperand := some c_lo,
                         Addr := A },
            insts := s.insts ++
              [Instr.store
                (Value.const
                  (Const.fold BinOp.or c_lo (Const.fold BinOp.shl c_hi (Const.int 32 14))))
                (some (Value.reg n))],
            InsMap := setAt (setAt s.InsMap A (some s.insts.length)) (A + 4)
              (some s.insts.length) }) := by
  obtain ⟨hA1, hA2⟩ := hA
  obtain ⟨hB1, hB2⟩ := hA4
  have hldi : printInstruction env
        { Opcode := Opcode.LDI, Operands := [MCOperand.reg dst, MCOperand.imm k_lo] }
        { s with CurAddr := A }
      = .ok { s with
          CurAddr := A, WriteMap := setAt s.WriteMap n true,
          LDIData := { DstOperand := some (Value.reg n), SrcOperand := some (Const.int 32 k_lo),
                       Addr := A } } := by
    simp only [printInstruction, printLDI, MCInst.getOperand, List.getD_cons_succ,
      List.getD_cons_zero, bind, Except.bind]
    rw [HandleAluSrcOperand_imm_plain env _ _ _ hA1 hA2]
    simp only [HandleAluDstOperand_nonzero _ dst n hdst hn, getInt32, toU32_natCast k_lo hlo]
    rfl
  refine ⟨?_, ?_, rfl, fun o_lo o_hi c_lo c_hi h1 h2 =>
    ldi_ldihi_fusion_resolved env s A n dst o_lo o_hi c_lo c_hi hdst hn h1 h2⟩
  · simp only [translateInsts, hldi]
  · simp only [translateInsts, hldi]
    simp only [printInstruction, printLDIHI, MCInst.getOperand, List.getD_cons_zero, bind,
      Except.bind]
    rw [HandleAluSrcOperand_imm_plain env _ _ _ hB1 hB2]
    have h14 : toU32 14 = 14 := by decide
    have hor := or_shl_mod k_lo k_hi hlo
    simp only [getInt32, toU32_natCast k_hi hhi, h14, Const.fold, evalBinOp]
    simp [CreateStore, emit, GetFirstInstruction2, isaInstruction, Option.join, pure,
      Except.pure]
    simpa using hor

/-- C4 at the specification's example: `LDI $v0, 0x1234` at 0 followed by `LDIHI 0x5` at 4,
from the initial state, with no relocations. -/
theorem ldi_ldihi_fusion_witness :
    translateInsts Env.plain
        [(0, { Opcode := Opcode.LDI,
               Operands := [MCOperand.reg Mips.Reg.V0, MCOperand.imm ((0x1234 : Nat) : Int)] }),
         (0 + 4, { Opcode := Opcode.LDIHI, Operands := [MCOperand.imm ((0x5 : Nat) : Int)] })]
        TState.init
      = .ok { TState.init with
          CurAddr := 0 + 4, WriteMap := setAt TState.init.WriteMap 2 true,
          LDIData := { DstOperand := some (Value.reg 2),
                       SrcOperand := some (Const.int 32 0x1234), Addr := 0 },
          insts := TState.init.insts ++
            [Instr.store (Value.const (Const.int 32 (((0x5 <<< 14) ||| 0x1234) % 2 ^ 32)))
              (some (Value.reg 2))],
          InsMap := setAt (setAt TState.init.InsMap 0 (some TState.init.insts.length)) (0 + 4)
            (some TState.init.insts.length) } :=
  (ldi_ldihi_fusion Env.plain TState.init 0 0x1234 0x5 2 Mips.Reg.V0 (by decide) (by decide)
    rfl (by decide) ⟨rfl, rfl⟩ ⟨rfl, rfl⟩).2.1

@[simp] theorem withLDI_CurAddr (d : LastLDIData) (s : TState) :
    (withLDI d s).CurAddr = s.CurAddr := rfl

@[simp] theorem withLDI_insts (d : LastLDIData) (s : TState) :
    (withLDI d s).insts = s.insts := rfl

theorem emit_withLDI (d : LastLDIData) (i : Instr) (s : TState) :
    emit i (withLDI d s) = ((emit i s).1, withLDI d (emit i s).2) := rfl

theorem CreateBinOp_withLDI (d : LastLDIData) (op : BinOp) (l r : Value) (s : TState) :
    CreateBinOp op l r (withLDI d s)
      = ((CreateBinOp op l r s).1, withLDI d (CreateBinOp op l r s).2) := by
  unfold CreateBinOp
  split <;> rfl

theorem CreateCast_withLDI (d : LastLDIData) (op : CastOp) (v : Value) (ty : Ty) (s : TState) :
    CreateCast op v ty (withLDI d s)
      = ((CreateCast op v ty s).1, withLDI d (CreateCast op v ty s).2) := by
  unfold CreateCast
  split <;> rfl

theorem CreateICmp_withLDI (d : LastLDIData) (p : ICmpPred) (l r : Value) (s : TState) :
    CreateICmp p l r (withLDI d s)
      = ((CreateICmp p l r s).1, withLDI d (CreateICmp p l r s).2) := by
  unfold CreateICmp
  split <;> rfl

theorem HandleAluSrcOperand_withLDI (env : Env) (d : LastLDIData) (o : MCOperand)
    (F : Option (Option Value)) (s : TState) :
    HandleAluSrcOperand env o F (withLDI d s)
      = (HandleAluSrcOperand env o F s).map (liftSrc d) := by
  cases o with
  | reg r =>
      simp only [HandleAluSrcOperand, bind, Except.bind]
      cases hd : directiveOf r with
      | error e => rfl
      | ok n =>
          simp only []
          by_cases h0 : n = 0
          · simp [h0, pure, Except.pure, Except.map, liftSrc]
          · simp [h0, pure, Except.pure, Except.map, liftSrc, CreateLoad, emit, withLDI]
  | imm i =>
      simp only [HandleAluSrcOperand, withLDI_CurAddr]
      split
      · simp only [bind, Except.bind]
        cases castConstant (env.ResolveRelocationValue s.CurAddr).V0 with
        | error e => rfl
        | ok c =>
            simp only []
            split <;> rfl
      · split
        · split
          · split <;> rfl
          · rfl
        · rfl
  | fpImm p => rfl
  | expr => rfl
  | invalid => rfl

theorem HandleAluDstOperand_withLDI (d : LastLDIData) (o : MCOperand) (s : TState) :
    HandleAluDstOperand o (withLDI d s)
      = (HandleAluDstOperand o s).map (fun r => (r.1, withLDI d r.2)) := by
  cases o with
  | reg r =>
      simp only [HandleAluDstOperand, bind, Except.bind]
      cases hd : directiveOf r with
      | error e => rfl
      | ok n =>
          simp only []
          by_cases h0 : n = 0
          · simp [h0, pure, Except.pure, Except.map]
          · simp [h0, pure, Except.pure, Except.map, withLDI]
  | imm i => rfl
  | fpImm p => rfl
  | expr => rfl
  | invalid => rfl

theorem recordInsMap_withLDI (d : LastLDIData) (first : Option Value) (s : TState) :
    recordInsMap first (withLDI d s) = (recordInsMap first s).map (withLDI d) := by
  unfold recordInsMap
  split <;> rfl

theorem CreateStore_withLDI (d : LastLDIData) (v : Value) (p : Option Value) (s : TState) :
    CreateStore v p (withLDI d s) = ((CreateStore v p s).1, withLDI d (CreateStore v p s).2) :=
  rfl

theorem printAlu3_withLDI (env : Env) (d : LastLDIData) (op : BinOp) (MI : MCInst)
    (s : TState) :
    printAlu3 env op MI (withLDI d s) = (printAlu3 env op MI s).map (withLDI d) := by
  simp only [printAlu3, bind, Except.bind, HandleAluSrcOperand_withLDI]
  cases HandleAluSrcOperand env (MI.getOperand 1) (some none) s with
  | error e => rfl
  | ok r1 =>
      obtain ⟨o1, f1, s1⟩ := r1
      simp only [Except.map, liftSrc, HandleAluSrcOperand_withLDI]
      cases HandleAluSrcOperand env (MI.getOperand 2) f1 s1 with
      | error e => rfl
      | ok r2 =>
          obtain ⟨o2, f2, s2⟩ := r2
          simp only [Except.map, liftSrc, HandleAluDstOperand_withLDI]
          cases HandleAluDstOperand (MI.getOperand 0) s2 with
          | error e => rfl
          | ok r3 =>
              obtain ⟨o0, s3⟩ := r3
              simp only [Except.map, CreateBinOp_withLDI, CreateStore_withLDI,
                recordInsMap_withLDI]

theorem AccessSpillMemory_withLDI (d : LastLDIData) (i : Nat) (b : Bool) (s : TState) :
    AccessSpillMemory i b (withLDI d s)
      = ((AccessSpillMemory i b s).1, withLDI d (AccessSpillMemory i b s).2) := by
  unfold AccessSpillMemory
  split <;> rfl

theorem CreateBB_withLDI (d : LastLDIData) (a : Nat) (s : TState) :
    CreateBB a (withLDI d s) = ((CreateBB a s).1, withLDI d (CreateBB a s).2) := rfl

theorem HandleGetSpilledAddress_withLDI (env : Env) (d : LastLDIData) (o o2 dst : MCOperand)
    (F : Option Value) (s : TState) :
    HandleGetSpilledAddress env o o2 dst F (withLDI d s)
      = (HandleGetSpilledAddress env o o2 dst F s).map
          (fun r => r.map (fun p => (p.1, withLDI d p.2))) := by
  unfold HandleGetSpilledAddress
  split
  · rfl
  · split
    · simp only [bind, Except.bind]
      rename_i ro i rd
      cases directiveOf ro with
      | error e => rfl
      | ok r1 =>
          simp only []
          cases directiveOf rd with
          | error e => rfl
          | ok dstReg =>
              simp only []
              split
              · rfl
              · split
                · rfl
                · simp only [AccessSpillMemory_withLDI, CreateCast_withLDI]
                  split <;>
                    simp [CreateBinOp_withLDI, CreateStore_withLDI, pure, Except.pure,
                      Except.map]
    · rfl

theorem HandleBranchTarget_withLDI (env : Env) (d : LastLDIData) (o : MCOperand) (rel : Bool)
    (s : TState) :
    HandleBranchTarget env o rel (withLDI d s)
      = (HandleBranchTarget env o rel s).map (fun r => (r.1, withLDI d r.2)) := by
  cases o with
  | imm i =>
      simp only [HandleBranchTarget, withLDI_CurAddr]
      split <;> rfl
  | reg r => rfl
  | fpImm p => rfl
  | expr => rfl
  | invalid => rfl

theorem printADD_withLDI (env : Env) (d : LastLDIData) (MI : MCInst) (s : TState) :
    printADD env MI (withLDI d s) = (printADD env MI s).map (withLDI d) := by
  simp only [printADD, bind, Except.bind, HandleGetSpilledAddress_withLDI]
  cases HandleGetSpilledAddress env (MI.getOperand 1) (MI.getOperand 2) (MI.getOperand 0)
      none s with
  | error e => rfl
  | ok r =>
      cases r with
      | none => simp only [Except.map, Option.map, printAlu3_withLDI]
      | some p => simp only [Except.map, Option.map, recordInsMap_withLDI]

theorem printMUL_withLDI (env : Env) (d : LastLDIData) (sg : Bool) (MI : MCInst)
    (s : TState) :
    printMUL env sg MI (withLDI d s) = (printMUL env sg MI s).map (withLDI d) := by
  simp only [printMUL, bind, Except.bind, HandleAluSrcOperand_withLDI]
  cases HandleAluSrcOperand env (MI.getOperand 2) (some none) s with
  | error e => rfl
  | ok r1 =>
      obtain ⟨o0, f1, s1⟩ := r1
      simp only [Except.map, liftSrc, HandleAluSrcOperand_withLDI]
      cases HandleAluSrcOperand env (MI.getOperand 3) f1 s1 with
      | error e => rfl
      | ok r2 =>
          obtain ⟨o1, f2, s2⟩ := r2
          simp only [Except.map, liftSrc, HandleAluDstOperand_withLDI]
          cases HandleAluDstOperand (MI.getOperand 0) s2 with
          | error e => rfl
          | ok r3 =>
              obtain ⟨dst1, s3⟩ := r3
              simp only [Except.map, HandleAluDstOperand_withLDI]
              cases HandleAluDstOperand (MI.getOperand 1) s3 with
              | error e => rfl
              | ok r4 =>
                  obtain ⟨dst2, s4⟩ := r4
                  simp only [Except.map, CreateBinOp_withLDI, CreateCast_withLDI]
                  cases dst1 <;> cases dst2 <;>
                    simp only [CreateStore_withLDI, recordInsMap_withLDI, Except.map]

theorem printDIV_withLDI (env : Env) (d : LastLDIData) (sg : Bool) (MI : MCInst)
    (s : TState) :
    printDIV env sg MI (withLDI d s) = (printDIV env sg MI s).map (withLDI d) := by
  simp only [printDIV, bind, Except.bind, HandleAluSrcOperand_withLDI]
  cases HandleAluSrcOperand env (MI.getOperand 2) (some none) s with
  | error e => rfl
  | ok r1 =>
      obtain ⟨o0, f1, s1⟩ := r1
      simp only [Except.map, liftSrc, HandleAluSrcOperand_withLDI]
      cases HandleAluSrcOperand env (MI.getOperand 3) f1 s1 with
      | error e => rfl
      | ok r2 =>
          obtain ⟨o1, f2, s2⟩ := r2
          simp only [Except.map, liftSrc, HandleAluDstOperand_withLDI]
          cases HandleAluDstOperand (MI.getOperand 0) s2 with
          | error e => rfl
          | ok r3 =>
              obtain ⟨dst1, s3⟩ := r3
              simp only [Except.map, HandleAluDstOperand_withLDI]
              cases HandleAluDstOperand (MI.getOperand 1) s3 with
              | error e => rfl
              | ok r4 =>
                  obtain ⟨dst2, s4⟩ := r4
                  cases dst1 <;> cases dst2 <;>
                    simp only [Except.map, CreateBinOp_withLDI, CreateStore_withLDI,
                      recordInsMap_withLDI]

theorem printSLL_withLDI (env : Env) (d : LastLDIData) (MI : MCInst) (s : TState) :
    printSLL env MI (withLDI d s) = (printSLL env MI s).map (withLDI d) := by
  unfold printSLL
  split
  · simp only [bind, Except.bind]
    rename_i r1 _
    cases directiveOf r1 with
    | error e => rfl
    | ok d1 =>
        simp only []
        split
        · split
          · rename_i r0 _ _ _
            cases directiveOf r0 with
            | error e => rfl
            | ok d0 =>
                simp only []
                split
                · rfl
                · exact printAlu3_withLDI env d BinOp.shl MI s
          · exact printAlu3_withLDI env d BinOp.shl MI s
        · exact printAlu3_withLDI env d BinOp.shl MI s
  · exact printAlu3_withLDI env d BinOp.shl MI s

theorem printBC1_withLDI (env : Env) (d : LastLDIData) (isT : Bool) (MI : MCInst)
    (s : TState) :
    printBC1 env isT MI (withLDI d s) = (printBC1 env isT MI s).map (withLDI d) := by
  simp only [printBC1, bind, Except.bind, HandleBranchTarget_withLDI]
  cases HandleBranchTarget env (MI.getOperand 0) true s with
  | error e => rfl
  | ok r =>
      obtain ⟨bt, s1⟩ := r
      simp only [Except.map]
      split
      · cases isT <;> rfl
      · rfl

theorem printJ_withLDI (env : Env) (d : LastLDIData) (MI : MCInst) (s : TState) :
    printJ env MI (withLDI d s) = (printJ env MI s).map (withLDI d) := by
  simp only [printJ, bind, Except.bind, HandleBranchTarget_withLDI]
  cases HandleBranchTarget env (MI.getOperand 0) false s with
  | error e => rfl
  | ok r =>
      obtain ⟨bt, s1⟩ := r
      simp only [Except.map]
      split <;> rfl

theorem printLDI_withLDI (env : Env) (d : LastLDIData) (MI : MCInst) (s : TState) :
    printLDI env MI (withLDI d s) = printLDI env MI s := by
  simp only [printLDI, bind, Except.bind, HandleAluSrcOperand_withLDI]
  cases HandleAluSrcOperand env (MI.getOperand 1) (some none) s with
  | error e => rfl
  | ok r1 =>
      obtain ⟨o1, f1, s1⟩ := r1
      simp only [Except.map, liftSrc, HandleAluDstOperand_withLDI]
      cases HandleAluDstOperand (MI.getOperand 0) s1 with
      | error e => rfl
      | ok r2 =>
          obtain ⟨o0, s2⟩ := r2
          simp only [Except.map]
          cases o1 <;> rfl

theorem CreateFCmp_withLDI (d : LastLDIData) (p : FCmpPred) (l r : Value) (s : TState) :
    CreateFCmp p l r (withLDI d s)
      = ((CreateFCmp p l r s).1, withLDI d (CreateFCmp p l r s).2) := by
  unfold CreateFCmp
  split <;> rfl

theorem CreateSelect_withLDI (d : LastLDIData) (c a b : Value) (s : TState) :
    CreateSelect c a b (withLDI d s)
      = ((CreateSelect c a b s).1, withLDI d (CreateSelect c a b s).2) := by
  unfold CreateSelect
  split <;> rfl

theorem CreateLoad_withLDI (d : LastLDIData) (p : Value) (s : TState) :
    CreateLoad p (withLDI d s) = ((CreateLoad p s).1, withLDI d (CreateLoad p s).2) := rfl

theorem SetInsertPoint_withLDI (d : LastLDIData) (b : BasicBlock) (s : TState) :
    SetInsertPoint b (withLDI d s) = withLDI d (SetInsertPoint b s) := rfl

theorem BasicBlockCreate_withLDI (d : LastLDIData) (s : TState) :
    BasicBlockCreate (withLDI d s)
      = ((BasicBlockCreate s).1, withLDI d (BasicBlockCreate s).2) := rfl

theorem AccessShadowMemory_withLDI (d : LastLDIData) (addr : Value) (IsLoad : Bool)
    (width : Nat) (isFloat : Bool) (F : Option (Option Value)) (s : TState) :
    AccessShadowMemory addr IsLoad width isFloat F (withLDI d s)
      = liftSrc d (AccessShadowMemory addr IsLoad width isFloat F s) := rfl

theorem HandleFunctionExitPoint_withLDI (env : Env) (d : LastLDIData) (Count : Nat)
    (F : Option Value) (s : TState) :
    HandleFunctionExitPoint env Count F (withLDI d s)
      = ((HandleFunctionExitPoint env Count F s).1,
         withLDI d (HandleFunctionExitPoint env Count F s).2) := by
  unfold HandleFunctionExitPoint
  simp only []
  split <;> rfl

theorem loadBase_withLDI (d : LastLDIData) (reg : Nat) (s : TState) :
    loadBase reg (withLDI d s) = ((loadBase reg s).1, withLDI d (loadBase reg s).2) := by
  unfold loadBase
  split <;> rfl

theorem HandleDoubleSrcOperand_withLDI (d : LastLDIData) (o : MCOperand)
    (F : Option (Option Value)) (s : TState) :
    HandleDoubleSrcOperand o F (withLDI d s)
      = (HandleDoubleSrcOperand o F s).map (liftSrc d) := by
  cases o with
  | reg r =>
      simp only [HandleDoubleSrcOperand, bind, Except.bind]
      cases directiveDblOf r with
      | error e => rfl
      | ok n => rfl
  | imm i => rfl
  | fpImm p => rfl
  | expr => rfl
  | invalid => rfl

theorem HandleFloatSrcOperand_withLDI (env : Env) (d : LastLDIData) (o : MCOperand)
    (F : Option (Option Value)) (s : TState) :
    HandleFloatSrcOperand env o F (withLDI d s)
      = (HandleFloatSrcOperand env o F s).map (liftSrc d) := by
  cases o with
  | reg r =>
      simp only [HandleFloatSrcOperand, bind, Except.bind]
      cases directiveOf r with
      | error e => rfl
      | ok n =>
          simp only []
          by_cases h : env.RegTy n = Ty.float
          · simp only [h, reduceIte]
            rfl
          · simp only [h, reduceIte]
            rfl
  | imm i => rfl
  | fpImm p => rfl
  | expr => rfl
  | invalid => rfl

theorem HandleDoubleDstOperand_withLDI (d : LastLDIData) (o : MCOperand) (s : TState) :
    HandleDoubleDstOperand o (withLDI d s)
      = (HandleDoubleDstOperand o s).map (fun r => (r.1, withLDI d r.2)) := by
  cases o with
  | reg r =>
      simp only [HandleDoubleDstOperand, bind, Except.bind]
      cases directiveDblOf r with
      | error e => rfl
      | ok n => rfl
  | imm i => rfl
  | fpImm p => rfl
  | expr => rfl
  | invalid => rfl

theorem HandleFloatDstOperand_withLDI (d : LastLDIData) (o : MCOperand) (s : TState) :
    HandleFloatDstOperand o (withLDI d s)
      = (HandleFloatDstOperand o s).map (fun r => (r.1, withLDI d r.2)) := by
  cases o with
  | reg r =>
      simp only [HandleFloatDstOperand, bind, Except.bind]
      cases directiveOf r with
      | error e => rfl
      | ok n => rfl
  | imm i => rfl
  | fpImm p => rfl
  | expr => rfl
  | invalid => rfl

theorem HandleMemOperandShadow_withLDI (env : Env) (d : LastLDIData) (reg : Nat) (imm : Int)
    (F : Option (Option Value)) (IsLoad : Bool) (width : Nat) (offset : Int) (s : TState) :
    HandleMemOperandShadow env reg imm F IsLoad width offset (withLDI d s)
      = (HandleMemOperandShadow env reg imm F IsLoad width offset s).map (liftSrc d) := by
  simp only [HandleMemOperandShadow, withLDI_CurAddr]
  split
  · split
    · simp only [bind, Except.bind]
      cases castConstant (env.ResolveRelocationMem s.CurAddr).V0 with
      | error e => rfl
      | ok c =>
          simp only [loadBase_withLDI, CreateBinOp_withLDI]
          cases F with
          | none => rfl
          | some f => rfl
    · rfl
  · simp only [loadBase_withLDI, CreateBinOp_withLDI]
    rfl

theorem recordInsMap_frame (d : LastLDIData) (first : Option Value) (s t : TState)
    (h : t = withLDI d s) :
    recordInsMap first t = (recordInsMap first s).map (withLDI d) := by
  subst h
  exact recordInsMap_withLDI d first s

theorem HandleMemOperandNoRedirect_withLDI (env : Env) (d : LastLDIData) (o o2 : MCOperand)
    (F : Option (Option Value)) (IsLoad : Bool) (width : Nat) (offset : Int) (s : TState) :
    HandleMemOperandNoRedirect env o o2 F IsLoad width offset (withLDI d s)
      = (HandleMemOperandNoRedirect env o o2 F IsLoad width offset s).map (liftSrc d) := by
  unfold HandleMemOperandNoRedirect
  split
  · simp only [bind, Except.bind]
    rename_i r0 i
    cases directiveOf r0 with
    | error e => rfl
    | ok r => exact HandleMemOperandShadow_withLDI env d r i F IsLoad width offset s
  · rfl

theorem HandleSpilledOperand_withLDI (env : Env) (d : LastLDIData) (o o2 : MCOperand)
    (F : Option (Option Value)) (IsLoad : Bool) (s : TState) :
    HandleSpilledOperand env o o2 F IsLoad (withLDI d s)
      = (HandleSpilledOperand env o o2 F IsLoad s).map (liftSrc d) := by
  unfold HandleSpilledOperand
  split
  · exact HandleMemOperandNoRedirect_withLDI env d o o2 F IsLoad 32 0 s
  · split
    · simp only [bind, Except.bind, withLDI_CurAddr]
      rename_i r0 i
      cases directiveOf r0 with
      | error e => rfl
      | ok r =>
          simp only []
          split
          · rfl
          · simp only [AccessSpillMemory_withLDI]
            rfl
    · rfl

theorem HandleMemOperand_withLDI (env : Env) (d : LastLDIData) (o o2 : MCOperand)
    (F : Option (Option Value)) (IsLoad : Bool) (width : Nat) (offset : Int) (s : TState) :
    HandleMemOperand env o o2 F IsLoad width offset (withLDI d s)
      = (HandleMemOperand env o o2 F IsLoad width offset s).map (liftSrc d) := by
  unfold HandleMemOperand
  split
  · simp only [bind, Except.bind]
    rename_i r0 i
    cases directiveOf r0 with
    | error e => rfl
    | ok r =>
        simp only []
        split
        · exact HandleSpilledOperand_withLDI env d _ _ F IsLoad s
        · exact HandleMemOperandShadow_withLDI env d r i F IsLoad width offset s
  · rfl

theorem printFCMP_D32_withLDI (d : LastLDIData) (p : FCmpPred) (MI : MCInst) (s : TState) :
    printFCMP_D32 p MI (withLDI d s) = (printFCMP_D32 p MI s).map (withLDI d) := by
  simp only [printFCMP_D32, bind, Except.bind, HandleDoubleSrcOperand_withLDI]
  cases HandleDoubleSrcOperand (MI.getOperand 0) (some none) s with
  | error e => rfl
  | ok r1 =>
      obtain ⟨o0, f1, s1⟩ := r1
      simp only [Except.map, liftSrc, HandleDoubleSrcOperand_withLDI]
      cases HandleDoubleSrcOperand (MI.getOperand 1) none s1 with
      | error e => rfl
      | ok r2 =>
          obtain ⟨o1, f2, s2⟩ := r2
          simp only [Except.map, CreateFCmp_withLDI, CreateSelect_withLDI]
          exact recordInsMap_frame d _ _ _ rfl

theorem printFCMP_S_withLDI (env : Env) (d : LastLDIData) (p : FCmpPred) (MI : MCInst)
    (s : TState) :
    printFCMP_S env p MI (withLDI d s) = (printFCMP_S env p MI s).map (withLDI d) := by
  simp only [printFCMP_S, bind, Except.bind, HandleFloatSrcOperand_withLDI]
  cases HandleFloatSrcOperand env (MI.getOperand 0) (some none) s with
  | error e => rfl
  | ok r1 =>
      obtain ⟨o0, f1, s1⟩ := r1
      simp only [Except.map, liftSrc, HandleFloatSrcOperand_withLDI]
      cases HandleFloatSrcOperand env (MI.getOperand 1) none s1 with
      | error e => rfl
      | ok r2 =>
          obtain ⟨o1, f2, s2⟩ := r2
          simp only [Except.map, CreateFCmp_withLDI, CreateSelect_withLDI]
          exact recordInsMap_frame d _ _ _ rfl

theorem movSelectStore_withLDI (d : LastLDIData) (first : Option (Option Value))
    (o0 : Option Value) (o1 o2 cmp : Value) (s : TState) :
    movSelectStore first o0 o1 o2 cmp (withLDI d s)
      = (movSelectStore first o0 o1 o2 cmp s).map (withLDI d) := by
  cases o0 with
  | none => rfl
  | some p =>
      simp only [movSelectStore, CreateLoad_withLDI, CreateSelect_withLDI, CreateStore_withLDI]
      exact recordInsMap_frame d _ _ _ rfl

theorem movSelectStore_frame (d : LastLDIData) (first : Option (Option Value))
    (o0 : Option Value) (o1 o2 cmp : Value) (s t : TState) (h : t = withLDI d s) :
    movSelectStore first o0 o1 o2 cmp t
      = (movSelectStore first o0 o1 o2 cmp s).map (withLDI d) := by
  subst h
  exact movSelectStore_withLDI d first o0 o1 o2 cmp s

theorem printMOVNZ_I_withLDI (env : Env) (d : LastLDIData) (MI : MCInst) (s : TState) :
    printMOVNZ_I env MI (withLDI d s) = (printMOVNZ_I env MI s).map (withLDI d) := by
  simp only [printMOVNZ_I, bind, Except.bind, HandleAluSrcOperand_withLDI]
  cases HandleAluSrcOperand env (MI.getOperand 1) (some none) s with
  | error e => rfl
  | ok r1 =>
      obtain ⟨o1, f1, s1⟩ := r1
      simp only [Except.map, liftSrc, HandleAluSrcOperand_withLDI]
      cases HandleAluSrcOperand env (MI.getOperand 2) f1 s1 with
      | error e => rfl
      | ok r2 =>
          obtain ⟨o2, f2, s2⟩ := r2
          simp only [Except.map, liftSrc, HandleAluDstOperand_withLDI]
          cases HandleAluDstOperand (MI.getOperand 0) s2 with
          | error e => rfl
          | ok r3 =>
              obtain ⟨o0, s3⟩ := r3
              simp only [Except.map]
              split <;> simp only [CreateICmp_withLDI] <;> exact movSelectStore_frame d _ _ _ _ _ _ _ rfl

theorem printMOVNZ_D32_withLDI (env : Env) (d : LastLDIData) (MI : MCInst) (s : TState) :
    printMOVNZ_D32 env MI (withLDI d s) = (printMOVNZ_D32 env MI s).map (withLDI d) := by
  simp only [printMOVNZ_D32, bind, Except.bind, HandleDoubleSrcOperand_withLDI]
  cases HandleDoubleSrcOperand (MI.getOperand 1) (some none) s with
  | error e => rfl
  | ok r1 =>
      obtain ⟨o1, f1, s1⟩ := r1
      simp only [Except.map, liftSrc, HandleAluSrcOperand_withLDI]
      cases HandleAluSrcOperand env (MI.getOperand 2) none s1 with
      | error e => rfl
      | ok r2 =>
          obtain ⟨o2, f2, s2⟩ := r2
          simp only [Except.map, liftSrc, HandleDoubleDstOperand_withLDI]
          cases HandleDoubleDstOperand (MI.getOperand 0) s2 with
          | error e => rfl
          | ok r3 =>
              obtain ⟨o0, s3⟩ := r3
              simp only [Except.map]
              split <;> simp only [CreateICmp_withLDI] <;> exact movSelectStore_frame d _ _ _ _ _ _ _ rfl

theorem printMOVNZ_S_withLDI (env : Env) (d : LastLDIData) (MI : MCInst) (s : TState) :
    printMOVNZ_S env MI (withLDI d s) = (printMOVNZ_S env MI s).map (withLDI d) := by
  simp only [printMOVNZ_S, bind, Except.bind, HandleFloatSrcOperand_withLDI]
  cases HandleFloatSrcOperand env (MI.getOperand 1) (some none) s with
  | error e => rfl
  | ok r1 =>
      obtain ⟨o1, f1, s1⟩ := r1
      simp only [Except.map, liftSrc, HandleAluSrcOperand_withLDI]
      cases HandleAluSrcOperand env (MI.getOperand 2) none s1 with
      | error e => rfl
      | ok r2 =>
          obtain ⟨o2, f2, s2⟩ := r2
          simp only [Except.map, liftSrc, HandleFloatDstOperand_withLDI]
          cases HandleFloatDstOperand (MI.getOperand 0) s2 with
          | error e => rfl
          | ok r3 =>
              obtain ⟨o0, s3⟩ := r3
              simp only [Except.map]
              split <;> simp only [CreateICmp_withLDI] <;> exact movSelectStore_frame d _ _ _ _ _ _ _ rfl

theorem printSLT_withLDI (env : Env) (d : LastLDIData) (MI : MCInst) (s : TState) :
    printSLT env MI (withLDI d s) = (printSLT env MI s).map (withLDI d) := by
  simp only [printSLT, bind, Except.bind, HandleAluSrcOperand_withLDI]
  cases HandleAluSrcOperand env (MI.getOperand 1) (some none) s with
  | error e => rfl
  | ok r1 =>
      obtain ⟨o1, f1, s1⟩ := r1
      simp only [Except.map, liftSrc, HandleAluSrcOperand_withLDI]
      cases HandleAluSrcOperand env (MI.getOperand 2) f1 s1 with
      | error e => rfl
      | ok r2 =>
          obtain ⟨o2, f2, s2⟩ := r2
          simp only [Except.map, liftSrc, HandleAluDstOperand_withLDI]
          cases HandleAluDstOperand (MI.getOperand 0) s2 with
          | error e => rfl
          | ok r3 =>
              obtain ⟨o0, s3⟩ := r3
              simp only [Except.map, BasicBlockCreate_withLDI, CreateBB_withLDI]
              split <;> simp only [CreateICmp_withLDI, emit_withLDI, SetInsertPoint_withLDI,
                CreateStore_withLDI, withLDI_CurAddr] <;> exact recordInsMap_frame d _ _ _ rfl

theorem printLW_withLDI (env : Env) (d : LastLDIData) (MI : MCInst) (s : TState) :
    printLW env MI (withLDI d s) = (printLW env MI s).map (withLDI d) := by
  simp only [printLW, bind, Except.bind, HandleAluDstOperand_withLDI]
  cases HandleAluDstOperand (MI.getOperand 0) s with
  | error e => rfl
  | ok r1 =>
      obtain ⟨dst, s1⟩ := r1
      simp only [Except.map, HandleMemOperand_withLDI]
      cases HandleMemOperand env (MI.getOperand 1) (MI.getOperand 2) (some none) true 32 0 s1 with
      | error e => rfl
      | ok r2 =>
          obtain ⟨src, f2, s2⟩ := r2
          simp only [Except.map, liftSrc, CreateStore_withLDI]
          exact recordInsMap_frame d _ _ _ rfl

theorem finishJR_withLDI (d : LastLDIData) (first : Option Value) (s : TState) :
    finishJR first (withLDI d s) = (finishJR first s).map (withLDI d) := by
  unfold finishJR
  split <;> rfl

theorem finishJR_frame (d : LastLDIData) (first : Option Value) (s t : TState)
    (h : t = withLDI d s) :
    finishJR first t = (finishJR first s).map (withLDI d) := by
  subst h
  exact finishJR_withLDI d first s

theorem printJR_withLDI (env : Env) (d : LastLDIData) (MI : MCInst) (s : TState) :
    printJR env MI (withLDI d s) = (printJR env MI s).map (withLDI d) := by
  have hret : ∀ (first : Option Value) (t u : TState), u = withLDI d t →
      (finishJR first u >>= fun s3 =>
          (pure { s3 with FunctionRetMap := setAt s3.FunctionRetMap s3.CurAddr (some s3.CurFunAddr) }
            : Except Err TState))
        = ((finishJR first t >>= fun s3 =>
          (pure { s3 with FunctionRetMap := setAt s3.FunctionRetMap s3.CurAddr (some s3.CurFunAddr) }
            : Except Err TState))).map (withLDI d) := by
    intro first t u hu
    subst hu
    rw [finishJR_withLDI]
    cases finishJR first t with
    | error e => rfl
    | ok s3 => rfl
  have hra : ∀ t : TState,
      (do
        let (first, s1) :=
          if ¬ env.NoLocals ∧ ¬ env.OneRegion ∧ (withLDI d t).CurFunName ≠ "main" then
            HandleFunctionExitPoint env 0 none (withLDI d t)
          else (none, withLDI d t)
        let (v, s2) := emit Instr.retVoid s1
        let first := match first with
          | none => some v
          | some f => some f
        let s3 ← finishJR first s2
        (pure { s3 with FunctionRetMap := setAt s3.FunctionRetMap s3.CurAddr (some s3.CurFunAddr) }
          : Except Err TState))
      = (do
        let (first, s1) :=
          if ¬ env.NoLocals ∧ ¬ env.OneRegion ∧ t.CurFunName ≠ "main" then
            HandleFunctionExitPoint env 0 none t
          else (none, t)
        let (v, s2) := emit Instr.retVoid s1
        let first := match first with
          | none => some v
          | some f => some f
        let s3 ← finishJR first s2
        (pure { s3 with FunctionRetMap := setAt s3.FunctionRetMap s3.CurAddr (some s3.CurFunAddr) }
          : Except Err TState)).map (withLDI d) := by
    intro t
    have hn : (withLDI d t).CurFunName = t.CurFunName := rfl
    rw [hn]
    by_cases hc : ¬ env.NoLocals ∧ ¬ env.OneRegion ∧ t.CurFunName ≠ "main"
    · rw [if_pos hc, if_pos hc, HandleFunctionExitPoint_withLDI]
      generalize HandleFunctionExitPoint env 0 none t = r
      obtain ⟨f1, t1⟩ := r
      exact hret _ _ _ rfl
    · rw [if_neg hc, if_neg hc]
      exact hret _ _ _ rfl
  unfold printJR
  split
  · rename_i r hr
    cases r with
    | RA => exact hra s
    | RA_64 => exact hra s
    | _ =>
        simp only [bind, Except.bind, HandleAluSrcOperand_withLDI]
        cases HandleAluSrcOperand env (MCOperand.reg _) (some none) s with
        | error e => rfl
        | ok r1 =>
            obtain ⟨src, f1, s1⟩ := r1
            simp only [Except.map, liftSrc, emit_withLDI, withLDI_insts]
            exact finishJR_frame d _ _ _ rfl
  · rfl

theorem HandleFunctionEntryPoint_withLDI (env : Env) (d : LastLDIData) (s : TState) :
    HandleFunctionEntryPoint env (withLDI d s) = withLDI d (HandleFunctionEntryPoint env s) :=
  rfl

theorem CreateNeg_withLDI (d : LastLDIData) (v : Value) (s : TState) :
    CreateNeg v (withLDI d s) = ((CreateNeg v s).1, withLDI d (CreateNeg v s).2) :=
  CreateBinOp_withLDI d BinOp.sub _ v s

theorem HandleSaveDouble_withLDI (d : LastLDIData) (v : Value) (s : TState) :
    HandleSaveDouble v (withLDI d s)
      = ((HandleSaveDouble v s).1, (HandleSaveDouble v s).2.1,
         withLDI d (HandleSaveDouble v s).2.2) := by
  simp only [HandleSaveDouble, CreateCast_withLDI, CreateBinOp_withLDI]

theorem printJALR_withLDI (env : Env) (d : LastLDIData) (MI : MCInst) (s : TState) :
    printJALR env MI (withLDI d s) = (printJALR env MI s).map (withLDI d) := by
  simp only [printJALR, bind, Except.bind, HandleAluSrcOperand_withLDI]
  cases HandleAluSrcOperand env (MI.getOperand 0) (some none) s with
  | error e => rfl
  | ok r1 =>
      obtain ⟨src, f1, s1⟩ := r1
      simp only [Except.map, liftSrc]
      split
      · split
        · simp only [HandleFunctionExitPoint_withLDI, CreateNeg_withLDI,
            HandleFunctionEntryPoint_withLDI]
          exact finishJR_frame d _ _ _ rfl
        · rfl
      · simp only [emit_withLDI]
        exact finishJR_frame d _ _ _ rfl

theorem printMFC1_D32_withLDI (d : LastLDIData) (MI : MCInst) (s : TState) :
    printMFC1_D32 MI (withLDI d s) = (printMFC1_D32 MI s).map (withLDI d) := by
  simp only [printMFC1_D32, bind, Except.bind, HandleDoubleSrcOperand_withLDI]
  cases HandleDoubleSrcOperand (MI.getOperand 1) none s with
  | error e => rfl
  | ok r1 =>
      obtain ⟨o1, f1, s1⟩ := r1
      simp only [Except.map, liftSrc, HandleAluDstOperand_withLDI]
      cases HandleAluDstOperand (MI.getOperand 0) s1 with
      | error e => rfl
      | ok r2 =>
          obtain ⟨o0, s2⟩ := r2
          simp only [Except.map, HandleSaveDouble_withLDI, CreateStore_withLDI]
          exact recordInsMap_frame d _ _ _ rfl

theorem printMTC1_D32_withLDI (env : Env) (d : LastLDIData) (MI : MCInst) (s : TState) :
    printMTC1_D32 env MI (withLDI d s) = (printMTC1_D32 env MI s).map (withLDI d) := by
  simp only [printMTC1_D32, bind, Except.bind, HandleAluSrcOperand_withLDI]
  cases HandleAluSrcOperand env (MI.getOperand 2) (some none) s with
  | error e => rfl
  | ok r1 =>
      obtain ⟨o1, f1, s1⟩ := r1
      simp only [Except.map, liftSrc, HandleDoubleDstOperand_withLDI]
      cases HandleDoubleDstOperand (MI.getOperand 1) s1 with
      | error e => rfl
      | ok r2 =>
          obtain ⟨o0, s2⟩ := r2
          simp only [Except.map, CreateLoad_withLDI, HandleSaveDouble_withLDI,
            CreateCast_withLDI, CreateBinOp_withLDI, CreateStore_withLDI]
          exact recordInsMap_frame d _ _ _ rfl

theorem printLWL_withLDI (env : Env) (d : LastLDIData) (MI : MCInst) (s : TState) :
    printLWL env MI (withLDI d s) = (printLWL env MI s).map (withLDI d) := by
  simp only [printLWL, bind, Except.bind, HandleAluDstOperand_withLDI]
  cases HandleAluDstOperand (MI.getOperand 0) s with
  | error e => rfl
  | ok r1 =>
      obtain ⟨dst, s1⟩ := r1
      simp only [Except.map, HandleMemOperand_withLDI]
      cases HandleMemOperand env (MI.getOperand 1) (MI.getOperand 2) (some none) true 16 (-1)
          s1 with
      | error e => rfl
      | ok r2 =>
          obtain ⟨src, f2, s2⟩ := r2
          cases dst with
          | none => rfl
          | some p =>
              simp only [Except.map, liftSrc, CreateCast_withLDI, CreateBinOp_withLDI,
                CreateStore_withLDI]
              exact recordInsMap_frame d _ _ _ rfl

theorem printLWR_withLDI (env : Env) (d : LastLDIData) (MI : MCInst) (s : TState) :
    printLWR env MI (withLDI d s) = (printLWR env MI s).map (withLDI d) := by
  simp only [printLWR, bind, Except.bind, HandleAluDstOperand_withLDI]
  cases HandleAluDstOperand (MI.getOperand 0) s with
  | error e => rfl
  | ok r1 =>
      obtain ⟨dst, s1⟩ := r1
      simp only [Except.map, HandleMemOperand_withLDI]
      cases HandleMemOperand env (MI.getOperand 1) (MI.getOperand 2) (some none) true 16 0
          s1 with
      | error e => rfl
      | ok r2 =>
          obtain ⟨src, f2, s2⟩ := r2
          cases dst with
          | none => rfl
          | some p =>
              simp only [Except.map, liftSrc, CreateCast_withLDI, CreateStore_withLDI]
              exact recordInsMap_frame d _ _ _ rfl

theorem printSWL_withLDI (env : Env) (d : LastLDIData) (MI : MCInst) (s : TState) :
    printSWL env MI (withLDI d s) = (printSWL env MI s).map (withLDI d) := by
  simp only [printSWL, bind, Except.bind, HandleAluSrcOperand_withLDI]
  cases HandleAluSrcOperand env (MI.getOperand 0) (some none) s with
  | error e => rfl
  | ok r1 =>
      obtain ⟨src, f1, s1⟩ := r1
      simp only [Except.map, liftSrc, HandleMemOperand_withLDI]
      cases HandleMemOperand env (MI.getOperand 1) (MI.getOperand 2) (some none) false 16 (-1)
          s1 with
      | error e => rfl
      | ok r2 =>
          obtain ⟨dst, f2, s2⟩ := r2
          simp only [Except.map, liftSrc, CreateCast_withLDI, CreateBinOp_withLDI,
            CreateStore_withLDI]
          exact recordInsMap_frame d _ _ _ rfl

theorem printSWR_withLDI (env : Env) (d : LastLDIData) (MI : MCInst) (s : TState) :
    printSWR env MI (withLDI d s) = (printSWR env MI s).map (withLDI d) := by
  simp only [printSWR, bind, Except.bind, HandleAluSrcOperand_withLDI]
  cases HandleAluSrcOperand env (MI.getOperand 0) (some none) s with
  | error e => rfl
  | ok r1 =>
      obtain ⟨src, f1, s1⟩ := r1
      simp only [Except.map, liftSrc, HandleMemOperand_withLDI]
      cases HandleMemOperand env (MI.getOperand 1) (MI.getOperand 2) (some none) false 16 0
          s1 with
      | error e => rfl
      | ok r2 =>
          obtain ⟨dst, f2, s2⟩ := r2
          simp only [Except.map, liftSrc, CreateCast_withLDI, CreateStore_withLDI]
          exact recordInsMap_frame d _ _ _ rfl

/-- No handler other than `LDIHI` looks at the pending LDI record. -/
theorem printInstruction_withLDI (env : Env) (d : LastLDIData) (MI : MCInst) (s : TState)
    (h : MI.Opcode ≠ Opcode.LDIHI) :
    printInstruction env MI (withLDI d s)
      = if MI.Opcode = Opcode.LDI then printInstruction env MI s
        else (printInstruction env MI s).map (withLDI d) := by
  unfold printInstruction
  cases hop : MI.Opcode with
  | ADDiu => simp only [reduceIte, reduceCtorEq]; exact printADD_withLDI env d MI s
  | ADDu => simp only [reduceIte, reduceCtorEq]; exact printADD_withLDI env d MI s
  | SUBu => simp only [reduceIte, reduceCtorEq]; exact printAlu3_withLDI env d BinOp.sub MI s
  | BREAK => simp only [reduceIte, reduceCtorEq]; rfl
  | MUL_OI => simp only [reduceIte, reduceCtorEq]; exact printMUL_withLDI env d true MI s
  | MULU_OI => simp only [reduceIte, reduceCtorEq]; exact printMUL_withLDI env d false MI s
  | DIV_OI => simp only [reduceIte, reduceCtorEq]; exact printDIV_withLDI env d true MI s
  | DIVU_OI => simp only [reduceIte, reduceCtorEq]; exact printDIV_withLDI env d false MI s
  | TEQ => simp only [reduceIte, reduceCtorEq]; rfl
  | BC1T => simp only [reduceIte, reduceCtorEq]; exact printBC1_withLDI env d true MI s
  | BC1F => simp only [reduceIte, reduceCtorEq]; exact printBC1_withLDI env d false MI s
  | J => simp only [reduceIte, reduceCtorEq]; exact printJ_withLDI env d MI s
  | SLL => simp only [reduceIte, reduceCtorEq]; exact printSLL_withLDI env d MI s
  | SLLV => simp only [reduceIte, reduceCtorEq]; exact printSLL_withLDI env d MI s
  | LDI => simp only [reduceIte]; exact printLDI_withLDI env d MI s
  | LDIHI => exact absurd hop h
  | IJMPHI => simp only [reduceIte, reduceCtorEq]; rfl
  | NOP => simp only [reduceIte, reduceCtorEq]; rfl
  | C_UN_D32 => simp only [reduceIte, reduceCtorEq]; exact printFCMP_D32_withLDI d _ MI s
  | C_EQ_D32 => simp only [reduceIte, reduceCtorEq]; exact printFCMP_D32_withLDI d _ MI s
  | C_UEQ_D32 => simp only [reduceIte, reduceCtorEq]; exact printFCMP_D32_withLDI d _ MI s
  | C_OLT_D32 => simp only [reduceIte, reduceCtorEq]; exact printFCMP_D32_withLDI d _ MI s
  | C_ULT_D32 => simp only [reduceIte, reduceCtorEq]; exact printFCMP_D32_withLDI d _ MI s
  | C_OLE_D32 => simp only [reduceIte, reduceCtorEq]; exact printFCMP_D32_withLDI d _ MI s
  | C_ULE_D32 => simp only [reduceIte, reduceCtorEq]; exact printFCMP_D32_withLDI d _ MI s
  | C_UN_S => simp only [reduceIte, reduceCtorEq]; exact printFCMP_S_withLDI env d _ MI s
  | C_EQ_S => simp only [reduceIte, reduceCtorEq]; exact printFCMP_S_withLDI env d _ MI s
  | C_UEQ_S => simp only [reduceIte, reduceCtorEq]; exact printFCMP_S_withLDI env d _ MI s
  | C_OLT_S => simp only [reduceIte, reduceCtorEq]; exact printFCMP_S_withLDI env d _ MI s
  | C_ULT_S => simp only [reduceIte, reduceCtorEq]; exact printFCMP_S_withLDI env d _ MI s
  | C_OLE_S => simp only [reduceIte, reduceCtorEq]; exact printFCMP_S_withLDI env d _ MI s
  | C_ULE_S => simp only [reduceIte, reduceCtorEq]; exact printFCMP_S_withLDI env d _ MI s
  | MOVN_I_I => simp only [reduceIte, reduceCtorEq]; exact printMOVNZ_I_withLDI env d MI s
  | MOVZ_I_I => simp only [reduceIte, reduceCtorEq]; exact printMOVNZ_I_withLDI env d MI s
  | MOVN_I_D32 => simp only [reduceIte, reduceCtorEq]; exact printMOVNZ_D32_withLDI env d MI s
  | MOVZ_I_D32 => simp only [reduceIte, reduceCtorEq]; exact printMOVNZ_D32_withLDI env d MI s
  | MOVN_I_S => simp only [reduceIte, reduceCtorEq]; exact printMOVNZ_S_withLDI env d MI s
  | MOVZ_I_S => simp only [reduceIte, reduceCtorEq]; exact printMOVNZ_S_withLDI env d MI s
  | SLT => simp only [reduceIte, reduceCtorEq]; exact printSLT_withLDI env d MI s
  | SLTi => simp only [reduceIte, reduceCtorEq]; exact printSLT_withLDI env d MI s
  | SLTu => simp only [reduceIte, reduceCtorEq]; exact printSLT_withLDI env d MI s
  | SLTiu => simp only [reduceIte, reduceCtorEq]; exact printSLT_withLDI env d MI s
  | LW => simp only [reduceIte, reduceCtorEq]; exact printLW_withLDI env d MI s
  | JR => simp only [reduceIte, reduceCtorEq]; exact printJR_withLDI env d MI s
  | JALR => simp only [reduceIte, reduceCtorEq]; exact printJALR_withLDI env d MI s
  | MFLC1_D32 => simp only [reduceIte, reduceCtorEq]; exact printMFC1_D32_withLDI d MI s
  | MFHC1_D32 => simp only [reduceIte, reduceCtorEq]; exact printMFC1_D32_withLDI d MI s
  | MTHC1_D32 => simp only [reduceIte, reduceCtorEq]; exact printMTC1_D32_withLDI env d MI s
  | MTLC1_D32 => simp only [reduceIte, reduceCtorEq]; exact printMTC1_D32_withLDI env d MI s
  | LWL => simp only [reduceIte, reduceCtorEq]; exact printLWL_withLDI env d MI s
  | LWR => simp only [reduceIte, reduceCtorEq]; exact printLWR_withLDI env d MI s
  | SWL => simp only [reduceIte, reduceCtorEq]; exact printSWL_withLDI env d MI s
  | SWR => simp only [reduceIte, reduceCtorEq]; exact printSWR_withLDI env d MI s

theorem HandleAluSrcOperand_preserves (env : Env) (o : MCOperand)
    (F : Option (Option Value)) (s : TState) (r : Value × Option (Option Value) × TState)
    (h : HandleAluSrcOperand env o F s = .ok r) :
    r.2.2.LDIData = s.LDIData ∧ r.2.2.CurAddr = s.CurAddr := by
  cases o with
  | reg rg =>
      simp only [HandleAluSrcOperand, bind, Except.bind] at h
      cases hd : directiveOf rg with
      | error e => simp [hd] at h
      | ok n =>
          simp only [hd] at h
          by_cases h0 : n = 0
          · simp only [h0, reduceIte, pure, Except.pure, Except.ok.injEq] at h
            subst h
            exact ⟨rfl, rfl⟩
          · simp only [h0, reduceIte, pure, Except.pure, Except.ok.injEq, CreateLoad, emit] at h
            subst h
            exact ⟨rfl, rfl⟩
  | imm i =>
      simp only [HandleAluSrcOperand] at h
      split at h
      · simp only [bind, Except.bind] at h
        cases hc : castConstant (env.ResolveRelocationValue s.CurAddr).V0 with
        | error e => simp [hc] at h
        | ok c =>
            simp only [hc] at h
            split at h <;>
              (simp only [pure, Except.pure, Except.ok.injEq] at h; subst h; exact ⟨rfl, rfl⟩)
      · split at h
        · split at h
          · split at h <;> (simp only [Except.ok.injEq] at h; subst h; exact ⟨rfl, rfl⟩)
          · simp at h
        · simp only [Except.ok.injEq] at h
          subst h
          exact ⟨rfl, rfl⟩
  | fpImm p =>
      simp only [HandleAluSrcOperand, Except.ok.injEq] at h
      subst h
      exact ⟨rfl, rfl⟩
  | expr => simp [HandleAluSrcOperand] at h
  | invalid => simp [HandleAluSrcOperand] at h

theorem printLDIHI_not_adjacent (env : Env) (MI : MCInst) (s : TState)
    (h : s.LDIData.Addr + 4 ≠ s.CurAddr) :
    (∃ e, printLDIHI env MI s = .error e) ∧
    (∀ r, HandleAluSrcOperand env (MI.getOperand 0) (some none) s = .ok r →
      printLDIHI env MI s = .error Err.ldihiNotFused) := by
  unfold printLDIHI
  cases hr : HandleAluSrcOperand env (MI.getOperand 0) (some none) s with
  | error e => exact ⟨⟨e, rfl⟩, fun r hr' => by simp at hr'⟩
  | ok r =>
      obtain ⟨o0, f, s1⟩ := r
      obtain ⟨h1, h2⟩ := HandleAluSrcOperand_preserves env _ _ s _ hr
      simp only at h1 h2
      have h' : s1.LDIData.Addr + 4 ≠ s1.CurAddr := by rw [h1, h2]; exact h
      simp only [bind, Except.bind, h', ne_eq, not_false_eq_true, reduceIte, throw, throwThe,
        MonadExceptOf.throw]
      refine ⟨⟨_, rfl⟩, ?_⟩
      intro _ _
      first | rfl | trivial

theorem printLDIHI_no_record (env : Env) (MI : MCInst) (s : TState)
    (h : s.LDIData.SrcOperand = none) :
    ∃ e, printLDIHI env MI s = .error e := by
  unfold printLDIHI
  cases hr : HandleAluSrcOperand env (MI.getOperand 0) (some none) s with
  | error e => exact ⟨e, rfl⟩
  | ok r =>
      obtain ⟨o0, f, s1⟩ := r
      obtain ⟨h1, h2⟩ := HandleAluSrcOperand_preserves env _ _ s _ hr
      simp only at h1 h2
      have h' : s1.LDIData.SrcOperand = none := by rw [h1]; exact h
      simp only [bind, Except.bind]
      by_cases hadj : s1.LDIData.Addr + 4 = s1.CurAddr
      · simp only [hadj, ne_eq, not_true_eq_false, reduceIte, pure, Except.pure]
        cases o0 <;> simp [h', throw, throwThe, MonadExceptOf.throw]
      · simp only [hadj, ne_eq, not_false_eq_true, reduceIte, throw, throwThe,
          MonadExceptOf.throw]
        exact ⟨_, rfl⟩

/-- C5 (the claim as stated fails): an `LDI` at address 0 followed at address 4 by an
`ADDu` instead of an `LDIHI` translates without any abort; the `ADDu` is lowered as usual
and nothing is ever emitted for the `LDI`. -/
theorem ldi_then_other_opcode_no_abort :
    ∃ t, translateInsts Env.plain
      [(0, { Opcode := Opcode.LDI,
             Operands := [MCOperand.reg Mips.Reg.V0, MCOperand.imm 0x1234] }),
       (4, { Opcode := Opcode.ADDu,
             Operands := [MCOperand.reg Mips.Reg.V1, MCOperand.reg Mips.Reg.A0,
                          MCOperand.reg Mips.Reg.A1] })] TState.init = .ok t ∧
      t.insts = [Instr.load (Value.reg 4), Instr.load (Value.reg 5),
                 Instr.binop BinOp.add (Value.inst 0) (Value.inst 1),
                 Instr.store (Value.inst 2) (some (Value.reg 3))] :=
  ⟨_, rfl, rfl⟩

/-- C5 (amended): the adjacency of LDI and LDIHI is checked by the LDIHI handler and by
no other.  An `LDIHI` translated at an address that is not the last recorded LDI address
plus 4 always aborts, with the fusion assertion whenever its operand resolves; an `LDIHI`
translated while no LDI has been recorded at all always aborts; and the handler of every
other opcode behaves the same whatever LDI record is pending (it carries the record through
untouched, or overwrites it in the case of `LDI`), so an `LDI` that is followed by another
opcode is not detected. -/
theorem ldihi_adjacency_checked_by_ldihi_only (env : Env) (s : TState) (MI : MCInst) :
    (MI.Opcode = Opcode.LDIHI → s.LDIData.Addr + 4 ≠ s.CurAddr →
      (∃ e, printInstruction env MI s = .error e) ∧
      (∀ r, HandleAluSrcOperand env (MI.getOperand 0) (some none) s = .ok r →
        printInstruction env MI s = .error Err.ldihiNotFused)) ∧
    (MI.Opcode = Opcode.LDIHI → s.LDIData.SrcOperand = none →
      ∃ e, printInstruction env MI s = .error e) ∧
    (MI.Opcode ≠ Opcode.LDIHI → ∀ d : LastLDIData,
      printInstruction env MI (withLDI d s)
        = if MI.Opcode = Opcode.LDI then printInstruction env MI s
          else (printInstruction env MI s).map (withLDI d)) := by
  refine ⟨?_, ?_, ?_⟩
  · intro hop hadj
    have h := printLDIHI_not_adjacent env MI s hadj
    simpa only [printInstruction, hop] using h
  · intro hop hnone
    have h := printLDIHI_no_record env MI s hnone
    simpa only [printInstruction, hop] using h
  · intro hop d
    exact printInstruction_withLDI env d MI s hop

/-- C5 (amended) at a concrete input: with no LDI recorded (record address 0), an `LDIHI`
translated at address 8 hits the fusion assertion. -/
theorem ldihi_adjacency_checked_by_ldihi_only_witness :
    printInstruction Env.plain { Opcode := Opcode.LDIHI, Operands := [MCOperand.imm 5] }
        { TState.init with CurAddr := 8 }
      = .error Err.ldihiNotFused :=
  ((ldihi_adjacency_checked_by_ldihi_only Env.plain { TState.init with CurAddr := 8 }
      { Opcode := Opcode.LDIHI, Operands := [MCOperand.imm 5] }).1 rfl (by decide)).2
    (Value.const (getInt32 5), some none, { TState.init with CurAddr := 8 }) rfl

/-- C6 (the code departs from the claim): for `BC1T` at address 0 with a forward target,
three instructions are emitted, the load of the condition cell `Regs[258]` first, then
the truncation `cmp`, then the conditional branch; the handler pins `cmp` in `InsMap`, so
`InsMap[CurAddr]` is instruction 1 and the load, instruction 0, precedes it.  `BC1F`
does the same with its comparison. -/
theorem bc1_insmap_skips_the_load :
    (∃ t, printInstruction Env.plain
        { Opcode := Opcode.BC1T, Operands := [MCOperand.imm 16] } TState.init = .ok t ∧
      t.insts = [Instr.load (Value.reg 258),
                 Instr.cast CastOp.trunc (Value.inst 0) (Ty.int 1),
                 Instr.condBr (Value.inst 1) (BasicBlock.atAddr 16) (BasicBlock.atAddr 8)] ∧
      t.InsMap 0 = some 1) ∧
    (∃ t, printInstruction Env.plain
        { Opcode := Opcode.BC1F, Operands := [MCOperand.imm 16] } TState.init = .ok t ∧
      t.insts = [Instr.load (Value.reg 258),
                 Instr.icmp ICmpPred.eq (Value.inst 0) (Value.const (Const.int 32 0)),
                 Instr.condBr (Value.inst 1) (BasicBlock.atAddr 16) (BasicBlock.atAddr 8)] ∧
      t.InsMap 0 = some 1) :=
  ⟨⟨_, rfl, rfl, rfl⟩, ⟨_, rfl, rfl, rfl⟩⟩

theorem toU64_and_mask (x : Int) :
    toU64 x &&& 0xFFFFFFFF = (x % (2 : Int) ^ 32).toNat := by
  have h : (0xFFFFFFFF : Nat) = 2 ^ 32 - 1 := by norm_num
  rw [h, Nat.and_pow_two_sub_one_eq_mod]
  unfold toU64
  norm_num
  omega

theorem branchTargetAddr_eq_spec (env : Env) (CurAddr : Nat) (imm : Int) (IsRelative : Bool) :
    branchTargetAddr env CurAddr imm IsRelative = specBranchTarget env CurAddr imm IsRelative := by
  unfold branchTargetAddr specBranchTarget
  cases IsRelative
  · rfl
  · simp only [reduceIte, toU64_and_mask]

/-- C7: for an immediate operand, with `tgt` the target of the specification
(`(CurAddr + imm) & 0xFFFFFFFF` for a relative branch, `imm` for an absolute one, plus the
relocation value when a relocation resolves at `CurAddr`): when `tgt ≤ CurAddr` the
back-edge path `HandleBackEdge(tgt, Target)` is taken and its result returned, and when
`CurAddr < tgt` the block `CreateBB(tgt)` is returned with result true; in particular a
relative branch to itself is a back-edge; every operand that is not an immediate aborts. -/
theorem branch_target_resolution (env : Env) (s : TState) (imm : Int) (IsRelative : Bool) :
    (specBranchTarget env s.CurAddr imm IsRelative ≤ s.CurAddr →
      HandleBranchTarget env (MCOperand.imm imm) IsRelative s
        = .ok ({ ok := env.HandleBackEdge (specBranchTarget env s.CurAddr imm IsRelative),
                 Target := BasicBlock.backEdge (specBranchTarget env s.CurAddr imm IsRelative) },
               { s with BackEdges :=
                   s.BackEdges ++ [specBranchTarget env s.CurAddr imm IsRelative] })) ∧
    (s.CurAddr < specBranchTarget env s.CurAddr imm IsRelative →
      HandleBranchTarget env (MCOperand.imm imm) IsRelative s
        = .ok ({ ok := true,
                 Target := BasicBlock.atAddr (specBranchTarget env s.CurAddr imm IsRelative) },
               { s with CreatedBBs :=
                   s.CreatedBBs ++ [specBranchTarget env s.CurAddr imm IsRelative] })) ∧
    (env.ResolveRelocationAddr s.CurAddr false = none → s.CurAddr < 2 ^ 32 →
      HandleBranchTarget env (MCOperand.imm 0) true s
        = .ok ({ ok := env.HandleBackEdge s.CurAddr, Target := BasicBlock.backEdge s.CurAddr },
               { s with BackEdges := s.BackEdges ++ [s.CurAddr] })) ∧
    (∀ o : MCOperand, (∀ j, o ≠ MCOperand.imm j) →
      HandleBranchTarget env o IsRelative s = .error Err.unrecognizedBranchTarget) := by
  refine ⟨?_, ?_, ?_, ?_⟩
  · intro h
    simp only [HandleBranchTarget, branchTargetAddr_eq_spec, h, reduceIte]
  · intro h
    have h' : ¬ specBranchTarget env s.CurAddr imm IsRelative ≤ s.CurAddr := by omega
    simp only [HandleBranchTarget, branchTargetAddr_eq_spec, h', reduceIte, CreateBB]
  · intro hrel hlt
    have ht : specBranchTarget env s.CurAddr 0 true = s.CurAddr := by
      simp only [specBranchTarget, hrel, reduceIte]
      norm_num
      omega
    simp only [HandleBranchTarget, branchTargetAddr_eq_spec, ht, le_refl, reduceIte]
  · intro o ho
    cases o with
    | imm j => exact absurd rfl (ho j)
    | reg r => rfl
    | fpImm p => rfl
    | expr => rfl
    | invalid => rfl

/-- C7 at concrete inputs: at address 16 with no relocation, the relative immediate 8 is a
forward branch to the block of address 24. -/
theorem branch_target_resolution_witness :
    HandleBranchTarget Env.plain (MCOperand.imm 8) true { TState.init with CurAddr := 16 }
      = .ok ({ ok := true, Target := BasicBlock.atAddr 24 },
             { TState.init with CurAddr := 16, CreatedBBs := [24] }) :=
  (branch_target_resolution Env.plain { TState.init with CurAddr := 16 } 8 true).2.1
    (by decide)

theorem libcLookup_eq_none_iff (val : String) :
    libcLookup val = none ↔ ∀ row ∈ libcDispatch, row.1 ≠ val := by
  unfold libcLookup
  simp [List.find?_eq_none]

theorem libcLookup_some_mem (val : String) (l : Lowering) (h : libcLookup val = some l) :
    (val, l) ∈ libcDispatch := by
  unfold libcLookup at h
  cases hf : libcDispatch.find? (fun row => row.1 == val) with
  | none => simp [hf] at h
  | some row =>
      simp only [hf, Option.map_some', Option.some.injEq] at h
      have h1 := List.find?_some hf
      have h2 := List.mem_of_find?_eq_some hf
      simp only [beq_iff_eq] at h1
      obtain ⟨a, b⟩ := row
      simp only at h1 h
      subst h1
      subst h
      exact h2

theorem bind_lookup_none_iff (env : Env) (s : TState) :
    (env.CheckRelocation s.CurAddr).bind libcLookup = none ↔ nameNotInTable env s := by
  unfold nameNotInTable
  cases h : env.CheckRelocation s.CurAddr with
  | none => simp
  | some v => simp [libcLookup_eq_none_iff]

/-- C8: `HandleCallTarget` with call immediate 0 (and an immediate count operand).  If a
relocation is found at the current address and its symbol name is in the dispatch table,
the lowering of the first row for that name is invoked; if the name is not in the table
(or no name is found) but `ResolveRelocation` yields an address, a local call to that
address is made with the count; and the abort with the unrecognized-function diagnostic
happens if and only if the name is not in the table and the relocation does not resolve
(no other abort is possible). -/
theorem call_target_zero_immediate (env : Env) (s : TState) (cnt : Int) :
    (∀ val, env.CheckRelocation s.CurAddr = some val →
      (∃ row ∈ libcDispatch, row.1 = val) →
      ∃ l, (val, l) ∈ libcDispatch ∧ libcLookup val = some l ∧
        HandleCallTarget env (MCOperand.imm 0) (MCOperand.imm cnt) s
          = .ok (some (CallAction.libc l))) ∧
    (∀ addr, nameNotInTable env s → env.ResolveRelocationAddr s.CurAddr true = some addr →
      HandleCallTarget env (MCOperand.imm 0) (MCOperand.imm cnt) s
        = .ok (some (CallAction.localCall addr (toU32 cnt)))) ∧
    (HandleCallTarget env (MCOperand.imm 0) (MCOperand.imm cnt) s
        = .error Err.unrecognizedFunctionCall
      ↔ nameNotInTable env s ∧ env.ResolveRelocationAddr s.CurAddr true = none) ∧
    (∀ e, HandleCallTarget env (MCOperand.imm 0) (MCOperand.imm cnt) s = .error e →
      e = Err.unrecognizedFunctionCall) := by
  refine ⟨?_, ?_, ?_, ?_⟩
  · intro val hval hin
    cases hl : libcLookup val with
    | none =>
        obtain ⟨row, hrow, hname⟩ := hin
        exact absurd hname ((libcLookup_eq_none_iff val).1 hl row hrow)
    | some l =>
        refine ⟨l, libcLookup_some_mem val l hl, rfl, ?_⟩
        simp [HandleCallTarget, hval, hl]
  · intro addr hnot hres
    have hb := (bind_lookup_none_iff env s).2 hnot
    simp [HandleCallTarget, hb, hres]
  · constructor
    · intro h
      cases hb : (env.CheckRelocation s.CurAddr).bind libcLookup with
      | some l => simp [HandleCallTarget, hb] at h
      | none =>
          refine ⟨(bind_lookup_none_iff env s).1 hb, ?_⟩
          cases hres : env.ResolveRelocationAddr s.CurAddr true with
          | none => rfl
          | some a => simp [HandleCallTarget, hb, hres] at h
    · rintro ⟨hnot, hres⟩
      have hb := (bind_lookup_none_iff env s).2 hnot
      simp [HandleCallTarget, hb, hres]
  · intro e h
    cases hb : (env.CheckRelocation s.CurAddr).bind libcLookup with
    | some l => simp [HandleCallTarget, hb] at h
    | none =>
        cases hres : env.ResolveRelocationAddr s.CurAddr true with
        | none =>
            simp [HandleCallTarget, hb, hres] at h
            exact h.symm
        | some a => simp [HandleCallTarget, hb, hres] at h

/-- C8 at a concrete input: at a call site whose relocation names `puts`, the routine
`HandleLibcPuts` is invoked. -/
theorem call_target_zero_immediate_witness :
    ∃ l, ("puts", l) ∈ libcDispatch ∧ libcLookup "puts" = some l ∧
      HandleCallTarget (Env.withSymbol "puts") (MCOperand.imm 0) (MCOperand.imm 1) TState.init
        = .ok (some (CallAction.libc l)) :=
  (call_target_zero_immediate (Env.withSymbol "puts") TState.init 1).1 "puts" rfl
    ⟨("puts", Lowering.bespoke SyscallRoutine.HandleLibcPuts), by decide, rfl⟩

/-- C9: `HandleCallTarget` with a non-zero call immediate `imm`.  When a local-relative
relocation resolves at the current address with value `reloc`, the direct local call
`HandleLocalCall(imm + reloc, Count)` is made, and when none resolves,
`HandleLocalCall(imm, Count)`; the count operand is passed through unchanged.  For
arbitrary 64-bit immediates the address is formed in wrapping `uint64_t` arithmetic and
the count is the operand truncated to 32 bits.  The symbol name found at the address,
hence the dispatch table, plays no part. -/
theorem call_target_nonzero_immediate (env : Env) (s : TState) :
    (∀ (imm cnt reloc : Nat), imm ≠ 0 → imm + reloc < 2 ^ 64 → cnt < 2 ^ 32 →
      env.ResolveRelocationAddr s.CurAddr true = some reloc →
      HandleCallTarget env (MCOperand.imm imm) (MCOperand.imm cnt) s
        = .ok (some (CallAction.localCall (imm + reloc) cnt))) ∧
    (∀ (imm cnt : Nat), imm ≠ 0 → imm < 2 ^ 64 → cnt < 2 ^ 32 →
      env.ResolveRelocationAddr s.CurAddr true = none →
      HandleCallTarget env (MCOperand.imm imm) (MCOperand.imm cnt) s
        = .ok (some (CallAction.localCall imm cnt))) ∧
    (∀ (imm cnt : Int), imm ≠ 0 →
      HandleCallTarget env (MCOperand.imm imm) (MCOperand.imm cnt) s
        = .ok (some (CallAction.localCall
            (match env.ResolveRelocationAddr s.CurAddr true with
             | some reloc => (toU64 imm + reloc) % 2 ^ 64
             | none => toU64 imm)
            (toU32 cnt)))) ∧
    (∀ (imm cnt : Int) (names : Nat → Option String), imm ≠ 0 →
      HandleCallTarget { env with CheckRelocation := names } (MCOperand.imm imm)
          (MCOperand.imm cnt) s
        = HandleCallTarget env (MCOperand.imm imm) (MCOperand.imm cnt) s) := by
  refine ⟨?_, ?_, ?_, ?_⟩
  · intro imm cnt reloc himm hlt hcnt h
    have h1 : (imm : Int) ≠ 0 := by exact_mod_cast himm
    have h2 : toU64 (imm : Int) = imm := toU64_natCast imm (by omega)
    simp [HandleCallTarget, h1, h, h2, toU32_natCast cnt hcnt, Nat.mod_eq_of_lt hlt]
    omega
  · intro imm cnt himm hlt hcnt h
    have h1 : (imm : Int) ≠ 0 := by exact_mod_cast himm
    simp [HandleCallTarget, h1, h, toU64_natCast imm hlt, toU32_natCast cnt hcnt]
  · intro imm cnt himm
    cases h : env.ResolveRelocationAddr s.CurAddr true <;> simp [HandleCallTarget, himm, h]
  · intro imm cnt names himm
    simp [HandleCallTarget, himm]

/-- C9 at a concrete input: immediate `0x400`, count 2, no relocation pending. -/
theorem call_target_nonzero_immediate_witness :
    HandleCallTarget Env.plain (MCOperand.imm ((0x400 : Nat) : Int))
        (MCOperand.imm ((2 : Nat) : Int)) TState.init
      = .ok (some (CallAction.localCall 0x400 2)) :=
  (call_target_nonzero_immediate Env.plain TState.init).2.1 0x400 2 (by decide) (by decide)
    (by decide) rfl

theorem bespokeSymbols_lookup :
    ∀ p ∈ bespokeSymbols, libcLookup p.1 = some (Lowering.bespoke p.2) := by
  decide

theorem genericSymbols_lookup :
    ∀ p ∈ genericSymbols, libcLookup p.1 = some p.2 := by
  decide

theorem HandleCallTarget_of_lookup (env : Env) (s : TState) (cnt : Int) (val : String)
    (l : Lowering) (hval : env.CheckRelocation s.CurAddr = some val)
    (hl : libcLookup val = some l) :
    HandleCallTarget env (MCOperand.imm 0) (MCOperand.imm cnt) s
      = .ok (some (CallAction.libc l)) := by
  simp [HandleCallTarget, hval, hl]

/-- C10 (the claim as stated fails): a call whose relocation names `sprintf` is dispatched
to the generic helper `HandleGenericInt`, not to a dedicated routine. -/
theorem sprintf_lowered_by_generic_helper :
    HandleCallTarget (Env.withSymbol "sprintf") (MCOperand.imm 0) (MCOperand.imm 0) TState.init
      = .ok (some (CallAction.libc (Lowering.genericInt "sprintf" 4 1
          [ArgType.AT_Ptr, ArgType.AT_Ptr, ArgType.AT_Int32, ArgType.AT_Int32,
           ArgType.AT_Int32]))) := by
  rfl

/-- C10 (amended): each of `write`, `atoi`, `atof`, `malloc`, `calloc`, `free`, `exit`,
`puts`, `memset`, `printf`, `fprintf`, `__isoc99_scanf`, `__xstat`, `lseek`,
`__ctype_b_loc`, `__ctype_toupper_loc` and `__ctype_tolower_loc` is dispatched by
`HandleCallTarget` to a dedicated routine of the syscall interface, and these routines are
pairwise different; `sprintf`, `snprintf`, `vsprintf`, `vfprintf`, `sscanf`, `fscanf`
(also under their `__isoc99_` names) and `realloc` are dispatched to `HandleGenericInt`;
and the plain name `scanf` has no row in the dispatch chain. -/
theorem libc_bespoke_dispatch (env : Env) (s : TState) (cnt : Int) :
    (∀ p ∈ bespokeSymbols, env.CheckRelocation s.CurAddr = some p.1 →
      HandleCallTarget env (MCOperand.imm 0) (MCOperand.imm cnt) s
        = .ok (some (CallAction.libc (Lowering.bespoke p.2)))) ∧
    (bespokeSymbols.map (fun p => p.2)).Nodup ∧
    (∀ p ∈ genericSymbols, env.CheckRelocation s.CurAddr = some p.1 →
      HandleCallTarget env (MCOperand.imm 0) (MCOperand.imm cnt) s
        = .ok (some (CallAction.libc p.2))) ∧
    (∀ p ∈ genericSymbols, ∃ name numargs retcount ArgTypes,
      p.2 = Lowering.genericInt name numargs retcount ArgTypes) ∧
    (∀ row ∈ libcDispatch, row.1 ≠ "scanf") := by
  refine ⟨?_, by decide, ?_, ?_, ?_⟩
  · intro p hp hval
    exact HandleCallTarget_of_lookup env s cnt p.1 _ hval (bespokeSymbols_lookup p hp)
  · intro p hp hval
    exact HandleCallTarget_of_lookup env s cnt p.1 _ hval (genericSymbols_lookup p hp)
  · intro p hp
    simp only [genericSymbols, List.mem_cons, List.mem_singleton, List.not_mem_nil,
      or_false] at hp
    rcases hp with h | h | h | h | h | h | h | h | h <;> subst h <;> exact ⟨_, _, _, _, rfl⟩
  · exact (libcLookup_eq_none_iff "scanf").1 (by decide)

/-- C10 (amended) at a concrete input: a call whose relocation names `malloc` is
dispatched to `HandleLibcMalloc`. -/
theorem libc_bespoke_dispatch_witness :
    HandleCallTarget (Env.withSymbol "malloc") (MCOperand.imm 0) (MCOperand.imm 1) TState.init
      = .ok (some (CallAction.libc (Lowering.bespoke SyscallRoutine.HandleLibcMalloc))) :=
  (libc_bespoke_dispatch (Env.withSymbol "malloc") TState.init 1).1
    ("malloc", SyscallRoutine.HandleLibcMalloc) (by decide) rfl

/-! The code emitted by the floating-point compare arms and what it computes -/

theorem emittedSince_append (s t : TState) (l : List Instr) (h : t.insts = s.insts ++ l) :
    emittedSince s t = l := by
  simp [emittedSince, h]

theorem HandleDoubleSrcOperand_reg (r : Mips.Reg) (a : Nat) (F : Option (Option Value))
    (s : TState) (ha : directiveDblOf r = .ok a) :
    HandleDoubleSrcOperand (MCOperand.reg r) F s
      = .ok (Value.inst s.insts.length,
             F.map (fun f => GetFirstInstruction2 f (some (Value.inst s.insts.length))),
             { s with insts := s.insts ++ [Instr.load (Value.dblReg a)],
                      DblReadMap := setAt s.DblReadMap a true }) := by
  simp [HandleDoubleSrcOperand, ha, bind, Except.bind, pure, Except.pure, CreateLoad, emit]

theorem printFCMP_D32_code (p : FCmpPred) (MI : MCInst) (s : TState) (r0 r1 : Mips.Reg)
    (a b : Nat) (h0 : MI.getOperand 0 = MCOperand.reg r0) (h1 : MI.getOperand 1 = MCOperand.reg r1)
    (ha : directiveDblOf r0 = .ok a) (hb : directiveDblOf r1 = .ok b) :
    ∃ t, printFCMP_D32 p MI s = .ok t ∧ t.InsertPoints = s.InsertPoints ∧
      t.insts = s.insts ++
        [Instr.load (Value.dblReg a), Instr.load (Value.dblReg b),
         Instr.fcmp p (Value.inst s.insts.length) (Value.inst (s.insts.length + 1)),
         Instr.select (Value.inst (s.insts.length + 2)) (Value.const (Const.int 32 1))
           (Value.const (Const.int 32 0)),
         Instr.store (Value.inst (s.insts.length + 3)) (some (Value.reg 258))] := by
  simp [printFCMP_D32, h0, h1, HandleDoubleSrcOperand_reg _ _ _ _ ha,
    HandleDoubleSrcOperand_reg _ _ _ _ hb, bind, Except.bind, CreateFCmp, CreateSelect,
    CreateStore, emit, recordInsMap, GetFirstInstruction2, isaInstruction]

theorem progSince_append (s t : TState) (l : List Instr) (h : t.insts = s.insts ++ l)
    (hm : t.InsertPoints = s.InsertPoints) :
    progSince s t = { base := s.insts.length, code := l, marks := [] } := by
  simp [progSince, emittedSince, h, hm]

theorem run_fcmp_D32 (fc : FCmpPred → Nat → Nat → Bool) (p : FCmpPred) (n a b : Nat)
    (marks : List (Nat × BasicBlock)) (m : Mach) :
    run fc { base := n,
             code := [Instr.load (Value.dblReg a), Instr.load (Value.dblReg b),
               Instr.fcmp p (Value.inst n) (Value.inst (n + 1)),
               Instr.select (Value.inst (n + 2)) (Value.const (Const.int 32 1))
                 (Value.const (Const.int 32 0)),
               Instr.store (Value.inst (n + 3)) (some (Value.reg 258))],
             marks := marks } m
      = some ({ m with Regs := setAt m.Regs 258 (if fc p (m.DblRegs a) (m.DblRegs b) then 1 else 0) },
              Exit.fellThrough) := by
  simp [run, exec, step, evalValue, evalConst, setAt]
  split <;> simp

/-- The double-precision compare arm: it succeeds on two valid double registers, stores to
cell 258 once, and the stored value is 1 or 0 as the comparison comes out. -/
theorem printFCMP_D32_spec (p : FCmpPred) (MI : MCInst) (s : TState) (r0 r1 : Mips.Reg)
    (a b : Nat) (h0 : MI.getOperand 0 = MCOperand.reg r0) (h1 : MI.getOperand 1 = MCOperand.reg r1)
    (ha : directiveDblOf r0 = .ok a) (hb : directiveDblOf r1 = .ok b) :
    ∃ t, printFCMP_D32 p MI s = .ok t ∧ (storesToReg 258 (emittedSince s t)).length = 1 ∧
      ∀ (fc : FCmpPred → Nat → Nat → Bool) (m : Mach),
        run fc (progSince s t) m
          = some ({ m with
                    Regs := setAt m.Regs 258 (if fc p (m.DblRegs a) (m.DblRegs b) then 1 else 0) },
                  Exit.fellThrough) := by
  obtain ⟨t, ht, hm, hi⟩ := printFCMP_D32_code p MI s r0 r1 a b h0 h1 ha hb
  refine ⟨t, ht, ?_, ?_⟩
  · rw [emittedSince_append s t _ hi]
    simp [storesToReg]
  · intro fc m
    rw [progSince_append s t _ hi hm]
    exact run_fcmp_D32 fc p _ a b [] m

theorem printFCMP_S_spec_ff (env : Env) (p : FCmpPred) (MI : MCInst) (s : TState)
    (r0 r1 : Mips.Reg) (a b : Nat)
    (h0 : MI.getOperand 0 = MCOperand.reg r0) (h1 : MI.getOperand 1 = MCOperand.reg r1)
    (ha : directiveOf r0 = .ok a) (hb : directiveOf r1 = .ok b)
    (hfa : env.RegTy a = Ty.float) (hfb : env.RegTy b = Ty.float) :
    ∃ t, printFCMP_S env p MI s = .ok t ∧ (storesToReg 258 (emittedSince s t)).length = 1 ∧
      ∀ (fc : FCmpPred → Nat → Nat → Bool) (m : Mach),
        run fc (progSince s t) m
          = some ({ m with
                    Regs := setAt m.Regs 258 (if fc p (m.Regs a) (m.Regs b) then 1 else 0) },
                  Exit.fellThrough) := by
  obtain ⟨t, ht, hm, hi⟩ : ∃ t, printFCMP_S env p MI s = .ok t ∧
      t.InsertPoints = s.InsertPoints ∧
      t.insts = s.insts ++
        [Instr.load (Value.reg a),
         Instr.load (Value.reg b),
         Instr.fcmp p (Value.inst s.insts.length) (Value.inst (s.insts.length + 1)),
         Instr.select (Value.inst (s.insts.length + 2)) (Value.const (Const.int 32 1))
           (Value.const (Const.int 32 0)),
         Instr.store (Value.inst (s.insts.length + 3)) (some (Value.reg 258))] := by
    simp [printFCMP_S, h0, h1, HandleFloatSrcOperand, ha, hb, hfa, hfb, bind, Except.bind,
      pure, Except.pure, CreateLoad, CreateCast, CreateFCmp, CreateSelect, CreateStore, emit,
      recordInsMap, GetFirstInstruction2, isaInstruction]
  refine ⟨t, ht, ?_, ?_⟩
  · rw [emittedSince_append s t _ hi]
    simp [storesToReg]
  · intro fc m
    rw [progSince_append s t _ hi hm]
    simp [run, exec, step, evalValue, evalConst, setAt]
    split <;> simp

theorem printFCMP_S_spec_fc (env : Env) (p : FCmpPred) (MI : MCInst) (s : TState)
    (r0 r1 : Mips.Reg) (a b : Nat)
    (h0 : MI.getOperand 0 = MCOperand.reg r0) (h1 : MI.getOperand 1 = MCOperand.reg r1)
    (ha : directiveOf r0 = .ok a) (hb : directiveOf r1 = .ok b)
    (hfa : env.RegTy a = Ty.float) (hfb : env.RegTy b ≠ Ty.float) :
    ∃ t, printFCMP_S env p MI s = .ok t ∧ (storesToReg 258 (emittedSince s t)).length = 1 ∧
      ∀ (fc : FCmpPred → Nat → Nat → Bool) (m : Mach),
        run fc (progSince s t) m
          = some ({ m with
                    Regs := setAt m.Regs 258 (if fc p (m.Regs a) (m.Regs b) then 1 else 0) },
                  Exit.fellThrough) := by
  obtain ⟨t, ht, hm, hi⟩ : ∃ t, printFCMP_S env p MI s = .ok t ∧
      t.InsertPoints = s.InsertPoints ∧
      t.insts = s.insts ++
        [Instr.load (Value.reg a),
         Instr.load (Value.reg b),
         Instr.cast CastOp.bitcast (Value.inst (s.insts.length + 1)) Ty.float,
         Instr.fcmp p (Value.inst s.insts.length) (Value.inst (s.insts.length + 2)),
         Instr.select (Value.inst (s.insts.length + 3)) (Value.const (Const.int 32 1))
           (Value.const (Const.int 32 0)),
         Instr.store (Value.inst (s.insts.length + 4)) (some (Value.reg 258))] := by
    simp [printFCMP_S, h0, h1, HandleFloatSrcOperand, ha, hb, hfa, hfb, bind, Except.bind,
      pure, Except.pure, CreateLoad, CreateCast, CreateFCmp, CreateSelect, CreateStore, emit,
      recordInsMap, GetFirstInstruction2, isaInstruction]
  refine ⟨t, ht, ?_, ?_⟩
  · rw [emittedSince_append s t _ hi]
    simp [storesToReg]
  · intro fc m
    rw [progSince_append s t _ hi hm]
    simp [run, exec, step, evalValue, evalConst, setAt]
    split <;> simp

theorem printFCMP_S_spec_cf (env : Env) (p : FCmpPred) (MI : MCInst) (s : TState)
    (r0 r1 : Mips.Reg) (a b : Nat)
    (h0 : MI.getOperand 0 = MCOperand.reg r0) (h1 : MI.getOperand 1 = MCOperand.reg r1)
    (ha : directiveOf r0 = .ok a) (hb : directiveOf r1 = .ok b)
    (hfa : env.RegTy a ≠ Ty.float) (hfb : env.RegTy b = Ty.float) :
    ∃ t, printFCMP_S env p MI s = .ok t ∧ (storesToReg 258 (emittedSince s t)).length = 1 ∧
      ∀ (fc : FCmpPred → Nat → Nat → Bool) (m : Mach),
        run fc (progSince s t) m
          = some ({ m with
                    Regs := setAt m.Regs 258 (if fc p (m.Regs a) (m.Regs b) then 1 else 0) },
                  Exit.fellThrough) := by
  obtain ⟨t, ht, hm, hi⟩ : ∃ t, printFCMP_S env p MI s = .ok t ∧
      t.InsertPoints = s.InsertPoints ∧
      t.insts = s.insts ++
        [Instr.load (Value.reg a),
         Instr.cast CastOp.bitcast (Value.inst s.insts.length) Ty.float,
         Instr.load (Value.reg b),
         Instr.fcmp p (Value.inst (s.insts.length + 1)) (Value.inst (s.insts.length + 2)),
         Instr.select (Value.inst (s.insts.length + 3)) (Value.const (Const.int 32 1))
           (Value.const (Const.int 32 0)),
         Instr.store (Value.inst (s.insts.length + 4)) (some (Value.reg 258))] := by
    simp [printFCMP_S, h0, h1, HandleFloatSrcOperand, ha, hb, hfa, hfb, bind, Except.bind,
      pure, Except.pure, CreateLoad, CreateCast, CreateFCmp, CreateSelect, CreateStore, emit,
      recordInsMap, GetFirstInstruction2, isaInstruction]
  refine ⟨t, ht, ?_, ?_⟩
  · rw [emittedSince_append s t _ hi]
    simp [storesToReg]
  · intro fc m
    rw [progSince_append s t _ hi hm]
    simp [run, exec, step, evalValue, evalConst, setAt]
    split <;> simp

theorem printFCMP_S_spec_cc (env : Env) (p : FCmpPred) (MI : MCInst) (s : TState)
    (r0 r1 : Mips.Reg) (a b : Nat)
    (h0 : MI.getOperand 0 = MCOperand.reg r0) (h1 : MI.getOperand 1 = MCOperand.reg r1)
    (ha : directiveOf r0 = .ok a) (hb : directiveOf r1 = .ok b)
    (hfa : env.RegTy a ≠ Ty.float) (hfb : env.RegTy b ≠ Ty.float) :
    ∃ t, printFCMP_S env p MI s = .ok t ∧ (storesToReg 258 (emittedSince s t)).length = 1 ∧
      ∀ (fc : FCmpPred → Nat → Nat → Bool) (m : Mach),
        run fc (progSince s t) m
          = some ({ m with
                    Regs := setAt m.Regs 258 (if fc p (m.Regs a) (m.Regs b) then 1 else 0) },
                  Exit.fellThrough) := by
  obtain ⟨t, ht, hm, hi⟩ : ∃ t, printFCMP_S env p MI s = .ok t ∧
      t.InsertPoints = s.InsertPoints ∧
      t.insts = s.insts ++
        [Instr.load (Value.reg a),
         Instr.cast CastOp.bitcast (Value.inst s.insts.length) Ty.float,
         Instr.load (Value.reg b),
         Instr.cast CastOp.bitcast (Value.inst (s.insts.length + 2)) Ty.float,
         Instr.fcmp p (Value.inst (s.insts.length + 1)) (Value.inst (s.insts.length + 3)),
         Instr.select (Value.inst (s.insts.length + 4)) (Value.const (Const.int 32 1))
           (Value.const (Const.int 32 0)),
         Instr.store (Value.inst (s.insts.length + 5)) (some (Value.reg 258))] := by
    simp [printFCMP_S, h0, h1, HandleFloatSrcOperand, ha, hb, hfa, hfb, bind, Except.bind,
      pure, Except.pure, CreateLoad, CreateCast, CreateFCmp, CreateSelect, CreateStore, emit,
      recordInsMap, GetFirstInstruction2, isaInstruction]
  refine ⟨t, ht, ?_, ?_⟩
  · rw [emittedSince_append s t _ hi]
    simp [storesToReg]
  · intro fc m
    rw [progSince_append s t _ hi hm]
    simp [run, exec, step, evalValue, evalConst, setAt]
    split <;> simp

/-- The single-precision compare arm: it succeeds on two valid registers, stores to cell
258 once, and the stored value is 1 or 0 as the comparison comes out, whether or not the
cells need a bitcast to be read as floats. -/
theorem printFCMP_S_spec (env : Env) (p : FCmpPred) (MI : MCInst) (s : TState)
    (r0 r1 : Mips.Reg) (a b : Nat)
    (h0 : MI.getOperand 0 = MCOperand.reg r0) (h1 : MI.getOperand 1 = MCOperand.reg r1)
    (ha : directiveOf r0 = .ok a) (hb : directiveOf r1 = .ok b) :
    ∃ t, printFCMP_S env p MI s = .ok t ∧ (storesToReg 258 (emittedSince s t)).length = 1 ∧
      ∀ (fc : FCmpPred → Nat → Nat → Bool) (m : Mach),
        run fc (progSince s t) m
          = some ({ m with
                    Regs := setAt m.Regs 258 (if fc p (m.Regs a) (m.Regs b) then 1 else 0) },
                  Exit.fellThrough) := by
  by_cases hfa : env.RegTy a = Ty.float <;> by_cases hfb : env.RegTy b = Ty.float
  · exact printFCMP_S_spec_ff env p MI s r0 r1 a b h0 h1 ha hb hfa hfb
  · exact printFCMP_S_spec_fc env p MI s r0 r1 a b h0 h1 ha hb hfa hfb
  · exact printFCMP_S_spec_cf env p MI s r0 r1 a b h0 h1 ha hb hfa hfb
  · exact printFCMP_S_spec_cc env p MI s r0 r1 a b h0 h1 ha hb hfa hfb

/-! The code emitted by the `BC1T`/`BC1F` arm -/

theorem HandleBranchTarget_frame (env : Env) (o : MCOperand) (IsRelative : Bool)
    (s s1 : TState) (bt : BranchTarget)
    (h : HandleBranchTarget env o IsRelative s = .ok (bt, s1)) :
    s1.insts = s.insts ∧ s1.InsertPoints = s.InsertPoints ∧ s1.CurAddr = s.CurAddr := by
  cases o with
  | imm i =>
      simp only [HandleBranchTarget] at h
      split at h
      · simp only [Except.ok.injEq, Prod.mk.injEq] at h
        obtain ⟨_, h2⟩ := h
        subst h2
        exact ⟨rfl, rfl, rfl⟩
      · simp only [CreateBB, Except.ok.injEq, Prod.mk.injEq] at h
        obtain ⟨_, h2⟩ := h
        subst h2
        exact ⟨rfl, rfl, rfl⟩
  | reg r => simp [HandleBranchTarget] at h
  | fpImm p => simp [HandleBranchTarget] at h
  | expr => simp [HandleBranchTarget] at h
  | invalid => simp [HandleBranchTarget] at h

/-- The instruction that turns the loaded condition cell into the branch condition:
a truncation to `i1` for `BC1T`, a comparison with zero for `BC1F`. -/
theorem printBC1_code (env : Env) (isT : Bool) (MI : MCInst) (s s1 : TState) (bt : BranchTarget)
    (h : HandleBranchTarget env (MI.getOperand 0) true s = .ok (bt, s1))
    (hok : bt.ok = true) :
    ∃ t, printBC1 env isT MI s = .ok t ∧ t.InsertPoints = s.InsertPoints ∧
      t.insts = s.insts ++
        [Instr.load (Value.reg 258),
         (if isT then Instr.cast CastOp.trunc (Value.inst s.insts.length) (Ty.int 1)
          else Instr.icmp ICmpPred.eq (Value.inst s.insts.length) (Value.const (Const.int 32 0))),
         Instr.condBr (Value.inst (s.insts.length + 1)) bt.Target
           (BasicBlock.atAddr (s.CurAddr + GetInstructionSize))] := by
  obtain ⟨hi, hm, hc⟩ := HandleBranchTarget_frame env _ _ _ _ _ h
  cases isT <;>
    simp [printBC1, h, hok, bind, Except.bind, CreateLoad, CreateCast, CreateICmp, CreateBB,
      emit, recordInsMap, hi, hm, hc]

/-! Which handler `printInstruction` runs for an opcode -/

theorem printInstruction_condD32 (env : Env) (MI : MCInst) (s : TState) (p : FCmpPred)
    (h : condD32 MI.Opcode = some p) :
    printInstruction env MI s = printFCMP_D32 p MI s := by
  unfold printInstruction
  generalize MI.Opcode = op at h
  cases op <;> simp only [condD32, reduceCtorEq, Option.some.injEq] at h <;> subst h <;> rfl

theorem printInstruction_condS (env : Env) (MI : MCInst) (s : TState) (p : FCmpPred)
    (h : condS MI.Opcode = some p) :
    printInstruction env MI s = printFCMP_S env p MI s := by
  unfold printInstruction
  generalize MI.Opcode = op at h
  cases op <;> simp only [condS, reduceCtorEq, Option.some.injEq] at h <;> subst h <;> rfl

theorem printInstruction_BC1 (env : Env) (MI : MCInst) (s : TState)
    (h : MI.Opcode = Opcode.BC1T ∨ MI.Opcode = Opcode.BC1F) :
    printInstruction env MI s = printBC1 env (decide (MI.Opcode = Opcode.BC1T)) MI s := by
  unfold printInstruction
  rcases h with h | h <;> rw [h] <;> rfl

/-- C11: every floating-point compare opcode (`C.UN`, `C.EQ`, `C.UEQ`, `C.OLT`, `C.ULT`,
`C.OLE`, `C.ULE`), in the `.D32` form on two double registers and in the `.S` form on two
single registers, is translated without abort; the code emitted for it contains exactly
one store to register cell 258, and running that code from any register file leaves 1 in
cell 258 when the comparison of the two source cells holds and 0 otherwise, nothing else
being changed.  Every `BC1T`/`BC1F` whose branch target is handed back by
`HandleBranchTarget` is translated to code with exactly one load of register cell 258. -/
theorem fcc_written_once_read_once (env : Env) (MI : MCInst) (s : TState) :
    (∀ (p : FCmpPred) (r0 r1 : Mips.Reg) (a b : Nat),
      condD32 MI.Opcode = some p →
      MI.getOperand 0 = MCOperand.reg r0 → MI.getOperand 1 = MCOperand.reg r1 →
      directiveDblOf r0 = .ok a → directiveDblOf r1 = .ok b →
      ∃ t, printInstruction env MI s = .ok t ∧
        (storesToReg 258 (emittedSince s t)).length = 1 ∧
        ∀ (fc : FCmpPred → Nat → Nat → Bool) (m : Mach),
          run fc (progSince s t) m
            = some ({ m with
                      Regs := setAt m.Regs 258
                        (if fc p (m.DblRegs a) (m.DblRegs b) then 1 else 0) },
                    Exit.fellThrough)) ∧
    (∀ (p : FCmpPred) (r0 r1 : Mips.Reg) (a b : Nat),
      condS MI.Opcode = some p →
      MI.getOperand 0 = MCOperand.reg r0 → MI.getOperand 1 = MCOperand.reg r1 →
      directiveOf r0 = .ok a → directiveOf r1 = .ok b →
      ∃ t, printInstruction env MI s = .ok t ∧
        (storesToReg 258 (emittedSince s t)).length = 1 ∧
        ∀ (fc : FCmpPred → Nat → Nat → Bool) (m : Mach),
          run fc (progSince s t) m
            = some ({ m with
                      Regs := setAt m.Regs 258 (if fc p (m.Regs a) (m.Regs b) then 1 else 0) },
                    Exit.fellThrough)) ∧
    (∀ (bt : BranchTarget) (s1 : TState),
      MI.Opcode = Opcode.BC1T ∨ MI.Opcode = Opcode.BC1F →
      HandleBranchTarget env (MI.getOperand 0) true s = .ok (bt, s1) → bt.ok = true →
      ∃ t, printInstruction env MI s = .ok t ∧ loadsOfReg 258 (emittedSince s t) = 1) := by
  refine ⟨?_, ?_, ?_⟩
  · intro p r0 r1 a b hp h0 h1 ha hb
    rw [printInstruction_condD32 env MI s p hp]
    exact printFCMP_D32_spec p MI s r0 r1 a b h0 h1 ha hb
  · intro p r0 r1 a b hp h0 h1 ha hb
    rw [printInstruction_condS env MI s p hp]
    exact printFCMP_S_spec env p MI s r0 r1 a b h0 h1 ha hb
  · intro bt s1 hop hbt hok
    rw [printInstruction_BC1 env MI s hop]
    obtain ⟨t, ht, _, hi⟩ := printBC1_code env _ MI s s1 bt hbt hok
    refine ⟨t, ht, ?_⟩
    rw [emittedSince_append s t _ hi]
    by_cases hT : MI.Opcode = Opcode.BC1T <;> simp [loadsOfReg, hT]

/-- C11 at concrete inputs, from the initial state: `c.olt.d $d1, $d2` (double cells 1
and 2) and `c.eq.s $f2, $f4` (cells 36 and 38) each store to cell 258 once and leave there
the outcome of their comparison, and `bc1t` with the forward target 16 loads cell 258
once. -/
theorem fcc_written_once_read_once_witness :
    (∃ t, printInstruction Env.plain
        { Opcode := Opcode.C_OLT_D32,
          Operands := [MCOperand.reg Mips.Reg.D1, MCOperand.reg Mips.Reg.D2] }
        TState.init = .ok t ∧
      (storesToReg 258 (emittedSince TState.init t)).length = 1 ∧
      ∀ (fc : FCmpPred → Nat → Nat → Bool) (m : Mach),
        run fc (progSince TState.init t) m
          = some ({ m with
                    Regs := setAt m.Regs 258
                      (if fc FCmpPred.olt (m.DblRegs 1) (m.DblRegs 2) then 1 else 0) },
                  Exit.fellThrough)) ∧
    (∃ t, printInstruction Env.plain
        { Opcode := Opcode.C_EQ_S,
          Operands := [MCOperand.reg Mips.Reg.F2, MCOperand.reg Mips.Reg.F4] }
        TState.init = .ok t ∧
      (storesToReg 258 (emittedSince TState.init t)).length = 1 ∧
      ∀ (fc : FCmpPred → Nat → Nat → Bool) (m : Mach),
        run fc (progSince TState.init t) m
          = some ({ m with
                    Regs := setAt m.Regs 258
                      (if fc FCmpPred.oeq (m.Regs 36) (m.Regs 38) then 1 else 0) },
                  Exit.fellThrough)) ∧
    (∃ t, printInstruction Env.plain
        { Opcode := Opcode.BC1T, Operands := [MCOperand.imm 16] } TState.init = .ok t ∧
      loadsOfReg 258 (emittedSince TState.init t) = 1) :=
  ⟨(fcc_written_once_read_once Env.plain
      { Opcode := Opcode.C_OLT_D32,
        Operands := [MCOperand.reg Mips.Reg.D1, MCOperand.reg Mips.Reg.D2] }
      TState.init).1 FCmpPred.olt Mips.Reg.D1 Mips.Reg.D2 1 2 rfl rfl rfl rfl rfl,
   (fcc_written_once_read_once Env.plain
      { Opcode := Opcode.C_EQ_S,
        Operands := [MCOperand.reg Mips.Reg.F2, MCOperand.reg Mips.Reg.F4] }
      TState.init).2.1 FCmpPred.oeq Mips.Reg.F2 Mips.Reg.F4 36 38 rfl rfl rfl rfl rfl,
   (fcc_written_once_read_once Env.plain
      { Opcode := Opcode.BC1T, Operands := [MCOperand.imm 16] }
      TState.init).2.2 { ok := true, Target := BasicBlock.atAddr 16 }
      { TState.init with CreatedBBs := [16] } (Or.inl rfl) rfl rfl⟩

/-- C12 (the claim fails at v = 2): with 2 in cell 258, the code emitted for `BC1T` at
address 0 with target 16 leaves for the fall-through block of address 8, although
2 is not 0; the code emitted for `BC1F` leaves for the same block, so neither branch is
taken. -/
theorem bc1t_not_taken_on_two :
    (∃ t, printInstruction Env.plain
        { Opcode := Opcode.BC1T, Operands := [MCOperand.imm 16] } TState.init = .ok t ∧
      (run (fun _ _ _ => false) (progSince TState.init t)
          { Regs := fun n => if n = 258 then 2 else 0, DblRegs := fun _ => 0 }).map Prod.snd
        = some (Exit.toBlock (BasicBlock.atAddr 8))) ∧
    (∃ t, printInstruction Env.plain
        { Opcode := Opcode.BC1F, Operands := [MCOperand.imm 16] } TState.init = .ok t ∧
      (run (fun _ _ _ => false) (progSince TState.init t)
          { Regs := fun n => if n = 258 then 2 else 0, DblRegs := fun _ => 0 }).map Prod.snd
        = some (Exit.toBlock (BasicBlock.atAddr 8))) :=
  ⟨⟨_, rfl, rfl⟩, ⟨_, rfl, rfl⟩⟩

/-- C12 (amended): when `HandleBranchTarget` hands back the target block, the code emitted
for `BC1T` and `BC1F` is translated without abort and, run from any register file with
`v` in cell 258, changes no register and leaves for one of two blocks: for `BC1T` the
target when bit 0 of `v` is 1, for `BC1F` the target when `v` is 0, and otherwise the
fall-through block of `CurAddr + GetInstructionSize()`.  For `v` equal to 0 or 1, the only
values the compare handlers store, `BC1T` is taken exactly when `v` is not 0, so exactly
one of the two branches is taken. -/
theorem bc1_branch_condition (env : Env) (MI : MCInst) (s s1 : TState) (bt : BranchTarget)
    (h : HandleBranchTarget env (MI.getOperand 0) true s = .ok (bt, s1))
    (hok : bt.ok = true) :
    (MI.Opcode = Opcode.BC1T →
      ∃ t, printInstruction env MI s = .ok t ∧
        ∀ (fc : FCmpPred → Nat → Nat → Bool) (m : Mach),
          run fc (progSince s t) m
              = some (m, Exit.toBlock (if m.Regs 258 % 2 = 1 then bt.Target
                  else BasicBlock.atAddr (s.CurAddr + GetInstructionSize))) ∧
          (m.Regs 258 ≤ 1 →
            run fc (progSince s t) m
              = some (m, Exit.toBlock (if m.Regs 258 ≠ 0 then bt.Target
                  else BasicBlock.atAddr (s.CurAddr + GetInstructionSize))))) ∧
    (MI.Opcode = Opcode.BC1F →
      ∃ t, printInstruction env MI s = .ok t ∧
        ∀ (fc : FCmpPred → Nat → Nat → Bool) (m : Mach),
          run fc (progSince s t) m
            = some (m, Exit.toBlock (if m.Regs 258 = 0 then bt.Target
                else BasicBlock.atAddr (s.CurAddr + GetInstructionSize)))) := by
  constructor
  · intro hop
    rw [printInstruction_BC1 env MI s (Or.inl hop)]
    obtain ⟨t, ht, hm, hi⟩ := printBC1_code env (decide (MI.Opcode = Opcode.BC1T)) MI s s1 bt h hok
    refine ⟨t, ht, ?_⟩
    intro fc m
    rw [progSince_append s t _ hi hm]
    have hrun :
        run fc
            { base := s.insts.length,
              code := [Instr.load (Value.reg 258),
                (if decide (MI.Opcode = Opcode.BC1T) = true then
                  Instr.cast CastOp.trunc (Value.inst s.insts.length) (Ty.int 1)
                 else Instr.icmp ICmpPred.eq (Value.inst s.insts.length)
                  (Value.const (Const.int 32 0))),
                Instr.condBr (Value.inst (s.insts.length + 1)) bt.Target
                  (BasicBlock.atAddr (s.CurAddr + GetInstructionSize))],
              marks := [] } m
          = some (m, Exit.toBlock (if m.Regs 258 % 2 = 1 then bt.Target
              else BasicBlock.atAddr (s.CurAddr + GetInstructionSize))) := by
      simp [hop, run, exec, step, evalValue, setAt, Prog.start]
    refine ⟨hrun, ?_⟩
    intro hle
    rw [hrun]
    have hv : m.Regs 258 = 0 ∨ m.Regs 258 = 1 := by omega
    rcases hv with hv | hv <;> simp [hv]
  · intro hop
    have hne : ¬ MI.Opcode = Opcode.BC1T := by rw [hop]; decide
    rw [printInstruction_BC1 env MI s (Or.inr hop)]
    obtain ⟨t, ht, hm, hi⟩ := printBC1_code env (decide (MI.Opcode = Opcode.BC1T)) MI s s1 bt h hok
    refine ⟨t, ht, ?_⟩
    intro fc m
    rw [progSince_append s t _ hi hm]
    simp [hop, run, exec, step, evalValue, evalConst, evalICmp, setAt, Prog.start]

/-- C12 (amended) at concrete inputs: `bc1t` and `bc1f` at address 0 with the forward
target 16. -/
theorem bc1_branch_condition_witness :
    (∃ t, printInstruction Env.plain
        { Opcode := Opcode.BC1T, Operands := [MCOperand.imm 16] } TState.init = .ok t ∧
      ∀ (fc : FCmpPred → Nat → Nat → Bool) (m : Mach),
        run fc (progSince TState.init t) m
            = some (m, Exit.toBlock (if m.Regs 258 % 2 = 1 then BasicBlock.atAddr 16
                else BasicBlock.atAddr 8)) ∧
        (m.Regs 258 ≤ 1 →
          run fc (progSince TState.init t) m
            = some (m, Exit.toBlock (if m.Regs 258 ≠ 0 then BasicBlock.atAddr 16
                else BasicBlock.atAddr 8)))) ∧
    (∃ t, printInstruction Env.plain
        { Opcode := Opcode.BC1F, Operands := [MCOperand.imm 16] } TState.init = .ok t ∧
      ∀ (fc : FCmpPred → Nat → Nat → Bool) (m : Mach),
        run fc (progSince TState.init t) m
          = some (m, Exit.toBlock (if m.Regs 258 = 0 then BasicBlock.atAddr 16
              else BasicBlock.atAddr 8))) :=
  ⟨(bc1_branch_condition Env.plain { Opcode := Opcode.BC1T, Operands := [MCOperand.imm 16] }
      TState.init { TState.init with CreatedBBs := [16] }
      { ok := true, Target := BasicBlock.atAddr 16 } rfl rfl).1 rfl,
   (bc1_branch_condition Env.plain { Opcode := Opcode.BC1F, Operands := [MCOperand.imm 16] }
      TState.init { TState.init with CreatedBBs := [16] }
      { ok := true, Target := BasicBlock.atAddr 16 } rfl rfl).2 rfl⟩

/-- C13 (the code departs from the claim): the arm shared by `MOVN_I_S` and `MOVZ_I_S`
chooses its comparison by testing the opcode against `MOVN_I_D32`, which it never is, so
both opcodes compare the condition operand with `icmp eq`.  For `movn.s $f2, $f4, $t0`
(cells 36, 38 and 8) the emitted code stores the source into the destination exactly
when the condition cell is 0, the behaviour of `MOVZ`; with a non-zero condition the
destination keeps its previous value.  The integer sibling `movn $v0, $a0, $t0` (cells 2,
4 and 8) compares with `icmp ne` and stores the source exactly when the condition cell is
not 0. -/
theorem movn_s_moves_on_zero :
    (∃ t, printInstruction Env.plain
        { Opcode := Opcode.MOVN_I_S,
          Operands := [MCOperand.reg Mips.Reg.F2, MCOperand.reg Mips.Reg.F4,
                       MCOperand.reg Mips.Reg.T0] } TState.init = .ok t ∧
      t.insts = [Instr.load (Value.reg 38), Instr.load (Value.reg 8),
                 Instr.icmp ICmpPred.eq (Value.inst 1) (Value.const (Const.int 32 0)),
                 Instr.load (Value.reg 36),
                 Instr.select (Value.inst 2) (Value.inst 0) (Value.inst 3),
                 Instr.store (Value.inst 4) (some (Value.reg 36))] ∧
      ∀ (fc : FCmpPred → Nat → Nat → Bool) (m : Mach),
        run fc (progSince TState.init t) m
          = some ({ m with
                    Regs := setAt m.Regs 36 (if m.Regs 8 = 0 then m.Regs 38 else m.Regs 36) },
                  Exit.fellThrough)) ∧
    (∃ t, printInstruction Env.plain
        { Opcode := Opcode.MOVN_I_I,
          Operands := [MCOperand.reg Mips.Reg.V0, MCOperand.reg Mips.Reg.A0,
                       MCOperand.reg Mips.Reg.T0] } TState.init = .ok t ∧
      t.insts = [Instr.load (Value.reg 4), Instr.load (Value.reg 8),
                 Instr.icmp ICmpPred.ne (Value.inst 1) (Value.const (Const.int 32 0)),
                 Instr.load (Value.reg 2),
                 Instr.select (Value.inst 2) (Value.inst 0) (Value.inst 3),
                 Instr.store (Value.inst 4) (some (Value.reg 2))] ∧
      ∀ (fc : FCmpPred → Nat → Nat → Bool) (m : Mach),
        run fc (progSince TState.init t) m
          = some ({ m with
                    Regs := setAt m.Regs 2 (if m.Regs 8 ≠ 0 then m.Regs 4 else m.Regs 2) },
                  Exit.fellThrough)) := by
  refine ⟨⟨_, rfl, rfl, ?_⟩, ⟨_, rfl, rfl, ?_⟩⟩
  · intro fc m
    show run fc
        { base := 0,
          code := [Instr.load (Value.reg 38), Instr.load (Value.reg 8),
            Instr.icmp ICmpPred.eq (Value.inst 1) (Value.const (Const.int 32 0)),
            Instr.load (Value.reg 36),
            Instr.select (Value.inst 2) (Value.inst 0) (Value.inst 3),
            Instr.store (Value.inst 4) (some (Value.reg 36))],
          marks := [] } m = _
    simp [run, exec, step, evalValue, evalConst, evalICmp, setAt]
    split <;> simp
  · intro fc m
    show run fc
        { base := 0,
          code := [Instr.load (Value.reg 4), Instr.load (Value.reg 8),
            Instr.icmp ICmpPred.ne (Value.inst 1) (Value.const (Const.int 32 0)),
            Instr.load (Value.reg 2),
            Instr.select (Value.inst 2) (Value.inst 0) (Value.inst 3),
            Instr.store (Value.inst 4) (some (Value.reg 2))],
          marks := [] } m = _
    simp [run, exec, step, evalValue, evalConst, evalICmp, setAt]
    split <;> simp

/-! The code emitted by the multiply and divide arms and what it computes -/

theorem HandleAluSrcOperand_reg (env : Env) (r : Mips.Reg) (a : Nat)
    (F : Option (Option Value)) (s : TState) (ha : directiveOf r = .ok a) (h0 : a ≠ 0) :
    HandleAluSrcOperand env (MCOperand.reg r) F s
      = .ok (Value.inst s.insts.length,
             F.map (fun f => GetFirstInstruction2 f (some (Value.inst s.insts.length))),
             { s with insts := s.insts ++ [Instr.load (Value.reg a)],
                      ReadMap := setAt s.ReadMap a true }) := by
  simp [HandleAluSrcOperand, ha, h0, bind, Except.bind, pure, Except.pure, CreateLoad, emit]

theorem HandleAluDstOperand_reg (r : Mips.Reg) (d : Nat) (s : TState)
    (hd : directiveOf r = .ok d) :
    HandleAluDstOperand (MCOperand.reg r) s
      = .ok (if d = 0 then (none, s)
             else (some (Value.reg d), { s with WriteMap := setAt s.WriteMap d true })) := by
  by_cases h0 : d = 0 <;>
    simp [HandleAluDstOperand, hd, h0, bind, Except.bind, pure, Except.pure]

theorem printInstruction_SLT (env : Env) (MI : MCInst) (s : TState)
    (h : MI.Opcode = Opcode.SLT ∨ MI.Opcode = Opcode.SLTi ∨ MI.Opcode = Opcode.SLTu ∨
      MI.Opcode = Opcode.SLTiu) :
    printInstruction env MI s = printSLT env MI s := by
  unfold printInstruction
  rcases h with h | h | h | h <;> rw [h]

/-- The set-on-less-than arm on a register and a register. -/
theorem printSLT_code_reg (env : Env) (MI : MCInst) (s : TState) (rd ra rb : Mips.Reg)
    (d a b : Nat)
    (h0 : MI.getOperand 0 = MCOperand.reg rd) (h1 : MI.getOperand 1 = MCOperand.reg ra)
    (h2 : MI.getOperand 2 = MCOperand.reg rb)
    (hd : directiveOf rd = .ok d) (ha : directiveOf ra = .ok a) (hb : directiveOf rb = .ok b)
    (hd0 : d ≠ 0) (ha0 : a ≠ 0) (hb0 : b ≠ 0) :
    ∃ t, printSLT env MI s = .ok t ∧
      t.insts = s.insts ++
        [Instr.load (Value.reg a), Instr.load (Value.reg b),
         Instr.icmp (if MI.Opcode = Opcode.SLTiu ∨ MI.Opcode = Opcode.SLTu then ICmpPred.ult
                     else ICmpPred.slt)
           (Value.inst s.insts.length) (Value.inst (s.insts.length + 1)),
         Instr.condBr (Value.inst (s.insts.length + 2)) (BasicBlock.fresh s.FreshBlocks)
           (BasicBlock.fresh (s.FreshBlocks + 1)),
         Instr.store (Value.const (Const.int 32 1)) (some (Value.reg d)),
         Instr.br (BasicBlock.atAddr (s.CurAddr + GetInstructionSize)),
         Instr.store (Value.const (Const.int 32 0)) (some (Value.reg d)),
         Instr.br (BasicBlock.atAddr (s.CurAddr + GetInstructionSize))] ∧
      t.InsertPoints = s.InsertPoints ++
        [(s.insts.length + 4, BasicBlock.fresh s.FreshBlocks),
         (s.insts.length + 6, BasicBlock.fresh (s.FreshBlocks + 1)),
         (s.insts.length + 8, BasicBlock.atAddr (s.CurAddr + GetInstructionSize))] ∧
      t.CurBlockAddr = s.CurAddr + GetInstructionSize ∧
      t.FreshBlocks = s.FreshBlocks + 2 := by
  by_cases hu : MI.Opcode = Opcode.SLTiu ∨ MI.Opcode = Opcode.SLTu
  all_goals
    simp [printSLT, h0, h1, h2, HandleAluSrcOperand_reg env _ _ _ _ ha ha0,
      HandleAluSrcOperand_reg env _ _ _ _ hb hb0, HandleAluDstOperand_reg _ _ _ hd, hd0, hu,
      bind, Except.bind, BasicBlockCreate, CreateBB, CreateICmp, CreateStore, SetInsertPoint,
      emit, recordInsMap, GetFirstInstruction2, isaInstruction]

/-- The set-on-less-than arm on a register and an immediate with no relocation pending. -/
theorem printSLT_code_imm (env : Env) (MI : MCInst) (s : TState) (rd ra : Mips.Reg)
    (d a : Nat) (i : Int)
    (h0 : MI.getOperand 0 = MCOperand.reg rd) (h1 : MI.getOperand 1 = MCOperand.reg ra)
    (h2 : MI.getOperand 2 = MCOperand.imm i)
    (hd : directiveOf rd = .ok d) (ha : directiveOf ra = .ok a)
    (hr1 : (env.ResolveRelocationValue s.CurAddr).found = false)
    (hr2 : (env.ResolveRelocationValue s.CurAddr).IsFuncAddr = false)
    (hd0 : d ≠ 0) (ha0 : a ≠ 0) :
    ∃ t, printSLT env MI s = .ok t ∧
      t.insts = s.insts ++
        [Instr.load (Value.reg a),
         Instr.icmp (if MI.Opcode = Opcode.SLTiu ∨ MI.Opcode = Opcode.SLTu then ICmpPred.ult
                     else ICmpPred.slt)
           (Value.inst s.insts.length) (Value.const (getInt32 i)),
         Instr.condBr (Value.inst (s.insts.length + 1)) (BasicBlock.fresh s.FreshBlocks)
           (BasicBlock.fresh (s.FreshBlocks + 1)),
         Instr.store (Value.const (Const.int 32 1)) (some (Value.reg d)),
         Instr.br (BasicBlock.atAddr (s.CurAddr + GetInstructionSize)),
         Instr.store (Value.const (Const.int 32 0)) (some (Value.reg d)),
         Instr.br (BasicBlock.atAddr (s.CurAddr + GetInstructionSize))] ∧
      t.InsertPoints = s.InsertPoints ++
        [(s.insts.length + 3, BasicBlock.fresh s.FreshBlocks),
         (s.insts.length + 5, BasicBlock.fresh (s.FreshBlocks + 1)),
         (s.insts.length + 7, BasicBlock.atAddr (s.CurAddr + GetInstructionSize))] ∧
      t.CurBlockAddr = s.CurAddr + GetInstructionSize ∧
      t.FreshBlocks = s.FreshBlocks + 2 := by
  have himm : HandleAluSrcOperand env (MCOperand.imm i)
      (some (some (Value.inst s.insts.length)))
      { s with insts := s.insts ++ [Instr.load (Value.reg a)],
               ReadMap := setAt s.ReadMap a true }
      = .ok (Value.const (getInt32 i),
          some (some (Value.inst s.insts.length)),
          { s with insts := s.insts ++ [Instr.load (Value.reg a)],
                   ReadMap := setAt s.ReadMap a true }) :=
    HandleAluSrcOperand_imm_plain env _ i _ hr1 hr2
  by_cases hu : MI.Opcode = Opcode.SLTiu ∨ MI.Opcode = Opcode.SLTu
  all_goals
    simp [printSLT, h0, h1, h2, HandleAluSrcOperand_reg env _ _ _ _ ha ha0, himm,
      HandleAluDstOperand_reg _ _ _ hd, hd0, hu,
      bind, Except.bind, BasicBlockCreate, CreateBB, CreateICmp, CreateStore, SetInsertPoint,
      emit, recordInsMap, GetFirstInstruction2, isaInstruction, getInt32]

theorem progSince_marks (s t : TState) (l : List Instr) (mk : List (Nat × BasicBlock))
    (h : t.insts = s.insts ++ l) (hm : t.InsertPoints = s.InsertPoints ++ mk) :
    progSince s t
      = { base := s.insts.length, code := l,
          marks := mk.map (fun p => (p.1 - s.insts.length, p.2)) } := by
  simp [progSince, emittedSince, h, hm]

theorem run_slt_reg (fc : FCmpPred → Nat → Nat → Bool) (u : Bool) (n k d a b A : Nat)
    (m : Mach) :
    run fc
        { base := n,
          code := [Instr.load (Value.reg a), Instr.load (Value.reg b),
            Instr.icmp (if u then ICmpPred.ult else ICmpPred.slt)
              (Value.inst n) (Value.inst (n + 1)),
            Instr.condBr (Value.inst (n + 2)) (BasicBlock.fresh k) (BasicBlock.fresh (k + 1)),
            Instr.store (Value.const (Const.int 32 1)) (some (Value.reg d)),
            Instr.br (BasicBlock.atAddr A),
            Instr.store (Value.const (Const.int 32 0)) (some (Value.reg d)),
            Instr.br (BasicBlock.atAddr A)],
          marks := [(4, BasicBlock.fresh k), (6, BasicBlock.fresh (k + 1)),
            (8, BasicBlock.atAddr A)] } m
      = some ({ m with
                Regs := setAt m.Regs d (if lessThan32 u (m.Regs a) (m.Regs b) then 1 else 0) },
              Exit.toBlock (BasicBlock.atAddr A)) := by
  cases u
  · by_cases hc : toSigned 32 (m.Regs a) < toSigned 32 (m.Regs b) <;>
      simp [run, exec, step, evalValue, evalConst, evalICmp, setAt, Prog.start, lessThan32, hc]
  · by_cases hc : m.Regs a < m.Regs b <;>
      simp [run, exec, step, evalValue, evalConst, evalICmp, setAt, Prog.start, lessThan32, hc]

theorem run_slt_imm (fc : FCmpPred → Nat → Nat → Bool) (u : Bool) (n k d a y A : Nat)
    (m : Mach) :
    run fc
        { base := n,
          code := [Instr.load (Value.reg a),
            Instr.icmp (if u then ICmpPred.ult else ICmpPred.slt)
              (Value.inst n) (Value.const (Const.int 32 y)),
            Instr.condBr (Value.inst (n + 1)) (BasicBlock.fresh k) (BasicBlock.fresh (k + 1)),
            Instr.store (Value.const (Const.int 32 1)) (some (Value.reg d)),
            Instr.br (BasicBlock.atAddr A),
            Instr.store (Value.const (Const.int 32 0)) (some (Value.reg d)),
            Instr.br (BasicBlock.atAddr A)],
          marks := [(3, BasicBlock.fresh k), (5, BasicBlock.fresh (k + 1)),
            (7, BasicBlock.atAddr A)] } m
      = some ({ m with
                Regs := setAt m.Regs d (if lessThan32 u (m.Regs a) y then 1 else 0) },
              Exit.toBlock (BasicBlock.atAddr A)) := by
  cases u
  · by_cases hc : toSigned 32 (m.Regs a) < toSigned 32 y <;>
      simp [run, exec, step, evalValue, evalConst, evalICmp, setAt, Prog.start, lessThan32, hc]
  · by_cases hc : m.Regs a < y <;>
      simp [run, exec, step, evalValue, evalConst, evalICmp, setAt, Prog.start, lessThan32, hc]

/-- C15: for `SLT`/`SLTi`/`SLTu`/`SLTiu` with a destination register `d` other than
register 0, a first source cell `a` (a register other than register 0) and a second
source that is either a register cell `b` (other than register 0) or an immediate with no
relocation pending, translation does not abort.  The emitted code is the loads of the
register sources, one `icmp` (`ult` for `SLTu`/`SLTiu`, `slt` for `SLT`/`SLTi`), a
conditional branch to two blocks newly made with `BasicBlock::Create`, the first storing 1
to the destination cell and the second storing 0, each followed by a branch to the block
of `CurAddr + GetInstructionSize()`; that block is the last insertion point set, and
`CurBlockAddr` is that address.  Run from any register file, the code leaves 1 in the
destination cell when the first source is less than the second (unsigned for
`SLTu`/`SLTiu`, signed for `SLT`/`SLTi`) and 0 otherwise, changes nothing else, and leaves
for the block of `CurAddr + GetInstructionSize()`. -/
theorem slt_sets_destination (env : Env) (MI : MCInst) (s : TState) (rd ra : Mips.Reg)
    (d a : Nat)
    (hop : MI.Opcode = Opcode.SLT ∨ MI.Opcode = Opcode.SLTi ∨ MI.Opcode = Opcode.SLTu ∨
      MI.Opcode = Opcode.SLTiu)
    (h0 : MI.getOperand 0 = MCOperand.reg rd) (h1 : MI.getOperand 1 = MCOperand.reg ra)
    (hd : directiveOf rd = .ok d) (ha : directiveOf ra = .ok a) (hd0 : d ≠ 0) (ha0 : a ≠ 0) :
    (∀ (rb : Mips.Reg) (b : Nat),
      MI.getOperand 2 = MCOperand.reg rb → directiveOf rb = .ok b → b ≠ 0 →
      ∃ t, printInstruction env MI s = .ok t ∧
        emittedSince s t =
          [Instr.load (Value.reg a), Instr.load (Value.reg b),
           Instr.icmp (if MI.Opcode = Opcode.SLTiu ∨ MI.Opcode = Opcode.SLTu then ICmpPred.ult
                       else ICmpPred.slt)
             (Value.inst s.insts.length) (Value.inst (s.insts.length + 1)),
           Instr.condBr (Value.inst (s.insts.length + 2)) (BasicBlock.fresh s.FreshBlocks)
             (BasicBlock.fresh (s.FreshBlocks + 1)),
           Instr.store (Value.const (Const.int 32 1)) (some (Value.reg d)),
           Instr.br (BasicBlock.atAddr (s.CurAddr + GetInstructionSize)),
           Instr.store (Value.const (Const.int 32 0)) (some (Value.reg d)),
           Instr.br (BasicBlock.atAddr (s.CurAddr + GetInstructionSize))] ∧
        (progSince s t).marks =
          [(4, BasicBlock.fresh s.FreshBlocks), (6, BasicBlock.fresh (s.FreshBlocks + 1)),
           (8, BasicBlock.atAddr (s.CurAddr + GetInstructionSize))] ∧
        t.CurBlockAddr = s.CurAddr + GetInstructionSize ∧
        ∀ (fc : FCmpPred → Nat → Nat → Bool) (m : Mach),
          run fc (progSince s t) m
            = some ({ m with
                      Regs := setAt m.Regs d
                        (if lessThan32 (decide (MI.Opcode = Opcode.SLTiu ∨ MI.Opcode = Opcode.SLTu))
                            (m.Regs a) (m.Regs b) then 1 else 0) },
                    Exit.toBlock (BasicBlock.atAddr (s.CurAddr + GetInstructionSize)))) ∧
    (∀ i : Int,
      MI.getOperand 2 = MCOperand.imm i →
      (env.ResolveRelocationValue s.CurAddr).found = false →
      (env.ResolveRelocationValue s.CurAddr).IsFuncAddr = false →
      ∃ t, printInstruction env MI s = .ok t ∧
        emittedSince s t =
          [Instr.load (Value.reg a),
           Instr.icmp (if MI.Opcode = Opcode.SLTiu ∨ MI.Opcode = Opcode.SLTu then ICmpPred.ult
                       else ICmpPred.slt)
             (Value.inst s.insts.length) (Value.const (getInt32 i)),
           Instr.condBr (Value.inst (s.insts.length + 1)) (BasicBlock.fresh s.FreshBlocks)
             (BasicBlock.fresh (s.FreshBlocks + 1)),
           Instr.store (Value.const (Const.int 32 1)) (some (Value.reg d)),
           Instr.br (BasicBlock.atAddr (s.CurAddr + GetInstructionSize)),
           Instr.store (Value.const (Const.int 32 0)) (some (Value.reg d)),
           Instr.br (BasicBlock.atAddr (s.CurAddr + GetInstructionSize))] ∧
        (progSince s t).marks =
          [(3, BasicBlock.fresh s.FreshBlocks), (5, BasicBlock.fresh (s.FreshBlocks + 1)),
           (7, BasicBlock.atAddr (s.CurAddr + GetInstructionSize))] ∧
        t.CurBlockAddr = s.CurAddr + GetInstructionSize ∧
        ∀ (fc : FCmpPred → Nat → Nat → Bool) (m : Mach),
          run fc (progSince s t) m
            = some ({ m with
                      Regs := setAt m.Regs d
                        (if lessThan32 (decide (MI.Opcode = Opcode.SLTiu ∨ MI.Opcode = Opcode.SLTu))
                            (m.Regs a) (toU32 i) then 1 else 0) },
                    Exit.toBlock (BasicBlock.atAddr (s.CurAddr + GetInstructionSize)))) := by
  have hif : (if MI.Opcode = Opcode.SLTiu ∨ MI.Opcode = Opcode.SLTu then ICmpPred.ult
        else ICmpPred.slt)
      = (if decide (MI.Opcode = Opcode.SLTiu ∨ MI.Opcode = Opcode.SLTu) = true
          then ICmpPred.ult else ICmpPred.slt) := by
    simp
  constructor
  · intro rb b h2 hb hb0
    rw [printInstruction_SLT env MI s hop]
    obtain ⟨t, ht, hi, hm, hc, _⟩ :=
      printSLT_code_reg env MI s rd ra rb d a b h0 h1 h2 hd ha hb hd0 ha0 hb0
    have hP := progSince_marks s t _ _ hi hm
    have hmk : List.map (fun p : Nat × BasicBlock => (p.1 - s.insts.length, p.2))
          [(s.insts.length + 4, BasicBlock.fresh s.FreshBlocks),
           (s.insts.length + 6, BasicBlock.fresh (s.FreshBlocks + 1)),
           (s.insts.length + 8, BasicBlock.atAddr (s.CurAddr + GetInstructionSize))]
        = [(4, BasicBlock.fresh s.FreshBlocks), (6, BasicBlock.fresh (s.FreshBlocks + 1)),
           (8, BasicBlock.atAddr (s.CurAddr + GetInstructionSize))] := by
      simp
    rw [hmk, hif] at hP
    refine ⟨t, ht, emittedSince_append s t _ hi, ?_, hc, ?_⟩
    · rw [hP]
    · intro fc m
      rw [hP]
      exact run_slt_reg fc _ s.insts.length s.FreshBlocks d a b
        (s.CurAddr + GetInstructionSize) m
  · intro i h2 hr1 hr2
    rw [printInstruction_SLT env MI s hop]
    obtain ⟨t, ht, hi, hm, hc, _⟩ :=
      printSLT_code_imm env MI s rd ra d a i h0 h1 h2 hd ha hr1 hr2 hd0 ha0
    have hP := progSince_marks s t _ _ hi hm
    have hmk : List.map (fun p : Nat × BasicBlock => (p.1 - s.insts.length, p.2))
          [(s.insts.length + 3, BasicBlock.fresh s.FreshBlocks),
           (s.insts.length + 5, BasicBlock.fresh (s.FreshBlocks + 1)),
           (s.insts.length + 7, BasicBlock.atAddr (s.CurAddr + GetInstructionSize))]
        = [(3, BasicBlock.fresh s.FreshBlocks), (5, BasicBlock.fresh (s.FreshBlocks + 1)),
           (7, BasicBlock.atAddr (s.CurAddr + GetInstructionSize))] := by
      simp
    rw [hmk, hif] at hP
    refine ⟨t, ht, emittedSince_append s t _ hi, ?_, hc, ?_⟩
    · rw [hP]
    · intro fc m
      rw [hP]
      exact run_slt_imm fc _ s.insts.length s.FreshBlocks d a (toU32 i)
        (s.CurAddr + GetInstructionSize) m

/-- C15 at concrete inputs, at address 0 of the initial state: `slt $t0, $a0, $a1` (cells
8, 4, 5) compares signed, `sltiu $t0, $a0, 5` compares unsigned with 5; both leave for the
block of address 8, which is the new `CurBlockAddr`. -/
theorem slt_sets_destination_witness :
    (∃ t, printInstruction Env.plain
        { Opcode := Opcode.SLT,
          Operands := [MCOperand.reg Mips.Reg.T0, MCOperand.reg Mips.Reg.A0,
                       MCOperand.reg Mips.Reg.A1] } TState.init = .ok t ∧
      t.CurBlockAddr = 8 ∧
      ∀ (fc : FCmpPred → Nat → Nat → Bool) (m : Mach),
        run fc (progSince TState.init t) m
          = some ({ m with
                    Regs := setAt m.Regs 8
                      (if lessThan32 false (m.Regs 4) (m.Regs 5) then 1 else 0) },
                  Exit.toBlock (BasicBlock.atAddr 8))) ∧
    (∃ t, printInstruction Env.plain
        { Opcode := Opcode.SLTiu,
          Operands := [MCOperand.reg Mips.Reg.T0, MCOperand.reg Mips.Reg.A0,
                       MCOperand.imm 5] } TState.init = .ok t ∧
      t.CurBlockAddr = 8 ∧
      ∀ (fc : FCmpPred → Nat → Nat → Bool) (m : Mach),
        run fc (progSince TState.init t) m
          = some ({ m with
                    Regs := setAt m.Regs 8 (if lessThan32 true (m.Regs 4) 5 then 1 else 0) },
                  Exit.toBlock (BasicBlock.atAddr 8))) :=
  ⟨Exists.imp (fun _ ht => ⟨ht.1, ht.2.2.2.1, ht.2.2.2.2⟩)
    ((slt_sets_destination Env.plain
      { Opcode := Opcode.SLT,
        Operands := [MCOperand.reg Mips.Reg.T0, MCOperand.reg Mips.Reg.A0,
                     MCOperand.reg Mips.Reg.A1] } TState.init Mips.Reg.T0 Mips.Reg.A0 8 4
      (Or.inl rfl) rfl rfl rfl rfl (by decide) (by decide)).1 Mips.Reg.A1 5 rfl rfl (by decide)),
   Exists.imp (fun _ ht => ⟨ht.1, ht.2.2.2.1, ht.2.2.2.2⟩)
    ((slt_sets_destination Env.plain
      { Opcode := Opcode.SLTiu,
        Operands := [MCOperand.reg Mips.Reg.T0, MCOperand.reg Mips.Reg.A0,
                     MCOperand.imm 5] } TState.init Mips.Reg.T0 Mips.Reg.A0 8 4
      (Or.inr (Or.inr (Or.inr rfl))) rfl rfl rfl rfl (by decide) (by decide)).2 5 rfl rfl rfl)⟩

/-! The memory-operand resolvers -/

theorem loadBase_code (reg : Nat) (s : TState) :
    ∃ pre, (loadBase reg s).2.insts = s.insts ++ pre ∧
      (∀ x ∈ pre, x.isShadowAccess = false) ∧
      (loadBase reg s).2.CurAddr = s.CurAddr := by
  unfold loadBase
  by_cases h : reg = 0
  · exact ⟨[], by simp [h], by simp, by simp [h]⟩
  · exact ⟨[Instr.load (Value.reg reg)], by simp [h, CreateLoad, emit],
      by simp [Instr.isShadowAccess], by simp [h, CreateLoad, emit]⟩

theorem CreateBinOp_code (op : BinOp) (l r : Value) (s : TState) :
    ∃ pre, (CreateBinOp op l r s).2.insts = s.insts ++ pre ∧
      (∀ x ∈ pre, x.isShadowAccess = false) := by
  unfold CreateBinOp
  split
  · exact ⟨[], by simp, by simp⟩
  · exact ⟨[Instr.binop op l r], by simp [emit], by simp [Instr.isShadowAccess]⟩

/-- The tail shared by both branches of the shadow path: a base, an address, then the
access. -/
theorem shadow_tail (reg : Nat) (idx : Value) (IsLoad : Bool) (width : Nat)
    (F : Option (Option Value)) (s : TState) :
    ∃ pre addr,
      (AccessShadowMemory (CreateBinOp BinOp.add (loadBase reg s).1 idx (loadBase reg s).2).1
          IsLoad width false F
          (CreateBinOp BinOp.add (loadBase reg s).1 idx (loadBase reg s).2).2).2.2.insts
        = s.insts ++ pre ++ [Instr.shadowAccess addr IsLoad width false] ∧
      (AccessShadowMemory (CreateBinOp BinOp.add (loadBase reg s).1 idx (loadBase reg s).2).1
          IsLoad width false F
          (CreateBinOp BinOp.add (loadBase reg s).1 idx (loadBase reg s).2).2).1
        = Value.inst (s.insts.length + pre.length) ∧
      (∀ x ∈ pre, x.isShadowAccess = false) := by
  obtain ⟨p1, h1, hp1, _⟩ := loadBase_code reg s
  obtain ⟨p2, h2, hp2⟩ := CreateBinOp_code BinOp.add (loadBase reg s).1 idx (loadBase reg s).2
  refine ⟨p1 ++ p2, (CreateBinOp BinOp.add (loadBase reg s).1 idx (loadBase reg s).2).1,
    ?_, ?_, ?_⟩
  · simp only [AccessShadowMemory, emit, h2, h1, List.append_assoc]
  · simp only [AccessShadowMemory, emit, h2, h1, List.length_append, Nat.add_assoc]
  · intro x hx
    rcases List.mem_append.mp hx with hx | hx
    · exact hp1 x hx
    · exact hp2 x hx

/-- Whenever the shadow path of `HandleMemOperand` returns, what it emitted ends in one
shadow-memory access of the requested width, which is the value returned, and nothing
before it is a shadow-memory access. -/
theorem HandleMemOperandShadow_ok (env : Env) (reg : Nat) (imm : Int)
    (F : Option (Option Value)) (IsLoad : Bool) (width : Nat) (offset : Int)
    (s t : TState) (V : Value) (F' : Option (Option Value))
    (h : HandleMemOperandShadow env reg imm F IsLoad width offset s = .ok (V, F', t)) :
    ∃ pre addr, t.insts = s.insts ++ pre ++ [Instr.shadowAccess addr IsLoad width false] ∧
      V = Value.inst (s.insts.length + pre.length) ∧
      (∀ x ∈ pre, x.isShadowAccess = false) := by
  unfold HandleMemOperandShadow at h
  simp only at h
  split at h
  · split at h
    · simp only [bind, Except.bind] at h
      cases hc : castConstant (env.ResolveRelocationMem s.CurAddr).V0 with
      | error e => simp [hc] at h
      | ok c =>
          simp only [hc] at h
          cases F with
          | none => simp [throw, throwThe, MonadExceptOf.throw] at h
          | some f =>
              simp only [Option.map, pure, Except.pure, Except.ok.injEq] at h
              obtain ⟨pre, addr, h1, h2, h3⟩ := shadow_tail reg
                (Value.const (relocIndex env c imm (env.ResolveRelocationMem s.CurAddr).UndefinedSymbol))
                IsLoad width _ s
              rw [h] at h1 h2
              exact ⟨pre, addr, h1, h2, h3⟩
    · simp at h
  · simp only [Except.ok.injEq] at h
    obtain ⟨pre, addr, h1, h2, h3⟩ := shadow_tail reg
      (Value.const (getInt32 (imm + offset))) IsLoad width _ s
    rw [h] at h1 h2
    exact ⟨pre, addr, h1, h2, h3⟩

/-- C16: for a memory operand `imm(reg)` whose base register has directive number `r`.
With `AggrOptimizeStack` set, `NoLocals` clear, `r` the stack or frame pointer (29 or 30)
and width 32, `HandleMemOperand` returns what `AccessSpillMemory` returns for the spill
index of the pair, emits no shadow-memory access, and with no relocation pending that index
is the immediate for the stack pointer and the immediate plus 1000000 for the frame
pointer.  In every other case (another width, another base register, `AggrOptimizeStack`
clear or `NoLocals` set), whenever `HandleMemOperand` returns, what it emitted ends in one
shadow-memory access of the requested width, which is the value returned, with no other
shadow-memory access before it; and it does return when no relocation resolves at the
current address. -/
theorem mem_operand_spill_redirect (env : Env) (r0 : Mips.Reg) (r : Nat) (i : Int)
    (F : Option (Option Value)) (IsLoad : Bool) (width : Nat) (offset : Int) (s : TState)
    (hr : directiveOf r0 = .ok r) :
    (env.AggrOptimizeStack = true → env.NoLocals = false → r = 29 ∨ r = 30 → width = 32 →
      HandleMemOperand env (MCOperand.reg r0) (MCOperand.imm i) F IsLoad width offset s
        = .ok ((AccessSpillMemory (spilledIndex env s.CurAddr r i) IsLoad s).1,
               F.map (fun f => GetFirstInstruction2 f
                 (some (AccessSpillMemory (spilledIndex env s.CurAddr r i) IsLoad s).1)),
               (AccessSpillMemory (spilledIndex env s.CurAddr r i) IsLoad s).2) ∧
      (∀ x ∈ emittedSince s (AccessSpillMemory (spilledIndex env s.CurAddr r i) IsLoad s).2,
        x.isShadowAccess = false) ∧
      (env.ResolveRelocationAddr s.CurAddr false = none →
        spilledIndex env s.CurAddr r i
          = if r = 30 then (toU64 i + 1000000) % 2 ^ 64 else toU64 i)) ∧
    (¬ (env.AggrOptimizeStack = true ∧ env.NoLocals = false ∧ (r = 29 ∨ r = 30) ∧ width = 32) →
      (∀ (V : Value) (F' : Option (Option Value)) (t : TState),
        HandleMemOperand env (MCOperand.reg r0) (MCOperand.imm i) F IsLoad width offset s
          = .ok (V, F', t) →
        ∃ pre addr,
          emittedSince s t = pre ++ [Instr.shadowAccess addr IsLoad width false] ∧
          V = Value.inst (s.insts.length + pre.length) ∧
          (∀ x ∈ pre, x.isShadowAccess = false)) ∧
      ((env.ResolveRelocationMem s.CurAddr).found = false →
        ∃ V F' t,
          HandleMemOperand env (MCOperand.reg r0) (MCOperand.imm i) F IsLoad width offset s
            = .ok (V, F', t))) := by
  constructor
  · intro hA hN h29 hw
    refine ⟨?_, ?_, ?_⟩
    · have hne : ¬ (r ≠ 29 ∧ r ≠ 30) := by omega
      simp [HandleMemOperand, HandleSpilledOperand, hr, hA, hN, h29, hw, hne, bind, Except.bind,
        pure, Except.pure]
    · intro x hx
      unfold AccessSpillMemory emittedSince at hx
      cases IsLoad
      · simp at hx
      · simp [CreateLoad, emit] at hx
        subst hx
        rfl
    · intro hrel
      simp [spilledIndex, hrel]
  · intro hnot
    have hsh : HandleMemOperand env (MCOperand.reg r0) (MCOperand.imm i) F IsLoad width offset s
        = HandleMemOperandShadow env r i F IsLoad width offset s := by
      have hnot' : ¬ (¬ env.NoLocals = true ∧ env.AggrOptimizeStack = true ∧ (r = 29 ∨ r = 30)
          ∧ width = 32) := by
        intro h
        exact hnot ⟨h.2.1, by simpa using h.1, h.2.2.1, h.2.2.2⟩
      simp only [HandleMemOperand, hr, bind, Except.bind, if_neg hnot']
    rw [hsh]
    constructor
    · intro V F' t h
      obtain ⟨pre, addr, h1, h2, h3⟩ :=
        HandleMemOperandShadow_ok env r i F IsLoad width offset s t V F' h
      refine ⟨pre, addr, ?_, h2, h3⟩
      rw [List.append_assoc] at h1
      exact emittedSince_append s t _ h1
    · intro hf
      simp only [HandleMemOperandShadow, hf]
      exact ⟨_, _, _, rfl⟩

/-- C16 at concrete inputs, from the initial state.  With `AggrOptimizeStack` set,
`12($sp)` as a 32-bit load is the load of spill slot 12 and `8($fp)` that of spill slot
1000008, and `lw $a0, 12($sp)` is that load followed by the store to cell 4; without the
flag, `12($sp)` is a load of the stack pointer, an add and a shadow-memory load. -/
theorem mem_operand_spill_redirect_witness :
    HandleMemOperand { Env.plain with AggrOptimizeStack := true } (MCOperand.reg Mips.Reg.SP)
        (MCOperand.imm 12) (some none) true 32 0 TState.init
      = .ok (Value.inst 0, some (some (Value.inst 0)),
             { TState.init with insts := [Instr.load (Value.spillSlot 12)] }) ∧
    HandleMemOperand { Env.plain with AggrOptimizeStack := true } (MCOperand.reg Mips.Reg.FP)
        (MCOperand.imm 8) (some none) true 32 0 TState.init
      = .ok (Value.inst 0, some (some (Value.inst 0)),
             { TState.init with insts := [Instr.load (Value.spillSlot 1000008)] }) ∧
    (∃ t, printInstruction { Env.plain with AggrOptimizeStack := true }
        { Opcode := Opcode.LW,
          Operands := [MCOperand.reg Mips.Reg.A0, MCOperand.reg Mips.Reg.SP, MCOperand.imm 12] }
        TState.init = .ok t ∧
      t.insts = [Instr.load (Value.spillSlot 12),
                 Instr.store (Value.inst 0) (some (Value.reg 4))]) ∧
    (∃ pre addr,
      emittedSince TState.init
          { TState.init with
            insts := [Instr.load (Value.reg 29),
                      Instr.binop BinOp.add (Value.inst 0) (Value.const (Const.int 32 12)),
                      Instr.shadowAccess (Value.inst 1) true 32 false],
            ReadMap := setAt (fun _ => false) 29 true }
        = pre ++ [Instr.shadowAccess addr true 32 false] ∧
      Value.inst 2 = Value.inst (0 + pre.length) ∧ (∀ x ∈ pre, x.isShadowAccess = false)) ∧
    HandleMemOperand Env.plain (MCOperand.reg Mips.Reg.SP) (MCOperand.imm 12) (some none)
        true 32 0 TState.init
      = .ok (Value.inst 2, some (some (Value.inst 0)),
             { TState.init with
               insts := [Instr.load (Value.reg 29),
                         Instr.binop BinOp.add (Value.inst 0) (Value.const (Const.int 32 12)),
                         Instr.shadowAccess (Value.inst 1) true 32 false],
               ReadMap := setAt (fun _ => false) 29 true }) :=
  ⟨((mem_operand_spill_redirect { Env.plain with AggrOptimizeStack := true } Mips.Reg.SP 29 12
      (some none) true 32 0 TState.init rfl).1 rfl rfl (Or.inl rfl) rfl).1,
   ((mem_operand_spill_redirect { Env.plain with AggrOptimizeStack := true } Mips.Reg.FP 30 8
      (some none) true 32 0 TState.init rfl).1 rfl rfl (Or.inr rfl) rfl).1,
   ⟨_, rfl, rfl⟩,
   ((mem_operand_spill_redirect Env.plain Mips.Reg.SP 29 12 (some none) true 32 0 TState.init
      rfl).2 (by decide)).1 (Value.inst 2) (some (some (Value.inst 0)))
      { TState.init with
        insts := [Instr.load (Value.reg 29),
                  Instr.binop BinOp.add (Value.inst 0) (Value.const (Const.int 32 12)),
                  Instr.shadowAccess (Value.inst 1) true 32 false],
        ReadMap := setAt (fun _ => false) 29 true } rfl,
   rfl⟩

/-- C17 (the code departs from the claim): the two spill resolvers do not share one index
function.  With `AggrOptimizeStack` set and no relocation pending, the pair (FP, 8)
reaches spill slot 1000008 through `HandleSpilledOperand` (a load such as
`lw $t0, 8($fp)`), which adds 1000000 for the frame pointer, and spill slot 100008 through
`HandleGetSpilledAddress` (`addiu $t0, $fp, 8`), which adds 100000; for the stack pointer
both reach spill slot 8. -/
theorem spill_index_differs_between_resolvers :
    HandleSpilledOperand { Env.plain with AggrOptimizeStack := true } (MCOperand.reg Mips.Reg.FP)
        (MCOperand.imm 8) (some none) true TState.init
      = .ok (Value.inst 0, some (some (Value.inst 0)),
             { TState.init with insts := [Instr.load (Value.spillSlot 1000008)] }) ∧
    (∃ f t, HandleGetSpilledAddress { Env.plain with AggrOptimizeStack := true }
        (MCOperand.reg Mips.Reg.FP) (MCOperand.imm 8) (MCOperand.reg Mips.Reg.T0) none
        TState.init = .ok (some (f, t)) ∧
      t.insts = [Instr.cast CastOp.ptrtoint (Value.spillSlot 100008) (Ty.int 32),
                 Instr.binop BinOp.sub (Value.inst 0) (Value.const Const.shadowBase),
                 Instr.store (Value.inst 1) (some (Value.reg 8))]) ∧
    HandleSpilledOperand { Env.plain with AggrOptimizeStack := true } (MCOperand.reg Mips.Reg.SP)
        (MCOperand.imm 8) (some none) true TState.init
      = .ok (Value.inst 0, some (some (Value.inst 0)),
             { TState.init with insts := [Instr.load (Value.spillSlot 8)] }) ∧
    (∃ f t, HandleGetSpilledAddress { Env.plain with AggrOptimizeStack := true }
        (MCOperand.reg Mips.Reg.SP) (MCOperand.imm 8) (MCOperand.reg Mips.Reg.T0) none
        TState.init = .ok (some (f, t)) ∧
      t.insts = [Instr.cast CastOp.ptrtoint (Value.spillSlot 8) (Ty.int 32),
                 Instr.binop BinOp.sub (Value.inst 0) (Value.const Const.shadowBase),
                 Instr.store (Value.inst 1) (some (Value.reg 8))]) :=
  ⟨rfl, ⟨_, _, rfl, rfl⟩, rfl, ⟨_, _, rfl, rfl⟩⟩

/-- C18 (the claim fails in `NoShadow` mode): with `NoShadow` set, an `R_MIPS_LO16`
relocation to an undefined symbol resolved to 100 and the immediate 4, the ALU source is
the constant `104 + shadow_base`, not `104 - shadow_base`; with the shadow image at
address 1000 its value is 1104. -/
theorem noshadow_adds_shadow_base :
    HandleAluSrcOperand
        { Env.plain with
          NoShadow := true,
          ResolveRelocationValue := fun _ =>
            { found := true, V0 := some (Value.const (Const.int 32 100)),
              reltype := ELF.R_MIPS_LO16, UndefinedSymbol := true, IsFuncAddr := false } }
        (MCOperand.imm 4) none TState.init
      = .ok (Value.const (Const.binop BinOp.add (Const.int 32 104) Const.shadowBase), none,
             TState.init) ∧
    evalConstAt 1000 (Const.binop BinOp.add (Const.int 32 104) Const.shadowBase)
      = some ⟨32, 1104⟩ := by
  constructor
  · rfl
  · decide

/-- C18 (amended): for an immediate `imm` with a relocation pending at the current address
whose target is the 32-bit constant `t`.  For a LO16-class relocation (`R_MIPS_LO16` or
`R_MICROMIPS_LO16`) the ALU source is a constant, nothing is emitted, and with the shadow
image at `B` its value is `t + imm + B` when `NoShadow` is set (whether or not the symbol
is undefined), `t + imm - B` when `NoShadow` is clear and the symbol is undefined, so that
adding the shadow base gives `t + imm` back, and `t + imm` otherwise, all modulo 2^32.  For
a HI16-class relocation (`R_MIPS_HI16` or `R_MICROMIPS_HI16`) the ALU source is the
constant 0 in every mode. -/
theorem alu_source_relocation_value (env : Env) (s : TState) (imm : Int)
    (F : Option (Option Value)) (t : Nat)
    (hfound : (env.ResolveRelocationValue s.CurAddr).found = true)
    (hV0 : (env.ResolveRelocationValue s.CurAddr).V0 = some (Value.const (Const.int 32 t))) :
    ((env.ResolveRelocationValue s.CurAddr).reltype = ELF.R_MIPS_LO16 ∨
        (env.ResolveRelocationValue s.CurAddr).reltype = ELF.R_MICROMIPS_LO16 →
      ∃ v, HandleAluSrcOperand env (MCOperand.imm imm) F s = .ok (Value.const v, F, s) ∧
        ∀ B : Nat,
          evalConstAt B v
            = some ⟨32,
                if env.NoShadow then ((t + toU32 imm) % 2 ^ 32 + B % 2 ^ 32) % 2 ^ 32
                else if (env.ResolveRelocationValue s.CurAddr).UndefinedSymbol then
                  ((t + toU32 imm) % 2 ^ 32 + 2 ^ 32 - B % 2 ^ 32) % 2 ^ 32
                else (t + toU32 imm) % 2 ^ 32⟩ ∧
          (env.NoShadow = false →
            (env.ResolveRelocationValue s.CurAddr).UndefinedSymbol = true →
            evalConstAt B (Const.binop BinOp.add v Const.shadowBase)
              = some ⟨32, (t + toU32 imm) % 2 ^ 32⟩)) ∧
    ((env.ResolveRelocationValue s.CurAddr).reltype = ELF.R_MIPS_HI16 ∨
        (env.ResolveRelocationValue s.CurAddr).reltype = ELF.R_MICROMIPS_HI16 →
      HandleAluSrcOperand env (MCOperand.imm imm) F s
        = .ok (Value.const (Const.int 32 0), F, s)) := by
  constructor
  · intro hlo
    have hcls : (env.ResolveRelocationValue s.CurAddr).reltype = ELF.R_MIPS_LO16 ∨
        (env.ResolveRelocationValue s.CurAddr).reltype = ELF.R_MIPS_HI16 ∨
        (env.ResolveRelocationValue s.CurAddr).reltype = ELF.R_MICROMIPS_LO16 ∨
        (env.ResolveRelocationValue s.CurAddr).reltype = ELF.R_MICROMIPS_HI16 := by
      rcases hlo with h | h
      · exact Or.inl h
      · exact Or.inr (Or.inr (Or.inl h))
    refine ⟨(if env.NoShadow then
        Const.binop BinOp.add (Const.int 32 ((t + toU32 imm) % 2 ^ 32)) Const.shadowBase
      else if (env.ResolveRelocationValue s.CurAddr).UndefinedSymbol then
        Const.binop BinOp.sub (Const.int 32 ((t + toU32 imm) % 2 ^ 32)) Const.shadowBase
      else Const.int 32 ((t + toU32 imm) % 2 ^ 32)), ?_, ?_⟩
    · simp only [HandleAluSrcOperand, hfound, hcls, hlo, hV0, castConstant, and_self, reduceIte,
        bind, Except.bind, pure, Except.pure, Const.fold, getInt32, evalBinOp]
    · intro B
      have hB : B % 2 ^ 32 < 2 ^ 32 := Nat.mod_lt _ (by norm_num)
      cases env.NoShadow <;> cases (env.ResolveRelocationValue s.CurAddr).UndefinedSymbol <;>
        (simp [evalConstAt, evalBinOp]; try omega)
  · intro hhi
    have hcls : (env.ResolveRelocationValue s.CurAddr).reltype = ELF.R_MIPS_LO16 ∨
        (env.ResolveRelocationValue s.CurAddr).reltype = ELF.R_MIPS_HI16 ∨
        (env.ResolveRelocationValue s.CurAddr).reltype = ELF.R_MICROMIPS_LO16 ∨
        (env.ResolveRelocationValue s.CurAddr).reltype = ELF.R_MICROMIPS_HI16 := by
      rcases hhi with h | h
      · exact Or.inr (Or.inl h)
      · exact Or.inr (Or.inr (Or.inr h))
    have hnlo : ¬ ((env.ResolveRelocationValue s.CurAddr).reltype = ELF.R_MIPS_LO16 ∨
        (env.ResolveRelocationValue s.CurAddr).reltype = ELF.R_MICROMIPS_LO16) := by
      rcases hhi with h | h <;> rw [h] <;> decide
    simp only [HandleAluSrcOperand, hfound, hcls, hnlo, hV0, castConstant, and_self, reduceIte,
      bind, Except.bind, pure, Except.pure, getInt32]
    rfl

/-- C18 (amended) at concrete inputs, from the initial state with a relocation to an
undefined symbol resolved to 100 and the immediate 4: in shadow mode a LO16 relocation
gives `104 - shadow_base`, which is 104 again once the shadow base is added, and a HI16
relocation gives 0. -/
theorem alu_source_relocation_value_witness :
    (∃ v, HandleAluSrcOperand
        { Env.plain with
          ResolveRelocationValue := fun _ =>
            { found := true, V0 := some (Value.const (Const.int 32 100)),
              reltype := ELF.R_MIPS_LO16, UndefinedSymbol := true, IsFuncAddr := false } }
        (MCOperand.imm 4) none TState.init = .ok (Value.const v, none, TState.init) ∧
      ∀ B : Nat,
        evalConstAt B v = some ⟨32, (104 + 2 ^ 32 - B % 2 ^ 32) % 2 ^ 32⟩ ∧
        evalConstAt B (Const.binop BinOp.add v Const.shadowBase) = some ⟨32, 104⟩) ∧
    HandleAluSrcOperand
        { Env.plain with
          ResolveRelocationValue := fun _ =>
            { found := true, V0 := some (Value.const (Const.int 32 100)),
              reltype := ELF.R_MIPS_HI16, UndefinedSymbol := true, IsFuncAddr := false } }
        (MCOperand.imm 4) none TState.init
      = .ok (Value.const (Const.int 32 0), none, TState.init) :=
  ⟨Exists.imp (fun _ hv => ⟨hv.1, fun B => ⟨(hv.2 B).1, (hv.2 B).2 rfl rfl⟩⟩)
    ((alu_source_relocation_value
      { Env.plain with
        ResolveRelocationValue := fun _ =>
          { found := true, V0 := some (Value.const (Const.int 32 100)),
            reltype := ELF.R_MIPS_LO16, UndefinedSymbol := true, IsFuncAddr := false } }
      TState.init 4 none 100 rfl rfl).1 (Or.inl rfl)),
   (alu_source_relocation_value
      { Env.plain with
        ResolveRelocationValue := fun _ =>
          { found := true, V0 := some (Value.const (Const.int 32 100)),
            reltype := ELF.R_MIPS_HI16, UndefinedSymbol := true, IsFuncAddr := false } }
      TState.init 4 none 100 rfl rfl).2 (Or.inl rfl)⟩

/-- C19 (the code departs from the claim): the three memory resolvers do not treat the
LO16-class kinds alike.  With a relocation of kind `R_MICROMIPS_LO16` resolved to 100 at
the current address, `HandleMemOperand` on `4($a0)` forms the index 104, adds it to the
base and returns the shadow-memory access, whereas `HandleDoubleMemOperand` and
`HandleFloatMemOperand`, which test for `R_MIPS_LO16` only, abort on the same operand;
with kind `R_MIPS_LO16` the double resolver forms the same index 104. -/
theorem fp_mem_resolvers_reject_micromips_lo16 :
    HandleMemOperand
        { Env.plain with
          ResolveRelocationMem := fun _ =>
            { found := true, V0 := some (Value.const (Const.int 32 100)),
              reltype := ELF.R_MICROMIPS_LO16, UndefinedSymbol := false, IsFuncAddr := false } }
        (MCOperand.reg Mips.Reg.A0) (MCOperand.imm 4) (some none) true 32 0 TState.init
      = .ok (Value.inst 2, some (some (Value.inst 0)),
             { TState.init with
               insts := [Instr.load (Value.reg 4),
                         Instr.binop BinOp.add (Value.inst 0) (Value.const (Const.int 32 104)),
                         Instr.shadowAccess (Value.inst 1) true 32 false],
               ReadMap := setAt (fun _ => false) 4 true }) ∧
    HandleDoubleMemOperand
        { Env.plain with
          ResolveRelocationMem := fun _ =>
            { found := true, V0 := some (Value.const (Const.int 32 100)),
              reltype := ELF.R_MICROMIPS_LO16, UndefinedSymbol := false, IsFuncAddr := false } }
        (MCOperand.reg Mips.Reg.A0) (MCOperand.imm 4) (some none) true TState.init
      = .error Err.unsupportedRelocation ∧
    HandleFloatMemOperand
        { Env.plain with
          ResolveRelocationMem := fun _ =>
            { found := true, V0 := some (Value.const (Const.int 32 100)),
              reltype := ELF.R_MICROMIPS_LO16, UndefinedSymbol := false, IsFuncAddr := false } }
        (MCOperand.reg Mips.Reg.A0) (MCOperand.imm 4) (some none) true TState.init
      = .error Err.unsupportedRelocation ∧
    HandleDoubleMemOperand
        { Env.plain with
          ResolveRelocationMem := fun _ =>
            { found := true, V0 := some (Value.const (Const.int 32 100)),
              reltype := ELF.R_MIPS_LO16, UndefinedSymbol := false, IsFuncAddr := false } }
        (MCOperand.reg Mips.Reg.A0) (MCOperand.imm 4) (some none) true TState.init
      = .ok (Value.inst 2, some (some (Value.inst 0)),
             { TState.init with
               insts := [Instr.load (Value.reg 4),
                         Instr.binop BinOp.add (Value.inst 0) (Value.const (Const.int 32 104)),
                         Instr.shadowAccess (Value.inst 1) true 64 false],
               ReadMap := setAt (fun _ => false) 4 true }) :=
  ⟨rfl, rfl, rfl, rfl⟩

theorem printInstruction_JR (env : Env) (MI : MCInst) (s : TState)
    (h : MI.Opcode = Opcode.JR) :
    printInstruction env MI s = printJR env MI s := by
  unfold printInstruction
  rw [h]

/-- The return branch of the `JR` arm. -/
theorem printJR_return (env : Env) (MI : MCInst) (s : TState) (r : Mips.Reg)
    (h0 : MI.getOperand 0 = MCOperand.reg r) (hr : r = Mips.Reg.RA ∨ r = Mips.Reg.RA_64) :
    ∃ t, printJR env MI s = .ok t ∧
      emittedSince s t
        = (if ¬ env.NoLocals ∧ ¬ env.OneRegion ∧ s.CurFunName ≠ "main" then
            List.replicate env.ExitCheckpointSize (Instr.exitCheckpoint 0) else [])
          ++ [Instr.retVoid] ∧
      t.ExitPointCalls
        = s.ExitPointCalls ++
          (if ¬ env.NoLocals ∧ ¬ env.OneRegion ∧ s.CurFunName ≠ "main" then [0] else []) ∧
      t.FunctionRetMap = setAt s.FunctionRetMap s.CurAddr (some s.CurFunAddr) ∧
      t.CreatedBBs = s.CreatedBBs ++ [s.CurAddr + GetInstructionSize] ∧
      t.IndirectJumps = s.IndirectJumps := by
  have hJ : printJR env MI s
      = (do
          let (first, s1) :=
            if ¬ env.NoLocals ∧ ¬ env.OneRegion ∧ s.CurFunName ≠ "main" then
              HandleFunctionExitPoint env 0 none s
            else (none, s)
          let (v, s2) := emit Instr.retVoid s1
          let first := match first with
            | none => some v
            | some f => some f
          let s3 ← finishJR first s2
          (pure { s3 with
            FunctionRetMap := setAt s3.FunctionRetMap s3.CurAddr (some s3.CurFunAddr) }
            : Except Err TState)) := by
    unfold printJR
    rw [h0]
    rcases hr with hr | hr <;> subst hr <;> rfl
  rw [hJ]
  by_cases hc : ¬ env.NoLocals ∧ ¬ env.OneRegion ∧ s.CurFunName ≠ "main"
  · rw [if_pos hc, if_pos hc, if_pos hc]
    by_cases hz : env.ExitCheckpointSize = 0
    · simp [HandleFunctionExitPoint, hz, emit, finishJR, bind, Except.bind, pure, Except.pure,
        CreateBB, emittedSince]
    · obtain ⟨k, hk⟩ := Nat.exists_eq_succ_of_ne_zero hz
      simp [HandleFunctionExitPoint, hz, emit, finishJR, bind, Except.bind, pure, Except.pure,
        CreateBB, emittedSince, GetFirstInstruction2, isaInstruction]
  · rw [if_neg hc, if_neg hc, if_neg hc]
    simp [emit, finishJR, bind, Except.bind, pure, Except.pure, CreateBB, emittedSince]

/-- The indirect-jump branch of the `JR` arm. -/
theorem printJR_indirect (env : Env) (MI : MCInst) (s : TState) (r : Mips.Reg) (a : Nat)
    (h0 : MI.getOperand 0 = MCOperand.reg r) (hr1 : r ≠ Mips.Reg.RA) (hr2 : r ≠ Mips.Reg.RA_64)
    (ha : directiveOf r = .ok a) :
    ∃ t, printJR env MI s = .ok t ∧
      emittedSince s t
        = (if a = 0 then [] else [Instr.load (Value.reg a)]) ++ [Instr.retVoid] ∧
      t.IndirectJumps
        = s.IndirectJumps ++
          [if a = 0 then (some s.insts.length, Value.const (Const.int 32 0))
           else (some (s.insts.length + 1), Value.inst s.insts.length)] ∧
      t.FunctionRetMap = s.FunctionRetMap ∧
      t.ExitPointCalls = s.ExitPointCalls ∧
      t.CreatedBBs = s.CreatedBBs ++ [s.CurAddr + GetInstructionSize] := by
  have hJ : printJR env MI s
      = (do
          let (src, _, s1) ← HandleAluSrcOperand env (MCOperand.reg r) (some none) s
          let (Dummy, s2) := emit Instr.retVoid s1
          let s3 := { s2 with
            IndirectJumps := s2.IndirectJumps ++ [(some s1.insts.length, src)] }
          finishJR (GetFirstInstruction2 (some src) (some Dummy)) s3) := by
    unfold printJR
    rw [h0]
    simp only
  rw [hJ]
  by_cases hz : a = 0
  · simp [HandleAluSrcOperand, ha, hz, emit, finishJR, bind, Except.bind, pure, Except.pure,
      CreateBB, emittedSince, GetFirstInstruction2, isaInstruction]
  · simp [HandleAluSrcOperand_reg env r a _ s ha hz, hz, emit, finishJR, bind, Except.bind,
      CreateBB, emittedSince, GetFirstInstruction2, isaInstruction]

/-- C20: for `JR` on a register operand.  When the register is `RA` or `RA_64`,
translation does not abort; the emitted code is a `ret void`, preceded by the checkpoint of
`HandleFunctionExitPoint(0, &first)` exactly when `NoLocals` and `OneRegion` are both off
and the current function is not named `main` (no other call of it is made);
`FunctionRetMap[CurAddr]` becomes `CurFunAddr`, the block of
`CurAddr + GetInstructionSize()` is created, and the indirect-jump list is unchanged.  For
every other register with a directive number, translation does not abort; the emitted code
is the load of the register (nothing for register 0) and the dummy `ret void`, which is
appended to the pending indirect-jump list together with the source value; no checkpoint
is made, `FunctionRetMap` is unchanged, and the block of `CurAddr + GetInstructionSize()`
is created. -/
theorem jr_return_and_indirect (env : Env) (MI : MCInst) (s : TState) (r : Mips.Reg)
    (hop : MI.Opcode = Opcode.JR) (h0 : MI.getOperand 0 = MCOperand.reg r) :
    (r = Mips.Reg.RA ∨ r = Mips.Reg.RA_64 →
      ∃ t, printInstruction env MI s = .ok t ∧
        emittedSince s t
          = (if ¬ env.NoLocals ∧ ¬ env.OneRegion ∧ s.CurFunName ≠ "main" then
              List.replicate env.ExitCheckpointSize (Instr.exitCheckpoint 0) else [])
            ++ [Instr.retVoid] ∧
        t.ExitPointCalls
          = s.ExitPointCalls ++
            (if ¬ env.NoLocals ∧ ¬ env.OneRegion ∧ s.CurFunName ≠ "main" then [0] else []) ∧
        t.FunctionRetMap = setAt s.FunctionRetMap s.CurAddr (some s.CurFunAddr) ∧
        t.CreatedBBs = s.CreatedBBs ++ [s.CurAddr + GetInstructionSize] ∧
        t.IndirectJumps = s.IndirectJumps) ∧
    (∀ a : Nat, r ≠ Mips.Reg.RA → r ≠ Mips.Reg.RA_64 → directiveOf r = .ok a →
      ∃ t, printInstruction env MI s = .ok t ∧
        emittedSince s t
          = (if a = 0 then [] else [Instr.load (Value.reg a)]) ++ [Instr.retVoid] ∧
        t.IndirectJumps
          = s.IndirectJumps ++
            [if a = 0 then (some s.insts.length, Value.const (Const.int 32 0))
             else (some (s.insts.length + 1), Value.inst s.insts.length)] ∧
        t.FunctionRetMap = s.FunctionRetMap ∧
        t.ExitPointCalls = s.ExitPointCalls ∧
        t.CreatedBBs = s.CreatedBBs ++ [s.CurAddr + GetInstructionSize]) := by
  rw [printInstruction_JR env MI s hop]
  exact ⟨fun hr => printJR_return env MI s r h0 hr,
    fun a hr1 hr2 ha => printJR_indirect env MI s r a h0 hr1 hr2 ha⟩

/-- C20 at concrete inputs: `jr $ra` at address 64 in a function `f` that starts at
address 32, in multi-region mode, emits the checkpoint and the return and records
`FunctionRetMap[64] = 32`; `jr $t9` emits the load of cell 25 and the dummy return, which
it registers as an indirect jump on that load. -/
theorem jr_return_and_indirect_witness :
    (∃ t, printInstruction Env.plain
        { Opcode := Opcode.JR, Operands := [MCOperand.reg Mips.Reg.RA] }
        { TState.init with CurAddr := 64, CurFunAddr := 32, CurFunName := "f" } = .ok t ∧
      t.insts = [Instr.exitCheckpoint 0, Instr.retVoid] ∧
      t.ExitPointCalls = [0] ∧
      t.FunctionRetMap 64 = some 32 ∧
      t.CreatedBBs = [72] ∧
      t.IndirectJumps = []) ∧
    (∃ t, printInstruction Env.plain
        { Opcode := Opcode.JR, Operands := [MCOperand.reg Mips.Reg.T9] }
        { TState.init with CurAddr := 64, CurFunAddr := 32, CurFunName := "f" } = .ok t ∧
      t.insts = [Instr.load (Value.reg 25), Instr.retVoid] ∧
      t.IndirectJumps = [(some 1, Value.inst 0)] ∧
      t.FunctionRetMap 64 = none ∧
      t.ExitPointCalls = [] ∧
      t.CreatedBBs = [72]) :=
  ⟨Exists.imp
    (fun _ ht => ⟨ht.1, ht.2.1, ht.2.2.1, congrFun ht.2.2.2.1 64, ht.2.2.2.2.1, ht.2.2.2.2.2⟩)
    ((jr_return_and_indirect Env.plain
      { Opcode := Opcode.JR, Operands := [MCOperand.reg Mips.Reg.RA] }
      { TState.init with CurAddr := 64, CurFunAddr := 32, CurFunName := "f" } Mips.Reg.RA
      rfl rfl).1 (Or.inl rfl)),
   Exists.imp
    (fun _ ht => ⟨ht.1, ht.2.1, ht.2.2.1, congrFun ht.2.2.2.1 64, ht.2.2.2.2.1, ht.2.2.2.2.2⟩)
    ((jr_return_and_indirect Env.plain
      { Opcode := Opcode.JR, Operands := [MCOperand.reg Mips.Reg.T9] }
      { TState.init with CurAddr := 64, CurFunAddr := 32, CurFunName := "f" } Mips.Reg.T9
      rfl rfl).2 25 (by intro h; cases h) (by intro h; cases h) rfl)⟩

theorem printInstruction_JALR (env : Env) (MI : MCInst) (s : TState)
    (h : MI.Opcode = Opcode.JALR) :
    printInstruction env MI s = printJALR env MI s := by
  unfold printInstruction
  rw [h]

/-- C21 (the claim fails in multi-region mode): `jalr $t9` with count 0, translated in
multi-region mode from the initial state, emits the load of cell 25, the exit checkpoint,
the negation of the loaded value and the entry checkpoint; the instruction registered in
the pending indirect-call list is the negation, instruction 2, and no `ret void` is
emitted at all. -/
theorem jalr_multi_region_dummy_is_negation :
    ∃ t, printInstruction Env.plain
        { Opcode := Opcode.JALR, Operands := [MCOperand.reg Mips.Reg.T9, MCOperand.imm 0] }
        TState.init = .ok t ∧
      t.insts = [Instr.load (Value.reg 25), Instr.exitCheckpoint 0,
                 Instr.binop BinOp.sub (Value.const (Const.int 32 0)) (Value.inst 0),
                 Instr.entryCheckpoint] ∧
      t.IndirectCalls = [(some 2, Value.inst 0)] ∧
      Instr.retVoid ∉ t.insts :=
  ⟨_, rfl, rfl, rfl, by decide⟩

/-- C21 (amended): for `JALR` on a register other than register 0, with source cell `a`.
In one-region mode translation does not abort, the emitted code is the load of the source and
a dummy `ret void`, and the pair of that dummy and the loaded value is appended to the
pending indirect-call list.  In multi-region mode, with an immediate count, translation
does not abort, the emitted code is the load of the source, the checkpoint of
`HandleFunctionExitPoint(Count, &first)`, the dummy, which is the negation of the loaded
value (`CreateNeg(src)`), and the checkpoint of `HandleFunctionEntryPoint()`; the pair of
the negation and the loaded value is appended to the pending indirect-call list.  In both
modes the block of `CurAddr + GetInstructionSize()` is created, and the checkpoints are
made in multi-region mode only. -/
theorem jalr_dummy_and_registration (env : Env) (MI : MCInst) (s : TState) (r : Mips.Reg)
    (a : Nat) (hop : MI.Opcode = Opcode.JALR) (h0 : MI.getOperand 0 = MCOperand.reg r)
    (ha : directiveOf r = .ok a) (ha0 : a ≠ 0) :
    (env.OneRegion = true →
      ∃ t, printInstruction env MI s = .ok t ∧
        emittedSince s t = [Instr.load (Value.reg a), Instr.retVoid] ∧
        t.IndirectCalls
          = s.IndirectCalls ++ [(some (s.insts.length + 1), Value.inst s.insts.length)] ∧
        t.CreatedBBs = s.CreatedBBs ++ [s.CurAddr + GetInstructionSize] ∧
        t.ExitPointCalls = s.ExitPointCalls ∧
        t.EntryPointCalls = s.EntryPointCalls) ∧
    (env.OneRegion = false →
      ∀ cnt : Int, MI.getOperand 1 = MCOperand.imm cnt →
      ∃ t, printInstruction env MI s = .ok t ∧
        emittedSince s t
          = [Instr.load (Value.reg a)]
            ++ List.replicate env.ExitCheckpointSize (Instr.exitCheckpoint (toU32 cnt))
            ++ [Instr.binop BinOp.sub (Value.const (Const.int 32 0))
                  (Value.inst s.insts.length)]
            ++ List.replicate env.EntryCheckpointSize Instr.entryCheckpoint ∧
        t.IndirectCalls
          = s.IndirectCalls ++
            [(some (s.insts.length + 1 + env.ExitCheckpointSize), Value.inst s.insts.length)] ∧
        t.CreatedBBs = s.CreatedBBs ++ [s.CurAddr + GetInstructionSize] ∧
        t.ExitPointCalls = s.ExitPointCalls ++ [toU32 cnt] ∧
        t.EntryPointCalls
          = s.EntryPointCalls ++ [s.insts.length + 1 + env.ExitCheckpointSize + 1]) := by
  rw [printInstruction_JALR env MI s hop]
  constructor
  · intro hone
    simp [printJALR, h0, HandleAluSrcOperand_reg env r a _ s ha ha0, hone, emit, finishJR,
      bind, Except.bind, CreateBB, emittedSince, GetFirstInstruction2, GetFirstInstruction3,
      isaInstruction, dynCastInstruction]
  · intro hmulti cnt h1
    by_cases hz : env.ExitCheckpointSize = 0
    · simp [printJALR, h0, h1, HandleAluSrcOperand_reg env r a _ s ha ha0, hmulti, emit,
        finishJR, bind, Except.bind, CreateBB, emittedSince, GetFirstInstruction2,
        GetFirstInstruction3, isaInstruction, dynCastInstruction, HandleFunctionExitPoint,
        HandleFunctionEntryPoint, CreateNeg, CreateBinOp, hz]
    · simp [printJALR, h0, h1, HandleAluSrcOperand_reg env r a _ s ha ha0, hmulti, emit,
        finishJR, bind, Except.bind, CreateBB, emittedSince, GetFirstInstruction2,
        GetFirstInstruction3, isaInstruction, dynCastInstruction, HandleFunctionExitPoint,
        HandleFunctionEntryPoint, CreateNeg, CreateBinOp, hz, Nat.add_assoc]
      omega

/-- C21 (amended) at concrete inputs, at address 64 of a state with nothing emitted:
`jalr $t9` in one-region mode emits the load of cell 25 and the dummy `ret void` and
registers the pair; in multi-region mode with count 0 it emits load, exit checkpoint,
negation, entry checkpoint and registers the negation. -/
theorem jalr_dummy_and_registration_witness :
    (∃ t, printInstruction { Env.plain with OneRegion := true }
        { Opcode := Opcode.JALR, Operands := [MCOperand.reg Mips.Reg.T9, MCOperand.imm 0] }
        { TState.init with CurAddr := 64 } = .ok t ∧
      t.insts = [Instr.load (Value.reg 25), Instr.retVoid] ∧
      t.IndirectCalls = [(some 1, Value.inst 0)] ∧
      t.CreatedBBs = [72] ∧ t.ExitPointCalls = [] ∧ t.EntryPointCalls = []) ∧
    (∃ t, printInstruction Env.plain
        { Opcode := Opcode.JALR, Operands := [MCOperand.reg Mips.Reg.T9, MCOperand.imm 0] }
        { TState.init with CurAddr := 64 } = .ok t ∧
      t.insts = [Instr.load (Value.reg 25), Instr.exitCheckpoint 0,
                 Instr.binop BinOp.sub (Value.const (Const.int 32 0)) (Value.inst 0),
                 Instr.entryCheckpoint] ∧
      t.IndirectCalls = [(some 2, Value.inst 0)] ∧
      t.CreatedBBs = [72] ∧ t.ExitPointCalls = [0] ∧ t.EntryPointCalls = [3]) :=
  ⟨(jalr_dummy_and_registration { Env.plain with OneRegion := true }
      { Opcode := Opcode.JALR, Operands := [MCOperand.reg Mips.Reg.T9, MCOperand.imm 0] }
      { TState.init with CurAddr := 64 } Mips.Reg.T9 25 rfl rfl rfl (by decide)).1 rfl,
   (jalr_dummy_and_registration Env.plain
      { Opcode := Opcode.JALR, Operands := [MCOperand.reg Mips.Reg.T9, MCOperand.imm 0] }
      { TState.init with CurAddr := 64 } Mips.Reg.T9 25 rfl rfl rfl (by decide)).2 rfl 0 rfl⟩

/-- C22, the order the specification gives fails on the code: in one-region mode with
`ProcessIndirectJumps` succeeding and no debug dump, `FinishModule` calls `FixEntryPoint`
and `CleanRegs` before `FixBBTerminators` and `BuildReturns` last, which is not the listed
order; and in multi-region mode it calls neither `FixBBTerminators` nor `CleanRegs`. -/
theorem finish_module_not_in_listed_order :
    (FinishModule true false true).1 ≠ specFinishOrder true ∧
    (FinishModule false false true).1 ≠ specFinishOrder false ∧
    EmitterCall.FixBBTerminators ∉ (FinishModule false false true).1 ∧
    EmitterCall.CleanRegs ∉ (FinishModule false false true).1 := by
  decide

/-- C22, as the code has it: `FinishModule` first calls `ProcessIndirectJumps`; when that
reports failure it aborts and calls nothing else, and otherwise it does not abort and
goes on (debug dumps aside) with `UpdateShadowImage` and then, in one-region mode only,
`FixEntryPoint`, `CleanRegs`, `FixBBTerminators`, `BuildReturns` in this order.  In
multi-region mode `CleanRegs`, `FixEntryBB` and `FixBBTerminators` are instead called by
`FinishFunction`, which calls nothing in one-region mode. -/
theorem finish_module_order (OneRegion DebugIR : Bool) :
    FinishModule OneRegion DebugIR false
      = ([EmitterCall.ProcessIndirectJumps], some Err.processIndirectJumpsFailed) ∧
    (∀ pij, (FinishModule OneRegion DebugIR pij).2 ≠ none ↔ pij = false) ∧
    (FinishModule true DebugIR true).1.filter (fun c => decide (c ≠ EmitterCall.dump))
      = [EmitterCall.ProcessIndirectJumps, EmitterCall.UpdateShadowImage,
         EmitterCall.FixEntryPoint, EmitterCall.CleanRegs, EmitterCall.FixBBTerminators,
         EmitterCall.BuildReturns] ∧
    (FinishModule false DebugIR true).1.filter (fun c => decide (c ≠ EmitterCall.dump))
      = [EmitterCall.ProcessIndirectJumps, EmitterCall.UpdateShadowImage] ∧
    (FinishFunction false DebugIR).filter (fun c => decide (c ≠ EmitterCall.dump))
      = [EmitterCall.CleanRegs, EmitterCall.FixEntryBB, EmitterCall.FixBBTerminators] ∧
    FinishFunction true DebugIR = [] := by
  refine ⟨?_, ?_, ?_, ?_, ?_, ?_⟩
  · cases OneRegion <;> cases DebugIR <;> rfl
  · intro pij
    cases OneRegion <;> cases DebugIR <;> cases pij <;> decide
  · cases DebugIR <;> decide
  · cases DebugIR <;> decide
  · cases DebugIR <;> decide
  · cases DebugIR <;> rfl

/-- The directive number of the single-precision register `F_k`. -/
theorem fpr_directive (k : Fin 64) : ConvToDirective (fpr k) = some (34 + k.val) := by
  fin_cases k <;> rfl

/-- The directive number of the double-precision register `D_k`. -/
theorem dpr_directive (k : Fin 32) : ConvToDirective (dpr k) = some (34 + 2 * k.val) := by
  fin_cases k <;> rfl

/-- The double-bank index of a register with directive number `d ≥ 34` is
`(d - 34) >> 1`. -/
theorem ConvToDirectiveDbl_eq (r : Mips.Reg) (d : Nat) (h : ConvToDirective r = some d)
    (h1 : 34 ≤ d) (h2 : d < 4294967296) :
    ConvToDirectiveDbl r = some ((d - 34) / 2) ∧
    ConvToDirectiveDbl r = (ConvToDirective r).map (fun d => (d - 34) >>> 1) := by
  have e : (d + 2 ^ 32 - 34) % 2 ^ 32 = d - 34 := by
    omega
  unfold ConvToDirectiveDbl
  rw [h, Option.map_some', Option.map_some', e, Nat.shiftRight_eq_div_pow]
  exact ⟨rfl, rfl⟩

/-- C23: `ConvToDirective` maps the single-precision register `F_k` to `34 + k` (for
every `k` the enumeration has, so for 0..31); so F0..F31 are sent one-to-one onto 34..65,
`F_k` gets an odd number exactly when `k` is odd, and no double-precision register gets
an odd number. -/
theorem single_register_directives :
    (∀ k : Fin 64, ConvToDirective (fpr k) = some (34 + k.val)) ∧
    (∀ j k : Fin 64, ConvToDirective (fpr j) = ConvToDirective (fpr k) → j = k) ∧
    (∀ d, 34 ≤ d → d ≤ 65 →
      ∃ k : Fin 64, k.val < 32 ∧ ConvToDirective (fpr k) = some d) ∧
    (∀ k : Fin 64, ∀ d, ConvToDirective (fpr k) = some d → (d % 2 = 1 ↔ k.val % 2 = 1)) ∧
    (∀ k : Fin 32, ∀ d, ConvToDirective (dpr k) = some d → d % 2 = 0) := by
  have hall : ∀ k : Fin 64, ConvToDirective (fpr k) = some (34 + k.val) := fpr_directive
  refine ⟨hall, ?_, ?_, ?_, ?_⟩
  · intro j k h
    rw [hall, hall, Option.some.injEq] at h
    exact Fin.ext (by omega)
  · intro d h1 h2
    refine ⟨⟨d - 34, by omega⟩, by simp only; omega, ?_⟩
    rw [hall]
    simp only [Option.some.injEq]
    omega
  · intro k d h
    rw [hall, Option.some.injEq] at h
    omega
  · intro k d h
    rw [dpr_directive, Option.some.injEq] at h
    omega

/-- C24: for every `k` in 0..31, `ConvToDirective (D_k) = 34 + 2k`, and
`ConvToDirectiveDbl (D_k)`, which is `(ConvToDirective (D_k) - 34) >> 1`, is `k`; so the 32
double registers index the double-register bank 0..31 one-to-one, and `D_k` has the
directive number of the single `F_2k`. -/
theorem double_register_directives :
    (∀ k : Fin 32,
      ConvToDirective (dpr k) = some (34 + 2 * k.val) ∧
      ConvToDirectiveDbl (dpr k) = (ConvToDirective (dpr k)).map (fun d => (d - 34) >>> 1) ∧
      ConvToDirectiveDbl (dpr k) = some k.val ∧
      ConvToDirective (dpr k) = ConvToDirective (fpr ⟨2 * k.val, by have := k.isLt; omega⟩)) ∧
    (∀ j k : Fin 32, ConvToDirectiveDbl (dpr j) = ConvToDirectiveDbl (dpr k) → j = k) ∧
    (∀ i, i < 32 → ∃ k : Fin 32, ConvToDirectiveDbl (dpr k) = some i) := by
  have hk : ∀ k : Fin 32, ConvToDirectiveDbl (dpr k) = some k.val := by
    intro k
    have h := (ConvToDirectiveDbl_eq (dpr k) _ (dpr_directive k) (by omega)
      (by have := k.isLt; omega)).1
    rw [h, Option.some.injEq]
    omega
  refine ⟨fun k => ⟨dpr_directive k, ?_, hk k, ?_⟩, ?_, ?_⟩
  · exact (ConvToDirectiveDbl_eq (dpr k) _ (dpr_directive k) (by omega)
      (by have := k.isLt; omega)).2
  · rw [dpr_directive, fpr_directive]
  · intro j k h
    rw [hk j, hk k, Option.some.injEq] at h
    exact Fin.ext h
  · intro i hi
    exact ⟨⟨i, hi⟩, hk ⟨i, hi⟩⟩

/-- A relocation section none of whose relocations lies at `CurAddr` yields nothing. -/
theorem checkSection_none (rd : RelocationReader) (rs : List RelocationRef)
    (h : ∀ R ∈ rs, ∀ a, R.Offset = some a →
      (rd.CurSection.ELFOffset + a) % 2 ^ 64 ≠ rd.CurAddr) :
    rd.checkSection rs = none := by
  induction rs with
  | nil => rfl
  | cons R rest ih =>
      unfold RelocationReader.checkSection
      cases ho : R.Offset with
      | none => rfl
      | some a =>
          have hne := h R (List.mem_cons_self _ _) a ho
          simp only [hne, ne_eq, not_false_eq_true, if_true]
          exact ih fun R' hR' => h R' (List.mem_cons_of_mem _ hR')

/-- What `checkSection` hands back is a relocation of the section at `CurAddr`, with its
symbol's name and common bit. -/
theorem checkSection_some (rd : RelocationReader) (rs : List RelocationRef)
    (Rel : RelocationRef) (Name : String) (Comdat : Bool)
    (h : rd.checkSection rs = some (Rel, Name, Comdat)) :
    Rel ∈ rs ∧
    (∃ a, Rel.Offset = some a ∧ (rd.CurSection.ELFOffset + a) % 2 ^ 64 = rd.CurAddr) ∧
    Rel.Symbol.Name = some Name ∧ Comdat = Rel.Symbol.Common := by
  induction rs with
  | nil => cases h
  | cons R rest ih =>
      unfold RelocationReader.checkSection at h
      cases ho : R.Offset with
      | none => rw [ho] at h; cases h
      | some a =>
          rw [ho] at h
          by_cases hc : (rd.CurSection.ELFOffset + a) % 2 ^ 64 = rd.CurAddr
          · simp only [hc, ne_eq, not_true_eq_false, if_false] at h
            cases hn : R.Symbol.Name with
            | none =>
                rw [hn] at h
                obtain ⟨h1, h2⟩ := ih h
                exact ⟨List.mem_cons_of_mem _ h1, h2⟩
            | some N =>
                rw [hn] at h
                simp only [Option.some.injEq, Prod.mk.injEq] at h
                obtain ⟨rfl, rfl, rfl⟩ := h
                exact ⟨List.mem_cons_self _ _, ⟨a, ho, hc⟩, hn, rfl⟩
          · simp only [hc, ne_eq, not_false_eq_true, if_true] at h
            obtain ⟨h1, h2⟩ := ih h
            exact ⟨List.mem_cons_of_mem _ h1, h2⟩

/-- With no relocation of the current section at `CurAddr`, `CheckRelocation` returns
false. -/
theorem CheckRelocation_none (rd : RelocationReader)
    (h : ∀ rs ∈ rd.relocSections rd.CurSection, ∀ R ∈ rs, ∀ a, R.Offset = some a →
      (rd.CurSection.ELFOffset + a) % 2 ^ 64 ≠ rd.CurAddr) :
    rd.CheckRelocation = none := by
  unfold RelocationReader.CheckRelocation
  generalize rd.relocSections rd.CurSection = l at h
  induction l with
  | nil => rfl
  | cons rs rest ih =>
      rw [List.findSome?_cons, checkSection_none rd rs (h rs (List.mem_cons_self _ _))]
      exact ih fun rs' h' => h rs' (List.mem_cons_of_mem _ h')

/-- What `CheckRelocation` hands back is a relocation of the current section at `CurAddr`,
with its symbol's name and common bit. -/
theorem CheckRelocation_some (rd : RelocationReader) (Rel : RelocationRef) (Name : String)
    (Comdat : Bool) (h : rd.CheckRelocation = some (Rel, Name, Comdat)) :
    (∃ rs ∈ rd.relocSections rd.CurSection, Rel ∈ rs) ∧
    (∃ a, Rel.Offset = some a ∧ (rd.CurSection.ELFOffset + a) % 2 ^ 64 = rd.CurAddr) ∧
    Rel.Symbol.Name = some Name ∧ Comdat = Rel.Symbol.Common := by
  unfold RelocationReader.CheckRelocation at h
  generalize rd.relocSections rd.CurSection = l at h
  induction l with
  | nil => cases h
  | cons rs rest ih =>
      rw [List.findSome?_cons] at h
      cases hc : rd.checkSection rs with
      | none =>
          rw [hc] at h
          obtain ⟨⟨rs', h1, h2⟩, h3⟩ := ih h
          exact ⟨⟨rs', List.mem_cons_of_mem _ h1, h2⟩, h3⟩
      | some r =>
          rw [hc] at h
          simp only [Option.some.injEq] at h
          subst h
          obtain ⟨h1, h2⟩ := checkSection_some rd rs Rel Name Comdat hc
          exact ⟨⟨rs, List.mem_cons_self _ _, h1⟩, h2⟩

/-- When every section name can be read, the section loop finds the first section of the
given name. -/
theorem sectionLoop_eq_find (Name : String) (l : List SectionRef)
    (h : ∀ sec ∈ l, sec.Name ≠ none) :
    sectionLoop Name l
      = (l.find? (fun sec => decide (sec.Name = some Name))).map sectionBase := by
  induction l with
  | nil => rfl
  | cons i rest ih =>
      have ih1 := ih fun sec hs => h sec (List.mem_cons_of_mem _ hs)
      unfold sectionLoop
      cases hn : i.Name with
      | none => exact absurd hn (h i (List.mem_cons_self _ _))
      | some SecName =>
          by_cases hc : SecName = Name
          · simp [List.find?_cons, hn, hc]
          · simp [List.find?_cons, hn, hc, ih1]

/-- When every symbol's name and address can be read, the symbol loop finds the first
symbol of the given name with a known address. -/
theorem symbolLoop_eq_find (Name : String) (l : List SymbolRef)
    (h : ∀ si ∈ l, si.Name ≠ none ∧ si.Address ≠ none) :
    symbolLoop Name l
      = (l.find? (fun si =>
          decide (si.Name = some Name) && (specSymbolAddress si).isSome)).bind
          specSymbolAddress := by
  induction l with
  | nil => rfl
  | cons si rest ih =>
      have ih1 := ih fun s hs => h s (List.mem_cons_of_mem _ hs)
      have h0 := h si (List.mem_cons_self _ _)
      unfold symbolLoop
      cases hn : si.Name with
      | none => exact absurd hn h0.1
      | some SName =>
          cases ha : si.Address with
          | none => exact absurd ha h0.2
          | some Address =>
              by_cases hc : Name = SName
              · subst hc
                by_cases hu : Address = UnknownAddressOrSize
                · have hsa : specSymbolAddress si = none := by
                    simp [specSymbolAddress, ha, hu]
                  simp only [hn, ne_eq, not_true_eq_false, if_false, ha, hu, if_true,
                    List.find?_cons, hsa, Option.isSome_none, Bool.and_false]
                  exact ih1
                · cases hs : si.Section with
                  | none =>
                      have hsa : specSymbolAddress si = some Address := by
                        simp [specSymbolAddress, ha, hu, hs]
                      simp [List.find?_cons, hn, ha, hu, hs, hsa]
                  | some sec =>
                      have hsa : specSymbolAddress si
                          = some ((Address + sectionBase sec) % 2 ^ 64) := by
                        simp [specSymbolAddress, ha, hu, hs]
                      simp [List.find?_cons, hn, ha, hu, hs, hsa]
              · have hc' : ¬ SName = Name := fun e => hc e.symm
                simp only [hn, ne_eq, hc, not_false_eq_true, if_true, List.find?_cons,
                  Option.some.injEq, hc', decide_False, Bool.false_and]
                exact ih1

/-- With a readable object file, `ResolveRelocation` on a found relocation is determined
by the specification's target. -/
theorem ResolveRelocation_of_check (rd : RelocationReader) (Res : Nat) (Ty : Option Nat)
    (hsec : ∀ sec ∈ rd.sections, sec.Name ≠ none)
    (hsym : ∀ si ∈ rd.symbols, si.Name ≠ none ∧ si.Address ≠ none)
    (Rel : RelocationRef) (Name : String) (Comdat : Bool)
    (hc : rd.CheckRelocation = some (Rel, Name, Comdat)) :
    rd.ResolveRelocation Res Ty =
      match specTarget rd Name Comdat with
      | some v => (storeType Rel Ty).map fun T => (true, v, T)
      | none => if Comdat then .error Err.comdatSymbolMissing else .ok (false, Res, Ty) := by
  unfold RelocationReader.ResolveRelocation specTarget
  rw [hc]
  simp only [sectionLoop_eq_find _ rd.sections hsec, symbolLoop_eq_find _ rd.symbols hsym]
  cases Comdat
  · simp only [Bool.false_eq_true, if_false]
    cases rd.sections.find? (fun sec => decide (sec.Name = some Name)) with
    | some sec => rfl
    | none =>
        generalize (rd.symbols.find? (fun si =>
          decide (si.Name = some Name) && (specSymbolAddress si).isSome)).bind
          specSymbolAddress = o
        cases o <;> rfl
  · simp only [if_true]
    cases rd.ComdatSymbols Name <;> rfl

/-- C25: `ResolveRelocation` returns false and leaves `Res` and `*Type` as they were when
no relocation of the current section has (section ELF offset + relocation offset) equal
to `CurAddr`.  When the object file's section names and symbol names and addresses can
all be read: a true return comes from a relocation of the current section at `CurAddr`,
`Res` is then the target in the priority order common symbol, section of the symbol's
name, first symbol of that name with a known address (`specTarget`), and `*Type`, when
requested, is the relocation's type; conversely, whenever that target exists (and the
type, when requested, can be read) the call returns true with it, and when the relocation
has no target the call returns false with `Res` and `*Type` as they were. -/
theorem resolve_relocation_priority (rd : RelocationReader) (Res : Nat) (Ty : Option Nat)
    (hsec : ∀ sec ∈ rd.sections, sec.Name ≠ none)
    (hsym : ∀ si ∈ rd.symbols, si.Name ≠ none ∧ si.Address ≠ none) :
    ((∀ rs ∈ rd.relocSections rd.CurSection, ∀ R ∈ rs, ∀ a, R.Offset = some a →
        (rd.CurSection.ELFOffset + a) % 2 ^ 64 ≠ rd.CurAddr) →
      rd.ResolveRelocation Res Ty = .ok (false, Res, Ty)) ∧
    (∀ Res1 Ty1, rd.ResolveRelocation Res Ty = .ok (true, Res1, Ty1) →
      ∃ Rel Name Comdat, rd.CheckRelocation = some (Rel, Name, Comdat) ∧
        (∃ rs ∈ rd.relocSections rd.CurSection, Rel ∈ rs) ∧
        (∃ a, Rel.Offset = some a ∧
          (rd.CurSection.ELFOffset + a) % 2 ^ 64 = rd.CurAddr) ∧
        Rel.Symbol.Name = some Name ∧ Comdat = Rel.Symbol.Common ∧
        specTarget rd Name Comdat = some Res1 ∧
        (Ty = none → Ty1 = none) ∧ (Ty ≠ none → Ty1 = Rel.RelType)) ∧
    (∀ Rel Name Comdat v, rd.CheckRelocation = some (Rel, Name, Comdat) →
      specTarget rd Name Comdat = some v →
      (rd.ResolveRelocation Res none = .ok (true, v, none)) ∧
      (∀ t ty, Rel.RelType = some ty →
        rd.ResolveRelocation Res (some t) = .ok (true, v, some ty))) ∧
    (∀ Rel Name, rd.CheckRelocation = some (Rel, Name, false) →
      specTarget rd Name false = none →
      rd.ResolveRelocation Res Ty = .ok (false, Res, Ty)) := by
  refine ⟨?_, ?_, ?_, ?_⟩
  · intro h
    unfold RelocationReader.ResolveRelocation
    rw [CheckRelocation_none rd h]
  · intro Res1 Ty1 h
    cases hc : rd.CheckRelocation with
    | none =>
        unfold RelocationReader.ResolveRelocation at h
        rw [hc] at h
        cases h
    | some r =>
        obtain ⟨Rel, Name, Comdat⟩ := r
        obtain ⟨h1, h2, h3, h4⟩ := CheckRelocation_some rd Rel Name Comdat hc
        refine ⟨Rel, Name, Comdat, rfl, h1, h2, h3, h4, ?_⟩
        rw [ResolveRelocation_of_check rd Res Ty hsec hsym Rel Name Comdat hc] at h
        cases hT : specTarget rd Name Comdat with
        | none =>
            rw [hT] at h
            cases Comdat <;> simp at h
        | some v =>
            rw [hT] at h
            cases Ty with
            | none =>
                simp only [storeType, Except.map, Except.ok.injEq, Prod.mk.injEq,
                  true_and] at h
                exact ⟨by rw [h.1], fun _ => h.2.symm, fun hne => absurd rfl hne⟩
            | some t =>
                cases hR : Rel.RelType with
                | none => simp [storeType, hR, Except.map] at h
                | some ty =>
                    simp only [storeType, hR, Except.map, Except.ok.injEq, Prod.mk.injEq,
                      true_and] at h
                    exact ⟨by rw [h.1], fun hn => (by cases hn), fun _ => h.2.symm⟩
  · intro Rel Name Comdat v hc hT
    refine ⟨?_, ?_⟩
    · rw [ResolveRelocation_of_check rd Res none hsec hsym Rel Name Comdat hc, hT]
      rfl
    · intro t ty hR
      rw [ResolveRelocation_of_check rd Res (some t) hsec hsym Rel Name Comdat hc, hT]
      simp only [storeType, hR]
      rfl
  · intro Rel Name hc hT
    rw [ResolveRelocation_of_check rd Res Ty hsec hsym Rel Name false hc, hT]
    rfl

/-- C25 at a concrete input: in the sample object the relocation at `CurAddr` = 64 + 8
names the symbol `x`, which is no section name; `x` has address 16 in the data section,
whose address is 0 and whose ELF offset is 4096, so the call returns true with
`Res` = 4112 and the relocation's type 5. -/
theorem resolve_relocation_priority_witness :
    (∀ sec ∈ RelocationReader.sample.sections, sec.Name ≠ none) ∧
    (∀ si ∈ RelocationReader.sample.symbols, si.Name ≠ none ∧ si.Address ≠ none) ∧
    RelocationReader.sample.ResolveRelocation 0 (some 0) = .ok (true, 4112, some 5) :=
  have hsec : ∀ sec ∈ RelocationReader.sample.sections, sec.Name ≠ none := by
    simp [RelocationReader.sample, sampleText, sampleData]
  have hsym : ∀ si ∈ RelocationReader.sample.symbols,
      si.Name ≠ none ∧ si.Address ≠ none := by
    simp [RelocationReader.sample, sampleSymbol]
  ⟨hsec, hsym,
    ((resolve_relocation_priority RelocationReader.sample 0 (some 0) hsec hsym).2.2.1
      sampleRelocation "x" false 4112 (by decide) (by decide)).2 0 5 rfl⟩

/-- C26: `HandleFCmpOperand` on the immediate condition code `c`.  For `c = 0` the
comparison is the `i1` constant 0 and nothing is emitted; for `c` from 1 to 7 it is the
`fcmp` of the two operands with the predicate UNO, OEQ, UEQ, OLT, ULT, OLE, ULE
respectively; for every `c` from 8 to 15 the call aborts as unimplemented, so no comparison
is returned; an operand that is not an immediate aborts. -/
theorem fcmp_operand_condition_codes (o0 o1 : Value) (s : TState) :
    HandleFCmpOperand (MCOperand.imm 0) o0 o1 s
      = .ok (some (Value.const (Const.int 1 0)), s) ∧
    (∀ (c : Nat) (p : FCmpPred), fcondPredicate c = some p →
      HandleFCmpOperand (MCOperand.imm (c : Int)) o0 o1 s
        = .ok (some (CreateFCmp p o0 o1 s).1, (CreateFCmp p o0 o1 s).2)) ∧
    (∀ c : Nat, 8 ≤ c → c ≤ 15 →
      HandleFCmpOperand (MCOperand.imm (c : Int)) o0 o1 s
        = .error Err.unimplementedFCmpOperand) ∧
    (∀ o : MCOperand, (∀ i, o ≠ MCOperand.imm i) →
      HandleFCmpOperand o o0 o1 s = .error Err.unrecognizedFCmpOperand) := by
  refine ⟨rfl, ?_, ?_, ?_⟩
  · intro c p hp
    have hc : c = 1 ∨ c = 2 ∨ c = 3 ∨ c = 4 ∨ c = 5 ∨ c = 6 ∨ c = 7 := by
      unfold fcondPredicate at hp
      split at hp <;> simp_all
    rcases hc with h | h | h | h | h | h | h <;> subst h <;>
      simp only [fcondPredicate, Option.some.injEq] at hp <;> subst hp <;> rfl
  · intro c h8 h15
    interval_cases c <;> rfl
  · intro o ho
    cases o with
    | imm j => exact absurd rfl (ho j)
    | reg r => rfl
    | fpImm p => rfl
    | expr => rfl
    | invalid => rfl

/-- C26 at concrete inputs: on two loaded values, condition code 4 emits the ordered
less-than comparison and condition code 9 aborts. -/
theorem fcmp_operand_condition_codes_witness :
    HandleFCmpOperand (MCOperand.imm 4) (Value.inst 0) (Value.inst 1)
        { TState.init with
          insts := [Instr.load (Value.dblReg 1), Instr.load (Value.dblReg 2)] }
      = .ok (some (Value.inst 2),
             { TState.init with
               insts := [Instr.load (Value.dblReg 1), Instr.load (Value.dblReg 2),
                         Instr.fcmp FCmpPred.olt (Value.inst 0) (Value.inst 1)] }) ∧
    HandleFCmpOperand (MCOperand.imm 9) (Value.inst 0) (Value.inst 1)
        { TState.init with
          insts := [Instr.load (Value.dblReg 1), Instr.load (Value.dblReg 2)] }
      = .error Err.unimplementedFCmpOperand :=
  ⟨(fcmp_operand_condition_codes (Value.inst 0) (Value.inst 1)
      { TState.init with
        insts := [Instr.load (Value.dblReg 1), Instr.load (Value.dblReg 2)] }).2.1
      4 FCmpPred.olt rfl,
   (fcmp_operand_condition_codes (Value.inst 0) (Value.inst 1)
      { TState.init with
        insts := [Instr.load (Value.dblReg 1), Instr.load (Value.dblReg 2)] }).2.2.1
      9 (by decide) (by decide)⟩

/-- Two 32-bit halves put together by shift and or. -/
theorem pack_halves (h l : Nat) (hh : h < 2 ^ 32) (hl : l < 2 ^ 32) :
    ((h <<< 32) % 2 ^ 64) ||| l = 2 ^ 32 * h + l := by
  have e : (h <<< 32) % 2 ^ 64 = 2 ^ 32 * h := by
    rw [Nat.shiftLeft_eq]
    omega
  rw [e, Nat.mul_add_lt_is_or hl]

/-- Reading back the halves of a pattern put together from two halves. -/
theorem halves_of_pack (h l : Nat) (hh : h < 2 ^ 32) (hl : l < 2 ^ 32) :
    high32 (2 ^ 32 * h + l) = h ∧ low32 (2 ^ 32 * h + l) = l := by
  unfold high32 low32
  rw [Nat.shiftRight_eq_div_pow]
  omega

theorem run_mtc1 (fc : FCmpPred → Nat → Nat → Bool) (isHi : Bool) (n a k : Nat) (m : Mach)
    (hx : m.Regs a < 2 ^ 32) :
    run fc
        { base := n,
          code := [Instr.load (Value.reg a), Instr.load (Value.dblReg k),
            Instr.cast CastOp.bitcast (Value.inst (n + 1)) (Ty.int 64),
            Instr.binop BinOp.lshr (Value.inst (n + 2)) (Value.const (Const.int 64 32)),
            Instr.cast CastOp.trunc (Value.inst (n + 3)) (Ty.int 32),
            Instr.cast CastOp.trunc (Value.inst (n + 2)) (Ty.int 32),
            Instr.cast CastOp.zext (if isHi then Value.inst n else Value.inst (n + 4))
              (Ty.int 64),
            Instr.cast CastOp.zext (if isHi then Value.inst (n + 5) else Value.inst n)
              (Ty.int 64),
            Instr.binop BinOp.shl (Value.inst (n + 6)) (Value.const (Const.int 64 32)),
            Instr.binop BinOp.or (Value.inst (n + 8)) (Value.inst (n + 7)),
            Instr.cast CastOp.bitcast (Value.inst (n + 9)) Ty.double,
            Instr.store (Value.inst (n + 10)) (some (Value.dblReg k))],
          marks := [] } m
      = some ({ m with
                DblRegs := setAt m.DblRegs k
                  (if isHi then withHigh32 (m.DblRegs k) (m.Regs a)
                   else withLow32 (m.DblRegs k) (m.Regs a)) },
              Exit.fellThrough) := by
  have hl : m.DblRegs k % 2 ^ 32 < 2 ^ 32 := Nat.mod_lt _ (by norm_num)
  have hh : (m.DblRegs k >>> 32) % 2 ^ 32 < 2 ^ 32 := Nat.mod_lt _ (by norm_num)
  have e1 := pack_halves (m.Regs a) (m.DblRegs k % 2 ^ 32) hx hl
  have e2 := pack_halves ((m.DblRegs k >>> 32) % 2 ^ 32) (m.Regs a) hh hx
  norm_num at e1 e2
  cases isHi
  all_goals
    simp [run, exec, step, evalValue, evalConst, evalBinOp, setAt, withHigh32, withLow32,
      high32, low32, e1, e2]

theorem run_mfc1 (fc : FCmpPred → Nat → Nat → Bool) (isHi : Bool) (n d k : Nat) (m : Mach) :
    run fc
        { base := n,
          code := [Instr.load (Value.dblReg k),
            Instr.cast CastOp.bitcast (Value.inst n) (Ty.int 64),
            Instr.binop BinOp.lshr (Value.inst (n + 1)) (Value.const (Const.int 64 32)),
            Instr.cast CastOp.trunc (Value.inst (n + 2)) (Ty.int 32),
            Instr.cast CastOp.trunc (Value.inst (n + 1)) (Ty.int 32),
            Instr.store (if isHi then Value.inst (n + 3) else Value.inst (n + 4))
              (some (Value.reg d))],
          marks := [] } m
      = some ({ m with
                Regs := setAt m.Regs d
                  (if isHi then high32 (m.DblRegs k) else low32 (m.DblRegs k)) },
              Exit.fellThrough) := by
  cases isHi
  all_goals
    simp [run, exec, step, evalValue, evalConst, evalBinOp, setAt, high32, low32]

theorem printInstruction_MTC1_D32 (env : Env) (MI : MCInst) (s : TState)
    (h : MI.Opcode = Opcode.MTHC1_D32 ∨ MI.Opcode = Opcode.MTLC1_D32) :
    printInstruction env MI s = printMTC1_D32 env MI s := by
  unfold printInstruction
  rcases h with h | h <;> rw [h]

theorem printInstruction_MFC1_D32 (env : Env) (MI : MCInst) (s : TState)
    (h : MI.Opcode = Opcode.MFHC1_D32 ∨ MI.Opcode = Opcode.MFLC1_D32) :
    printInstruction env MI s = printMFC1_D32 MI s := by
  unfold printInstruction
  rcases h with h | h <;> rw [h]

/-- The instructions of the `MTHC1_D32` / `MTLC1_D32` arm for integer source cell `a` and
double cell `k`, numbered from `n`. -/
theorem printMTC1_D32_code (env : Env) (MI : MCInst) (s : TState) (isHi : Bool)
    (rD ra : Mips.Reg) (k a : Nat)
    (h1 : MI.getOperand 1 = MCOperand.reg rD) (h2 : MI.getOperand 2 = MCOperand.reg ra)
    (hk : directiveDblOf rD = .ok k) (ha : directiveOf ra = .ok a) (ha0 : a ≠ 0)
    (hop : isHi = decide (MI.Opcode = Opcode.MTHC1_D32)) :
    ∃ t, printMTC1_D32 env MI s = .ok t ∧ t.InsertPoints = s.InsertPoints ∧
      t.insts = s.insts ++
        [Instr.load (Value.reg a), Instr.load (Value.dblReg k),
          Instr.cast CastOp.bitcast (Value.inst (s.insts.length + 1)) (Ty.int 64),
          Instr.binop BinOp.lshr (Value.inst (s.insts.length + 2))
            (Value.const (Const.int 64 32)),
          Instr.cast CastOp.trunc (Value.inst (s.insts.length + 3)) (Ty.int 32),
          Instr.cast CastOp.trunc (Value.inst (s.insts.length + 2)) (Ty.int 32),
          Instr.cast CastOp.zext
            (if isHi then Value.inst s.insts.length else Value.inst (s.insts.length + 4))
            (Ty.int 64),
          Instr.cast CastOp.zext
            (if isHi then Value.inst (s.insts.length + 5) else Value.inst s.insts.length)
            (Ty.int 64),
          Instr.binop BinOp.shl (Value.inst (s.insts.length + 6))
            (Value.const (Const.int 64 32)),
          Instr.binop BinOp.or (Value.inst (s.insts.length + 8))
            (Value.inst (s.insts.length + 7)),
          Instr.cast CastOp.bitcast (Value.inst (s.insts.length + 9)) Ty.double,
          Instr.store (Value.inst (s.insts.length + 10)) (some (Value.dblReg k))] := by
  subst hop
  by_cases hc : MI.Opcode = Opcode.MTHC1_D32
  all_goals
    simp [printMTC1_D32, HandleSaveDouble, HandleDoubleDstOperand, h1, h2, hk, hc,
      HandleAluSrcOperand_reg env _ _ _ _ ha ha0, bind, Except.bind, pure, Except.pure,
      CreateLoad, CreateCast, CreateBinOp, CreateStore, emit, recordInsMap,
      GetFirstInstruction2, GetFirstInstruction3, isaInstruction]

/-- The instructions of the `MFHC1_D32` / `MFLC1_D32` arm for double cell `k` and a
destination cell `d` other than register 0, numbered from `n`. -/
theorem printMFC1_D32_code (MI : MCInst) (s : TState) (isHi : Bool)
    (rd rD : Mips.Reg) (d k : Nat)
    (h0 : MI.getOperand 0 = MCOperand.reg rd) (h1 : MI.getOperand 1 = MCOperand.reg rD)
    (hd : directiveOf rd = .ok d) (hk : directiveDblOf rD = .ok k) (hd0 : d ≠ 0)
    (hop : isHi = decide (MI.Opcode = Opcode.MFHC1_D32)) :
    ∃ t, printMFC1_D32 MI s = .ok t ∧ t.InsertPoints = s.InsertPoints ∧
      t.insts = s.insts ++
        [Instr.load (Value.dblReg k),
          Instr.cast CastOp.bitcast (Value.inst s.insts.length) (Ty.int 64),
          Instr.binop BinOp.lshr (Value.inst (s.insts.length + 1))
            (Value.const (Const.int 64 32)),
          Instr.cast CastOp.trunc (Value.inst (s.insts.length + 2)) (Ty.int 32),
          Instr.cast CastOp.trunc (Value.inst (s.insts.length + 1)) (Ty.int 32),
          Instr.store
            (if isHi then Value.inst (s.insts.length + 3) else Value.inst (s.insts.length + 4))
            (some (Value.reg d))] := by
  subst hop
  by_cases hc : MI.Opcode = Opcode.MFHC1_D32
  all_goals
    simp [printMFC1_D32, HandleSaveDouble, h0, h1, hc,
      HandleDoubleSrcOperand_reg _ _ _ _ hk, HandleAluDstOperand_reg _ _ _ hd, hd0, bind,
      Except.bind, pure, Except.pure, CreateLoad, CreateCast, CreateBinOp, CreateStore, emit,
      recordInsMap, GetFirstInstruction2, isaInstruction]

/-- C27: for `MTHC1_D32` / `MTLC1_D32` with integer source cell `a` (operand 2, not
register 0) and double cell `k` (operand 1), and `MFHC1_D32` / `MFLC1_D32` with
destination cell `d` (operand 0, not register 0) and the same double cell (operand 1),
translation does not abort, and from any register file whose cell `a` holds a 32-bit
integer `x` and whose double cell `k` holds the pattern `p`: the emitted code of
`MTHC1_D32` leaves in the double cell the pattern whose bits 63..32 are `x` and whose bits
31..0 are those of `p`, that of `MTLC1_D32` the pattern whose bits 31..0 are `x` and whose
bits 63..32 are those of `p`, and nothing else changes; `MFHC1_D32` / `MFLC1_D32` copy
bits 63..32 / bits 31..0 of the double cell to cell `d`; so the read after the write
returns `x` for the half written and the half of `p` for the other half. -/
theorem mtc1_mfc1_halves (env : Env) (MT MF : MCInst) (s s1 : TState)
    (ra rD rd : Mips.Reg) (a k d : Nat)
    (hT1 : MT.getOperand 1 = MCOperand.reg rD) (hT2 : MT.getOperand 2 = MCOperand.reg ra)
    (hF0 : MF.getOperand 0 = MCOperand.reg rd) (hF1 : MF.getOperand 1 = MCOperand.reg rD)
    (ha : directiveOf ra = .ok a) (hk : directiveDblOf rD = .ok k)
    (hd : directiveOf rd = .ok d) (ha0 : a ≠ 0) (hd0 : d ≠ 0)
    (hT : MT.Opcode = Opcode.MTHC1_D32 ∨ MT.Opcode = Opcode.MTLC1_D32)
    (hF : MF.Opcode = Opcode.MFHC1_D32 ∨ MF.Opcode = Opcode.MFLC1_D32) :
    ∃ t t1, printInstruction env MT s = .ok t ∧ printInstruction env MF s1 = .ok t1 ∧
      (∀ (fc : FCmpPred → Nat → Nat → Bool) (m : Mach), m.Regs a < 2 ^ 32 →
        run fc (progSince s t) m
          = some ({ m with
                    DblRegs := setAt m.DblRegs k
                      (if MT.Opcode = Opcode.MTHC1_D32 then
                         withHigh32 (m.DblRegs k) (m.Regs a)
                       else withLow32 (m.DblRegs k) (m.Regs a)) },
                  Exit.fellThrough)) ∧
      (∀ (fc : FCmpPred → Nat → Nat → Bool) (m : Mach),
        run fc (progSince s1 t1) m
          = some ({ m with
                    Regs := setAt m.Regs d
                      (if MF.Opcode = Opcode.MFHC1_D32 then high32 (m.DblRegs k)
                       else low32 (m.DblRegs k)) },
                  Exit.fellThrough)) ∧
      (∀ (fc : FCmpPred → Nat → Nat → Bool) (m : Mach), m.Regs a < 2 ^ 32 →
        ∃ m1 m2, run fc (progSince s t) m = some (m1, Exit.fellThrough) ∧
          run fc (progSince s1 t1) m1 = some (m2, Exit.fellThrough) ∧
          m2.Regs d =
            (if MT.Opcode = Opcode.MTHC1_D32 then
               (if MF.Opcode = Opcode.MFHC1_D32 then m.Regs a else low32 (m.DblRegs k))
             else
               (if MF.Opcode = Opcode.MFHC1_D32 then high32 (m.DblRegs k) else m.Regs a))) ∧
      (∀ p x, x < 2 ^ 32 →
        high32 (withHigh32 p x) = x ∧ low32 (withHigh32 p x) = low32 p ∧
        low32 (withLow32 p x) = x ∧ high32 (withLow32 p x) = high32 p) := by
  obtain ⟨t, ht, hm, hi⟩ := printMTC1_D32_code env MT s
    (decide (MT.Opcode = Opcode.MTHC1_D32)) rD ra k a hT1 hT2 hk ha ha0 rfl
  obtain ⟨t1, ht1, hm1, hi1⟩ := printMFC1_D32_code MF s1
    (decide (MF.Opcode = Opcode.MFHC1_D32)) rd rD d k hF0 hF1 hd hk hd0 rfl
  have hpack : ∀ p x, x < 2 ^ 32 →
      high32 (withHigh32 p x) = x ∧ low32 (withHigh32 p x) = low32 p ∧
      low32 (withLow32 p x) = x ∧ high32 (withLow32 p x) = high32 p := by
    intro p x hx
    have h1 := halves_of_pack x (low32 p) hx (Nat.mod_lt _ (by norm_num))
    have h2 := halves_of_pack (high32 p) x (Nat.mod_lt _ (by norm_num)) hx
    exact ⟨h1.1, h1.2, h2.2, h2.1⟩
  have hrunT : ∀ (fc : FCmpPred → Nat → Nat → Bool) (m : Mach), m.Regs a < 2 ^ 32 →
      run fc (progSince s t) m
        = some ({ m with
                  DblRegs := setAt m.DblRegs k
                    (if MT.Opcode = Opcode.MTHC1_D32 then
                       withHigh32 (m.DblRegs k) (m.Regs a)
                     else withLow32 (m.DblRegs k) (m.Regs a)) },
                Exit.fellThrough) := by
    intro fc m hx
    rw [progSince_append s t _ hi hm, run_mtc1 fc _ _ a k m hx]
    by_cases hc : MT.Opcode = Opcode.MTHC1_D32 <;> simp [hc]
  have hrunF : ∀ (fc : FCmpPred → Nat → Nat → Bool) (m : Mach),
      run fc (progSince s1 t1) m
        = some ({ m with
                  Regs := setAt m.Regs d
                    (if MF.Opcode = Opcode.MFHC1_D32 then high32 (m.DblRegs k)
                     else low32 (m.DblRegs k)) },
                Exit.fellThrough) := by
    intro fc m
    rw [progSince_append s1 t1 _ hi1 hm1, run_mfc1 fc _ _ d k m]
    by_cases hc : MF.Opcode = Opcode.MFHC1_D32 <;> simp [hc]
  refine ⟨t, t1, ?_, ?_, hrunT, hrunF, ?_, hpack⟩
  · rw [printInstruction_MTC1_D32 env MT s hT]
    exact ht
  · rw [printInstruction_MFC1_D32 env MF s1 hF]
    exact ht1
  · intro fc m hx
    refine ⟨_, _, hrunT fc m hx, hrunF fc _, ?_⟩
    have hp := hpack (m.DblRegs k) (m.Regs a) hx
    by_cases hc : MT.Opcode = Opcode.MTHC1_D32 <;>
      by_cases hc1 : MF.Opcode = Opcode.MFHC1_D32 <;>
      simp [hc, hc1, setAt, hp.1, hp.2.1, hp.2.2.1, hp.2.2.2]

/-- C27 at a concrete input, from the initial state: `mthc1 $a0, $f2` then `mfhc1 $t0, $f2`
with 7 in cell 4 and the pattern 2^32 * 9 + 5 in double cell 1 leaves 2^32 * 7 + 5 in the
double cell and returns 7 in cell 8. -/
theorem mtc1_mfc1_halves_witness :
    ∃ t t1,
      printInstruction Env.plain
        { Opcode := Opcode.MTHC1_D32,
          Operands := [MCOperand.reg Mips.Reg.D1, MCOperand.reg Mips.Reg.D1,
                       MCOperand.reg Mips.Reg.A0] } TState.init = .ok t ∧
      printInstruction Env.plain
        { Opcode := Opcode.MFHC1_D32,
          Operands := [MCOperand.reg Mips.Reg.T0, MCOperand.reg Mips.Reg.D1] }
        TState.init = .ok t1 ∧
      ∃ m1 m2,
        run (fun _ _ _ => false) (progSince TState.init t)
          { Regs := fun n => if n = 4 then 7 else 0,
            DblRegs := fun n => if n = 1 then 38654705669 else 0 }
          = some (m1, Exit.fellThrough) ∧
        run (fun _ _ _ => false) (progSince TState.init t1) m1
          = some (m2, Exit.fellThrough) ∧
        m2.Regs 8 = 7 :=
  Exists.imp (fun _ h => Exists.imp (fun _ h1 => ⟨h1.1, h1.2.1,
      h1.2.2.2.2.1 (fun _ _ _ => false)
        { Regs := fun n => if n = 4 then 7 else 0,
          DblRegs := fun n => if n = 1 then 38654705669 else 0 } (by decide)⟩) h)
    (mtc1_mfc1_halves Env.plain
      { Opcode := Opcode.MTHC1_D32,
        Operands := [MCOperand.reg Mips.Reg.D1, MCOperand.reg Mips.Reg.D1,
                     MCOperand.reg Mips.Reg.A0] }
      { Opcode := Opcode.MFHC1_D32,
        Operands := [MCOperand.reg Mips.Reg.T0, MCOperand.reg Mips.Reg.D1] }
      TState.init TState.init Mips.Reg.A0 Mips.Reg.D1 Mips.Reg.T0 4 1 8
      rfl rfl rfl rfl rfl rfl rfl (by decide) (by decide) (Or.inl rfl) (Or.inl rfl))

/-- The run-time value of the index constant formed from a relocation target `t` and the
immediate, with the shadow image at `B`. -/
theorem relocIndex_eval (env : Env) (t : Nat) (imm : Int) (undef : Bool) (B : Nat) :
    evalConstAt B (relocIndex env (Const.int 32 t) imm undef)
      = some ⟨32,
          if env.NoShadow then ((t + toU32 imm) % 2 ^ 32 + B % 2 ^ 32) % 2 ^ 32
          else if undef then ((t + toU32 imm) % 2 ^ 32 + 2 ^ 32 - B % 2 ^ 32) % 2 ^ 32
          else (t + toU32 imm) % 2 ^ 32⟩ := by
  have hB : B % 2 ^ 32 < 2 ^ 32 := Nat.mod_lt _ (by norm_num)
  cases hn : env.NoShadow <;> cases undef <;>
    (simp [relocIndex, hn, Const.fold, getInt32, evalConstAt, evalBinOp]; try omega)

/-- With a relocation resolving at the current address, `HandleMemOperand` does not look at
its `offset` argument. -/
theorem HandleMemOperand_offset_free (env : Env) (o o2 : MCOperand)
    (F : Option (Option Value)) (IsLoad : Bool) (width : Nat) (offset : Int) (s : TState)
    (hf : (env.ResolveRelocationMem s.CurAddr).found = true) :
    HandleMemOperand env o o2 F IsLoad width offset s
      = HandleMemOperand env o o2 F IsLoad width 0 s := by
  unfold HandleMemOperand
  cases o <;> cases o2 <;> try rfl
  simp only [HandleMemOperandShadow, hf, if_true]

/-- The result of `HandleMemOperand` for a base register other than `$zero` and a width
other than 32, when either no relocation resolves at the current address or a LO16-class
relocation to a constant does: a load of the base, the addition of the index, and the
shadow access. -/
theorem HandleMemOperand_code (env : Env) (r0 : Mips.Reg) (b : Nat) (i : Int)
    (IsLoad : Bool) (width : Nat) (offset : Int) (s : TState) (c : Const)
    (hr : directiveOf r0 = .ok b) (hb : b ≠ 0) (hw : width ≠ 32)
    (hcase : (env.ResolveRelocationMem s.CurAddr).found = false ∨
      ((env.ResolveRelocationMem s.CurAddr).found = true ∧
        ((env.ResolveRelocationMem s.CurAddr).reltype = ELF.R_MIPS_LO16 ∨
          (env.ResolveRelocationMem s.CurAddr).reltype = ELF.R_MICROMIPS_LO16) ∧
        (env.ResolveRelocationMem s.CurAddr).V0 = some (Value.const c))) :
    HandleMemOperand env (MCOperand.reg r0) (MCOperand.imm i) (some none) IsLoad width
        offset s
      = .ok (Value.inst (s.insts.length + 2), some (some (Value.inst s.insts.length)),
          { s with
            insts := s.insts ++
              [Instr.load (Value.reg b),
               Instr.binop BinOp.add (Value.inst s.insts.length)
                 (Value.const (memIndex env s.CurAddr c i offset)),
               Instr.shadowAccess (Value.inst (s.insts.length + 1)) IsLoad width false],
            ReadMap := setAt s.ReadMap b true }) := by
  rcases hcase with hf | ⟨hf, hk, hV⟩
  · simp [memIndex, HandleMemOperand, HandleMemOperandShadow, hr, hb, hw, hf, bind, Except.bind,
      loadBase, CreateLoad, CreateBinOp, emit, AccessShadowMemory, GetFirstInstruction3,
      GetFirstInstruction2, isaInstruction]
  · simp [memIndex, HandleMemOperand, HandleMemOperandShadow, hr, hb, hw, hf, hk, hV, castConstant,
      bind, Except.bind, pure, Except.pure, loadBase, CreateLoad, CreateBinOp, emit,
      AccessShadowMemory, GetFirstInstruction3, GetFirstInstruction2, isaInstruction]

/-- The instructions of the `LWL` arm, numbered from `n`. -/
theorem printLWL_code (env : Env) (MI : MCInst) (s : TState)
    (rd rb : Mips.Reg) (d b : Nat) (i : Int) (c : Const)
    (h0 : MI.getOperand 0 = MCOperand.reg rd) (h1 : MI.getOperand 1 = MCOperand.reg rb)
    (h2 : MI.getOperand 2 = MCOperand.imm i)
    (hd : directiveOf rd = .ok d) (hb : directiveOf rb = .ok b) (hd0 : d ≠ 0) (hb0 : b ≠ 0)
    (hcase : (env.ResolveRelocationMem s.CurAddr).found = false ∨
      ((env.ResolveRelocationMem s.CurAddr).found = true ∧
        ((env.ResolveRelocationMem s.CurAddr).reltype = ELF.R_MIPS_LO16 ∨
          (env.ResolveRelocationMem s.CurAddr).reltype = ELF.R_MICROMIPS_LO16) ∧
        (env.ResolveRelocationMem s.CurAddr).V0 = some (Value.const c))) :
    ∃ t, printLWL env MI s = .ok t ∧
      t.insts = s.insts ++
        [Instr.load (Value.reg b),
         Instr.binop BinOp.add (Value.inst s.insts.length)
           (Value.const (memIndex env s.CurAddr c i (-1))),
         Instr.shadowAccess (Value.inst (s.insts.length + 1)) true 16 false,
         Instr.cast CastOp.ptrtoint (Value.reg d) (Ty.int 32),
         Instr.binop BinOp.add (Value.inst (s.insts.length + 3))
           (Value.const (Const.int 32 2)),
         Instr.cast CastOp.inttoptr (Value.inst (s.insts.length + 4)) (Ty.ptrTo (Ty.int 16)),
         Instr.store (Value.inst (s.insts.length + 2))
           (some (Value.inst (s.insts.length + 5)))] := by
  have hm := HandleMemOperand_code env rb b i true 16 (-1)
    { s with WriteMap := setAt s.WriteMap d true } c hb hb0 (by decide) hcase
  simp [printLWL, h0, h1, h2, HandleAluDstOperand_reg _ _ _ hd, hd0, hm, bind, Except.bind,
    CreateCast, CreateBinOp, CreateStore, emit, recordInsMap]

/-- The instructions of the `LWR` arm, numbered from `n`. -/
theorem printLWR_code (env : Env) (MI : MCInst) (s : TState)
    (rd rb : Mips.Reg) (d b : Nat) (i : Int) (c : Const)
    (h0 : MI.getOperand 0 = MCOperand.reg rd) (h1 : MI.getOperand 1 = MCOperand.reg rb)
    (h2 : MI.getOperand 2 = MCOperand.imm i)
    (hd : directiveOf rd = .ok d) (hb : directiveOf rb = .ok b) (hd0 : d ≠ 0) (hb0 : b ≠ 0)
    (hcase : (env.ResolveRelocationMem s.CurAddr).found = false ∨
      ((env.ResolveRelocationMem s.CurAddr).found = true ∧
        ((env.ResolveRelocationMem s.CurAddr).reltype = ELF.R_MIPS_LO16 ∨
          (env.ResolveRelocationMem s.CurAddr).reltype = ELF.R_MICROMIPS_LO16) ∧
        (env.ResolveRelocationMem s.CurAddr).V0 = some (Value.const c))) :
    ∃ t, printLWR env MI s = .ok t ∧
      t.insts = s.insts ++
        [Instr.load (Value.reg b),
         Instr.binop BinOp.add (Value.inst s.insts.length)
           (Value.const (memIndex env s.CurAddr c i 0)),
         Instr.shadowAccess (Value.inst (s.insts.length + 1)) true 16 false,
         Instr.cast CastOp.bitcast (Value.reg d) (Ty.ptrTo (Ty.int 16)),
         Instr.store (Value.inst (s.insts.length + 2))
           (some (Value.inst (s.insts.length + 3)))] := by
  have hm := HandleMemOperand_code env rb b i true 16 0
    { s with WriteMap := setAt s.WriteMap d true } c hb hb0 (by decide) hcase
  simp [printLWR, h0, h1, h2, HandleAluDstOperand_reg _ _ _ hd, hd0, hm, bind, Except.bind,
    CreateCast, CreateBinOp, CreateStore, emit, recordInsMap]

/-- The instructions of the `SWL` arm, numbered from `n`. -/
theorem printSWL_code (env : Env) (MI : MCInst) (s : TState)
    (rd rb : Mips.Reg) (d b : Nat) (i : Int) (c : Const)
    (h0 : MI.getOperand 0 = MCOperand.reg rd) (h1 : MI.getOperand 1 = MCOperand.reg rb)
    (h2 : MI.getOperand 2 = MCOperand.imm i)
    (hd : directiveOf rd = .ok d) (hb : directiveOf rb = .ok b) (hd0 : d ≠ 0) (hb0 : b ≠ 0)
    (hcase : (env.ResolveRelocationMem s.CurAddr).found = false ∨
      ((env.ResolveRelocationMem s.CurAddr).found = true ∧
        ((env.ResolveRelocationMem s.CurAddr).reltype = ELF.R_MIPS_LO16 ∨
          (env.ResolveRelocationMem s.CurAddr).reltype = ELF.R_MICROMIPS_LO16) ∧
        (env.ResolveRelocationMem s.CurAddr).V0 = some (Value.const c))) :
    ∃ t, printSWL env MI s = .ok t ∧
      t.insts = s.insts ++
        [Instr.load (Value.reg d),
         Instr.load (Value.reg b),
         Instr.binop BinOp.add (Value.inst (s.insts.length + 1))
           (Value.const (memIndex env s.CurAddr c i (-1))),
         Instr.shadowAccess (Value.inst (s.insts.length + 2)) false 16 false,
         Instr.binop BinOp.lshr (Value.inst s.insts.length) (Value.const (Const.int 32 16)),
         Instr.cast CastOp.trunc (Value.inst (s.insts.length + 4)) (Ty.int 16),
         Instr.store (Value.inst (s.insts.length + 5))
           (some (Value.inst (s.insts.length + 3)))] := by
  have hm := HandleMemOperand_code env rb b i false 16 (-1)
    { s with insts := s.insts ++ [Instr.load (Value.reg d)],
             ReadMap := setAt s.ReadMap d true } c hb hb0 (by decide) hcase
  simp only [List.length_append, List.length_singleton] at hm
  simp [printSWL, h0, h1, h2, HandleAluSrcOperand_reg env _ _ _ _ hd hd0, hm, bind,
    Except.bind, CreateCast, CreateBinOp, CreateStore, emit, recordInsMap,
    GetFirstInstruction2, GetFirstInstruction4, isaInstruction]

/-- The instructions of the `SWR` arm, numbered from `n`. -/
theorem printSWR_code (env : Env) (MI : MCInst) (s : TState)
    (rd rb : Mips.Reg) (d b : Nat) (i : Int) (c : Const)
    (h0 : MI.getOperand 0 = MCOperand.reg rd) (h1 : MI.getOperand 1 = MCOperand.reg rb)
    (h2 : MI.getOperand 2 = MCOperand.imm i)
    (hd : directiveOf rd = .ok d) (hb : directiveOf rb = .ok b) (hd0 : d ≠ 0) (hb0 : b ≠ 0)
    (hcase : (env.ResolveRelocationMem s.CurAddr).found = false ∨
      ((env.ResolveRelocationMem s.CurAddr).found = true ∧
        ((env.ResolveRelocationMem s.CurAddr).reltype = ELF.R_MIPS_LO16 ∨
          (env.ResolveRelocationMem s.CurAddr).reltype = ELF.R_MICROMIPS_LO16) ∧
        (env.ResolveRelocationMem s.CurAddr).V0 = some (Value.const c))) :
    ∃ t, printSWR env MI s = .ok t ∧
      t.insts = s.insts ++
        [Instr.load (Value.reg d),
         Instr.load (Value.reg b),
         Instr.binop BinOp.add (Value.inst (s.insts.length + 1))
           (Value.const (memIndex env s.CurAddr c i 0)),
         Instr.shadowAccess (Value.inst (s.insts.length + 2)) false 16 false,
         Instr.cast CastOp.trunc (Value.inst s.insts.length) (Ty.int 16),
         Instr.store (Value.inst (s.insts.length + 4))
           (some (Value.inst (s.insts.length + 3)))] := by
  have hm := HandleMemOperand_code env rb b i false 16 0
    { s with insts := s.insts ++ [Instr.load (Value.reg d)],
             ReadMap := setAt s.ReadMap d true } c hb hb0 (by decide) hcase
  simp only [List.length_append, List.length_singleton] at hm
  simp [printSWR, h0, h1, h2, HandleAluSrcOperand_reg env _ _ _ _ hd hd0, hm, bind,
    Except.bind, CreateCast, CreateBinOp, CreateStore, emit, recordInsMap,
    GetFirstInstruction2, GetFirstInstruction4, isaInstruction]

theorem printInstruction_LWL (env : Env) (MI : MCInst) (s : TState)
    (h : MI.Opcode = Opcode.LWL) : printInstruction env MI s = printLWL env MI s := by
  unfold printInstruction
  rw [h]

theorem printInstruction_LWR (env : Env) (MI : MCInst) (s : TState)
    (h : MI.Opcode = Opcode.LWR) : printInstruction env MI s = printLWR env MI s := by
  unfold printInstruction
  rw [h]

theorem printInstruction_SWL (env : Env) (MI : MCInst) (s : TState)
    (h : MI.Opcode = Opcode.SWL) : printInstruction env MI s = printSWL env MI s := by
  unfold printInstruction
  rw [h]

theorem printInstruction_SWR (env : Env) (MI : MCInst) (s : TState)
    (h : MI.Opcode = Opcode.SWR) : printInstruction env MI s = printSWR env MI s := by
  unfold printInstruction
  rw [h]

/-- C28, the index under a pending relocation is not always `reloc_target + imm`: with
`NoShadow` set, an `R_MIPS_LO16` relocation resolved to 100 and the operand `4($a0)`,
`HandleMemOperand` (called as `LWL` does, width 16 and offset -1) adds to the base the
constant `104 + shadow_base`; with the shadow image at address 1000 that is 1104, not
104. -/
theorem noshadow_mem_index_adds_shadow_base :
    (∃ r, HandleMemOperand
        { Env.plain with
          NoShadow := true,
          ResolveRelocationMem := fun _ =>
            { found := true, V0 := some (Value.const (Const.int 32 100)),
              reltype := ELF.R_MIPS_LO16, UndefinedSymbol := false, IsFuncAddr := false } }
        (MCOperand.reg Mips.Reg.A0) (MCOperand.imm 4) (some none) true 16 (-1) TState.init
        = .ok r ∧
      r.2.2.insts =
        [Instr.load (Value.reg 4),
         Instr.binop BinOp.add (Value.inst 0)
           (Value.const (Const.binop BinOp.add (Const.int 32 104) Const.shadowBase)),
         Instr.shadowAccess (Value.inst 1) true 16 false]) ∧
    evalConstAt 1000 (Const.binop BinOp.add (Const.int 32 104) Const.shadowBase)
      = some ⟨32, 1104⟩ ∧
    evalConstAt 1000 (Const.binop BinOp.add (Const.int 32 104) Const.shadowBase)
      ≠ some ⟨32, 104⟩ := by
  refine ⟨⟨_, rfl, rfl⟩, by decide, by decide⟩

/-- C28 (amended): for a memory operand `imm(base)` with a base register other than
register 0, when either no relocation resolves at the current address or a LO16-class
relocation to a constant `c` does, `HandleMemOperand` (at a width other than 32) loads the
base, adds the index constant `memIndex` and accesses shadow memory at the sum.  Without
a relocation the index is `imm + offset`.  With the relocation it is `relocIndex`, in
which the offset does not occur: `c + imm`, plus the shadow base under `NoShadow`, minus
it for an undefined symbol otherwise.  `LWL` and `SWL` pass the offset -1, `LWR` and `SWR`
the offset 0, so with a pending relocation the address of `LWL` / `SWL` is that of `LWR` /
`SWR` for the same base register and immediate. -/
theorem mem_operand_offset (env : Env) (MI : MCInst) (s : TState)
    (rd rb : Mips.Reg) (d b : Nat) (i : Int) (c : Const)
    (h0 : MI.getOperand 0 = MCOperand.reg rd) (h1 : MI.getOperand 1 = MCOperand.reg rb)
    (h2 : MI.getOperand 2 = MCOperand.imm i)
    (hd : directiveOf rd = .ok d) (hb : directiveOf rb = .ok b) (hd0 : d ≠ 0) (hb0 : b ≠ 0)
    (hcase : (env.ResolveRelocationMem s.CurAddr).found = false ∨
      ((env.ResolveRelocationMem s.CurAddr).found = true ∧
        ((env.ResolveRelocationMem s.CurAddr).reltype = ELF.R_MIPS_LO16 ∨
          (env.ResolveRelocationMem s.CurAddr).reltype = ELF.R_MICROMIPS_LO16) ∧
        (env.ResolveRelocationMem s.CurAddr).V0 = some (Value.const c))) :
    (∀ IsLoad width offset, width ≠ 32 →
      ∃ r, HandleMemOperand env (MCOperand.reg rb) (MCOperand.imm i) (some none) IsLoad
          width offset s = .ok r ∧
        r.1 = Value.inst (s.insts.length + 2) ∧
        r.2.2.insts = s.insts ++
          [Instr.load (Value.reg b),
           Instr.binop BinOp.add (Value.inst s.insts.length)
             (Value.const (memIndex env s.CurAddr c i offset)),
           Instr.shadowAccess (Value.inst (s.insts.length + 1)) IsLoad width false]) ∧
    ((env.ResolveRelocationMem s.CurAddr).found = false →
      ∀ offset B, memIndex env s.CurAddr c i offset = getInt32 (i + offset) ∧
        evalConstAt B (memIndex env s.CurAddr c i offset) = some ⟨32, toU32 (i + offset)⟩) ∧
    ((env.ResolveRelocationMem s.CurAddr).found = true →
      (∀ offset, memIndex env s.CurAddr c i offset
        = relocIndex env c i (env.ResolveRelocationMem s.CurAddr).UndefinedSymbol) ∧
      (∀ offset, memIndex env s.CurAddr c i offset = memIndex env s.CurAddr c i 0) ∧
      (∀ t offset B, c = Const.int 32 t →
        evalConstAt B (memIndex env s.CurAddr c i offset)
          = some ⟨32,
              if env.NoShadow then ((t + toU32 i) % 2 ^ 32 + B % 2 ^ 32) % 2 ^ 32
              else if (env.ResolveRelocationMem s.CurAddr).UndefinedSymbol then
                ((t + toU32 i) % 2 ^ 32 + 2 ^ 32 - B % 2 ^ 32) % 2 ^ 32
              else (t + toU32 i) % 2 ^ 32⟩) ∧
      (∀ o o2 F IsLoad width offset,
        HandleMemOperand env o o2 F IsLoad width offset s
          = HandleMemOperand env o o2 F IsLoad width 0 s)) ∧
    (MI.Opcode = Opcode.LWL →
      ∃ t, printInstruction env MI s = .ok t ∧
        emittedSince s t =
          [Instr.load (Value.reg b),
           Instr.binop BinOp.add (Value.inst s.insts.length)
             (Value.const (memIndex env s.CurAddr c i (-1))),
           Instr.shadowAccess (Value.inst (s.insts.length + 1)) true 16 false,
           Instr.cast CastOp.ptrtoint (Value.reg d) (Ty.int 32),
           Instr.binop BinOp.add (Value.inst (s.insts.length + 3))
             (Value.const (Const.int 32 2)),
           Instr.cast CastOp.inttoptr (Value.inst (s.insts.length + 4))
             (Ty.ptrTo (Ty.int 16)),
           Instr.store (Value.inst (s.insts.length + 2))
             (some (Value.inst (s.insts.length + 5)))]) ∧
    (MI.Opcode = Opcode.LWR →
      ∃ t, printInstruction env MI s = .ok t ∧
        emittedSince s t =
          [Instr.load (Value.reg b),
           Instr.binop BinOp.add (Value.inst s.insts.length)
             (Value.const (memIndex env s.CurAddr c i 0)),
           Instr.shadowAccess (Value.inst (s.insts.length + 1)) true 16 false,
           Instr.cast CastOp.bitcast (Value.reg d) (Ty.ptrTo (Ty.int 16)),
           Instr.store (Value.inst (s.insts.length + 2))
             (some (Value.inst (s.insts.length + 3)))]) ∧
    (MI.Opcode = Opcode.SWL →
      ∃ t, printInstruction env MI s = .ok t ∧
        emittedSince s t =
          [Instr.load (Value.reg d),
           Instr.load (Value.reg b),
           Instr.binop BinOp.add (Value.inst (s.insts.length + 1))
             (Value.const (memIndex env s.CurAddr c i (-1))),
           Instr.shadowAccess (Value.inst (s.insts.length + 2)) false 16 false,
           Instr.binop BinOp.lshr (Value.inst s.insts.length)
             (Value.const (Const.int 32 16)),
           Instr.cast CastOp.trunc (Value.inst (s.insts.length + 4)) (Ty.int 16),
           Instr.store (Value.inst (s.insts.length + 5))
             (some (Value.inst (s.insts.length + 3)))]) ∧
    (MI.Opcode = Opcode.SWR →
      ∃ t, printInstruction env MI s = .ok t ∧
        emittedSince s t =
          [Instr.load (Value.reg d),
           Instr.load (Value.reg b),
           Instr.binop BinOp.add (Value.inst (s.insts.length + 1))
             (Value.const (memIndex env s.CurAddr c i 0)),
           Instr.shadowAccess (Value.inst (s.insts.length + 2)) false 16 false,
           Instr.cast CastOp.trunc (Value.inst s.insts.length) (Ty.int 16),
           Instr.store (Value.inst (s.insts.length + 4))
             (some (Value.inst (s.insts.length + 3)))]) := by
  refine ⟨?_, ?_, ?_, ?_, ?_, ?_, ?_⟩
  · intro IsLoad width offset hw
    exact ⟨_, HandleMemOperand_code env rb b i IsLoad width offset s c hb hb0 hw hcase,
      rfl, rfl⟩
  · intro hf offset B
    have e : memIndex env s.CurAddr c i offset = getInt32 (i + offset) := by
      simp [memIndex, hf]
    exact ⟨e, by rw [e]; rfl⟩
  · intro hf
    have e : ∀ offset, memIndex env s.CurAddr c i offset
        = relocIndex env c i (env.ResolveRelocationMem s.CurAddr).UndefinedSymbol := by
      intro offset
      simp [memIndex, hf]
    refine ⟨e, fun offset => by rw [e, e], ?_, ?_⟩
    · intro t offset B hc
      rw [e, hc]
      exact relocIndex_eval env t i _ B
    · intro o o2 F IsLoad width offset
      exact HandleMemOperand_offset_free env o o2 F IsLoad width offset s hf
  · intro hop
    rw [printInstruction_LWL env MI s hop]
    obtain ⟨t, ht, hi⟩ := printLWL_code env MI s rd rb d b i c h0 h1 h2 hd hb hd0 hb0 hcase
    exact ⟨t, ht, emittedSince_append s t _ hi⟩
  · intro hop
    rw [printInstruction_LWR env MI s hop]
    obtain ⟨t, ht, hi⟩ := printLWR_code env MI s rd rb d b i c h0 h1 h2 hd hb hd0 hb0 hcase
    exact ⟨t, ht, emittedSince_append s t _ hi⟩
  · intro hop
    rw [printInstruction_SWL env MI s hop]
    obtain ⟨t, ht, hi⟩ := printSWL_code env MI s rd rb d b i c h0 h1 h2 hd hb hd0 hb0 hcase
    exact ⟨t, ht, emittedSince_append s t _ hi⟩
  · intro hop
    rw [printInstruction_SWR env MI s hop]
    obtain ⟨t, ht, hi⟩ := printSWR_code env MI s rd rb d b i c h0 h1 h2 hd hb hd0 hb0 hcase
    exact ⟨t, ht, emittedSince_append s t _ hi⟩

/-- C28 (amended) at concrete inputs, from the initial state, for `lwl $t0, 4($a0)` and
`lwr $t0, 4($a0)`: with an `R_MIPS_LO16` relocation resolved to 100 pending (shadow mode,
defined symbol) both add the index 104 to the base; with no relocation `lwl` adds 3 and
`lwr` adds 4. -/
theorem mem_operand_offset_witness :
    (∃ t, printInstruction
        { Env.plain with
          ResolveRelocationMem := fun _ =>
            { found := true, V0 := some (Value.const (Const.int 32 100)),
              reltype := ELF.R_MIPS_LO16, UndefinedSymbol := false, IsFuncAddr := false } }
        { Opcode := Opcode.LWL,
          Operands := [MCOperand.reg Mips.Reg.T0, MCOperand.reg Mips.Reg.A0,
                       MCOperand.imm 4] } TState.init = .ok t ∧
      emittedSince TState.init t =
        [Instr.load (Value.reg 4),
         Instr.binop BinOp.add (Value.inst 0) (Value.const (Const.int 32 104)),
         Instr.shadowAccess (Value.inst 1) true 16 false,
         Instr.cast CastOp.ptrtoint (Value.reg 8) (Ty.int 32),
         Instr.binop BinOp.add (Value.inst 3) (Value.const (Const.int 32 2)),
         Instr.cast CastOp.inttoptr (Value.inst 4) (Ty.ptrTo (Ty.int 16)),
         Instr.store (Value.inst 2) (some (Value.inst 5))]) ∧
    (∃ t, printInstruction
        { Env.plain with
          ResolveRelocationMem := fun _ =>
            { found := true, V0 := some (Value.const (Const.int 32 100)),
              reltype := ELF.R_MIPS_LO16, UndefinedSymbol := false, IsFuncAddr := false } }
        { Opcode := Opcode.LWR,
          Operands := [MCOperand.reg Mips.Reg.T0, MCOperand.reg Mips.Reg.A0,
                       MCOperand.imm 4] } TState.init = .ok t ∧
      emittedSince TState.init t =
        [Instr.load (Value.reg 4),
         Instr.binop BinOp.add (Value.inst 0) (Value.const (Const.int 32 104)),
         Instr.shadowAccess (Value.inst 1) true 16 false,
         Instr.cast CastOp.bitcast (Value.reg 8) (Ty.ptrTo (Ty.int 16)),
         Instr.store (Value.inst 2) (some (Value.inst 3))]) ∧
    (∃ t, printInstruction Env.plain
        { Opcode := Opcode.LWL,
          Operands := [MCOperand.reg Mips.Reg.T0, MCOperand.reg Mips.Reg.A0,
                       MCOperand.imm 4] } TState.init = .ok t ∧
      emittedSince TState.init t =
        [Instr.load (Value.reg 4),
         Instr.binop BinOp.add (Value.inst 0) (Value.const (Const.int 32 3)),
         Instr.shadowAccess (Value.inst 1) true 16 false,
         Instr.cast CastOp.ptrtoint (Value.reg 8) (Ty.int 32),
         Instr.binop BinOp.add (Value.inst 3) (Value.const (Const.int 32 2)),
         Instr.cast CastOp.inttoptr (Value.inst 4) (Ty.ptrTo (Ty.int 16)),
         Instr.store (Value.inst 2) (some (Value.inst 5))]) ∧
    (∃ t, printInstruction Env.plain
        { Opcode := Opcode.LWR,
          Operands := [MCOperand.reg Mips.Reg.T0, MCOperand.reg Mips.Reg.A0,
                       MCOperand.imm 4] } TState.init = .ok t ∧
      emittedSince TState.init t =
        [Instr.load (Value.reg 4),
         Instr.binop BinOp.add (Value.inst 0) (Value.const (Const.int 32 4)),
         Instr.shadowAccess (Value.inst 1) true 16 false,
         Instr.cast CastOp.bitcast (Value.reg 8) (Ty.ptrTo (Ty.int 16)),
         Instr.store (Value.inst 2) (some (Value.inst 3))]) :=
  ⟨(mem_operand_offset
      { Env.plain with
        ResolveRelocationMem := fun _ =>
          { found := true, V0 := some (Value.const (Const.int 32 100)),
            reltype := ELF.R_MIPS_LO16, UndefinedSymbol := false, IsFuncAddr := false } }
      { Opcode := Opcode.LWL,
        Operands := [MCOperand.reg Mips.Reg.T0, MCOperand.reg Mips.Reg.A0,
                     MCOperand.imm 4] }
      TState.init Mips.Reg.T0 Mips.Reg.A0 8 4 4 (Const.int 32 100)
      rfl rfl rfl rfl rfl (by decide) (by decide) (Or.inr ⟨rfl, Or.inl rfl, rfl⟩)).2.2.2.1 rfl,
   (mem_operand_offset
      { Env.plain with
        ResolveRelocationMem := fun _ =>
          { found := true, V0 := some (Value.const (Const.int 32 100)),
            reltype := ELF.R_MIPS_LO16, UndefinedSymbol := false, IsFuncAddr := false } }
      { Opcode := Opcode.LWR,
        Operands := [MCOperand.reg Mips.Reg.T0, MCOperand.reg Mips.Reg.A0,
                     MCOperand.imm 4] }
      TState.init Mips.Reg.T0 Mips.Reg.A0 8 4 4 (Const.int 32 100)
      rfl rfl rfl rfl rfl (by decide) (by decide) (Or.inr ⟨rfl, Or.inl rfl, rfl⟩)).2.2.2.2.1 rfl,
   (mem_operand_offset
      Env.plain
      { Opcode := Opcode.LWL,
        Operands := [MCOperand.reg Mips.Reg.T0, MCOperand.reg Mips.Reg.A0,
                     MCOperand.imm 4] }
      TState.init Mips.Reg.T0 Mips.Reg.A0 8 4 4 (Const.int 32 0)
      rfl rfl rfl rfl rfl (by decide) (by decide) (Or.inl rfl)).2.2.2.1 rfl,
   (mem_operand_offset
      Env.plain
      { Opcode := Opcode.LWR,
        Operands := [MCOperand.reg Mips.Reg.T0, MCOperand.reg Mips.Reg.A0,
                     MCOperand.imm 4] }
      TState.init Mips.Reg.T0 Mips.Reg.A0 8 4 4 (Const.int 32 0)
      rfl rfl rfl rfl rfl (by decide) (by decide) (Or.inl rfl)).2.2.2.2.1 rfl⟩

/-- Every row of the dispatch chain passes the per-row check `Lowering.genericArgsOk`. -/
theorem libcDispatch_genericArgsOk :
    libcDispatch.all (fun row => row.2.genericArgsOk) = true := by
  decide

/-- Some element is `AT_Float` or `AT_Double` exactly when `any ArgType.isFP` holds. -/
theorem any_isFP_iff (l : List ArgType) :
    l.any ArgType.isFP = true ↔ ∃ a ∈ l, a = ArgType.AT_Float ∨ a = ArgType.AT_Double := by
  rw [List.any_eq_true]
  constructor
  · rintro ⟨a, ha, h⟩
    refine ⟨a, ha, ?_⟩
    cases a <;> simp_all [ArgType.isFP]
  · rintro ⟨a, ha, h | h⟩ <;> exact ⟨a, ha, by rw [h]; rfl⟩

/-- C29: for every row of the dispatch chain of `HandleCallTarget` that goes to
`HandleGenericInt` or `HandleGenericDouble`, the `ArgTypes` array passed has exactly
`numargs + 1` elements and `numargs ≤ 4`, so every position `0..numargs` lies inside the
array; and the row goes to `HandleGenericDouble` exactly when one of its `ArgTypes` is
`AT_Float` or `AT_Double`.  The rows with return count 0 (`abort`, `bcopy`, `perror`) pass
`numargs + 1` elements as well. -/
theorem generic_argtypes_in_bounds :
    (∀ row ∈ libcDispatch, ∀ name numargs retcount ArgTypes,
      (row.2 = Lowering.genericInt name numargs retcount ArgTypes ∨
       row.2 = Lowering.genericDouble name numargs retcount ArgTypes) →
      ArgTypes.length = numargs + 1 ∧ numargs ≤ 4 ∧
      (∀ i, i ≤ numargs → i < ArgTypes.length) ∧
      (row.2 = Lowering.genericDouble name numargs retcount ArgTypes ↔
        ∃ a ∈ ArgTypes, a = ArgType.AT_Float ∨ a = ArgType.AT_Double)) ∧
    ("abort", Lowering.genericInt "abort" 0 0 [ArgType.AT_Int32]) ∈ libcDispatch ∧
    ("bcopy", Lowering.genericInt "bcopy" 3 0
      [ArgType.AT_Ptr, ArgType.AT_Ptr, ArgType.AT_Int32, ArgType.AT_Int32]) ∈ libcDispatch ∧
    ("perror", Lowering.genericInt "perror" 1 0 [ArgType.AT_Ptr, ArgType.AT_Int32])
      ∈ libcDispatch := by
  refine ⟨?_, by decide, by decide, by decide⟩
  intro row hrow name numargs retcount ArgTypes h
  have hk := List.all_eq_true.1 libcDispatch_genericArgsOk row hrow
  rcases h with h | h
  · rw [h] at hk
    simp only [Lowering.genericArgsOk, Bool.and_eq_true, decide_eq_true_eq,
      Bool.not_eq_true', ← Bool.not_eq_true, any_isFP_iff] at hk
    refine ⟨hk.1.1, hk.1.2, fun i hi => by omega, ?_⟩
    rw [h]
    exact ⟨fun hc => (by cases hc), fun hc => absurd hc hk.2⟩
  · rw [h] at hk
    simp only [Lowering.genericArgsOk, Bool.and_eq_true, decide_eq_true_eq,
      any_isFP_iff] at hk
    exact ⟨hk.1.1, hk.1.2, fun i hi => by omega, fun _ => hk.2, fun _ => h⟩

/-- The bytes written are four. -/
theorem bytes32_length (be : Bool) (v : Nat) : (bytes32 be v).length = 4 := by
  cases be <;> rfl

/-- The bytes written depend on the low 32 bits of the value only. -/
theorem bytes32_low (be : Bool) (v : Nat) : bytes32 be v = bytes32 be (v % 2 ^ 32) := by
  have h1 : v % 2 ^ 32 % 256 = v % 256 := by omega
  have h2 : v % 2 ^ 32 / 256 % 256 = v / 256 % 256 := by omega
  have h3 : v % 2 ^ 32 / 65536 % 256 = v / 65536 % 256 := by omega
  have h4 : v % 2 ^ 32 / 16777216 % 256 = v / 16777216 % 256 := by omega
  unfold bytes32
  rw [h1, h2, h3, h4]

/-- A successful patch keeps the length, leaves everything outside the window alone and
puts the four bytes at the patch address. -/
theorem patch32_frame (be : Bool) (P v : Nat) (img img1 : List Nat)
    (h : patch32 be P v img = .ok img1) :
    P + 4 ≤ img.length ∧ sameOutside (inWindow P) img img1 ∧
    (img1.drop P).take 4 = bytes32 be v := by
  unfold patch32 at h
  by_cases hb : P + 4 ≤ img.length
  · rw [if_pos hb] at h
    cases h
    have hl : (List.take P img).length = P := by
      rw [List.length_take]
      omega
    refine ⟨hb, ⟨?_, ?_⟩, ?_⟩
    · simp only [List.length_append, List.length_take, List.length_drop, bytes32_length]
      omega
    · intro i hi
      unfold inWindow at hi
      by_cases h1 : i < P
      · rw [List.append_assoc, List.getElem?_append_left (by omega), List.getElem?_take]
        simp [h1]
      · have h2 : P + 4 ≤ i := by omega
        rw [List.getElem?_append_right (by
          simp only [List.length_append, hl, bytes32_length]; omega)]
        simp only [List.length_append, hl, bytes32_length, List.getElem?_drop]
        congr 1
        omega
    · rw [List.append_assoc, List.drop_append_of_le_length (by omega),
        List.drop_of_length_le (by omega), List.nil_append,
        List.take_append_of_le_length (by rw [bytes32_length]),
        List.take_of_length_le (by rw [bytes32_length])]
  · rw [if_neg hb] at h
    cases h

/-- An in-bounds patch succeeds. -/
theorem patch32_ok (be : Bool) (P v : Nat) (img : List Nat) (h : P + 4 ≤ img.length) :
    ∃ img1, patch32 be P v img = .ok img1 := by
  unfold patch32
  rw [if_pos h]
  exact ⟨_, rfl⟩

/-- An image agrees with itself. -/
theorem sameOutside_refl (W : Nat → Prop) (img : List Nat) : sameOutside W img img :=
  ⟨rfl, fun _ _ => rfl⟩

/-- Agreement outside a set extends to a larger set and composes. -/
theorem sameOutside_trans (W1 W2 W : Nat → Prop) (a b c : List Nat)
    (h1 : sameOutside W1 a b) (h2 : sameOutside W2 b c)
    (m1 : ∀ i, W1 i → W i) (m2 : ∀ i, W2 i → W i) : sameOutside W a c :=
  ⟨h2.1.trans h1.1, fun i hi =>
    (h2.2 i fun w => hi (m2 i w)).trans (h1.2 i fun w => hi (m1 i w))⟩

/-- The body of the relocation loop changes the image inside the window of its relocation
only. -/
theorem patchRelocation_frame (rd : RelocationReader) (be : Bool) (offset : Nat)
    (R : RelocationRef) (img img1 : List Nat) (x : LoopExit)
    (h : rd.patchRelocation be offset R img = .ok (x, img1)) :
    sameOutside (fun i => ∃ a, R.Offset = some a ∧ inWindow ((a + offset) % 2 ^ 64) i)
      img img1 := by
  unfold RelocationReader.patchRelocation at h
  cases ho : R.Offset with
  | none =>
      rw [ho] at h
      cases h
      exact sameOutside_refl _ _
  | some a =>
      rw [ho] at h
      have key : ∀ v, (patch32 be ((a + offset) % 2 ^ 64) v img).map
          (fun im => (LoopExit.next, im)) = .ok (x, img1) →
          sameOutside (fun i => ∃ a1, some a = some a1 ∧
            inWindow ((a1 + offset) % 2 ^ 64) i) img img1 := by
        intro v hv
        cases hp : patch32 be ((a + offset) % 2 ^ 64) v img with
        | error e => rw [hp] at hv; cases hv
        | ok im =>
            rw [hp] at hv
            cases hv
            have hf := (patch32_frame be _ v img _ hp).2.1
            exact ⟨hf.1, fun i hi => hf.2 i fun w => hi ⟨a, rfl, w⟩⟩
      cases hn : R.Symbol.Name with
      | none =>
          rw [hn] at h
          cases h
          exact sameOutside_refl _ _
      | some Name =>
          rw [hn] at h
          cases hcm : R.Symbol.Common with
          | true =>
              rw [hcm] at h
              simp only [if_true] at h
              cases hv : rd.ComdatSymbols Name with
              | none => rw [hv] at h; cases h
              | some v =>
                  rw [hv] at h
                  exact key v h
          | false =>
              rw [hcm] at h
              simp only [Bool.false_eq_true, if_false] at h
              cases hv : dataSymbolLoop Name rd.symbols with
              | none =>
                  rw [hv] at h
                  cases h
                  exact sameOutside_refl _ _
              | some T =>
                  rw [hv] at h
                  exact key T h

/-- The relocation loop over one relocation section changes the image inside the windows
of its relocations only. -/
theorem patchRelocations_frame (rd : RelocationReader) (be : Bool) (offset : Nat)
    (rs : List RelocationRef) (img img1 : List Nat) (b : Bool)
    (h : rd.patchRelocations be offset rs img = .ok (b, img1)) :
    sameOutside (fun i => ∃ R ∈ rs, ∃ a, R.Offset = some a ∧
      inWindow ((a + offset) % 2 ^ 64) i) img img1 := by
  induction rs generalizing img with
  | nil =>
      cases h
      exact sameOutside_refl _ _
  | cons R rest ih =>
      unfold RelocationReader.patchRelocations at h
      cases hp : rd.patchRelocation be offset R img with
      | error e => rw [hp] at h; cases h
      | ok r =>
          obtain ⟨x, im⟩ := r
          have hf := patchRelocation_frame rd be offset R img im x hp
          rw [hp] at h
          have m1 : ∀ i, (∃ a, R.Offset = some a ∧ inWindow ((a + offset) % 2 ^ 64) i) →
              ∃ R1 ∈ R :: rest, ∃ a, R1.Offset = some a ∧
                inWindow ((a + offset) % 2 ^ 64) i :=
            fun i w => ⟨R, List.mem_cons_self _ _, w⟩
          cases x with
          | next =>
              exact sameOutside_trans _ _ _ _ _ _ hf (ih im h) m1
                fun i ⟨R1, h1, w⟩ => ⟨R1, List.mem_cons_of_mem _ h1, w⟩
          | leaveLoop =>
              cases h
              exact sameOutside_trans _ _ _ _ _ _ hf (sameOutside_refl _ _) m1 m1
          | leaveMethod =>
              cases h
              exact sameOutside_trans _ _ _ _ _ _ hf (sameOutside_refl _ _) m1 m1

/-- The loop over the relocation sections of a data section changes the image inside the
windows of their relocations only. -/
theorem patchRelocSections_frame (rd : RelocationReader) (be : Bool) (offset : Nat)
    (l : List (List RelocationRef)) (img img1 : List Nat) (b : Bool)
    (h : rd.patchRelocSections be offset l img = .ok (b, img1)) :
    sameOutside (fun i => ∃ rs ∈ l, ∃ R ∈ rs, ∃ a, R.Offset = some a ∧
      inWindow ((a + offset) % 2 ^ 64) i) img img1 := by
  induction l generalizing img with
  | nil =>
      cases h
      exact sameOutside_refl _ _
  | cons rs rest ih =>
      unfold RelocationReader.patchRelocSections at h
      cases hp : rd.patchRelocations be offset rs img with
      | error e => rw [hp] at h; cases h
      | ok r =>
          obtain ⟨x, im⟩ := r
          have hf := patchRelocations_frame rd be offset rs img im x hp
          rw [hp] at h
          have m1 : ∀ i, (∃ R ∈ rs, ∃ a, R.Offset = some a ∧
              inWindow ((a + offset) % 2 ^ 64) i) →
              ∃ rs1 ∈ rs :: rest, ∃ R ∈ rs1, ∃ a, R.Offset = some a ∧
                inWindow ((a + offset) % 2 ^ 64) i :=
            fun i w => ⟨rs, List.mem_cons_self _ _, w⟩
          cases x with
          | true =>
              cases h
              exact sameOutside_trans _ _ _ _ _ _ hf (sameOutside_refl _ _) m1 m1
          | false =>
              exact sameOutside_trans _ _ _ _ _ _ hf (ih im h) m1
                fun i ⟨rs1, h1, w⟩ => ⟨rs1, List.mem_cons_of_mem _ h1, w⟩

/-- The loop over the map entries changes the image inside the windows of the relocations
of data, non-text sections only. -/
theorem patchEntries_frame (rd : RelocationReader) (be : Bool)
    (l : List (SectionRef × List (List RelocationRef))) (img img1 : List Nat) (b : Bool)
    (h : rd.patchEntries be l img = .ok (b, img1)) :
    sameOutside (fun i => ∃ e ∈ l, e.1.isData = true ∧ e.1.isText = false ∧
      ∃ rs ∈ e.2, ∃ R ∈ rs, ∃ a, R.Offset = some a ∧
        inWindow ((a + e.1.ELFOffset) % 2 ^ 64) i) img img1 := by
  induction l generalizing img with
  | nil =>
      cases h
      exact sameOutside_refl _ _
  | cons e rest ih =>
      unfold RelocationReader.patchEntries at h
      have m2 : ∀ i, (∃ e1 ∈ rest, e1.1.isData = true ∧ e1.1.isText = false ∧
          ∃ rs ∈ e1.2, ∃ R ∈ rs, ∃ a, R.Offset = some a ∧
            inWindow ((a + e1.1.ELFOffset) % 2 ^ 64) i) →
          ∃ e1 ∈ e :: rest, e1.1.isData = true ∧ e1.1.isText = false ∧
            ∃ rs ∈ e1.2, ∃ R ∈ rs, ∃ a, R.Offset = some a ∧
              inWindow ((a + e1.1.ELFOffset) % 2 ^ 64) i :=
        fun i ⟨e1, h1, w⟩ => ⟨e1, List.mem_cons_of_mem _ h1, w⟩
      by_cases hs : ¬ e.1.isData = true ∨ e.1.isText = true
      · rw [if_pos hs] at h
        exact sameOutside_trans _ _ _ _ _ _ (sameOutside_refl (fun _ => False) _)
          (ih img h) (fun _ w => w.elim) m2
      · rw [if_neg hs] at h
        have hd : e.1.isData = true := by
          cases hh : e.1.isData
          · exact absurd (Or.inl (by rw [hh]; decide)) hs
          · rfl
        have ht : e.1.isText = false := by
          cases hh : e.1.isText
          · rfl
          · exact absurd (Or.inr hh) hs
        cases hp : rd.patchRelocSections be e.1.ELFOffset e.2 img with
        | error er => rw [hp] at h; cases h
        | ok r =>
            obtain ⟨x, im⟩ := r
            have hf := patchRelocSections_frame rd be e.1.ELFOffset e.2 img im x hp
            rw [hp] at h
            have m1 : ∀ i, (∃ rs ∈ e.2, ∃ R ∈ rs, ∃ a, R.Offset = some a ∧
                inWindow ((a + e.1.ELFOffset) % 2 ^ 64) i) →
                ∃ e1 ∈ e :: rest, e1.1.isData = true ∧ e1.1.isText = false ∧
                  ∃ rs ∈ e1.2, ∃ R ∈ rs, ∃ a, R.Offset = some a ∧
                    inWindow ((a + e1.1.ELFOffset) % 2 ^ 64) i :=
              fun i w => ⟨e, List.mem_cons_self _ _, hd, ht, w⟩
            cases x with
            | true =>
                cases h
                exact sameOutside_trans _ _ _ _ _ _ hf (sameOutside_refl _ _) m1 m1
            | false =>
                exact sameOutside_trans _ _ _ _ _ _ hf (ih im h) m1 m2

/-- No target is found when every symbol of the name lies in a text section, and so also
when no symbol has the name. -/
theorem dataSymbolLoop_none (Name : String) (l : List SymbolRef)
    (h : ∀ si ∈ l, si.Name = some Name →
      ∃ sec, si.Section = some sec ∧ sec.isText = true) :
    dataSymbolLoop Name l = none := by
  induction l with
  | nil => rfl
  | cons si rest ih =>
      have ih1 := ih fun s hs => h s (List.mem_cons_of_mem _ hs)
      unfold dataSymbolLoop
      cases hn : si.Name with
      | none => rfl
      | some SName =>
          by_cases hc : Name = SName
          · subst hc
            obtain ⟨sec, hs, ht⟩ := h si (List.mem_cons_self _ _) hn
            cases ha : si.Address with
            | none => simp
            | some T =>
                by_cases hu : T = UnknownAddressOrSize
                · simp [hu, ih1]
                · simp [hu, hs, ht, ih1]
          · simp [hc, ih1]

/-- A target that is found is the address of a symbol of the name, plus the base of its
section, and that section is no text section. -/
theorem dataSymbolLoop_some (Name : String) (l : List SymbolRef) (T : Nat)
    (h : dataSymbolLoop Name l = some T) :
    ∃ si ∈ l, si.Name = some Name ∧ specSymbolAddress si = some T ∧
      ∀ sec, si.Section = some sec → sec.isText = false := by
  induction l with
  | nil => cases h
  | cons si rest ih =>
      have next : dataSymbolLoop Name rest = some T →
          ∃ s ∈ si :: rest, s.Name = some Name ∧ specSymbolAddress s = some T ∧
            ∀ sec, s.Section = some sec → sec.isText = false := fun hr =>
        let ⟨s, h1, h2⟩ := ih hr
        ⟨s, List.mem_cons_of_mem _ h1, h2⟩
      unfold dataSymbolLoop at h
      cases hn : si.Name with
      | none => rw [hn] at h; cases h
      | some SName =>
          rw [hn] at h
          dsimp only at h
          by_cases hc : Name = SName
          · subst hc
            simp only [ne_eq, not_true_eq_false, if_false] at h
            cases ha : si.Address with
            | none => rw [ha] at h; cases h
            | some A =>
                rw [ha] at h
                dsimp only at h
                by_cases hu : A = UnknownAddressOrSize
                · rw [if_pos hu] at h
                  exact next h
                · rw [if_neg hu] at h
                  cases hs : si.Section with
                  | none =>
                      rw [hs] at h
                      dsimp only at h
                      refine ⟨si, List.mem_cons_self _ _, hn, ?_, fun sec hh => by rw [hs] at hh; cases hh⟩
                      simp only [specSymbolAddress, ha, hu, if_false, hs]
                      exact h
                  | some sec =>
                      rw [hs] at h
                      dsimp only at h
                      cases ht : sec.isText with
                      | true =>
                          rw [ht] at h
                          simp only [if_true] at h
                          exact next h
                      | false =>
                          rw [ht] at h
                          simp only [Bool.false_eq_true, if_false] at h
                          refine ⟨si, List.mem_cons_self _ _, hn, ?_, fun sec1 hh => ?_⟩
                          · simp only [specSymbolAddress, ha, hu, if_false, hs]
                            exact h
                          · rw [hs] at hh
                            cases hh
                            exact ht
          · simp only [ne_eq, hc, not_false_eq_true, if_true] at h
            exact next h

/-- The body of the relocation loop does not abort when its patch lies inside the image
and its common symbol is known. -/
theorem patchRelocation_ok (rd : RelocationReader) (be : Bool) (offset : Nat)
    (R : RelocationRef) (img : List Nat)
    (hb : ∀ a, R.Offset = some a → (a + offset) % 2 ^ 64 + 4 ≤ img.length)
    (hc : ∀ Name, R.Symbol.Name = some Name → R.Symbol.Common = true →
      rd.ComdatSymbols Name ≠ none) :
    ∃ x img1, rd.patchRelocation be offset R img = .ok (x, img1) := by
  unfold RelocationReader.patchRelocation
  cases ho : R.Offset with
  | none => exact ⟨_, _, rfl⟩
  | some a =>
      have hp := fun v => patch32_ok be ((a + offset) % 2 ^ 64) v img (hb a ho)
      cases hn : R.Symbol.Name with
      | none => exact ⟨_, _, rfl⟩
      | some Name =>
          cases hcm : R.Symbol.Common with
          | true =>
              simp only [if_true]
              cases hv : rd.ComdatSymbols Name with
              | none => exact absurd hv (hc Name hn hcm)
              | some v =>
                  obtain ⟨im, hi⟩ := hp v
                  exact ⟨_, im, by simp only [hi]; rfl⟩
          | false =>
              simp only [Bool.false_eq_true, if_false]
              cases hv : dataSymbolLoop Name rd.symbols with
              | none => exact ⟨_, _, rfl⟩
              | some T =>
                  obtain ⟨im, hi⟩ := hp T
                  exact ⟨_, im, by simp only [hi]; rfl⟩

/-- The relocation loop over one relocation section does not abort when all its patches
lie inside the image and its common symbols are known. -/
theorem patchRelocations_ok (rd : RelocationReader) (be : Bool) (offset : Nat)
    (rs : List RelocationRef) (n : Nat) (img : List Nat) (hn : img.length = n)
    (h : ∀ R ∈ rs, (∀ a, R.Offset = some a → (a + offset) % 2 ^ 64 + 4 ≤ n) ∧
      (∀ Name, R.Symbol.Name = some Name → R.Symbol.Common = true →
        rd.ComdatSymbols Name ≠ none)) :
    ∃ b img1, rd.patchRelocations be offset rs img = .ok (b, img1) := by
  induction rs generalizing img with
  | nil => exact ⟨_, _, rfl⟩
  | cons R rest ih =>
      have h0 := h R (List.mem_cons_self _ _)
      obtain ⟨x, im, hp⟩ := patchRelocation_ok rd be offset R img
        (fun a ha => by rw [hn]; exact h0.1 a ha) h0.2
      have hl := (patchRelocation_frame rd be offset R img im x hp).1
      unfold RelocationReader.patchRelocations
      rw [hp]
      cases x with
      | next => exact ih im (hl.trans hn) fun R1 h1 => h R1 (List.mem_cons_of_mem _ h1)
      | leaveLoop => exact ⟨_, _, rfl⟩
      | leaveMethod => exact ⟨_, _, rfl⟩

/-- The loop over the relocation sections of a data section does not abort when all
patches lie inside the image and the common symbols are known. -/
theorem patchRelocSections_ok (rd : RelocationReader) (be : Bool) (offset : Nat)
    (l : List (List RelocationRef)) (n : Nat) (img : List Nat) (hn : img.length = n)
    (h : ∀ rs ∈ l, ∀ R ∈ rs, (∀ a, R.Offset = some a → (a + offset) % 2 ^ 64 + 4 ≤ n) ∧
      (∀ Name, R.Symbol.Name = some Name → R.Symbol.Common = true →
        rd.ComdatSymbols Name ≠ none)) :
    ∃ b img1, rd.patchRelocSections be offset l img = .ok (b, img1) := by
  induction l generalizing img with
  | nil => exact ⟨_, _, rfl⟩
  | cons rs rest ih =>
      obtain ⟨x, im, hp⟩ := patchRelocations_ok rd be offset rs n img hn
        (h rs (List.mem_cons_self _ _))
      have hl := (patchRelocations_frame rd be offset rs img im x hp).1
      unfold RelocationReader.patchRelocSections
      rw [hp]
      cases x with
      | true => exact ⟨_, _, rfl⟩
      | false => exact ih im (hl.trans hn) fun rs1 h1 => h rs1 (List.mem_cons_of_mem _ h1)

/-- The loop over the map entries does not abort when all patches of data, non-text
sections lie inside the image and the common symbols are known. -/
theorem patchEntries_ok (rd : RelocationReader) (be : Bool)
    (l : List (SectionRef × List (List RelocationRef))) (n : Nat) (img : List Nat)
    (hn : img.length = n)
    (h : ∀ e ∈ l, e.1.isData = true → e.1.isText = false → ∀ rs ∈ e.2, ∀ R ∈ rs,
      (∀ a, R.Offset = some a → (a + e.1.ELFOffset) % 2 ^ 64 + 4 ≤ n) ∧
      (∀ Name, R.Symbol.Name = some Name → R.Symbol.Common = true →
        rd.ComdatSymbols Name ≠ none)) :
    ∃ b img1, rd.patchEntries be l img = .ok (b, img1) := by
  induction l generalizing img with
  | nil => exact ⟨_, _, rfl⟩
  | cons e rest ih =>
      have ih1 := fun im hm => ih im hm fun e1 h1 => h e1 (List.mem_cons_of_mem _ h1)
      unfold RelocationReader.patchEntries
      by_cases hs : ¬ e.1.isData = true ∨ e.1.isText = true
      · rw [if_pos hs]
        exact ih1 img hn
      · rw [if_neg hs]
        have hd : e.1.isData = true := by
          cases hh : e.1.isData
          · exact absurd (Or.inl (by rw [hh]; decide)) hs
          · rfl
        have ht : e.1.isText = false := by
          cases hh : e.1.isText
          · rfl
          · exact absurd (Or.inr hh) hs
        obtain ⟨x, im, hp⟩ := patchRelocSections_ok rd be e.1.ELFOffset e.2 n img hn
          (h e (List.mem_cons_self _ _) hd ht)
        have hl := (patchRelocSections_frame rd be e.1.ELFOffset e.2 img im x hp).1
        rw [hp]
        cases x with
        | true => exact ⟨_, _, rfl⟩
        | false => exact ih1 im (hl.trans hn)

/-- When every symbol's name and address can be read, the symbol loop of
`ResolveAllDataRelocations` finds the first symbol of the given name with a known address
outside the text sections. -/
theorem dataSymbolLoop_eq_find (Name : String) (l : List SymbolRef)
    (h : ∀ si ∈ l, si.Name ≠ none ∧ si.Address ≠ none) :
    dataSymbolLoop Name l
      = (l.find? (fun si =>
          decide (si.Name = some Name) && (specSymbolAddress si).isSome && !si.inText)).bind
          specSymbolAddress := by
  induction l with
  | nil => rfl
  | cons si rest ih =>
      have ih1 := ih fun s hs => h s (List.mem_cons_of_mem _ hs)
      have h0 := h si (List.mem_cons_self _ _)
      unfold dataSymbolLoop
      cases hn : si.Name with
      | none => exact absurd hn h0.1
      | some SName =>
          cases ha : si.Address with
          | none => exact absurd ha h0.2
          | some Address =>
              by_cases hc : Name = SName
              · subst hc
                by_cases hu : Address = UnknownAddressOrSize
                · have hsa : specSymbolAddress si = none := by
                    simp [specSymbolAddress, ha, hu]
                  simp only [hn, ne_eq, not_true_eq_false, if_false, ha, hu, if_true,
                    List.find?_cons, hsa, Option.isSome_none, Bool.and_false,
                    Bool.false_and]
                  exact ih1
                · cases hs : si.Section with
                  | none =>
                      have hsa : specSymbolAddress si = some Address := by
                        simp [specSymbolAddress, ha, hu, hs]
                      simp [List.find?_cons, hn, ha, hu, hs, hsa, SymbolRef.inText]
                  | some sec =>
                      have hsa : specSymbolAddress si
                          = some ((Address + sectionBase sec) % 2 ^ 64) := by
                        simp [specSymbolAddress, ha, hu, hs]
                      cases ht : sec.isText with
                      | true =>
                          simp only [hn, ne_eq, not_true_eq_false, if_false, ha, hu, hs, ht,
                            if_true, List.find?_cons, SymbolRef.inText, Bool.not_true,
                            Bool.and_false]
                          exact ih1
                      | false =>
                          simp [List.find?_cons, hn, ha, hu, hs, hsa, ht, SymbolRef.inText]
              · have hc' : ¬ SName = Name := fun e => hc e.symm
                simp only [hn, ne_eq, hc, not_false_eq_true, if_true, List.find?_cons,
                  Option.some.injEq, hc', decide_False, Bool.false_and]
                exact ih1

/-- A patch keeps the length of an image it lies in. -/
theorem writeLow32_length (be : Bool) (img : List Nat) (pv : Nat × Nat)
    (h : pv.1 + 4 ≤ img.length) : (writeLow32 be img pv).length = img.length := by
  unfold writeLow32
  simp only [List.length_append, List.length_take, List.length_drop, bytes32_length]
  omega

/-- For a relocation whose offset and symbol name can be read, the body of the relocation
loop makes the specification's patch, if there is one, and goes on to the next
relocation. -/
theorem patchRelocation_eq_spec (rd : RelocationReader) (be : Bool) (offset : Nat)
    (R : RelocationRef) (img : List Nat)
    (hsym : ∀ si ∈ rd.symbols, si.Name ≠ none ∧ si.Address ≠ none)
    (ho : ∃ a, R.Offset = some a ∧ (a + offset) % 2 ^ 64 + 4 ≤ img.length)
    (hn : ∃ Name, R.Symbol.Name = some Name ∧
      (R.Symbol.Common = true → rd.ComdatSymbols Name ≠ none)) :
    rd.patchRelocation be offset R img
      = .ok (LoopExit.next,
          match specPatch rd offset R with
          | some pv => writeLow32 be img pv
          | none => img) := by
  obtain ⟨a, ha, hb⟩ := ho
  obtain ⟨Name, hN, hcm⟩ := hn
  have hb1 : (a + offset) % 18446744073709551616 + 4 ≤ img.length := hb
  unfold RelocationReader.patchRelocation specPatch specDataTarget
  simp only [ha, hN, dataSymbolLoop_eq_find Name rd.symbols hsym]
  cases hc : R.Symbol.Common with
  | true =>
      simp only [if_true]
      cases hv : rd.ComdatSymbols Name with
      | none => exact absurd hv (hcm hc)
      | some v => simp [patch32, hb1, writeLow32, Except.map]
  | false =>
      simp only [Bool.false_eq_true, if_false]
      generalize (rd.symbols.find? (fun si =>
        decide (si.Name = some Name) && (specSymbolAddress si).isSome && !si.inText)).bind
        specSymbolAddress = o
      cases o with
      | none => rfl
      | some T => simp [patch32, hb1, writeLow32, Except.map]

/-- The address of a specification patch is the relocation's offset plus the section's ELF
offset. -/
theorem specPatch_fst (rd : RelocationReader) (offset : Nat) (R : RelocationRef)
    (pv : Nat × Nat) (h : specPatch rd offset R = some pv) :
    ∃ a, R.Offset = some a ∧ pv.1 = (a + offset) % 2 ^ 64 ∧
      specDataTarget rd R = some pv.2 := by
  unfold specPatch at h
  cases ho : R.Offset with
  | none => simp [ho] at h
  | some a =>
      cases ht : specDataTarget rd R with
      | none => simp [ho, ht] at h
      | some v =>
          simp only [ho, ht, Option.some.injEq] at h
          subst h
          exact ⟨a, rfl, rfl, rfl⟩

/-- Patches that lie in the image keep its length. -/
theorem foldl_writeLow32_length (be : Bool) (ps : List (Nat × Nat)) (img : List Nat)
    (h : ∀ q ∈ ps, q.1 + 4 ≤ img.length) :
    (ps.foldl (writeLow32 be) img).length = img.length := by
  induction ps generalizing img with
  | nil => rfl
  | cons q rest ih =>
      have hq := writeLow32_length be img q (h q (List.mem_cons_self _ _))
      rw [List.foldl_cons, ih _ (fun r hr => by
        rw [hq]
        exact h r (List.mem_cons_of_mem _ hr)), hq]

/-- The relocation loop over one relocation section of a readable object file makes the
specification's patches in order. -/
theorem patchRelocations_eq_spec (rd : RelocationReader) (be : Bool) (offset : Nat)
    (rs : List RelocationRef) (n : Nat) (img : List Nat) (hl : img.length = n)
    (hsym : ∀ si ∈ rd.symbols, si.Name ≠ none ∧ si.Address ≠ none)
    (h : ∀ R ∈ rs, (∃ a, R.Offset = some a ∧ (a + offset) % 2 ^ 64 + 4 ≤ n) ∧
      (∃ Name, R.Symbol.Name = some Name ∧
        (R.Symbol.Common = true → rd.ComdatSymbols Name ≠ none))) :
    rd.patchRelocations be offset rs img
      = .ok (false, (rs.filterMap (specPatch rd offset)).foldl (writeLow32 be) img) := by
  induction rs generalizing img with
  | nil => rfl
  | cons R rest ih =>
      have h0 := h R (List.mem_cons_self _ _)
      have hr := fun im hm => ih im hm fun R1 h1 => h R1 (List.mem_cons_of_mem _ h1)
      unfold RelocationReader.patchRelocations
      rw [patchRelocation_eq_spec rd be offset R img hsym (by rw [hl]; exact h0.1) h0.2]
      cases hp : specPatch rd offset R with
      | none =>
          simp only [List.filterMap_cons, hp]
          exact hr img hl
      | some pv =>
          obtain ⟨a, ha, hpa, _⟩ := specPatch_fst rd offset R pv hp
          obtain ⟨a1, ha1, hb⟩ := h0.1
          have hlen : (writeLow32 be img pv).length = n := by
            rw [writeLow32_length be img pv (by
              rw [ha] at ha1
              cases ha1
              rw [hpa, hl]
              exact hb), hl]
          simp only [List.filterMap_cons, hp, List.foldl_cons]
          exact hr _ hlen

/-- Every specification patch of a list of relocations in bounds is in bounds. -/
theorem specPatch_mem_bound (rd : RelocationReader) (offset n : Nat)
    (rs : List RelocationRef)
    (h : ∀ R ∈ rs, ∃ a, R.Offset = some a ∧ (a + offset) % 2 ^ 64 + 4 ≤ n)
    (q : Nat × Nat) (hq : q ∈ rs.filterMap (specPatch rd offset)) : q.1 + 4 ≤ n := by
  obtain ⟨R, hR, hp⟩ := List.mem_filterMap.1 hq
  obtain ⟨a, ha, hpa, _⟩ := specPatch_fst rd offset R q hp
  obtain ⟨a1, ha1, hb⟩ := h R hR
  rw [ha] at ha1
  cases ha1
  rw [hpa]
  exact hb

/-- The loop over the relocation sections of a data section of a readable object file
makes the specification's patches in order. -/
theorem patchRelocSections_eq_spec (rd : RelocationReader) (be : Bool) (offset : Nat)
    (l : List (List RelocationRef)) (n : Nat) (img : List Nat) (hl : img.length = n)
    (hsym : ∀ si ∈ rd.symbols, si.Name ≠ none ∧ si.Address ≠ none)
    (h : ∀ rs ∈ l, ∀ R ∈ rs, (∃ a, R.Offset = some a ∧ (a + offset) % 2 ^ 64 + 4 ≤ n) ∧
      (∃ Name, R.Symbol.Name = some Name ∧
        (R.Symbol.Common = true → rd.ComdatSymbols Name ≠ none))) :
    rd.patchRelocSections be offset l img
      = .ok (false,
          (l.flatten.filterMap (specPatch rd offset)).foldl (writeLow32 be) img) := by
  induction l generalizing img with
  | nil => rfl
  | cons rs rest ih =>
      have h0 := h rs (List.mem_cons_self _ _)
      unfold RelocationReader.patchRelocSections
      rw [patchRelocations_eq_spec rd be offset rs n img hl hsym h0]
      have hlen : ((rs.filterMap (specPatch rd offset)).foldl (writeLow32 be) img).length
          = n := by
        rw [foldl_writeLow32_length be _ img (fun q hq => by
          rw [hl]
          exact specPatch_mem_bound rd offset n rs (fun R hR => (h0 R hR).1) q hq), hl]
      simp only [List.flatten_cons, List.filterMap_append, List.foldl_append]
      exact ih _ hlen fun rs1 h1 => h rs1 (List.mem_cons_of_mem _ h1)

/-- Every specification patch of a map entry in bounds is in bounds. -/
theorem specPatchesOfEntry_bound (rd : RelocationReader) (n : Nat)
    (e : SectionRef × List (List RelocationRef))
    (h : e.1.isData = true → e.1.isText = false → ∀ rs ∈ e.2, ∀ R ∈ rs,
      ∃ a, R.Offset = some a ∧ (a + e.1.ELFOffset) % 2 ^ 64 + 4 ≤ n)
    (q : Nat × Nat) (hq : q ∈ specPatchesOfEntry rd e) : q.1 + 4 ≤ n := by
  unfold specPatchesOfEntry at hq
  by_cases hc : (e.1.isData && !e.1.isText) = true
  · rw [if_pos hc] at hq
    have hd : e.1.isData = true ∧ e.1.isText = false := by
      cases h1 : e.1.isData <;> cases h2 : e.1.isText <;> simp [h1, h2] at hc ⊢
    obtain ⟨R, hR, hp⟩ := List.mem_filterMap.1 hq
    obtain ⟨rs, hrs, hRr⟩ := List.mem_flatten.1 hR
    obtain ⟨a, ha, hpa, _⟩ := specPatch_fst rd _ R q hp
    obtain ⟨a1, ha1, hb⟩ := h hd.1 hd.2 rs hrs R hRr
    rw [ha] at ha1
    cases ha1
    rw [hpa]
    exact hb
  · rw [if_neg hc] at hq
    cases hq

/-- The loop over the map entries of a readable object file makes the specification's
patches in order. -/
theorem patchEntries_eq_spec (rd : RelocationReader) (be : Bool)
    (l : List (SectionRef × List (List RelocationRef))) (n : Nat) (img : List Nat)
    (hl : img.length = n)
    (hsym : ∀ si ∈ rd.symbols, si.Name ≠ none ∧ si.Address ≠ none)
    (h : ∀ e ∈ l, e.1.isData = true → e.1.isText = false → ∀ rs ∈ e.2, ∀ R ∈ rs,
      (∃ a, R.Offset = some a ∧ (a + e.1.ELFOffset) % 2 ^ 64 + 4 ≤ n) ∧
      (∃ Name, R.Symbol.Name = some Name ∧
        (R.Symbol.Common = true → rd.ComdatSymbols Name ≠ none))) :
    rd.patchEntries be l img
      = .ok (false, (l.flatMap (specPatchesOfEntry rd)).foldl (writeLow32 be) img) := by
  induction l generalizing img with
  | nil => rfl
  | cons e rest ih =>
      have ih1 := fun im hm => ih im hm fun e1 h1 => h e1 (List.mem_cons_of_mem _ h1)
      unfold RelocationReader.patchEntries
      by_cases hs : ¬ e.1.isData = true ∨ e.1.isText = true
      · rw [if_pos hs]
        have hc : ¬ (e.1.isData && !e.1.isText) = true := by
          cases h1 : e.1.isData <;> cases h2 : e.1.isText <;> simp [h1, h2] at hs ⊢
        simp only [List.flatMap_cons, specPatchesOfEntry, if_neg hc, List.nil_append]
        exact ih1 img hl
      · rw [if_neg hs]
        have hd : e.1.isData = true := by
          cases hh : e.1.isData
          · exact absurd (Or.inl (by rw [hh]; decide)) hs
          · rfl
        have ht : e.1.isText = false := by
          cases hh : e.1.isText
          · rfl
          · exact absurd (Or.inr hh) hs
        have h0 := h e (List.mem_cons_self _ _) hd ht
        rw [patchRelocSections_eq_spec rd be e.1.ELFOffset e.2 n img hl hsym h0]
        have he : specPatchesOfEntry rd e
            = e.2.flatten.filterMap (specPatch rd e.1.ELFOffset) := by
          simp [specPatchesOfEntry, hd, ht]
        have hlen : ((specPatchesOfEntry rd e).foldl (writeLow32 be) img).length = n := by
          rw [foldl_writeLow32_length be _ img (fun q hq => by
            rw [hl]
            exact specPatchesOfEntry_bound rd n e
              (fun _ _ rs hrs R hR => (h0 rs hrs R hR).1) q hq), hl]
        simp only [List.flatMap_cons, List.foldl_append]
        rw [← he]
        exact ih1 _ hlen

/-- Images that agree outside a window disjoint from `[P, P+4)` hold the same four bytes
at `P`. -/
theorem sameOutside_window (Q P : Nat) (img img1 : List Nat)
    (h : sameOutside (inWindow Q) img img1) (hd : Q + 4 ≤ P ∨ P + 4 ≤ Q) :
    (img1.drop P).take 4 = (img.drop P).take 4 := by
  apply List.ext_getElem?
  intro i
  by_cases hi : i < 4
  · simp only [List.getElem?_take, hi, if_true, List.getElem?_drop]
    exact h.2 (P + i) (by unfold inWindow; omega)
  · simp only [List.getElem?_take, hi, if_false]

/-- A patch in bounds leaves the specification's bytes at its address. -/
theorem writeLow32_window (be : Bool) (img : List Nat) (P v : Nat)
    (h : P + 4 ≤ img.length) :
    ((writeLow32 be img (P, v)).drop P).take 4 = bytes32 be v := by
  have hp : patch32 be P v img = .ok (writeLow32 be img (P, v)) := by
    unfold patch32 writeLow32
    rw [if_pos h]
  exact (patch32_frame be P v img _ hp).2.2

/-- Later patches whose windows are disjoint from `[P, P+4)` leave the four bytes at `P`
as they are. -/
theorem foldl_writeLow32_window (be : Bool) (ps : List (Nat × Nat)) (P : Nat)
    (img : List Nat) (h : ∀ q ∈ ps, q.1 + 4 ≤ img.length)
    (hd : ∀ q ∈ ps, q.1 + 4 ≤ P ∨ P + 4 ≤ q.1) :
    ((ps.foldl (writeLow32 be) img).drop P).take 4 = (img.drop P).take 4 := by
  induction ps generalizing img with
  | nil => rfl
  | cons q rest ih =>
      have hq := h q (List.mem_cons_self _ _)
      have hlen := writeLow32_length be img q hq
      have hp : patch32 be q.1 q.2 img = .ok (writeLow32 be img q) := by
        unfold patch32 writeLow32
        rw [if_pos hq]
      rw [List.foldl_cons, ih _ (fun r hr => by
          rw [hlen]
          exact h r (List.mem_cons_of_mem _ hr))
        (fun r hr => hd r (List.mem_cons_of_mem _ hr))]
      exact sameOutside_window q.1 P img _ (patch32_frame be q.1 q.2 img _ hp).2.1
        (hd q (List.mem_cons_self _ _))

/-- After all patches, the four bytes at the address of a patch that no later patch
overlaps are those of the low 32 bits of its target. -/
theorem foldl_writeLow32_holds (be : Bool) (pre post : List (Nat × Nat)) (P v : Nat)
    (img : List Nat) (h : ∀ q ∈ pre ++ (P, v) :: post, q.1 + 4 ≤ img.length)
    (hd : ∀ q ∈ post, q.1 + 4 ≤ P ∨ P + 4 ≤ q.1) :
    (((pre ++ (P, v) :: post).foldl (writeLow32 be) img).drop P).take 4
      = bytes32 be (v % 2 ^ 32) := by
  have hpre := foldl_writeLow32_length be pre img
    (fun q hq => h q (List.mem_append_left _ hq))
  have hP : P + 4 ≤ (pre.foldl (writeLow32 be) img).length := by
    rw [hpre]
    exact h (P, v) (List.mem_append_right _ (List.mem_cons_self _ _))
  rw [List.foldl_append, List.foldl_cons, foldl_writeLow32_window be post P _ (fun q hq => by
      rw [writeLow32_length be _ (P, v) hP, hpre]
      exact h q (List.mem_append_right _ (List.mem_cons_of_mem _ hq))) hd,
    writeLow32_window be _ P v hP, ← bytes32_low]

/-- C30: when `ResolveAllDataRelocations` is done, the shadow image has the length it had
and differs from the old one only inside the windows `[P, P+4)` with `P` = section ELF
offset + relocation offset of a relocation of a data, non-text section of
`SectionRelocMap`; it is done (no out-of-bounds write, no unknown common symbol) whenever
all these windows lie inside the image and the common symbols are known.  For an object
file whose relocation offsets and symbol names and addresses can be read, the image it
leaves is the old one with the specification's patches made in order: one patch per
relocation of a data, non-text section that has a target, which writes at `P` the four
bytes of the low 32 bits of the target, the target being the `ComdatSymbols` value for a
common symbol and otherwise the address of the first symbol of that name with a known
address outside the text sections, plus the base (address, or ELF offset when 0) of its
section; so after the call the four bytes at `P` are those of the target for every patch
that no later patch overlaps.  A relocation against a symbol that is not common and is
either not found or found in text sections only has no patch and leaves the image as it
was. -/
theorem data_relocations_frame (rd : RelocationReader) (be : Bool) (img : List Nat) :
    (∀ img1, rd.ResolveAllDataRelocations be img = .ok img1 →
      img1.length = img.length ∧
      ∀ i, (∀ e ∈ rd.SectionRelocMap, e.1.isData = true → e.1.isText = false →
          ∀ rs ∈ e.2, ∀ R ∈ rs, ∀ a, R.Offset = some a →
            ¬ inWindow ((a + e.1.ELFOffset) % 2 ^ 64) i) →
        img1[i]? = img[i]?) ∧
    ((∀ e ∈ rd.SectionRelocMap, e.1.isData = true → e.1.isText = false →
        ∀ rs ∈ e.2, ∀ R ∈ rs,
          (∀ a, R.Offset = some a → (a + e.1.ELFOffset) % 2 ^ 64 + 4 ≤ img.length) ∧
          (∀ Name, R.Symbol.Name = some Name → R.Symbol.Common = true →
            rd.ComdatSymbols Name ≠ none)) →
      ∃ img1, rd.ResolveAllDataRelocations be img = .ok img1) ∧
    (∀ offset R a Name v, R.Offset = some a → R.Symbol.Name = some Name →
      (a + offset) % 2 ^ 64 + 4 ≤ img.length →
      (R.Symbol.Common = true ∧ rd.ComdatSymbols Name = some v) ∨
        (R.Symbol.Common = false ∧ dataSymbolLoop Name rd.symbols = some v) →
      ∃ img1, rd.patchRelocation be offset R img = .ok (LoopExit.next, img1) ∧
        (img1.drop ((a + offset) % 2 ^ 64)).take 4 = bytes32 be (v % 2 ^ 32)) ∧
    (∀ Name T, dataSymbolLoop Name rd.symbols = some T →
      ∃ si ∈ rd.symbols, si.Name = some Name ∧ specSymbolAddress si = some T ∧
        ∀ sec, si.Section = some sec → sec.isText = false) ∧
    (∀ offset R Name, R.Symbol.Name = some Name → R.Symbol.Common = false →
      (∀ si ∈ rd.symbols, si.Name = some Name →
        ∃ sec, si.Section = some sec ∧ sec.isText = true) →
      ∃ x, rd.patchRelocation be offset R img = .ok (x, img)) ∧
    ((∀ si ∈ rd.symbols, si.Name ≠ none ∧ si.Address ≠ none) →
      (∀ e ∈ rd.SectionRelocMap, e.1.isData = true → e.1.isText = false →
        ∀ rs ∈ e.2, ∀ R ∈ rs,
          (∃ a, R.Offset = some a ∧ (a + e.1.ELFOffset) % 2 ^ 64 + 4 ≤ img.length) ∧
          (∃ Name, R.Symbol.Name = some Name ∧
            (R.Symbol.Common = true → rd.ComdatSymbols Name ≠ none))) →
      ∃ img1, rd.ResolveAllDataRelocations be img = .ok img1 ∧
        img1 = rd.specPatches.foldl (writeLow32 be) img ∧
        ∀ pre P v post, rd.specPatches = pre ++ (P, v) :: post →
          (∀ q ∈ post, q.1 + 4 ≤ P ∨ P + 4 ≤ q.1) →
          (img1.drop P).take 4 = bytes32 be (v % 2 ^ 32)) ∧
    (∀ q, q ∈ rd.specPatches ↔
      ∃ e ∈ rd.SectionRelocMap, e.1.isData = true ∧ e.1.isText = false ∧
        ∃ rs ∈ e.2, ∃ R ∈ rs, ∃ a, R.Offset = some a ∧
          q.1 = (a + e.1.ELFOffset) % 2 ^ 64 ∧ specDataTarget rd R = some q.2) ∧
    (∀ offset R Name, R.Symbol.Name = some Name → R.Symbol.Common = false →
      (∀ si ∈ rd.symbols, si.Name = some Name →
        ∃ sec, si.Section = some sec ∧ sec.isText = true) →
      specDataTarget rd R = none ∧ specPatch rd offset R = none) := by
  refine ⟨?_, ?_, ?_, ?_, ?_, ?_, ?_, ?_⟩
  · intro img1 h
    unfold RelocationReader.ResolveAllDataRelocations at h
    cases hp : rd.patchEntries be rd.SectionRelocMap img with
    | error e => rw [hp] at h; cases h
    | ok r =>
        obtain ⟨b, im⟩ := r
        rw [hp] at h
        cases h
        have hf := patchEntries_frame rd be rd.SectionRelocMap img _ b hp
        refine ⟨hf.1, fun i hi => hf.2 i ?_⟩
        rintro ⟨e, he, hd, ht, rs, hrs, R, hR, a, ha, w⟩
        exact hi e he hd ht rs hrs R hR a ha w
  · intro h
    obtain ⟨b, im, hp⟩ := patchEntries_ok rd be rd.SectionRelocMap img.length img rfl h
    unfold RelocationReader.ResolveAllDataRelocations
    rw [hp]
    exact ⟨im, rfl⟩
  · intro offset R a Name v ho hn hb hv
    obtain ⟨im, hp⟩ := patch32_ok be ((a + offset) % 2 ^ 64) v img hb
    refine ⟨im, ?_, ?_⟩
    · unfold RelocationReader.patchRelocation
      rcases hv with ⟨hc, hv⟩ | ⟨hc, hv⟩
      · simp only [ho, hn, hc, if_true, hv, hp]
        rfl
      · simp only [ho, hn, hc, Bool.false_eq_true, if_false, hv, hp]
        rfl
    · rw [← bytes32_low]
      exact (patch32_frame be _ v img im hp).2.2
  · intro Name T h
    exact dataSymbolLoop_some Name rd.symbols T h
  · intro offset R Name hn hc h
    unfold RelocationReader.patchRelocation
    cases ho : R.Offset with
    | none => exact ⟨_, rfl⟩
    | some a =>
        simp only [hn, hc, Bool.false_eq_true, if_false,
          dataSymbolLoop_none Name rd.symbols h]
        exact ⟨_, rfl⟩
  · intro hsym h
    have hp := patchEntries_eq_spec rd be rd.SectionRelocMap img.length img rfl hsym h
    have hb : ∀ q ∈ rd.specPatches, q.1 + 4 ≤ img.length := by
      intro q hq
      obtain ⟨e, he, hqe⟩ := List.mem_flatMap.1 hq
      exact specPatchesOfEntry_bound rd img.length e
        (fun hd ht rs hrs R hR => (h e he hd ht rs hrs R hR).1) q hqe
    refine ⟨_, ?_, rfl, ?_⟩
    · unfold RelocationReader.ResolveAllDataRelocations
      rw [hp]
      rfl
    · intro pre P v post hs hd
      have hb1 : ∀ q ∈ pre ++ (P, v) :: post, q.1 + 4 ≤ img.length := by
        rw [← hs]
        exact hb
      have hw := foldl_writeLow32_holds be pre post P v img hb1 hd
      rw [← hs] at hw
      exact hw
  · intro q
    unfold RelocationReader.specPatches
    constructor
    · intro hq
      obtain ⟨e, he, hqe⟩ := List.mem_flatMap.1 hq
      unfold specPatchesOfEntry at hqe
      by_cases hc : (e.1.isData && !e.1.isText) = true
      · rw [if_pos hc] at hqe
        have hd : e.1.isData = true ∧ e.1.isText = false := by
          cases h1 : e.1.isData <;> cases h2 : e.1.isText <;> simp [h1, h2] at hc ⊢
        obtain ⟨R, hR, hp⟩ := List.mem_filterMap.1 hqe
        obtain ⟨rs, hrs, hRr⟩ := List.mem_flatten.1 hR
        obtain ⟨a, ha, hpa, hv⟩ := specPatch_fst rd _ R q hp
        exact ⟨e, he, hd.1, hd.2, rs, hrs, R, hRr, a, ha, hpa, hv⟩
      · rw [if_neg hc] at hqe
        cases hqe
    · rintro ⟨e, he, hd, ht, rs, hrs, R, hR, a, ha, hpa, hv⟩
      refine List.mem_flatMap.2 ⟨e, he, ?_⟩
      have hc : (e.1.isData && !e.1.isText) = true := by simp [hd, ht]
      unfold specPatchesOfEntry
      rw [if_pos hc]
      refine List.mem_filterMap.2 ⟨R, List.mem_flatten.2 ⟨rs, hrs, hR⟩, ?_⟩
      unfold specPatch
      rw [ha, hv]
      show some ((a + e.1.ELFOffset) % 2 ^ 64, q.2) = some q
      rw [← hpa]
  · intro offset R Name hn hc h
    have hT : specDataTarget rd R = none := by
      unfold specDataTarget
      rw [hn]
      simp only [hc, Bool.false_eq_true, if_false]
      have hf : rd.symbols.find? (fun si =>
          decide (si.Name = some Name) && (specSymbolAddress si).isSome && !si.inText)
          = none := by
        rw [List.find?_eq_none]
        intro si hsi hp
        simp only [Bool.and_eq_true, decide_eq_true_eq, Bool.not_eq_true',
          Option.isSome_iff_exists] at hp
        obtain ⟨sec, hs, ht⟩ := h si hsi hp.1.1
        have : si.inText = true := by
          unfold SymbolRef.inText
          rw [hs]
          exact ht
        rw [this] at hp
        exact absurd hp.2 (by decide)
      rw [hf]
      rfl
    refine ⟨hT, ?_⟩
    unfold specPatch
    rw [hT]
    cases R.Offset <;> rfl

/-- C30 at a concrete input: in the sample object the small data section (ELF offset 8)
has a relocation at offset 0 against the function `f`, which lies in the text section,
and one at offset 4 against `y`, whose address 16909052 plus the section base 8 is
0x01020304.  On a little-endian host an image of 16 zero bytes comes back with the bytes
4, 3, 2, 1 at positions 12 to 15 and nothing else changed. -/
theorem data_relocations_frame_witness :
    RelocationReader.dataSample.specPatches = [(12, 16909060)] ∧
    RelocationReader.dataSample.ResolveAllDataRelocations false (List.replicate 16 0)
      = .ok [0, 0, 0, 0, 0, 0, 0, 0, 0, 0, 0, 0, 4, 3, 2, 1] :=
  have hsym : ∀ si ∈ RelocationReader.dataSample.symbols,
      si.Name ≠ none ∧ si.Address ≠ none := by
    simp [RelocationReader.dataSample, sampleTextSymbol, sampleDataSymbol]
  have hrel : ∀ e ∈ RelocationReader.dataSample.SectionRelocMap,
      e.1.isData = true → e.1.isText = false → ∀ rs ∈ e.2, ∀ R ∈ rs,
        (∃ a, R.Offset = some a ∧
          (a + e.1.ELFOffset) % 2 ^ 64 + 4 ≤ (List.replicate 16 0).length) ∧
        (∃ Name, R.Symbol.Name = some Name ∧
          (R.Symbol.Common = true →
            RelocationReader.dataSample.ComdatSymbols Name ≠ none)) := by
    intro e he _ _ rs hrs R hR
    simp only [RelocationReader.dataSample, List.mem_singleton] at he
    subst he
    simp only [List.mem_singleton] at hrs
    subst hrs
    simp only [List.mem_cons, List.mem_singleton, List.not_mem_nil, or_false] at hR
    rcases hR with rfl | rfl
    · exact ⟨⟨0, rfl, by decide⟩, ⟨"f", rfl, fun hc => by cases hc⟩⟩
    · exact ⟨⟨4, rfl, by decide⟩, ⟨"y", rfl, fun hc => by cases hc⟩⟩
  ⟨by decide,
   Exists.elim
    ((data_relocations_frame RelocationReader.dataSample false
      (List.replicate 16 0)).2.2.2.2.2.1 hsym hrel)
    (fun _ h => h.1.trans (congrArg Except.ok (h.2.1.trans (by decide))))⟩

